import Mathlib

/-! 6LP-GW: the neighbor-discovery proxy of the 6LoWPAN proxy gateway.

A shallow embedding of `platform/hogaza/net/p-gw/pgw.c`, `pgw_nd.c`, `pgw_fwd.c`
and of the checksum routine of `platform/hogaza/net/uip_common.c`.

* The packet buffer `uip_buf` is a total map from byte index to byte value; the
  C globals (`uip_len`, `incoming_if`, `rr_ipaddr`, the neighbor cache, the file
  statics of `pgw.c`, ...) are the fields of `State`.
* Addresses (`uip_ipaddr_t`, `eui64_t`) are lists of octets (16 and 8 long).
* `u8_t` and `u16_t` arithmetic is arithmetic on `Nat` reduced modulo `256` and
  `65536` (on this platform `u16_t` is the 16-bit `unsigned int`).
* Loops over the options of a packet take a fuel argument: the C loops advance
  an 8-bit offset and need not terminate.
-/

namespace PGW

/-! ## Constants -/

/-- `UIP_CONF_LLH_LEN` of `contiki-conf.h`: room for the Ethernet header. -/
@[simp] abbrev UIP_LLH_LEN : Nat := 14
/-- Modelled from the spec: length of the IPv6 header (uIP's `UIP_IPH_LEN`, not under `src/`). -/
@[simp] abbrev UIP_IPH_LEN : Nat := 40
/-- Modelled from the spec: length of the ICMPv6 header (uIP's `UIP_ICMPH_LEN`, not under `src/`). -/
@[simp] abbrev UIP_ICMPH_LEN : Nat := 4
/-- Modelled from the spec: length of the NS body, 4 reserved octets and the target (RFC 4861). -/
@[simp] abbrev UIP_ND6_NS_LEN : Nat := 20
/-- Modelled from the spec: length of the NA body, flags, 3 reserved octets and the target (RFC 4861). -/
@[simp] abbrev UIP_ND6_NA_LEN : Nat := 20
/-- Modelled from the spec: length of the RS body (RFC 4861). -/
@[simp] abbrev UIP_ND6_RS_LEN : Nat := 4
/-- Modelled from the spec: length of the RA body (RFC 4861). -/
@[simp] abbrev UIP_ND6_RA_LEN : Nat := 12
/-- Modelled from the spec: length of a link-layer address option holding an EUI-64 (2 units of 8). -/
@[simp] abbrev UIP_ND6_OPT_LLAO_LEN : Nat := 16
/-- `RIMEADDR_CONF_SIZE` of `contiki-conf.h`: link-layer addresses are EUI-64s. -/
@[simp] abbrev UIP_LLADDR_LEN : Nat := 8
/-- Modelled from the spec: offset of the data of an option, after type and length. -/
@[simp] abbrev UIP_ND6_OPT_DATA_OFFSET : Nat := 2
/-- `UIP_ND6_OPT_ARO_LEN` of `pgw_nd.h`. -/
@[simp] abbrev UIP_ND6_OPT_ARO_LEN : Nat := 16
/-- Modelled from the spec: hop limit of ND messages (RFC 4861). -/
@[simp] abbrev UIP_ND6_HOP_LIMIT : Nat := 255
/-- Modelled from the spec: IPv6 next-header value of ICMPv6. -/
@[simp] abbrev UIP_PROTO_ICMP6 : Nat := 58
/-- Modelled from the spec: IPv6 next-header value of UDP. -/
@[simp] abbrev UIP_PROTO_UDP : Nat := 17

/-- Modelled from the spec: ICMPv6 type of a router solicitation (RFC 4861). -/
@[simp] abbrev ICMP6_RS : Nat := 133
/-- Modelled from the spec: ICMPv6 type of a router advertisement (RFC 4861). -/
@[simp] abbrev ICMP6_RA : Nat := 134
/-- Modelled from the spec: ICMPv6 type of a neighbor solicitation (RFC 4861). -/
@[simp] abbrev ICMP6_NS : Nat := 135
/-- Modelled from the spec: ICMPv6 type of a neighbor advertisement (RFC 4861). -/
@[simp] abbrev ICMP6_NA : Nat := 136
/-- Modelled from the spec: ICMPv6 type of a redirect (RFC 4861). -/
@[simp] abbrev ICMP6_REDIRECT : Nat := 137

/-- Modelled from the spec: option type of a source link-layer address option (RFC 4861). -/
@[simp] abbrev UIP_ND6_OPT_SLLAO : Nat := 1
/-- Modelled from the spec: option type of a target link-layer address option (RFC 4861). -/
@[simp] abbrev UIP_ND6_OPT_TLLAO : Nat := 2
/-- Modelled from the spec: option type of a prefix information option (RFC 4861). -/
@[simp] abbrev UIP_ND6_OPT_PREFIX_INFO : Nat := 3
/-- `UIP_ND6_OPT_6CO` of `pgw_nd.h`. -/
@[simp] abbrev UIP_ND6_OPT_6CO : Nat := 32
/-- `UIP_ND6_OPT_ARO` of `pgw_nd.h`. -/
@[simp] abbrev UIP_ND6_OPT_ARO : Nat := 131

/-- Modelled from the spec: the R flag of an NA (RFC 4861). -/
@[simp] abbrev UIP_ND6_NA_FLAG_ROUTER : Nat := 0x80
/-- Modelled from the spec: the S flag of an NA (RFC 4861). -/
@[simp] abbrev UIP_ND6_NA_FLAG_SOLICITED : Nat := 0x40
/-- Modelled from the spec: the O flag of an NA (RFC 4861). -/
@[simp] abbrev UIP_ND6_NA_FLAG_OVERRIDE : Nat := 0x20
/-- Modelled from the spec: the on-link flag of a prefix information option, bit `0x80`. -/
@[simp] abbrev UIP_ND6_RA_FLAG_ONLINK : Nat := 0x80
/-- `UIP_ND6_RA_FLAG_COMPRESSION` of `pgw_nd.h`. -/
@[simp] abbrev UIP_ND6_RA_FLAG_COMPRESSION : Nat := 0x10

@[simp] abbrev PGW_GARBAGE_COLLECTIBLE : Nat := 0
@[simp] abbrev PGW_TENTATIVE : Nat := 1
@[simp] abbrev PGW_REGISTERED : Nat := 2

@[simp] abbrev ARO_STATUS_SUCCESS : Nat := 0
@[simp] abbrev ARO_STATUS_DUPLICATE : Nat := 1
@[simp] abbrev ARO_STATUS_RTR_NC_FULL : Nat := 2

@[simp] abbrev NOT_IN_USE : Nat := 0
@[simp] abbrev IN_USE_UNCOMPRESS_ONLY : Nat := 1
@[simp] abbrev IN_USE_COMPRESS : Nat := 2
@[simp] abbrev EXPIRED : Nat := 3

@[simp] abbrev PGW_MAX_DAD_NS : Nat := 1
@[simp] abbrev PGW_CONF_MAX_ADDR_CONTEXTS : Nat := 16
@[simp] abbrev SICSLOWPAN_CONF_MAX_ADDR_CONTEXTS : Nat := 2
@[simp] abbrev PGW_MIN_CONTEXT_CHANGE_DELAY : Nat := 300
@[simp] abbrev PGW_INITIAL_CONTEXT_LIFETIME : Nat := 600
@[simp] abbrev PGW_CONTEXT_LIFETIME : Nat := 3600
@[simp] abbrev GARBAGE_COLLECTIBLE_NCE_LIFETIME : Nat := 600
@[simp] abbrev TENTATIVE_NCE_LIFETIME : Nat := 20
@[simp] abbrev MAX_6LOWPAN_NEIGHBORS : Nat := 25
@[simp] abbrev MAX_BRIDGE_ENTRIES : Nat := 30
/-- `CLOCK_CONF_SECOND` of `clock_arch.h`. -/
@[simp] abbrev CLOCK_SECOND : Nat := 16
/-- Modelled from the spec: the retransmission timer of ND in milliseconds (about 1 s, §4.4). -/
@[simp] abbrev UIP_ND6_RETRANS_TIMER : Nat := 1000

/-! ## Interfaces, timers, table entries -/

/-- `interface_t` of `pgw_fwd.h`. -/
inductive interface_t where
  | UNDEFINED
  | IEEE_802_3
  | IEEE_802_15_4
  | LOCAL
  deriving DecidableEq, Repr

/-- Modelled from the spec: a seconds timer (Contiki's `struct stimer`, not under `src/`):
the deadline is `start + interval`. -/
structure stimer where
  start : Nat
  interval : Nat
  deriving DecidableEq, Repr

/-- Modelled from the spec: a clock-tick timer (Contiki's `struct timer`, not under `src/`). -/
structure timer where
  start : Nat
  interval : Nat
  deriving DecidableEq, Repr

/-- Modelled from the spec: `stimer_set` arms the timer at the current second. -/
def stimer_set (now interval : Nat) : stimer := { start := now, interval := interval }

/-- Modelled from the spec: `stimer_restart` keeps the interval and starts again now. -/
def stimer_restart (now : Nat) (t : stimer) : stimer := { t with start := now }

/-- Modelled from the spec: `stimer_reset` starts again from the previous deadline. -/
def stimer_reset (t : stimer) : stimer := { t with start := t.start + t.interval }

/-- Modelled from the spec: `stimer_expired`, the deadline has been reached. -/
def stimer_expired (now : Nat) (t : stimer) : Bool := decide (t.start + t.interval ≤ now)

/-- Modelled from the spec: `timer_set` arms the timer at the current tick. -/
def timer_set (now interval : Nat) : timer := { start := now, interval := interval }

/-- Modelled from the spec: `timer_expired`, the deadline has been reached. -/
def timer_expired (now : Nat) (t : timer) : Bool := decide (t.start + t.interval ≤ now)

/-- `pgw_nbr_t` of `pgw_nd.h`: an entry of the neighbor cache. -/
structure pgw_nbr_t where
  isused : Bool
  ipaddr : List Nat
  lladdr : List Nat
  reachable : stimer
  last_lookup : Nat
  isrouter : Nat
  state : Nat
  aro_pending : Bool
  ra_pending : Bool
  dadtimer : timer
  dadnscount : Nat
  deriving DecidableEq, Repr

/-- `pgw_addr_context_t` of `pgw_nd.h`: an entry of the context table. -/
structure pgw_addr_context_t where
  state : Nat
  length : Nat
  context_id : Nat
  prefix_ : List Nat
  vlifetime : stimer
  deriving DecidableEq, Repr

/-- `bridge_entry_t` of `pgw_fwd.h`. -/
structure bridge_entry_t where
  interface : interface_t
  addr : List Nat
  deriving DecidableEq, Repr

/-- What a static pointer to an IPv6 address (`ipaddr` of `pgw.c`) points to. -/
inductive ipaddr_ptr where
  | to_fipaddr
  | to_nbr (i : Nat)
  deriving DecidableEq, Repr

/-- A frame handed to a link-layer collaborator or to the local stack. -/
structure Frame where
  iface : interface_t
  src : List Nat
  dst : Option (List Nat)
  len : Nat
  bytes : List Nat
  deriving DecidableEq, Repr

/-- The globals of `pgw.c`, `pgw_nd.c` and `pgw_fwd.c`, the uIP globals they use, the
clock, and the log of emitted frames. -/
structure State where
  uip_buf : Nat → Nat
  uip_len : Nat
  uip_ext_len : Nat
  incoming_if : interface_t
  outgoing_if : interface_t
  src_eui64 : List Nat
  dst_eui64 : List Nat
  rr_ipaddr : List Nat
  rr_lladdr : List Nat
  ra_pending : Bool
  context_chaged : Bool
  pgw_opt_offset : Nat
  ipaddr : Option ipaddr_ptr
  fipaddr : List Nat
  pgw_opt_llao : Option Nat
  pgw_opt_prefix_info : Option Nat
  pgw_opt_aro : Option Nat
  nd_fipaddr : List Nat
  pgw_6ln_cache : List pgw_nbr_t
  pgw_addr_context_table : List pgw_addr_context_t
  mem_after_context_table : Nat → Nat
  clock_time : Nat
  clock_seconds : Nat
  sent : List Frame

/-! ## Octets in the packet buffer -/

/-- The `n` octets of the buffer from index `off` on. -/
def readBytes (b : Nat → Nat) (off n : Nat) : List Nat :=
  (List.range n).map (fun i => b (off + i))

/-- Store one octet. -/
def setByte (b : Nat → Nat) (i v : Nat) : Nat → Nat :=
  fun j => if j = i then v else b j

/-- `memcpy(&buf[off], l, n)` for a value `l` held outside the buffer. -/
def memcpyVal (b : Nat → Nat) (off : Nat) (l : List Nat) (n : Nat) : Nat → Nat :=
  fun j => if off ≤ j ∧ j < off + n then l.getD (j - off) 0 else b j

/-- `memset(&buf[off], v, n)`. -/
def memsetBuf (b : Nat → Nat) (off v n : Nat) : Nat → Nat :=
  fun j => if off ≤ j ∧ j < off + n then v else b j

/-- `memmove(&buf[dst], &buf[src], n)`. -/
def memmoveBuf (b : Nat → Nat) (dst src n : Nat) : Nat → Nat :=
  fun j => if dst ≤ j ∧ j < dst + n then b (src + (j - dst)) else b j

/-! ## Address helpers of uIP -/

/-- Modelled from the spec: `uip_is_addr_unspecified`, the address is `::`. -/
def uip_is_addr_unspecified (a : List Nat) : Bool :=
  (List.range 16).all (fun i => a.getD i 0 == 0)

/-- Modelled from the spec: `uip_is_addr_mcast`, the address is in `ff00::/8`. -/
def uip_is_addr_mcast (a : List Nat) : Bool := a.getD 0 0 == 0xff

/-- Modelled from the spec: `uip_is_addr_linklocal`, the address starts with `fe80`. -/
def uip_is_addr_linklocal (a : List Nat) : Bool := a.getD 0 0 == 0xfe && a.getD 1 0 == 0x80

/-- Modelled from the spec: the link-local all-nodes multicast address `ff02::1`. -/
def linklocal_allnodes_mcast : List Nat := [0xff, 0x02, 0, 0, 0, 0, 0, 0, 0, 0, 0, 0, 0, 0, 0, 1]

/-- Modelled from the spec: `uip_is_addr_linklocal_allnodes_mcast`. -/
def uip_is_addr_linklocal_allnodes_mcast (a : List Nat) : Bool :=
  decide (a = linklocal_allnodes_mcast)

/-- Modelled from the spec: `uip_create_solicited_node`, `ff02::1:ffXX:XXXX` with the last
three octets of the target. -/
def uip_create_solicited_node (a : List Nat) : List Nat :=
  [0xff, 0x02, 0, 0, 0, 0, 0, 0, 0, 0, 0, 0x01, 0xff, a.getD 13 0, a.getD 14 0, a.getD 15 0]

/-- The unspecified address `::`. -/
def unspecified_addr : List Nat := List.replicate 16 0

/-- The null link-layer address `rimeaddr_null`, which stands for L2 multicast. -/
def rimeaddr_null : List Nat := List.replicate 8 0

/-- `create_eui64_based_ipaddr` of `pgw.h`: `fe80::/64` followed by the EUI-64 with the
universal/local bit of its first octet flipped. -/
def create_eui64_based_ipaddr (m : List Nat) : List Nat :=
  [0xfe, 0x80, 0, 0, 0, 0, 0, 0,
   Nat.xor (m.getD 0 0) 0x02, m.getD 1 0, m.getD 2 0, m.getD 3 0,
   m.getD 4 0, m.getD 5 0, m.getD 6 0, m.getD 7 0]

/-- Modelled from the spec: `uip_htons` on a little-endian host swaps the two octets. -/
def uip_htons (v : Nat) : Nat := (v % 256) * 256 + (v / 256) % 256

/-! ## The neighbor cache (`pgw_nd.c`) -/

/-- Result of `uip_ds6_list_loop`. -/
inductive list_loop_result where
  | FOUND (i : Nat)
  | FREESPACE (i : Nat)
  | NOSPACE
  deriving DecidableEq, Repr

/-- Modelled from the spec: the table scan `uip_ds6_list_loop` of uIP (not under `src/`),
run over the whole neighbor cache (`UIP_DS6_NBR_NB` is modelled as the capacity of the
cache): the first used entry holding the address is found; otherwise the last unused
slot seen is free space; otherwise there is no space. -/
def uip_ds6_list_loop_from (ip : List Nat) :
    List pgw_nbr_t → Nat → Option Nat → list_loop_result
  | [], _, none => .NOSPACE
  | [], _, some j => .FREESPACE j
  | n :: rest, i, out =>
    if n.isused then
      if n.ipaddr = ip then .FOUND i else uip_ds6_list_loop_from ip rest (i + 1) out
    else uip_ds6_list_loop_from ip rest (i + 1) (some i)

/-- Modelled from the spec: `uip_ds6_list_loop` over the neighbor cache, see
`uip_ds6_list_loop_from`. -/
def uip_ds6_list_loop (cache : List pgw_nbr_t) (ip : List Nat) : list_loop_result :=
  uip_ds6_list_loop_from ip cache 0 none

/-- `pgw_nbr_lookup`: index of the entry found by the table scan. -/
def pgw_nbr_lookup (cache : List pgw_nbr_t) (ip : List Nat) : Option Nat :=
  match uip_ds6_list_loop cache ip with
  | .FOUND i => some i
  | _ => none

/-- Assignment through a pointer to the `i`-th entry of the cache. -/
def updNbr (cache : List pgw_nbr_t) (i : Nat) (f : pgw_nbr_t → pgw_nbr_t) : List pgw_nbr_t :=
  match cache[i]? with
  | some n => cache.set i (f n)
  | none => cache

/-- `pgw_nbr_rm`. -/
def pgw_nbr_rm (cache : List pgw_nbr_t) (i : Nat) : List pgw_nbr_t :=
  updNbr cache i (fun n => { n with isused := false })

/-- The assignments of the `FREESPACE` branch of `pgw_nbr_add`; `dadnscount` and
`dadtimer` are not assigned. -/
def nbr_fill (now_t now_s : Nat) (ip : List Nat) (lladdr : Option (List Nat))
    (isrouter state : Nat) (n : pgw_nbr_t) : pgw_nbr_t :=
  let n1 : pgw_nbr_t :=
    { n with
      isused := true
      ipaddr := ip
      lladdr := (match lladdr with
        | some l => l
        | none => List.replicate UIP_LLADDR_LEN 0)
      isrouter := isrouter
      state := state }
  let n2 : pgw_nbr_t :=
    if state = PGW_GARBAGE_COLLECTIBLE then
      { n1 with reachable := stimer_set now_s GARBAGE_COLLECTIBLE_NCE_LIFETIME }
    else if state = PGW_TENTATIVE then
      { n1 with reachable := stimer_set now_s TENTATIVE_NCE_LIFETIME }
    else n1
  { n2 with aro_pending := false, ra_pending := false, last_lookup := now_t }

/-- The scan of the `NOSPACE` branch of `pgw_nbr_add` for the garbage-collectible entry
with the smallest `last_lookup` below `oldest_time`. -/
def find_oldest : List pgw_nbr_t → Nat → Option Nat → Nat → Option Nat
  | [], _, oldest, _ => oldest
  | n :: rest, i, oldest, oldest_time =>
    if n.isused && (decide (n.last_lookup < oldest_time)
        && decide (n.state = PGW_GARBAGE_COLLECTIBLE)) then
      find_oldest rest (i + 1) (some i) n.last_lookup
    else find_oldest rest (i + 1) oldest oldest_time

/-- `pgw_nbr_add` on the cache: returns the new cache and the slot of the new entry, or
no slot when the address is already there or nothing can be evicted. The fuel bounds
the depth of the recursive call made after an eviction. -/
def pgw_nbr_add_fuel (now_t now_s : Nat) (ip : List Nat) (lladdr : Option (List Nat))
    (isrouter state : Nat) : Nat → List pgw_nbr_t → List pgw_nbr_t × Option Nat
  | fuel, cache =>
    match uip_ds6_list_loop cache ip with
    | .FREESPACE i => (updNbr cache i (nbr_fill now_t now_s ip lladdr isrouter state), some i)
    | .NOSPACE =>
      (match find_oldest cache 0 none now_t with
        | some o =>
          (match fuel with
            | 0 => (pgw_nbr_rm cache o, none)
            | f + 1 =>
              pgw_nbr_add_fuel now_t now_s ip lladdr isrouter state f (pgw_nbr_rm cache o))
        | none => (cache, none))
    | .FOUND _ => (cache, none)

/-- `pgw_nbr_add` on the cache, with fuel for as many evictions as there are slots (one
is enough: the evicted slot is free space for the recursive call). -/
def pgw_nbr_add_cache (now_t now_s : Nat) (ip : List Nat) (lladdr : Option (List Nat))
    (isrouter state : Nat) (cache : List pgw_nbr_t) : List pgw_nbr_t × Option Nat :=
  pgw_nbr_add_fuel now_t now_s ip lladdr isrouter state cache.length cache

/-- `pgw_nbr_add`. -/
def pgw_nbr_add (s : State) (ip : List Nat) (lladdr : Option (List Nat))
    (isrouter state : Nat) : State × Option Nat :=
  let r := pgw_nbr_add_cache s.clock_time s.clock_seconds ip lladdr isrouter state
    s.pgw_6ln_cache
  ({ s with pgw_6ln_cache := r.1 }, r.2)

/-! ## Checksum (`uip_common.c`) -/

/-- One step of `chksum`: 16-bit addition with end-around carry. -/
def chksum_add (sum t : Nat) : Nat :=
  let r := (sum + t) % 65536
  if r < t then (r + 1) % 65536 else r

/-- `chksum(sum, &uip_buf[off], len)`. -/
def chksum (b : Nat → Nat) : Nat → Nat → Nat → Nat
  | sum, _, 0 => sum
  | sum, off, 1 => chksum_add sum ((b off * 256) % 65536)
  | sum, off, n + 2 =>
    chksum b (chksum_add sum ((b off * 256 + b (off + 1)) % 65536)) (off + 2) n

/-- `upper_layer_chksum(6, proto)`, the IPv6 branch. -/
def upper_layer_chksum (s : State) (proto : Nat) : Nat :=
  let b := s.uip_buf
  let upper_layer_len :=
    ((b (UIP_LLH_LEN + 4) * 256) % 65536 + b (UIP_LLH_LEN + 5) + 65536 - s.uip_ext_len % 65536)
      % 65536
  let sum0 := (upper_layer_len + proto) % 65536
  let sum1 := chksum b sum0 (UIP_LLH_LEN + 8) 32
  let sum2 := chksum b sum1 (UIP_IPH_LEN + UIP_LLH_LEN + s.uip_ext_len) upper_layer_len
  if sum2 = 0 then 0xffff else uip_htons sum2

/-- `uip_icmp6chksum`. -/
def uip_icmp6chksum (s : State) : Nat := upper_layer_chksum s UIP_PROTO_ICMP6

/-- Store a `u16_t` held in a register into two octets of the (little-endian) memory. -/
def store16 (b : Nat → Nat) (off v : Nat) : Nat → Nat :=
  setByte (setByte b off (v % 256)) (off + 1) (v / 256 % 256)

/-- Load a `u16_t` from two octets of the (little-endian) memory. -/
def load16 (b : Nat → Nat) (off : Nat) : Nat := b off + 256 * b (off + 1)

/-- `pgw_update_icmp_checksum`. -/
def pgw_update_icmp_checksum (s : State) : State :=
  let s1 : State := { s with uip_buf := store16 s.uip_buf (UIP_LLH_LEN + UIP_IPH_LEN + 2) 0 }
  { s1 with
    uip_buf := store16 s1.uip_buf (UIP_LLH_LEN + UIP_IPH_LEN + 2) (65535 - uip_icmp6chksum s1) }

/-! ## Building ND messages (`pgw.c`) -/

/-- `uip_l2_l3_icmp_hdr_len` of uIP. -/
def uip_l2_l3_icmp_hdr_len (s : State) : Nat :=
  UIP_LLH_LEN + UIP_IPH_LEN + s.uip_ext_len + UIP_ICMPH_LEN

/-- `uip_l3_icmp_hdr_len` of uIP. -/
def uip_l3_icmp_hdr_len (s : State) : Nat := UIP_IPH_LEN + s.uip_ext_len + UIP_ICMPH_LEN

/-- The fields of the IPv6 and ICMPv6 headers written by `pgw_create_ns` and
`pgw_create_na`, after both addresses. -/
def write_ip_icmp_hdr (b : Nat → Nat) (len1 type : Nat) : Nat → Nat :=
  let b1 := setByte b UIP_LLH_LEN 0x60
  let b2 := setByte b1 (UIP_LLH_LEN + 1) 0
  let b3 := store16 b2 (UIP_LLH_LEN + 2) 0
  let b4 := setByte b3 (UIP_LLH_LEN + 4) 0
  let b5 := setByte b4 (UIP_LLH_LEN + 5) len1
  let b6 := setByte b5 (UIP_LLH_LEN + 6) UIP_PROTO_ICMP6
  let b7 := setByte b6 (UIP_LLH_LEN + 7) UIP_ND6_HOP_LIMIT
  let b8 := setByte b7 (UIP_LLH_LEN + UIP_IPH_LEN) type
  setByte b8 (UIP_LLH_LEN + UIP_IPH_LEN + 1) 0

/-- `pgw_create_ns(src, dst, tgt)`; `none` is the `NULL` pointer. The pointers the
callers pass do not point into the octets written before they are read, so they are
passed by value. -/
def pgw_create_ns (s : State) (src dst : Option (List Nat)) (tgt : List Nat) : State :=
  let b1 := memcpyVal s.uip_buf (UIP_LLH_LEN + 24)
    (match dst with
      | none => uip_create_solicited_node tgt
      | some d => d) 16
  let b2 := memcpyVal b1 (UIP_LLH_LEN + 8)
    (match src with
      | none => unspecified_addr
      | some a => a) 16
  let s1 : State := { s with uip_ext_len := 0 }
  let b3 := write_ip_icmp_hdr b2 (UIP_ICMPH_LEN + UIP_ND6_NS_LEN) ICMP6_NS
  let b4 := memsetBuf b3 (uip_l2_l3_icmp_hdr_len s1) 0 4
  let b5 := memcpyVal b4 (uip_l2_l3_icmp_hdr_len s1 + 4) tgt 16
  { s1 with uip_buf := b5, uip_len := UIP_IPH_LEN + UIP_ICMPH_LEN + UIP_ND6_NS_LEN }

/-- `pgw_create_na(src, dst, tgt, flags)`. The pointers are passed by value, as in
`pgw_create_ns`. -/
def pgw_create_na (s : State) (src dst tgt : List Nat) (flags : Nat) : State :=
  let b1 := memcpyVal s.uip_buf (UIP_LLH_LEN + 24) dst 16
  let b2 := memcpyVal b1 (UIP_LLH_LEN + 8) src 16
  let s1 : State := { s with uip_ext_len := 0 }
  let b3 := write_ip_icmp_hdr b2 (UIP_ICMPH_LEN + UIP_ND6_NA_LEN) ICMP6_NA
  let b4 := setByte b3 (uip_l2_l3_icmp_hdr_len s1) flags
  let b5 := memcpyVal b4 (uip_l2_l3_icmp_hdr_len s1 + 4) tgt 16
  { s1 with uip_buf := b5, uip_len := UIP_IPH_LEN + UIP_ICMPH_LEN + UIP_ND6_NA_LEN }

/-- The `void *data` argument of `pgw_append_icmp_opt`: a value outside the packet
buffer, a place in the packet buffer, or an entry of the context table. -/
inductive data_ptr where
  | val (l : List Nat)
  | in_buf (off : Nat)
  | context (i : Nat)

/-- The octets a link-layer address pointer points to, at the time of the `memcpy`. -/
def data_ptr.lladdr (b : Nat → Nat) : data_ptr → List Nat
  | .val l => l
  | .in_buf off => readBytes b off UIP_LLADDR_LEN
  | .context _ => []

/-- Little-endian octets of an `unsigned long`. -/
def le32 (v : Nat) : List Nat :=
  [v % 256, v / 256 % 256, v / 65536 % 256, v / 16777216 % 256]

/-- The memory image of one `pgw_addr_context_t`: a 16-bit `enum`, two octets, the
16 octets of the prefix and the two `unsigned long` of the timer. -/
def context_bytes (c : pgw_addr_context_t) : List Nat :=
  [c.state % 256, c.state / 256 % 256, c.length % 256, c.context_id % 256]
    ++ (List.range 16).map (fun i => c.prefix_.getD i 0)
    ++ le32 c.vlifetime.start ++ le32 c.vlifetime.interval

/-- The memory from the start of the context table on. -/
def context_table_mem (s : State) (j : Nat) : Nat :=
  let l := s.pgw_addr_context_table.flatMap context_bytes
  if j < l.length then l.getD j 0 else s.mem_after_context_table (j - l.length)

/-- `pgw_append_icmp_opt(type, data, status, lifetime)`. -/
def pgw_append_icmp_opt (s : State) (type : Nat) (data : data_ptr) (status lifetime : Nat) :
    State :=
  let o := UIP_LLH_LEN + s.uip_len
  let b0 := setByte s.uip_buf o type
  if type = UIP_ND6_OPT_SLLAO ∨ type = UIP_ND6_OPT_TLLAO then
    let b1 := setByte b0 (o + 1) (UIP_ND6_OPT_LLAO_LEN >>> 3)
    let b2 := memcpyVal b1 (o + UIP_ND6_OPT_DATA_OFFSET) (data.lladdr b1) UIP_LLADDR_LEN
    let b3 := memsetBuf b2 (o + UIP_ND6_OPT_DATA_OFFSET + UIP_LLADDR_LEN) 0
      (UIP_ND6_OPT_LLAO_LEN - 2 - UIP_LLADDR_LEN)
    let b4 := setByte b3 (UIP_LLH_LEN + 5) ((b3 (UIP_LLH_LEN + 5) + UIP_ND6_OPT_LLAO_LEN) % 256)
    { s with uip_buf := b4, uip_len := (s.uip_len + UIP_ND6_OPT_LLAO_LEN) % 65536 }
  else if type = UIP_ND6_OPT_ARO then
    let b1 := setByte b0 (o + 1) (UIP_ND6_OPT_ARO_LEN >>> 3)
    let b2 := setByte b1 (o + 2) status
    let b3 := setByte b2 (o + 3) 0
    let b4 := store16 b3 (o + 4) 0
    let b5 := store16 b4 (o + 6) lifetime
    let b6 := memcpyVal b5 (o + 8) (data.lladdr b5) UIP_LLADDR_LEN
    let b7 := setByte b6 (UIP_LLH_LEN + 5) ((b6 (UIP_LLH_LEN + 5) + UIP_ND6_OPT_ARO_LEN) % 256)
    { s with uip_buf := b7, uip_len := (s.uip_len + UIP_ND6_OPT_ARO_LEN) % 65536 }
  else if type = UIP_ND6_OPT_6CO then
    match data with
    | .context i =>
      match s.pgw_addr_context_table[i]? with
      | some c =>
        let b1 := setByte b0 (o + 1) (if c.length > 64 then 3 else 2)
        let b2 := setByte b1 (o + 2) c.length
        let b3 := setByte b2 (o + 3) (c.context_id &&& 0x0F)
        let b4 :=
          if c.state = IN_USE_COMPRESS then
            setByte b3 (o + 3) (b3 (o + 3) ||| UIP_ND6_RA_FLAG_COMPRESSION)
          else b3
        let b5 := store16 b4 (o + 4) 0
        let b6 := store16 b5 (o + 6) (uip_htons ((c.vlifetime.interval / 60) % 65536))
        let b7 : Nat → Nat := fun j =>
          if o + 8 ≤ j ∧ j < o + 8 + c.length then context_table_mem s (28 * i + 4 + (j - (o + 8)))
          else b6 j
        let b8 := setByte b7 (UIP_LLH_LEN + 5)
          ((b7 (UIP_LLH_LEN + 5) + (b7 (o + 1) <<< 3)) % 256)
        { s with uip_buf := b8, uip_len := (s.uip_len + (b8 (o + 1) <<< 3)) % 65536 }
      | none => { s with uip_buf := b0 }
    | _ => { s with uip_buf := b0 }
  else { s with uip_buf := b0 }

/-! ## Proxy DAD (`pgw_nd.c`) -/

/-- `pgw_dad_response(nbr, status)` for the entry at index `i`. -/
def pgw_dad_response (s : State) (i : Nat) (status : Nat) : State :=
  match s.pgw_6ln_cache[i]? with
  | none => s
  | some n =>
    let s0 : State :=
      if status = ARO_STATUS_SUCCESS then s
      else { s with nd_fipaddr := create_eui64_based_ipaddr n.lladdr }
    let locipaddr := if status = ARO_STATUS_SUCCESS then n.ipaddr else s0.nd_fipaddr
    let s1 := pgw_create_na s0 s0.rr_ipaddr locipaddr s0.rr_ipaddr
      (UIP_ND6_NA_FLAG_ROUTER ||| UIP_ND6_NA_FLAG_SOLICITED ||| UIP_ND6_NA_FLAG_OVERRIDE)
    let s2 := pgw_append_icmp_opt s1 UIP_ND6_OPT_TLLAO (.val s1.rr_lladdr) 0 0
    let s3 := pgw_append_icmp_opt s2 UIP_ND6_OPT_ARO (.val n.lladdr) status
      (uip_htons ((n.reachable.interval / 60) % 65536))
    let s4 := pgw_update_icmp_checksum s3
    { s4 with
      outgoing_if := .IEEE_802_15_4
      incoming_if := .IEEE_802_15_4
      src_eui64 := s4.rr_lladdr
      dst_eui64 := n.lladdr }

/-- `pgw_dad(nbr)` for the entry at index `i`. -/
def pgw_dad (s : State) (i : Nat) : State :=
  match s.pgw_6ln_cache[i]? with
  | none => s
  | some n =>
    if n.dadnscount < PGW_MAX_DAD_NS then
      let s1 : State :=
        { s with
          incoming_if := .IEEE_802_15_4
          outgoing_if := .IEEE_802_3
          src_eui64 := n.lladdr
          dst_eui64 := rimeaddr_null }
      let s2 := pgw_create_ns s1 none none n.ipaddr
      let s3 := pgw_update_icmp_checksum s2
      { s3 with
        pgw_6ln_cache := updNbr s3.pgw_6ln_cache i (fun m =>
          { m with
            dadnscount := (m.dadnscount + 1) % 256
            dadtimer := timer_set s3.clock_time (UIP_ND6_RETRANS_TIMER / 1000 * CLOCK_SECOND) }) }
    else
      let s1 : State :=
        { s with
          pgw_6ln_cache := updNbr s.pgw_6ln_cache i (fun m =>
            { m with state := PGW_REGISTERED, aro_pending := false }) }
      pgw_dad_response s1 i ARO_STATUS_SUCCESS

/-- `pgw_dad_failed(nbr)` for the entry at index `i`. -/
def pgw_dad_failed (s : State) (i : Nat) : State :=
  let s1 := pgw_dad_response s i ARO_STATUS_DUPLICATE
  { s1 with pgw_6ln_cache := pgw_nbr_rm s1.pgw_6ln_cache i }

/-! ## The context table (`pgw_nd.c`) -/

/-- `uip_ipaddr_prefixcmp(prefix, &context->prefix, context->length)` for the prefix at
`pfx` in the packet buffer and the `i`-th context: a `memcmp` of `length >> 3` octets. -/
def context_prefixcmp (s : State) (pfx i length : Nat) : Bool :=
  (List.range (length >>> 3)).all (fun j =>
    s.uip_buf (pfx + j) == context_table_mem s (28 * i + 4 + j))

/-- The loop of `pgw_context_lookup_by_prefix` from entry `i` on, `k` entries to go. -/
def pgw_context_lookup_from (s : State) (pfx : Nat) : Nat → Nat → Option Nat
  | 0, _ => none
  | k + 1, i =>
    match s.pgw_addr_context_table[i]? with
    | none => none
    | some c =>
      if c.state ≠ NOT_IN_USE ∧ context_prefixcmp s pfx i c.length = true then some i
      else pgw_context_lookup_from s pfx k (i + 1)

/-- `pgw_context_lookup_by_prefix`: the loop runs over the first
`SICSLOWPAN_CONF_MAX_ADDR_CONTEXTS` entries. -/
def pgw_context_lookup_by_prefix (s : State) (pfx : Nat) : Option Nat :=
  pgw_context_lookup_from s pfx SICSLOWPAN_CONF_MAX_ADDR_CONTEXTS 0

/-- The loop of `pgw_context_create` from entry `i` on, `k` entries to go. -/
def pgw_context_create_from (now_s : Nat) (pfx : List Nat) (length : Nat) :
    Nat → Nat → List pgw_addr_context_t → List pgw_addr_context_t × Option Nat
  | 0, _, t => (t, none)
  | k + 1, i, t =>
    match t[i]? with
    | none => (t, none)
    | some c =>
      if c.state = NOT_IN_USE then
        (t.set i
          { c with
            length := length
            context_id := i
            prefix_ := pfx
            state := IN_USE_UNCOMPRESS_ONLY
            vlifetime := stimer_set now_s PGW_INITIAL_CONTEXT_LIFETIME }, some i)
      else pgw_context_create_from now_s pfx length k (i + 1) t

/-- `pgw_context_create(prefix, length)` with the prefix at `pfx` in the packet buffer;
the loop runs over `PGW_CONF_MAX_ADDR_CONTEXTS` entries. -/
def pgw_context_create (s : State) (pfx length : Nat) : State × Option Nat :=
  let r := pgw_context_create_from s.clock_seconds (readBytes s.uip_buf pfx 16) length
    PGW_CONF_MAX_ADDR_CONTEXTS 0 s.pgw_addr_context_table
  ({ s with pgw_addr_context_table := r.1 }, r.2)

/-! ## Periodic processing (`pgw_nd.c`) -/

/-- The body of the context loop of `pgw_periodic` for one context; the flag is
`context_chaged`. -/
def periodic_context (now_s : Nat) (c : pgw_addr_context_t) (chaged : Bool) :
    pgw_addr_context_t × Bool :=
  if c.state ≠ NOT_IN_USE ∧ stimer_expired now_s c.vlifetime = true then
    if c.state = IN_USE_UNCOMPRESS_ONLY then
      ({ c with state := IN_USE_COMPRESS, vlifetime := stimer_set now_s PGW_CONTEXT_LIFETIME },
        true)
    else if c.state = IN_USE_COMPRESS then
      ({ c with
          state := EXPIRED
          vlifetime :=
            if c.vlifetime.interval > PGW_MIN_CONTEXT_CHANGE_DELAY then stimer_reset c.vlifetime
            else stimer_set now_s PGW_MIN_CONTEXT_CHANGE_DELAY }, true)
    else if c.state = EXPIRED then ({ c with state := NOT_IN_USE }, chaged)
    else (c, chaged)
  else (c, chaged)

/-- The context loop of `pgw_periodic`, `k` entries to go. -/
def periodic_contexts (now_s : Nat) :
    Nat → List pgw_addr_context_t → Bool → List pgw_addr_context_t × Bool
  | 0, t, ch => (t, ch)
  | _ + 1, [], ch => ([], ch)
  | k + 1, c :: rest, ch =>
    let r := periodic_context now_s c ch
    let r2 := periodic_contexts now_s k rest r.2
    (r.1 :: r2.1, r2.2)

/-- The neighbor loop of `pgw_periodic` from entry `i` on, `k` entries to go. The loop
ends at the first entry handed to `pgw_dad`. -/
def periodic_nbrs : Nat → Nat → State → State
  | 0, _, s => s
  | k + 1, i, s =>
    match s.pgw_6ln_cache[i]? with
    | none => s
    | some n =>
      if n.isused then
        if stimer_expired s.clock_seconds n.reachable then
          periodic_nbrs k (i + 1) { s with pgw_6ln_cache := pgw_nbr_rm s.pgw_6ln_cache i }
        else if n.state = PGW_TENTATIVE ∧ uip_is_addr_linklocal n.ipaddr = false then
          if n.dadnscount ≤ PGW_MAX_DAD_NS ∧ timer_expired s.clock_time n.dadtimer = true then
            pgw_dad s i
          else periodic_nbrs k (i + 1) s
        else periodic_nbrs k (i + 1) s
      else periodic_nbrs k (i + 1) s

/-- `pgw_periodic`. -/
def pgw_periodic (s : State) : State :=
  let r := periodic_contexts s.clock_seconds SICSLOWPAN_CONF_MAX_ADDR_CONTEXTS
    s.pgw_addr_context_table s.context_chaged
  let s1 : State := { s with pgw_addr_context_table := r.1, context_chaged := r.2 }
  periodic_nbrs s1.pgw_6ln_cache.length 0 s1

/-! ## The ND proxy: NS, NA and RS (`pgw.c`) -/

/-- The statement `uip_len = 0` reached by `goto discard`. -/
def discard (s : State) : State := { s with uip_len := 0 }

/-- `UIP_IP_BUF->srcipaddr`. -/
def srcipaddr (s : State) : List Nat := readBytes s.uip_buf (UIP_LLH_LEN + 8) 16

/-- `UIP_IP_BUF->destipaddr`. -/
def destipaddr (s : State) : List Nat := readBytes s.uip_buf (UIP_LLH_LEN + 24) 16

/-- `UIP_ND6_NS_BUF->tgtipaddr` and `UIP_ND6_NA_BUF->tgtipaddr`. -/
def tgtipaddr (s : State) : List Nat := readBytes s.uip_buf (uip_l2_l3_icmp_hdr_len s + 4) 16

/-- The address the static pointer `ipaddr` points to. -/
def deref_ipaddr (s : State) : List Nat :=
  match s.ipaddr with
  | some .to_fipaddr => s.fipaddr
  | some (.to_nbr j) =>
    (match s.pgw_6ln_cache[j]? with
      | some n => n.ipaddr
      | none => [])
  | none => []

/-- `pgw_registration_error(status)`: the NA is built in the buffer that holds the NS,
and `pgw_opt_llao`, `pgw_opt_aro` point into that buffer. -/
def pgw_registration_error (s : State) (status : Nat) : State :=
  let llao := s.pgw_opt_llao.getD 0
  let aro := s.pgw_opt_aro.getD 0
  let s1 := pgw_create_na s s.rr_ipaddr (srcipaddr s) (tgtipaddr s)
    (UIP_ND6_NA_FLAG_ROUTER ||| UIP_ND6_NA_FLAG_SOLICITED ||| UIP_ND6_NA_FLAG_OVERRIDE)
  let s2 := pgw_append_icmp_opt s1 UIP_ND6_OPT_TLLAO
    (.in_buf (llao + UIP_ND6_OPT_DATA_OFFSET)) 0 0
  let s3 := pgw_append_icmp_opt s2 UIP_ND6_OPT_ARO (.in_buf (aro + 8)) status
    (load16 s2.uip_buf (aro + 6))
  let s4 := pgw_update_icmp_checksum s3
  { s4 with
    outgoing_if := .IEEE_802_15_4
    src_eui64 := s4.dst_eui64
    dst_eui64 := s4.src_eui64 }

/-- The walk over the options of the message in the buffer shared by `proxy_ns_input`,
`proxy_rs_input` and `proxy_ra_input`; `act s o` is what the handler does with the
option at index `o`. The result is `none` when the fuel runs out; the flag says that
the walk met an option of length 0 (`goto discard`). -/
def opt_walk (act : State → Nat → State) : Nat → State → Option (State × Bool)
  | fuel, s =>
    if uip_l3_icmp_hdr_len s + s.pgw_opt_offset < s.uip_len then
      match fuel with
      | 0 => none
      | f + 1 =>
        let o := uip_l2_l3_icmp_hdr_len s + s.pgw_opt_offset
        if s.uip_buf (o + 1) = 0 then some (s, true)
        else
          let s1 := act s o
          opt_walk act f
            { s1 with
              pgw_opt_offset :=
                (s1.pgw_opt_offset
                  + (s1.uip_buf (uip_l2_l3_icmp_hdr_len s1 + s1.pgw_opt_offset + 1) <<< 3)) % 256 }
    else some (s, false)

/-- The `switch` in the option loop of `proxy_ns_input`. -/
def ns_opt_act (s : State) (o : Nat) : State :=
  if s.uip_buf o = UIP_ND6_OPT_SLLAO then { s with pgw_opt_llao := some o }
  else if s.uip_buf o = UIP_ND6_OPT_ARO then { s with pgw_opt_aro := some o }
  else s

/-- The body of the option loop of `proxy_rs_input`. -/
def rs_opt_act (s : State) (o : Nat) : State :=
  if s.uip_buf o = UIP_ND6_OPT_SLLAO then { s with pgw_opt_llao := some o } else s

/-- The body of the option loop of `proxy_ra_input`. -/
def ra_opt_act (s : State) (o : Nat) : State :=
  if s.uip_buf o = UIP_ND6_OPT_SLLAO then { s with pgw_opt_llao := some o }
  else if s.uip_buf o = UIP_ND6_OPT_PREFIX_INFO then { s with pgw_opt_prefix_info := some o }
  else s

/-- What `proxy_ns_input` does with the entry `n` at index `i` whose address matches
the target of an NS from Ethernet or from the local host; the flag is `goto discard`. -/
def proxy_ns_reply (s : State) (i : Nat) (n : pgw_nbr_t) : State × Bool :=
  if n.state = PGW_REGISTERED then
    let s1 : State :=
      if uip_is_addr_unspecified (srcipaddr s) = false then
        let t := pgw_create_na s (deref_ipaddr s) (srcipaddr s) (tgtipaddr s)
          (UIP_ND6_NA_FLAG_OVERRIDE ||| UIP_ND6_NA_FLAG_SOLICITED)
        { t with dst_eui64 := t.src_eui64 }
      else
        let s0 : State := { s with fipaddr := linklocal_allnodes_mcast }
        let t := pgw_create_na s0 (deref_ipaddr s0) s0.fipaddr (tgtipaddr s0)
          UIP_ND6_NA_FLAG_OVERRIDE
        { t with dst_eui64 := rimeaddr_null }
    let s2 := pgw_append_icmp_opt s1 UIP_ND6_OPT_TLLAO (.val n.lladdr) 0 0
    let s3 := pgw_update_icmp_checksum s2
    ({ s3 with src_eui64 := n.lladdr }, false)
  else if n.state = PGW_TENTATIVE then
    if uip_is_addr_unspecified (srcipaddr s) then (pgw_dad_failed s i, false)
    else (s, true)
  else (s, true)

/-- The loop of `proxy_ns_input` over the neighbor cache (NS from Ethernet or from the
local host) from entry `i` on, `k` entries to go; the flag is `goto discard`. -/
def proxy_ns_loop : Nat → Nat → State → State × Bool
  | 0, _, s => (s, false)
  | k + 1, i, s =>
    match s.pgw_6ln_cache[i]? with
    | none => (s, false)
    | some n =>
      if n.isused then
        let s1 : State :=
          if uip_is_addr_linklocal (tgtipaddr s) then
            { s with
              fipaddr := create_eui64_based_ipaddr n.lladdr
              ipaddr := some .to_fipaddr }
          else { s with ipaddr := some (.to_nbr i) }
        if deref_ipaddr s1 = tgtipaddr s1 then proxy_ns_reply s1 i n
        else proxy_ns_loop k (i + 1) s1
      else proxy_ns_loop k (i + 1) s

/-- The part of `proxy_ns_input` after the option loop (NS from the 6LoWPAN side). -/
def proxy_ns_register (s : State) : State :=
  let s1 : State :=
    if uip_is_addr_unspecified (srcipaddr s) ∨ s.pgw_opt_llao = none then
      { s with pgw_opt_aro := none }
    else s
  match s1.pgw_opt_aro with
  | none => s1
  | some a =>
    if s1.uip_buf (a + 1) ≠ 2 ∨ s1.uip_buf (a + 2) ≠ ARO_STATUS_SUCCESS then discard s1
    else if s1.rr_ipaddr ≠ destipaddr s1 ∨ s1.rr_ipaddr ≠ tgtipaddr s1
        ∨ s1.dst_eui64 ≠ s1.rr_lladdr then discard s1
    else
      match pgw_nbr_lookup s1.pgw_6ln_cache (srcipaddr s1) with
      | none =>
        let r := pgw_nbr_add s1 (srcipaddr s1) (some (readBytes s1.uip_buf (a + 8) 8)) 0
          PGW_TENTATIVE
        match r.2 with
        | none => pgw_registration_error r.1 ARO_STATUS_RTR_NC_FULL
        | some i =>
          let s2 : State :=
            { r.1 with
              pgw_6ln_cache := updNbr r.1.pgw_6ln_cache i (fun m =>
                { m with
                  aro_pending := true
                  reachable := stimer_set r.1.clock_seconds
                    ((uip_htons (load16 r.1.uip_buf (a + 6)) * 60) % 65536) }) }
          pgw_dad s2 i
      | some i =>
        match s1.pgw_6ln_cache[i]? with
        | none => s1
        | some n =>
          if readBytes s1.uip_buf (a + 8) 8 ≠ n.lladdr then
            pgw_registration_error s1 ARO_STATUS_DUPLICATE
          else if n.state = PGW_REGISTERED then
            { s1 with
              pgw_6ln_cache := updNbr s1.pgw_6ln_cache i (fun m =>
                { m with
                  reachable := stimer_set s1.clock_seconds
                    ((uip_htons (load16 s1.uip_buf (a + 6)) * 60) % 65536)
                  aro_pending := true }) }
          else discard s1

/-- `proxy_ns_input`; `none` when the fuel of the option loop runs out. -/
def proxy_ns_input (fuel : Nat) (s : State) : Option State :=
  match s.incoming_if with
  | .LOCAL | .IEEE_802_3 =>
    let s1 : State := { s with outgoing_if := s.incoming_if }
    let r := proxy_ns_loop s1.pgw_6ln_cache.length 0 s1
    if r.2 then some (discard r.1)
    else if r.1.ipaddr = none then some (discard r.1)
    else some r.1
  | .IEEE_802_15_4 =>
    if uip_is_addr_mcast (tgtipaddr s) ∨ uip_is_addr_unspecified (tgtipaddr s) then
      some (discard s)
    else if uip_is_addr_mcast (destipaddr s) then some s
    else
      match opt_walk ns_opt_act fuel
        { s with pgw_opt_llao := none, pgw_opt_aro := none, pgw_opt_offset := UIP_ND6_NS_LEN } with
      | none => none
      | some (s2, true) => some (discard s2)
      | some (s2, false) => some (proxy_ns_register s2)
  | .UNDEFINED => some s

/-- `proxy_na_input`. -/
def proxy_na_input (s : State) : State :=
  match s.incoming_if with
  | .IEEE_802_3 | .LOCAL =>
    if uip_is_addr_linklocal_allnodes_mcast (destipaddr s) then
      match pgw_nbr_lookup s.pgw_6ln_cache (tgtipaddr s) with
      | none => discard s
      | some i =>
        match s.pgw_6ln_cache[i]? with
        | none => s
        | some n => if n.state = PGW_TENTATIVE then pgw_dad_failed s i else s
    else
      match pgw_nbr_lookup s.pgw_6ln_cache (destipaddr s) with
      | none => discard s
      | some i =>
        match s.pgw_6ln_cache[i]? with
        | none => s
        | some n =>
          if n.aro_pending = true ∧ (n.state = PGW_TENTATIVE ∨ n.state = PGW_REGISTERED)
              ∧ s.rr_ipaddr = srcipaddr s then
            let s1 : State :=
              { s with
                pgw_6ln_cache := updNbr s.pgw_6ln_cache i (fun m =>
                  { m with state := PGW_REGISTERED, aro_pending := false }) }
            let s2 := pgw_append_icmp_opt s1 UIP_ND6_OPT_ARO (.val n.lladdr) ARO_STATUS_SUCCESS
              (uip_htons ((n.reachable.interval / 60) % 65536))
            let s3 := pgw_update_icmp_checksum s2
            { s3 with
              pgw_6ln_cache := updNbr s3.pgw_6ln_cache i (fun m =>
                { m with reachable := stimer_restart s3.clock_seconds m.reachable }) }
          else if n.state = PGW_REGISTERED then s
          else discard s
  | .IEEE_802_15_4 => s
  | .UNDEFINED => s

/-- The part of `proxy_rs_input` after the option loop. -/
def proxy_rs_register (s : State) : State :=
  match s.pgw_opt_llao with
  | none => discard s
  | some l =>
    let r : State × Option Nat :=
      match pgw_nbr_lookup s.pgw_6ln_cache (srcipaddr s) with
      | none =>
        pgw_nbr_add s (srcipaddr s)
          (some (readBytes s.uip_buf (l + UIP_ND6_OPT_DATA_OFFSET) 8)) 0 PGW_TENTATIVE
      | some i => (s, some i)
    match r.2 with
    | none => r.1
    | some i =>
      { r.1 with
        pgw_6ln_cache := updNbr r.1.pgw_6ln_cache i (fun m => { m with ra_pending := true })
        ra_pending := true }

/-- `proxy_rs_input`; `none` when the fuel of the option loop runs out. -/
def proxy_rs_input (fuel : Nat) (s : State) : Option State :=
  match s.incoming_if with
  | .IEEE_802_3 | .LOCAL => some (discard s)
  | .IEEE_802_15_4 =>
    if uip_is_addr_unspecified (srcipaddr s) then some (discard s)
    else
      match opt_walk rs_opt_act fuel
        { s with pgw_opt_llao := none, pgw_opt_offset := UIP_ND6_RS_LEN } with
      | none => none
      | some (s2, true) => some (discard s2)
      | some (s2, false) => some (proxy_rs_register s2)
  | .UNDEFINED => some s

/-! ## Forwarding and the rewrite of link-layer address options (`pgw_fwd.c`) -/

/-- `is_multicast_lladdr`: the all-zero EUI-64 stands for L2 multicast. -/
def is_multicast_lladdr (a : List Nat) : Bool := decide (a = rimeaddr_null)

/-- `create_6lowpan_lladdr(ethernet, lowpan)` with both pointers into the packet buffer:
the eight assignments in source order. -/
def create_6lowpan_lladdr_buf (b : Nat → Nat) (ethernet lowpan : Nat) : Nat → Nat :=
  let b1 := setByte b (lowpan + 0) (b (ethernet + 0))
  let b2 := setByte b1 (lowpan + 1) (b1 (ethernet + 1))
  let b3 := setByte b2 (lowpan + 2) (b2 (ethernet + 2))
  let b4 := setByte b3 (lowpan + 7) (b3 (ethernet + 5))
  let b5 := setByte b4 (lowpan + 5) (b4 (ethernet + 3))
  let b6 := setByte b5 (lowpan + 6) (b5 (ethernet + 4))
  let b7 := setByte b6 (lowpan + 3) 0xff
  setByte b7 (lowpan + 4) 0xfe

/-- `create_ethernet_lladdr(ethernet, lowpan)` with both pointers into the packet
buffer: the six assignments in source order. -/
def create_ethernet_lladdr_buf (b : Nat → Nat) (ethernet lowpan : Nat) : Nat → Nat :=
  let b1 := setByte b (ethernet + 0) (b (lowpan + 0))
  let b2 := setByte b1 (ethernet + 1) (b1 (lowpan + 1))
  let b3 := setByte b2 (ethernet + 2) (b2 (lowpan + 2))
  let b4 := setByte b3 (ethernet + 3) (b3 (lowpan + 5))
  let b5 := setByte b4 (ethernet + 4) (b4 (lowpan + 6))
  setByte b5 (ethernet + 5) (b5 (lowpan + 7))

/-- `create_ethernet_lladdr` from an EUI-64 held outside the buffer. -/
def create_ethernet_lladdr (lowpan : List Nat) : List Nat :=
  [lowpan.getD 0 0, lowpan.getD 1 0, lowpan.getD 2 0,
   lowpan.getD 5 0, lowpan.getD 6 0, lowpan.getD 7 0]

/-- `create_6lowpan_lladdr` from a MAC address held outside the buffer. -/
def create_6lowpan_lladdr (ethernet : List Nat) : List Nat :=
  [ethernet.getD 0 0, ethernet.getD 1 0, ethernet.getD 2 0, 0xff, 0xfe,
   ethernet.getD 3 0, ethernet.getD 4 0, ethernet.getD 5 0]

/-- The two assignments to `UIP_IP_BUF->len` after a link-layer address option was
resized: the high octet is computed from a value already cut to 8 bits. -/
def set_ip_len_llao (s : State) : State :=
  let v := ((s.uip_len + 65536 - UIP_IPH_LEN) % 65536) % 256
  { s with uip_buf := setByte (setByte s.uip_buf (UIP_LLH_LEN + 5) v) (UIP_LLH_LEN + 4) (v >>> 8) }

/-- The two assignments to `UIP_IP_BUF->len` after an option was filtered out. -/
def set_ip_len_filter (s : State) : State :=
  let v := (s.uip_len + 65536 - UIP_IPH_LEN) % 65536
  { s with
    uip_buf := setByte (setByte s.uip_buf (UIP_LLH_LEN + 5) (v % 256)) (UIP_LLH_LEN + 4)
      ((v >>> 8) % 256) }

/-- The body of the option loop of `translate_icmp_lladdr` for the option at offset
`off`, up to the increment of the offset; `none` is `return 0`. -/
def translate_opt (target : interface_t) (s : State) (off : Nat) : Option State :=
  let o := uip_l2_l3_icmp_hdr_len s + off
  let b := s.uip_buf
  let cur := b (o + 1) <<< 3
  if b o = UIP_ND6_OPT_SLLAO ∨ b o = UIP_ND6_OPT_TLLAO then
    if target = .IEEE_802_15_4 then
      let n := (s.uip_len + 65536 - (uip_l3_icmp_hdr_len s + off + cur) % 65536) % 65536
      let b1 := memmoveBuf b (o + cur + 8) (o + cur) n
      let s1 := set_ip_len_llao { s with uip_buf := b1, uip_len := (s.uip_len + 8) % 65536 }
      let b2 := create_6lowpan_lladdr_buf s1.uip_buf (o + UIP_ND6_OPT_DATA_OFFSET)
        (o + UIP_ND6_OPT_DATA_OFFSET)
      let b3 := memsetBuf b2 (o + UIP_ND6_OPT_DATA_OFFSET + 8) 0 6
      let b4 := setByte b3 (o + 1) 2
      some (pgw_update_icmp_checksum { s1 with uip_buf := b4 })
    else if target = .IEEE_802_3 then
      let b1 := create_ethernet_lladdr_buf b (o + UIP_ND6_OPT_DATA_OFFSET)
        (o + UIP_ND6_OPT_DATA_OFFSET)
      let cur1 := b1 (o + 1) <<< 3
      let n := (s.uip_len + 65536 - (uip_l3_icmp_hdr_len s + off + cur1) % 65536) % 65536
      let b2 := memmoveBuf b1 (o + cur1 - 8) (o + cur1) n
      let s1 := set_ip_len_llao
        { s with uip_buf := b2, uip_len := (s.uip_len + 65536 - 8) % 65536 }
      let b3 := setByte s1.uip_buf (o + 1) 1
      some (pgw_update_icmp_checksum { s1 with uip_buf := b3 })
    else none
  else if target = .IEEE_802_15_4 ∧ b (UIP_LLH_LEN + UIP_IPH_LEN) = ICMP6_RA
      ∧ b o ≠ UIP_ND6_OPT_PREFIX_INFO ∧ b o ≠ UIP_ND6_OPT_6CO then
    let len1 := (s.uip_len + 65536 - cur % 65536) % 65536
    let n := (len1 + 65536 - (uip_l3_icmp_hdr_len s + off) % 65536) % 65536
    let b1 := memmoveBuf b o (o + cur) n
    some (pgw_update_icmp_checksum (set_ip_len_filter { s with uip_buf := b1, uip_len := len1 }))
  else some s

/-- The option loop of `translate_icmp_lladdr` with the 8-bit offset `off`; the outer
`none` is the fuel running out. -/
def translate_loop (target : interface_t) : Nat → State → Nat → Option State
  | fuel, s, off =>
    if uip_l3_icmp_hdr_len s + off < s.uip_len then
      match fuel with
      | 0 => none
      | f + 1 =>
        if s.uip_buf (uip_l2_l3_icmp_hdr_len s + off + 1) = 0 then some s
        else
          match translate_opt target s off with
          | none => some s
          | some s1 =>
            translate_loop target f s1
              ((off + (s1.uip_buf (uip_l2_l3_icmp_hdr_len s1 + off + 1) <<< 3)) % 256)
    else some s

/-- `translate_icmp_lladdr(target)`; `none` when the fuel of the option loop runs out. -/
def translate_icmp_lladdr (fuel : Nat) (target : interface_t) (s : State) : Option State :=
  if s.uip_buf (UIP_LLH_LEN + 6) ≠ UIP_PROTO_ICMP6 then some s
  else
    let type := s.uip_buf (UIP_LLH_LEN + UIP_IPH_LEN)
    if type = ICMP6_NS ∨ type = ICMP6_NA then translate_loop target fuel s UIP_ND6_NA_LEN
    else if type = ICMP6_RS then translate_loop target fuel s UIP_ND6_RS_LEN
    else if type = ICMP6_RA then translate_loop target fuel s UIP_ND6_RA_LEN
    else some s

/-- `radio_if_forward(src, dst)`: the packet is handed to the 6LoWPAN collaborator. -/
def radio_if_forward (s : State) (src dst : List Nat) : State :=
  { s with
    sent := s.sent ++
      [{ iface := .IEEE_802_15_4
         src := src
         dst := if is_multicast_lladdr dst then none else some dst
         len := s.uip_len
         bytes := readBytes s.uip_buf UIP_LLH_LEN s.uip_len }] }

/-- `eth_if_forward(src, dst)`: the Ethernet header is written into the buffer and the
frame is handed to the Ethernet collaborator. -/
def eth_if_forward (s : State) (src dst : List Nat) : State :=
  let b := s.uip_buf
  let b1 := memcpyVal b 6 (create_ethernet_lladdr src) 6
  let b2 :=
    if is_multicast_lladdr dst then
      let c1 := setByte b1 0 0x33
      let c2 := setByte c1 1 0x33
      let c3 := setByte c2 2 (c2 (UIP_LLH_LEN + 24 + 12))
      let c4 := setByte c3 3 (c3 (UIP_LLH_LEN + 24 + 13))
      let c5 := setByte c4 4 (c4 (UIP_LLH_LEN + 24 + 14))
      setByte c5 5 (c5 (UIP_LLH_LEN + 24 + 15))
    else memcpyVal b1 0 (create_ethernet_lladdr dst) 6
  let b3 := setByte (setByte b2 12 0x86) 13 0xdd
  { s with
    uip_buf := b3
    sent := s.sent ++
      [{ iface := .IEEE_802_3
         src := src
         dst := if is_multicast_lladdr dst then none else some dst
         len := s.uip_len
         bytes := readBytes b3 0 (UIP_LLH_LEN + s.uip_len) }] }

/-- Modelled from the spec: `tcpip_input`, the packet is handed to the local IPv6 stack
(an external collaborator, not under `src/`). -/
def tcpip_input (s : State) : State :=
  { s with
    sent := s.sent ++
      [{ iface := .LOCAL
         src := s.src_eui64
         dst := some s.dst_eui64
         len := s.uip_len
         bytes := readBytes s.uip_buf UIP_LLH_LEN s.uip_len }] }

/-- `pgw_fwd_output(src, dst)`; `none` when the fuel of an option loop runs out. -/
def pgw_fwd_output (fuel : Nat) (s : State) (src dst : List Nat) : Option State :=
  match s.outgoing_if with
  | .UNDEFINED =>
    (match s.incoming_if with
      | .IEEE_802_3 =>
        (translate_icmp_lladdr fuel .IEEE_802_15_4 { s with outgoing_if := .IEEE_802_15_4 }).bind
          fun s1 => (translate_icmp_lladdr fuel .IEEE_802_15_4 (radio_if_forward s1 src dst)).bind
            fun s2 => some (tcpip_input s2)
      | .IEEE_802_15_4 =>
        (translate_icmp_lladdr fuel .IEEE_802_3 { s with outgoing_if := .IEEE_802_3 }).bind
          fun s1 => (translate_icmp_lladdr fuel .IEEE_802_15_4 (eth_if_forward s1 src dst)).bind
            fun s2 => some (tcpip_input s2)
      | .LOCAL =>
        let s1 := radio_if_forward { s with outgoing_if := .IEEE_802_15_4 } src dst
        (translate_icmp_lladdr fuel .IEEE_802_3 { s1 with outgoing_if := .IEEE_802_3 }).bind
          fun s2 => some { eth_if_forward s2 src dst with uip_len := 0 }
      | .UNDEFINED => some (discard s))
  | .LOCAL =>
    (match s.incoming_if with
      | .IEEE_802_3 =>
        (translate_icmp_lladdr fuel .IEEE_802_15_4 s).bind fun s1 => some (tcpip_input s1)
      | _ => some (tcpip_input s))
  | .IEEE_802_15_4 =>
    (match s.incoming_if with
      | .IEEE_802_3 =>
        (translate_icmp_lladdr fuel .IEEE_802_15_4 s).bind
          fun s1 => some (radio_if_forward s1 src dst)
      | _ => some (radio_if_forward s src dst))
  | .IEEE_802_3 =>
    (translate_icmp_lladdr fuel .IEEE_802_3 s).bind fun s1 => some (eth_if_forward s1 src dst)

/-- `pgw_output`. -/
def pgw_output (fuel : Nat) (s : State) : Option State :=
  if s.uip_len > 0 then
    (pgw_fwd_output fuel s s.src_eui64 s.dst_eui64).bind fun s1 => some { s1 with uip_len := 0 }
  else some s

/-! ## The ND proxy: RA, redirect and the dispatch on the ICMPv6 type (`pgw.c`) -/

/-- The handling of the prefix information option in `proxy_ra_input`; the static
pointer `pgw_opt_prefix_info` is the one left by the option loop. -/
def proxy_ra_pio (s : State) : State :=
  match s.pgw_opt_prefix_info with
  | none => s
  | some p =>
    let s1 : State := { s with uip_buf := setByte s.uip_buf (p + 3) (s.uip_buf (p + 3) &&& 0x7F) }
    match pgw_context_lookup_by_prefix s1 (p + 16) with
    | none =>
      let r := pgw_context_create s1 (p + 16) (s1.uip_buf (p + 2))
      (match r.2 with
        | some _ => { r.1 with context_chaged := true }
        | none => r.1)
    | some i =>
      match s1.pgw_addr_context_table[i]? with
      | none => s1
      | some c =>
        if c.state = IN_USE_COMPRESS then
          { s1 with
            pgw_addr_context_table :=
              s1.pgw_addr_context_table.set i { c with vlifetime := stimer_reset c.vlifetime } }
        else if c.state = EXPIRED then
          { s1 with
            pgw_addr_context_table :=
              s1.pgw_addr_context_table.set i
                { c with
                  state := IN_USE_COMPRESS
                  vlifetime := stimer_set s1.clock_seconds PGW_CONTEXT_LIFETIME }
            context_chaged := true }
        else s1

/-- The loop of `proxy_ra_input` that appends one 6CO per context that is not
`NOT_IN_USE`, from entry `i` on, `k` entries to go. -/
def ra_append_contexts : Nat → Nat → State → State
  | 0, _, s => s
  | k + 1, i, s =>
    match s.pgw_addr_context_table[i]? with
    | none => s
    | some c =>
      if c.state ≠ NOT_IN_USE then
        ra_append_contexts k (i + 1) (pgw_append_icmp_opt s UIP_ND6_OPT_6CO (.context i) 0 0)
      else ra_append_contexts k (i + 1) s

/-- The loop of `proxy_ra_input` that clears `ra_pending` in every used entry. -/
def ra_clear_pending (cache : List pgw_nbr_t) : List pgw_nbr_t :=
  cache.map (fun n => if n.isused ∧ n.ra_pending then { n with ra_pending := false } else n)

/-- The loop of `proxy_ra_input` that sends the RA to every entry marked `ra_pending`,
from entry `i` on, `k` entries to go; `aux_len` is the saved 8-bit copy of `uip_len`. -/
def ra_fanout (fuel aux_len : Nat) : Nat → Nat → State → Option State
  | 0, _, s => some s
  | k + 1, i, s =>
    match s.pgw_6ln_cache[i]? with
    | none => some s
    | some n =>
      if n.isused ∧ n.ra_pending then
        let s1 : State :=
          { s with
            uip_len := aux_len
            uip_buf := memcpyVal s.uip_buf (UIP_LLH_LEN + 24) n.ipaddr 16
            dst_eui64 := n.lladdr }
        match pgw_output fuel s1 with
        | none => none
        | some s2 =>
          ra_fanout fuel aux_len k (i + 1)
            { s2 with
              pgw_6ln_cache := updNbr s2.pgw_6ln_cache i (fun m => { m with ra_pending := false }) }
      else ra_fanout fuel aux_len k (i + 1) s

/-- The part of `proxy_ra_input` after the option loop (RA from Ethernet). -/
def proxy_ra_forward (fuel : Nat) (s : State) : Option State :=
  let s2 := proxy_ra_pio s
  if s2.ra_pending = false ∧ s2.context_chaged = false then some (discard s2)
  else
    let s3 : State :=
      if s2.pgw_opt_llao = none then
        pgw_append_icmp_opt s2 UIP_ND6_OPT_SLLAO (.val s2.src_eui64) 0 0
      else s2
    let s4 := ra_append_contexts SICSLOWPAN_CONF_MAX_ADDR_CONTEXTS 0 s3
    let s5 := pgw_update_icmp_checksum s4
    if s5.context_chaged then
      let s6 : State :=
        if s5.ra_pending then
          { s5 with pgw_6ln_cache := ra_clear_pending s5.pgw_6ln_cache, ra_pending := false }
        else s5
      let s7 : State :=
        if uip_is_addr_mcast (destipaddr s6) = false then
          { s6 with
            uip_buf := memcpyVal s6.uip_buf (UIP_LLH_LEN + 24) linklocal_allnodes_mcast 16
            dst_eui64 := rimeaddr_null }
        else s6
      some { s7 with context_chaged := false }
    else if uip_is_addr_mcast (destipaddr s5) then
      match ra_fanout fuel (s5.uip_len % 256) s5.pgw_6ln_cache.length 0 s5 with
      | none => none
      | some s6 => some { s6 with ra_pending := false }
    else
      match pgw_nbr_lookup s5.pgw_6ln_cache (destipaddr s5) with
      | some i =>
        let c := updNbr s5.pgw_6ln_cache i (fun m => { m with ra_pending := false })
        some { s5 with
          pgw_6ln_cache := c
          ra_pending := c.any (fun n => n.isused && n.ra_pending) }
      | none => some (discard s5)

/-- `proxy_ra_input`; `none` when the fuel of an option loop runs out. -/
def proxy_ra_input (fuel : Nat) (s : State) : Option State :=
  match s.incoming_if with
  | .IEEE_802_3 =>
    let s0 : State := { s with rr_lladdr := s.src_eui64, rr_ipaddr := srcipaddr s }
    (match opt_walk ra_opt_act fuel
        { s0 with pgw_opt_llao := none, pgw_opt_offset := UIP_ND6_RA_LEN } with
      | none => none
      | some (s1, true) => some (discard s1)
      | some (s1, false) => proxy_ra_forward fuel s1)
  | .IEEE_802_15_4 | .LOCAL => some (discard s)
  | .UNDEFINED => some s

/-- `proxy_redirect_input`. -/
def proxy_redirect_input (s : State) : State := { s with uip_len := 0 }

/-- `proxy_input`: the dispatch on the ICMPv6 type. -/
def proxy_input (fuel : Nat) (s : State) : Option State :=
  let type := s.uip_buf (UIP_LLH_LEN + UIP_IPH_LEN)
  if type = ICMP6_NS then proxy_ns_input fuel s
  else if type = ICMP6_NA then some (proxy_na_input s)
  else if type = ICMP6_RS then proxy_rs_input fuel s
  else if type = ICMP6_RA then proxy_ra_input fuel s
  else if type = ICMP6_REDIRECT then some (proxy_redirect_input s)
  else some s

/-! ## Initial state and reachable states -/

/-- A zeroed entry of the neighbor cache. -/
def nbr_zero : pgw_nbr_t :=
  { isused := false
    ipaddr := List.replicate 16 0
    lladdr := List.replicate 8 0
    reachable := { start := 0, interval := 0 }
    last_lookup := 0
    isrouter := 0
    state := 0
    aro_pending := false
    ra_pending := false
    dadtimer := { start := 0, interval := 0 }
    dadnscount := 0 }

/-- A zeroed entry of the context table. -/
def context_zero : pgw_addr_context_t :=
  { state := NOT_IN_USE
    length := 0
    context_id := 0
    prefix_ := List.replicate 16 0
    vlifetime := { start := 0, interval := 0 } }

/-- `pgw_nd_init`: both tables are zeroed. -/
def pgw_nd_init (s : State) : State :=
  { s with
    pgw_6ln_cache := List.replicate MAX_6LOWPAN_NEIGHBORS nbr_zero
    pgw_addr_context_table := List.replicate PGW_CONF_MAX_ADDR_CONTEXTS context_zero }

/-- The state at boot: every global and static holds its zero initial value. -/
def boot_state : State :=
  { uip_buf := fun _ => 0
    uip_len := 0
    uip_ext_len := 0
    incoming_if := .UNDEFINED
    outgoing_if := .UNDEFINED
    src_eui64 := List.replicate 8 0
    dst_eui64 := List.replicate 8 0
    rr_ipaddr := List.replicate 16 0
    rr_lladdr := List.replicate 8 0
    ra_pending := false
    context_chaged := false
    pgw_opt_offset := 0
    ipaddr := none
    fipaddr := List.replicate 16 0
    pgw_opt_llao := none
    pgw_opt_prefix_info := none
    pgw_opt_aro := none
    nd_fipaddr := List.replicate 16 0
    pgw_6ln_cache := []
    pgw_addr_context_table := []
    mem_after_context_table := fun _ => 0
    clock_time := 0
    clock_seconds := 0
    sent := [] }

/-- What the environment sets between two runs of the gateway core: a packet delivered
in the buffer with its length, interfaces and link-layer addresses, and the clock. -/
def deliver (s : State) (buf : Nat → Nat) (len ext_len : Nat) (inc out : interface_t)
    (src dst : List Nat) (clock_time clock_seconds : Nat) : State :=
  { s with
    uip_buf := buf
    uip_len := len
    uip_ext_len := ext_len
    incoming_if := inc
    outgoing_if := out
    src_eui64 := src
    dst_eui64 := dst
    clock_time := clock_time
    clock_seconds := clock_seconds }

/-- The states reachable from `pgw_nd_init` at boot by delivering packets, handling
them in the ND proxy (NS, NA, RS, RA, redirect), emitting, and periodic ticks. -/
inductive Reachable : State → Prop where
  | init : Reachable (pgw_nd_init boot_state)
  | deliver (s : State) (buf : Nat → Nat) (len ext_len : Nat) (inc out : interface_t)
      (src dst : List Nat) (clock_time clock_seconds : Nat) :
      Reachable s → Reachable (deliver s buf len ext_len inc out src dst clock_time clock_seconds)
  | input (s t : State) (fuel : Nat) :
      Reachable s → proxy_input fuel s = some t → Reachable t
  | output (s t : State) (fuel : Nat) :
      Reachable s → pgw_output fuel s = some t → Reachable t
  | periodic (s : State) : Reachable s → Reachable (pgw_periodic s)

/-! ## The bridge table and the entry points of the gateway (`pgw_fwd.c`, `pgw.c`) -/

/-- `bridge_table_t` of `pgw_fwd.h`: the array of entries and the count of those in use. -/
structure bridge_table_t where
  table : List bridge_entry_t
  elems : Nat
  deriving DecidableEq, Repr

/-- The gateway: the globals held in `State` and the static `brigde_table` of
`pgw_fwd.c`. -/
structure Gateway where
  st : State
  brigde_table : bridge_table_t

/-- The loop of `bridge_addr_lookup` over the entries in use, the first of them at
index `i`; the result is the index of the entry found. -/
def bridge_lookup_from (addr : List Nat) : List bridge_entry_t → Nat → Option Nat
  | [], _ => none
  | e :: rest, i => if addr = e.addr then some i else bridge_lookup_from addr rest (i + 1)

/-- `bridge_addr_lookup(addr)`: the first of the `elems` entries in use that holds
`addr`. -/
def bridge_addr_lookup (t : bridge_table_t) (addr : List Nat) : Option Nat :=
  bridge_lookup_from addr (t.table.take t.elems) 0

/-- `bridge_addr_add(addr, interface)`; `rand` is what `random_rand()` returns. -/
def bridge_addr_add (t : bridge_table_t) (addr : List Nat) (interface : interface_t)
    (rand : Nat) : bridge_table_t :=
  let index := if t.elems ≠ MAX_BRIDGE_ENTRIES then t.elems else rand % MAX_BRIDGE_ENTRIES
  let elems := if t.elems ≠ MAX_BRIDGE_ENTRIES then (t.elems + 1) % 256 else t.elems
  { table := t.table.set index { interface := interface, addr := addr }
    elems := elems }

/-- `pgw_fwd_init`: the table is zeroed and the local host is added; `node_addr` is
`rimeaddr_node_addr`. -/
def pgw_fwd_init (node_addr : List Nat) : bridge_table_t :=
  bridge_addr_add
    { table := List.replicate MAX_BRIDGE_ENTRIES
        { interface := .UNDEFINED, addr := List.replicate 8 0 }
      elems := 0 }
    node_addr .LOCAL 0

/-- `bridge_input`: the source of the frame is learned when it is not in the table, and
the outgoing interface is looked up for the destination. -/
def bridge_input (g : Gateway) (rand : Nat) : Gateway :=
  let t1 :=
    match bridge_addr_lookup g.brigde_table g.st.src_eui64 with
    | none => bridge_addr_add g.brigde_table g.st.src_eui64 g.st.incoming_if rand
    | some _ => g.brigde_table
  let out : interface_t :=
    match bridge_addr_lookup t1 g.st.dst_eui64 with
    | none => .UNDEFINED
    | some i =>
      if is_multicast_lladdr g.st.dst_eui64 then .UNDEFINED
      else
        match t1.table[i]? with
        | some e => e.interface
        | none => .UNDEFINED
  { st := { g.st with outgoing_if := out }, brigde_table := t1 }

/-- `get_lladdr(&src_eui64, &dst_eui64)`; `sender` and `receiver` are the addresses the
radio driver left in the packet buffer attributes. -/
def get_lladdr (s : State) (sender receiver : List Nat) : State :=
  match s.incoming_if with
  | .IEEE_802_15_4 => { s with src_eui64 := sender, dst_eui64 := receiver }
  | .IEEE_802_3 =>
    { s with
      src_eui64 := create_6lowpan_lladdr (readBytes s.uip_buf 6 6)
      dst_eui64 :=
        if s.uip_buf 0 = 0x33 ∧ s.uip_buf 1 = 0x33 then rimeaddr_null
        else create_6lowpan_lladdr (readBytes s.uip_buf 0 6) }
  | _ => s

/-- `network_layer_filter`: only ICMPv6 and UDP are accepted. -/
def network_layer_filter (s : State) : Bool :=
  decide (s.uip_buf (UIP_LLH_LEN + 6) ≠ UIP_PROTO_UDP
    ∧ s.uip_buf (UIP_LLH_LEN + 6) ≠ UIP_PROTO_ICMP6)

/-- `pgw_fwd_input`. -/
def pgw_fwd_input (g : Gateway) (sender receiver : List Nat) (rand : Nat) : Gateway :=
  let s1 := if g.st.incoming_if ≠ .LOCAL then get_lladdr g.st sender receiver else g.st
  let g1 := bridge_input { g with st := s1 } rand
  if network_layer_filter g1.st then { g1 with st := { g1.st with uip_len := 0 } } else g1

/-- The two assignments that restore the packet saved in `pgw_buf` and `pgw_len`. -/
def pgw_restore (s : State) (pgw_buf : Nat → Nat) (pgw_len : Nat) : State :=
  { s with
    uip_buf := fun j => if j < UIP_LLH_LEN + pgw_len then pgw_buf j else s.uip_buf j
    uip_len := pgw_len }

/-- The part of `pgw_packet_input` after `pgw_fwd_input`; `none` when the fuel of an
option loop runs out. -/
def pgw_packet_dispatch (fuel : Nat) (s : State) : Option State :=
  if s.uip_len = 0 then some s
  else if s.incoming_if = s.outgoing_if then some (discard s)
  else if s.uip_buf (UIP_LLH_LEN + 6) = UIP_PROTO_ICMP6 then
    if (s.incoming_if = .IEEE_802_3 ∧ s.outgoing_if = .IEEE_802_15_4)
        ∨ (s.incoming_if = .IEEE_802_15_4 ∧ s.outgoing_if = .IEEE_802_3)
        ∨ (s.incoming_if = .LOCAL ∧ s.outgoing_if = .IEEE_802_15_4)
        ∨ (s.incoming_if = .IEEE_802_15_4 ∧ s.outgoing_if = .LOCAL) then
      proxy_input fuel s
    else if (s.incoming_if = .IEEE_802_3 ∧ s.outgoing_if = .LOCAL)
        ∨ (s.incoming_if = .LOCAL ∧ s.outgoing_if = .IEEE_802_3) then
      some s
    else if s.outgoing_if = .UNDEFINED then
      let pgw_len := s.uip_len
      let pgw_buf := s.uip_buf
      match s.incoming_if with
      | .LOCAL =>
        (proxy_input fuel { s with outgoing_if := .IEEE_802_15_4 }).bind fun s1 =>
          (pgw_output fuel s1).bind fun s2 =>
            some { pgw_restore s2 pgw_buf pgw_len with outgoing_if := .IEEE_802_3 }
      | .IEEE_802_3 =>
        (proxy_input fuel { s with outgoing_if := .IEEE_802_15_4 }).bind fun s1 =>
          (pgw_output fuel s1).bind fun s2 =>
            some { pgw_restore s2 pgw_buf pgw_len with outgoing_if := .LOCAL }
      | .IEEE_802_15_4 =>
        (proxy_input fuel { s with outgoing_if := .IEEE_802_3 }).bind fun s1 =>
          (pgw_output fuel s1).bind fun s2 =>
            proxy_input fuel { pgw_restore s2 pgw_buf pgw_len with outgoing_if := .LOCAL }
      | .UNDEFINED => some (discard s)
    else some (discard s)
  else some s

/-- `pgw_packet_input`. -/
def pgw_packet_input (fuel : Nat) (g : Gateway) (sender receiver : List Nat) (rand : Nat) :
    Option Gateway :=
  let g1 := pgw_fwd_input g sender receiver rand
  (pgw_packet_dispatch fuel g1.st).map fun s => { g1 with st := s }

/-- `pgw_input`: the entry point for a packet left in the buffer by a driver. -/
def pgw_input (fuel : Nat) (g : Gateway) (sender receiver : List Nat) (rand : Nat) :
    Option Gateway :=
  (pgw_packet_input fuel g sender receiver rand).bind fun g1 =>
    (pgw_output fuel g1.st).map fun s => { g1 with st := s }

/-- `pgw_init`; `node_addr` is `rimeaddr_node_addr`. -/
def pgw_init (s : State) (node_addr : List Nat) : Gateway :=
  { st := pgw_nd_init s, brigde_table := pgw_fwd_init node_addr }

/-- The bridge tables `bridge_input` produces from `pgw_fwd_init` on frames whose
source link-layer address satisfies `P`. -/
inductive bridge_run (node_addr : List Nat) (P : List Nat → Prop) : bridge_table_t → Prop where
  | init : bridge_run node_addr P (pgw_fwd_init node_addr)
  | frame (g : Gateway) (rand : Nat) :
      bridge_run node_addr P g.brigde_table → P g.st.src_eui64 →
      bridge_run node_addr P (bridge_input g rand).brigde_table

/-! ## Predicates used to state the properties, and example packets -/

/-- A buffer holding the given octets, zero elsewhere. -/
def bufOfList (l : List Nat) : Nat → Nat := fun i => l.getD i 0

/-- The packet in the buffer is a registration NS that arrived from the 6LoWPAN side:
no extension header, source `src` specified, destination and target the address of
the RR (known and unicast), L2 destination the RR, and two options, an SLLAO of 2 units
at index `l` and an ARO of 2 units with status 0 and EUI-64 `e` at index `a`, in
either order. -/
def registration_ns (s : State) (src e : List Nat) (l a : Nat) : Prop :=
  s.incoming_if = .IEEE_802_15_4 ∧ s.uip_ext_len = 0 ∧ s.uip_len = 96
  ∧ s.uip_buf 54 = ICMP6_NS
  ∧ srcipaddr s = src ∧ uip_is_addr_unspecified src = false
  ∧ destipaddr s = s.rr_ipaddr ∧ tgtipaddr s = s.rr_ipaddr
  ∧ uip_is_addr_mcast s.rr_ipaddr = false ∧ uip_is_addr_unspecified s.rr_ipaddr = false
  ∧ s.dst_eui64 = s.rr_lladdr
  ∧ ((l = 78 ∧ a = 94) ∨ (l = 94 ∧ a = 78))
  ∧ s.uip_buf l = UIP_ND6_OPT_SLLAO ∧ s.uip_buf (l + 1) = 2
  ∧ s.uip_buf a = UIP_ND6_OPT_ARO ∧ s.uip_buf (a + 1) = 2
  ∧ s.uip_buf (a + 2) = ARO_STATUS_SUCCESS
  ∧ readBytes s.uip_buf (a + 8) 8 = e

/-- No two used entries of the cache hold the same IPv6 address. -/
def UniqueIp (cache : List pgw_nbr_t) : Prop :=
  ∀ (i j : Nat) (n m : pgw_nbr_t), cache[i]? = some n → cache[j]? = some m →
    n.isused = true → m.isused = true → n.ipaddr = m.ipaddr → i = j

/-- No two used entries of the cache hold the same EUI-64. -/
def UniqueEui (cache : List pgw_nbr_t) : Prop :=
  ∀ (i j : Nat) (n m : pgw_nbr_t), cache[i]? = some n → cache[j]? = some m →
    n.isused = true → m.isused = true → n.lladdr = m.lladdr → i = j

/-- No two used entries of the cache hold the same pair of IPv6 address and EUI-64. -/
def UniquePair (cache : List pgw_nbr_t) : Prop :=
  ∀ (i j : Nat) (n m : pgw_nbr_t), cache[i]? = some n → cache[j]? = some m →
    n.isused = true → m.isused = true → n.ipaddr = m.ipaddr → n.lladdr = m.lladdr → i = j

/-- The address `proxy_ns_input` compares with the target of an NS from Ethernet: the
link-local address derived from the EUI-64 of the entry when the target is link-local,
the registered address of the entry otherwise. -/
def ns_match_addr (tgt : List Nat) (n : pgw_nbr_t) : List Nat :=
  if uip_is_addr_linklocal tgt then create_eui64_based_ipaddr n.lladdr else n.ipaddr

/-- The condition under which the neighbor loop of `pgw_periodic` hands an entry to
`pgw_dad`. -/
def dad_due (s : State) (n : pgw_nbr_t) : Prop :=
  n.isused = true ∧ stimer_expired s.clock_seconds n.reachable = false
  ∧ n.state = PGW_TENTATIVE ∧ uip_is_addr_linklocal n.ipaddr = false
  ∧ n.dadnscount ≤ PGW_MAX_DAD_NS ∧ timer_expired s.clock_time n.dadtimer = true

/-- The sum of the 16-bit big-endian words held in the `n` octets of the buffer from
index `off` on, an odd last octet being padded with a zero octet (RFC 1071). -/
def word_sum (b : Nat → Nat) : Nat → Nat → Nat
  | _, 0 => 0
  | off, 1 => (b off * 256) % 65536
  | off, n + 2 => (b off * 256 + b (off + 1)) % 65536 + word_sum b (off + 2) n

/-- The IPv6 payload length field as `upper_layer_chksum` reads it. -/
def ip_payload_len (s : State) : Nat :=
  ((s.uip_buf (UIP_LLH_LEN + 4) * 256) % 65536 + s.uip_buf (UIP_LLH_LEN + 5)) % 65536

/-- The octets of a list of options, one after the other. -/
def opts_bytes : List (List Nat) → List Nat
  | [] => []
  | o :: rest => o ++ opts_bytes rest

/-- The buffer holds the octets `l` from index `pos` on. -/
def holds (b : Nat → Nat) (pos : Nat) (l : List Nat) : Prop :=
  ∀ k, k < l.length → b (pos + k) = l.getD k 0

/-- The option `o` is well formed: its length field is not 0 and counts its octets in
units of 8. -/
def opt_wf (o : List Nat) : Prop := 0 < o.getD 1 0 ∧ o.length = 8 * o.getD 1 0

/-- The option `o` is a source or target link-layer address option. -/
def opt_is_llao (o : List Nat) : Prop :=
  o.getD 0 0 = UIP_ND6_OPT_SLLAO ∨ o.getD 0 0 = UIP_ND6_OPT_TLLAO

/-- In the 6LoWPAN form of a link-layer address option: 2 units, an EUI-64 derived from a
MAC address (octets 3 and 4 are `ff fe`), and six zero octets of padding. -/
def opt_llao_eui64 (o : List Nat) : Prop :=
  o.getD 1 0 = 2 ∧ o.getD 5 0 = 0xff ∧ o.getD 6 0 = 0xfe
    ∧ o.getD 10 0 = 0 ∧ o.getD 11 0 = 0 ∧ o.getD 12 0 = 0
    ∧ o.getD 13 0 = 0 ∧ o.getD 14 0 = 0 ∧ o.getD 15 0 = 0

/-- The options `translate_icmp_lladdr` keeps in an RA toward the 6LoWPAN side. -/
def opt_kept_in_ra (o : List Nat) : Prop :=
  opt_is_llao o ∨ o.getD 0 0 = UIP_ND6_OPT_PREFIX_INFO ∨ o.getD 0 0 = UIP_ND6_OPT_6CO

/-- The rewrite of one option for Ethernet as the specification words it: a link-layer
address option is contracted to 1 unit with the MAC address `e0 e1 e2 e5 e6 e7`, any
other option is kept. -/
def opt_to_ethernet (o : List Nat) : List Nat :=
  if o.getD 0 0 = UIP_ND6_OPT_SLLAO ∨ o.getD 0 0 = UIP_ND6_OPT_TLLAO then
    [o.getD 0 0, 1, o.getD 2 0, o.getD 3 0, o.getD 4 0, o.getD 7 0, o.getD 8 0, o.getD 9 0]
  else o

/-- The rewrite of one option for the 6LoWPAN side as the specification words it: a
link-layer address option is expanded to 2 units with the EUI-64 `m0 m1 m2 ff fe m3 m4 m5`
and six zero octets, any other option is kept. -/
def opt_to_lowpan (o : List Nat) : List Nat :=
  if o.getD 0 0 = UIP_ND6_OPT_SLLAO ∨ o.getD 0 0 = UIP_ND6_OPT_TLLAO then
    [o.getD 0 0, 2, o.getD 2 0, o.getD 3 0, o.getD 4 0, 0xff, 0xfe,
     o.getD 5 0, o.getD 6 0, o.getD 7 0, 0, 0, 0, 0, 0, 0]
  else o

/-- Every field but the packet buffer and `uip_len` is the same in `t` and in `s`. -/
def same_rest (t s : State) : Prop :=
  { t with uip_buf := s.uip_buf, uip_len := s.uip_len } = s

/-- The checksum field holds what `pgw_update_icmp_checksum` computes for the packet. -/
def checksum_canonical (s : State) : Prop :=
  (pgw_update_icmp_checksum s).uip_buf = s.uip_buf

/-- The checksum of the packet verifies (`uip_icmp6chksum` returns `0xffff`) and the
checksum field, two octets, does not hold `0xffff`, the other form of zero. -/
def checksum_valid (s : State) : Prop :=
  uip_icmp6chksum s = 0xffff ∧ s.uip_buf 56 < 256 ∧ s.uip_buf 57 < 256
    ∧ ¬ (s.uip_buf 56 = 0xff ∧ s.uip_buf 57 = 0xff)

/-- The value the `switch` of `translate_icmp_lladdr` gives `pgw_opt_offset` for an NS, NA,
RS or RA: the length of the fixed part of the ND message. -/
def nd_options_offset (s : State) : Nat :=
  let type := s.uip_buf (UIP_LLH_LEN + UIP_IPH_LEN)
  if type = ICMP6_NS ∨ type = ICMP6_NA then UIP_ND6_NA_LEN
  else if type = ICMP6_RS then UIP_ND6_RS_LEN
  else UIP_ND6_RA_LEN

/-- The identity of the RR is the same in `t` as in `s`: `rr_ipaddr` and `rr_lladdr`. -/
def keeps_rr (t s : State) : Prop := t.rr_ipaddr = s.rr_ipaddr ∧ t.rr_lladdr = s.rr_lladdr

/-- The length of the 6CO of the context `c`, in units of 8 octets. -/
def sixco_units (c : pgw_addr_context_t) : Nat := if c.length > 64 then 3 else 2

/-- The first eight octets of the 6CO that `pgw_append_icmp_opt` writes for the context
`c`: type, length, context length, the CID with the C flag, two reserved octets and the
valid lifetime in minutes, in network order. -/
def sixco_head (c : pgw_addr_context_t) : List Nat :=
  [UIP_ND6_OPT_6CO, sixco_units c, c.length,
    if c.state = IN_USE_COMPRESS then (c.context_id &&& 0x0F) ||| UIP_ND6_RA_FLAG_COMPRESSION
    else c.context_id &&& 0x0F,
    0, 0, (c.vlifetime.interval / 60) % 65536 / 256 % 256, (c.vlifetime.interval / 60) % 256]

/-- From index `pos` on, the buffer holds one 6CO per context of `l`, in the order of
`l`, each as long as its length octet says and starting with `sixco_head`. -/
def holds_6co (b : Nat → Nat) : Nat → List pgw_addr_context_t → Prop
  | _, [] => True
  | pos, c :: r => readBytes b pos 8 = sixco_head c ∧ holds_6co b (pos + 8 * sixco_units c) r

/-- The index the option loop of `proxy_rs_input` leaves in `pgw_opt_llao` after the
options `opts`, the first of which is at index `pos`: the index of the last SLLAO, or
`r` when there is none. -/
def last_sllao : List (List Nat) → Nat → Option Nat → Option Nat
  | [], _, r => r
  | o :: rest, pos, r =>
    last_sllao rest (pos + o.length) (if o.getD 0 0 = UIP_ND6_OPT_SLLAO then some pos else r)

/-- The packet in the buffer is an RS that arrived from the 6LoWPAN side with a specified
source, and its options are `opts`, each well formed, followed by the octets `tail` up to
the end of the packet; the options end below offset 256 of the ICMPv6 payload. -/
def rs_options (s : State) (opts : List (List Nat)) (tail : List Nat) : Prop :=
  s.incoming_if = .IEEE_802_15_4
  ∧ uip_is_addr_unspecified (srcipaddr s) = false
  ∧ holds s.uip_buf (uip_l2_l3_icmp_hdr_len s + UIP_ND6_RS_LEN) (opts_bytes opts ++ tail)
  ∧ (∀ o ∈ opts, opt_wf o)
  ∧ uip_l3_icmp_hdr_len s + UIP_ND6_RS_LEN + (opts_bytes opts ++ tail).length = s.uip_len
  ∧ UIP_ND6_RS_LEN + (opts_bytes opts).length < 256

/-! ## Example addresses, packets and states -/

/-- The link-local address of the RR. -/
def ex_rr_ip : List Nat :=
  [0xfe, 0x80, 0, 0, 0, 0, 0, 0, 0x02, 0x11, 0x22, 0xff, 0xfe, 0x33, 0x44, 0x55]

/-- The EUI-64 of the RR. -/
def ex_rr_ll : List Nat := [0x00, 0x11, 0x22, 0xff, 0xfe, 0x33, 0x44, 0x55]

/-- A global address, `2001:db8::1`. -/
def ex_ip1 : List Nat := [0x20, 0x01, 0x0d, 0xb8, 0, 0, 0, 0, 0, 0, 0, 0, 0, 0, 0, 0x01]

/-- A global address, `2001:db8::2`. -/
def ex_ip2 : List Nat := [0x20, 0x01, 0x0d, 0xb8, 0, 0, 0, 0, 0, 0, 0, 0, 0, 0, 0, 0x02]

/-- A link-local address that is not derived from an EUI-64, `fe80::1:2`. -/
def ex_ip_ll : List Nat := [0xfe, 0x80, 0, 0, 0, 0, 0, 0, 0, 0, 0, 0, 0, 0x01, 0, 0x02]

/-- The global address of a host on Ethernet, `2001:db8::99`. -/
def ex_host : List Nat := [0x20, 0x01, 0x0d, 0xb8, 0, 0, 0, 0, 0, 0, 0, 0, 0, 0, 0, 0x99]

/-- The EUI-64 form of the MAC address of the host on Ethernet. -/
def ex_host_ll : List Nat := [0x00, 0xaa, 0xbb, 0xff, 0xfe, 0xcc, 0xdd, 0xee]

/-- The EUI-64 of the 6LoWPAN node A. -/
def ex_eui_a : List Nat := [0x02, 0, 0, 0, 0, 0, 0, 0x0a]

/-- The EUI-64 of the 6LoWPAN node B. -/
def ex_eui_b : List Nat := [0x02, 0, 0, 0, 0, 0, 0, 0x0b]

/-- Room for the Ethernet header and an IPv6 header for an ICMPv6 message with the
given payload length. -/
def ex_ip_hdr (len : Nat) (src dst : List Nat) : List Nat :=
  List.replicate 14 0 ++ [0x60, 0, 0, 0, 0, len, 58, 255] ++ src ++ dst

/-- A registration NS to the RR: SLLAO, then ARO with lifetime 5 minutes. -/
def ex_ns_registration (src e : List Nat) : List Nat :=
  ex_ip_hdr 56 src ex_rr_ip ++ [135, 0, 0, 0, 0, 0, 0, 0] ++ ex_rr_ip
    ++ [1, 2] ++ e ++ [0, 0, 0, 0, 0, 0]
    ++ [131, 2, 0, 0, 0, 0, 0, 5] ++ e

/-- An RA of the RR without options. -/
def ex_ra : List Nat :=
  ex_ip_hdr 16 ex_rr_ip linklocal_allnodes_mcast
    ++ [134, 0, 0, 0, 64, 0, 0x07, 0x08, 0, 0, 0, 0, 0, 0, 0, 0]

/-- An NA to the link-local all-nodes address that defends `tgt`. -/
def ex_na_allnodes (src tgt : List Nat) : List Nat :=
  ex_ip_hdr 24 src linklocal_allnodes_mcast ++ [136, 0, 0, 0, 0x20, 0, 0, 0] ++ tgt

/-- A unicast NA of the RR to `dst`, with the address of the RR as target. -/
def ex_na_rr (dst : List Nat) : List Nat :=
  ex_ip_hdr 24 ex_rr_ip dst ++ [136, 0, 0, 0, 0xe0, 0, 0, 0] ++ ex_rr_ip

/-- An NS from the host on Ethernet for `tgt`, with an SLLAO of 1 unit. -/
def ex_ns_eth (src tgt : List Nat) : List Nat :=
  ex_ip_hdr 32 src (uip_create_solicited_node tgt) ++ [135, 0, 0, 0, 0, 0, 0, 0] ++ tgt
    ++ [1, 1, 0x00, 0xaa, 0xbb, 0xcc, 0xdd, 0xee]

/-- A used entry of the neighbor cache with lifetime 300 s, one DAD NS sent and a DAD
timer armed at tick 0. -/
def ex_nbr (ip ll : List Nat) (state : Nat) : pgw_nbr_t :=
  { nbr_zero with
    isused := true
    ipaddr := ip
    lladdr := ll
    state := state
    reachable := { start := 0, interval := 300 }
    dadtimer := { start := 0, interval := 16 }
    dadnscount := 1 }

/-- A state that knows the RR and holds the given neighbor cache. -/
def ex_base (cache : List pgw_nbr_t) : State :=
  { pgw_nd_init boot_state with
    rr_ipaddr := ex_rr_ip
    rr_lladdr := ex_rr_ll
    pgw_6ln_cache := cache }

/-- The ND proxy run on the packet in the buffer (the state is kept when the fuel of an
option loop runs out). -/
def run_input (s : State) : State := (proxy_input 8 s).getD s

/-- After boot, the RA of the RR was handled. -/
def ex_s1 : State :=
  run_input (deliver (pgw_nd_init boot_state) (bufOfList ex_ra) 56 0 .IEEE_802_3 .IEEE_802_15_4
    ex_rr_ll rimeaddr_null 10 1)

/-- Then node A registered `ex_ip1`: the entry is tentative and a DAD NS goes out. -/
def ex_s2 : State :=
  run_input (deliver ex_s1 (bufOfList (ex_ns_registration ex_ip1 ex_eui_a)) 96 0
    .IEEE_802_15_4 .IEEE_802_3 ex_eui_a ex_rr_ll 100 10)

/-- Then, one second later, the periodic tick completed DAD for `ex_ip1`. -/
def ex_s3 : State :=
  pgw_periodic (deliver ex_s2 (fun _ => 0) 0 0 .UNDEFINED .UNDEFINED [] [] 120 11)

/-- Then node A registered a second address `ex_ip2` with the same EUI-64. -/
def ex_s4 : State :=
  run_input (deliver ex_s3 (bufOfList (ex_ns_registration ex_ip2 ex_eui_a)) 96 0
    .IEEE_802_15_4 .IEEE_802_3 ex_eui_a ex_rr_ll 200 20)

/-- Then, one second later, the periodic tick completed DAD for `ex_ip2`. -/
def ex_s5 : State :=
  pgw_periodic (deliver ex_s4 (fun _ => 0) 0 0 .UNDEFINED .UNDEFINED [] [] 220 21)

/-- After `ex_s2` (node A holds `ex_ip1`, tentative), an NA of the host on Ethernet to
all-nodes that defends `ex_ip1` is in the buffer. -/
def ex_defended : State :=
  deliver ex_s2 (bufOfList (ex_na_allnodes ex_host ex_ip1)) 64 0
    .IEEE_802_3 .IEEE_802_15_4 ex_host_ll rimeaddr_null 105 10

/-- After `ex_s2`, the host on Ethernet defended `ex_ip1`: DAD failed and the entry of
node A was removed. -/
def ex_dad_failed : State := run_input ex_defended

/-- After `ex_dad_failed`, the registration NS of node B for `ex_ip2` is in the buffer. -/
def ex_reused_slot : State :=
  deliver ex_dad_failed (bufOfList (ex_ns_registration ex_ip2 ex_eui_b)) 96 0
    .IEEE_802_15_4 .IEEE_802_3 ex_eui_b ex_rr_ll 200 20

/-- After `ex_s3` (node A holds `ex_ip1`, registered), the registration NS of node B for
the same address `ex_ip1` is in the buffer. -/
def ex_duplicate : State :=
  deliver ex_s3 (bufOfList (ex_ns_registration ex_ip1 ex_eui_b)) 96 0
    .IEEE_802_15_4 .IEEE_802_3 ex_eui_b ex_rr_ll 200 20

/-- After `ex_s3`, an NS of the host on Ethernet for `ex_ip2`, which nobody registered,
is in the buffer. -/
def ex_unknown_target : State :=
  deliver ex_s3 (bufOfList (ex_ns_eth ex_host ex_ip2)) 72 0
    .IEEE_802_3 .IEEE_802_15_4 ex_host_ll rimeaddr_null 200 20

/-- After `ex_s1`, node A registered the link-local address `ex_ip_ll`: the entry is
tentative with `aro_pending` set. -/
def ex_ll_pending : State :=
  run_input (deliver ex_s1 (bufOfList (ex_ns_registration ex_ip_ll ex_eui_a)) 96 0
    .IEEE_802_15_4 .IEEE_802_3 ex_eui_a ex_rr_ll 100 10)

/-- After `ex_ll_pending`, a periodic tick is due more than one second later. -/
def ex_linklocal_tentative : State :=
  deliver ex_ll_pending (fun _ => 0) 0 0 .UNDEFINED .UNDEFINED [] [] 120 11

/-- After `ex_ll_pending`, the NA of the RR to `ex_ip_ll` completed the registration. -/
def ex_ll_registered : State :=
  run_input (deliver ex_ll_pending (bufOfList (ex_na_rr ex_ip_ll)) 64 0
    .IEEE_802_3 .IEEE_802_15_4 ex_rr_ll ex_eui_a 110 10)

/-- After `ex_ll_registered`, an NS of the host on Ethernet for `ex_ip_ll` is in the
buffer. -/
def ex_ll_query : State :=
  deliver ex_ll_registered (bufOfList (ex_ns_eth ex_host ex_ip_ll)) 72 0
    .IEEE_802_3 .IEEE_802_15_4 ex_host_ll rimeaddr_null 200 20

/-- A cache whose first entry holds `ip` for node A in the given state, with the given
packet from Ethernet in the buffer. -/
def ex_eth_state (ip : List Nat) (state : Nat) (pkt : List Nat) (len : Nat) : State :=
  deliver (ex_base (ex_nbr ip ex_eui_a state :: List.replicate 24 nbr_zero))
    (bufOfList pkt) len 0 .IEEE_802_3 .IEEE_802_15_4 ex_host_ll rimeaddr_null 200 20

/-- A full cache of 25 registered entries with distinct addresses, with the
registration NS of node B for `ex_ip1` in the buffer. -/
def ex_full_state : State :=
  deliver
    (ex_base ((List.range 25).map (fun k =>
      ex_nbr [0x20, 0x01, 0x0d, 0xb8, 0, 0, 0, 0, 0, 0, 0, 0, 0, 0, 1, k] ex_eui_a PGW_REGISTERED)))
    (bufOfList (ex_ns_registration ex_ip1 ex_eui_b)) 96 0 .IEEE_802_15_4 .IEEE_802_3
    ex_eui_b ex_rr_ll 100 10

/-- The EUI-64 of the gateway itself (`rimeaddr_node_addr`). -/
def ex_node_ll : List Nat := [0x02, 0, 0, 0, 0, 0, 0, 0x01]

/-- A DAD NS for `tgt`: unspecified source, solicited-node destination, no option. -/
def ex_ns_dad (tgt : List Nat) : List Nat :=
  ex_ip_hdr 24 unspecified_addr (uip_create_solicited_node tgt)
    ++ [135, 0, 0, 0, 0, 0, 0, 0] ++ tgt

/-- After `ex_s2` (slot 24 holds `ex_ip1`, tentative), the DAD NS of a host on Ethernet
for `ex_ip1` is in the buffer. -/
def ex_eth_dad : State :=
  deliver ex_s2 (bufOfList (ex_ns_dad ex_ip1)) 64 0
    .IEEE_802_3 .IEEE_802_15_4 ex_host_ll rimeaddr_null 105 10

/-- After `ex_ll_pending` (slot 24 holds the link-local `ex_ip_ll`, tentative), the DAD NS
of a host on Ethernet for `ex_ip_ll` is in the buffer. -/
def ex_eth_dad_ll : State :=
  deliver ex_ll_pending (bufOfList (ex_ns_dad ex_ip_ll)) 64 0
    .IEEE_802_3 .IEEE_802_15_4 ex_host_ll rimeaddr_null 105 10

/-- The gateway after `pgw_init`. -/
def ex_gw0 : Gateway := pgw_init boot_state ex_node_ll

/-- The gateway `g` with a frame from `src` to `dst` that arrived on `inc`. -/
def ex_gw_frame (g : Gateway) (src dst : List Nat) (inc : interface_t) : Gateway :=
  { g with st := { g.st with src_eui64 := src, dst_eui64 := dst, incoming_if := inc } }

/-- The host on Ethernet was learned from a frame that arrived on Ethernet, and a frame
with the same source then arrives on the 6LoWPAN side. -/
def ex_gw_moved : Gateway :=
  ex_gw_frame (bridge_input (ex_gw_frame ex_gw0 ex_host_ll rimeaddr_null .IEEE_802_3) 0)
    ex_host_ll rimeaddr_null .IEEE_802_15_4

/-- An MTU option (type 5, 1 unit). -/
def ex_mtu : List Nat := [5, 1, 0, 0, 0, 0, 5, 0xdc]

/-- A recursive DNS server option (type 25, 3 units). -/
def ex_rdnss : List Nat := [25, 3, 0, 0, 0, 0, 0x0e, 0x10] ++ ex_host

/-- An SLLAO of 1 unit with the MAC address of the RR. -/
def ex_sllao_mac : List Nat := [1, 1, 0x00, 0x11, 0x22, 0x33, 0x44, 0x55]

/-- A TLLAO of 1 unit with the MAC address of the host on Ethernet. -/
def ex_tllao_mac : List Nat := [2, 1, 0x00, 0xaa, 0xbb, 0xcc, 0xdd, 0xee]

/-- A TLLAO of 2 units with the EUI-64 of node A. -/
def ex_tllao_eui : List Nat := [2, 2] ++ ex_eui_a ++ [0, 0, 0, 0, 0, 0]

/-- An option of 27 units (type 253). -/
def ex_opt_long : List Nat := [253, 27] ++ List.replicate 214 0

/-- An option whose length field is 0. -/
def ex_opt_zero : List Nat := [14, 0, 0, 0, 0, 0, 0, 0]

/-- An RA of the RR to all nodes with the given checksum octets and options. -/
def ex_ra_with (c1 c2 : Nat) (opts : List Nat) : List Nat :=
  ex_ip_hdr (16 + opts.length) ex_rr_ip linklocal_allnodes_mcast
    ++ [134, 0, c1, c2, 64, 0, 0x07, 0x08, 0, 0, 0, 0, 0, 0, 0, 0] ++ opts

/-- An NA with flags SOLICITED|OVERRIDE and the given checksum octets and options. -/
def ex_na_with (c1 c2 : Nat) (src dst tgt opts : List Nat) : List Nat :=
  ex_ip_hdr (24 + opts.length) src dst ++ [136, 0, c1, c2, 0x60, 0, 0, 0] ++ tgt ++ opts

/-- The state after boot with the given packet in the buffer. -/
def ex_pkt_state (pkt : List Nat) (inc out : interface_t) (src dst : List Nat) : State :=
  deliver (pgw_nd_init boot_state) (bufOfList pkt) (pkt.length - 14) 0 inc out src dst 10 1

/-- An RA from Ethernet with an MTU option followed by an SLLAO of 1 unit. -/
def ex_ra_mtu_sllao : State :=
  ex_pkt_state (ex_ra_with 91 7 (ex_mtu ++ ex_sllao_mac)) .IEEE_802_3 .IEEE_802_15_4
    ex_rr_ll rimeaddr_null

/-- An RA from Ethernet with an MTU option followed by a recursive DNS server option. -/
def ex_ra_mtu_rdnss : State :=
  ex_pkt_state (ex_ra_with 109 44 (ex_mtu ++ ex_rdnss)) .IEEE_802_3 .IEEE_802_15_4
    ex_rr_ll rimeaddr_null

/-- An NA of the host on Ethernet to `ex_ip1` with a TLLAO of 1 unit followed by an
option of 27 units: the payload is 248 octets long. -/
def ex_na_long : State :=
  ex_pkt_state (ex_na_with 242 235 ex_host ex_ip1 ex_host (ex_tllao_mac ++ ex_opt_long))
    .IEEE_802_3 .IEEE_802_15_4 ex_host_ll ex_eui_a

/-- After `pgw_init`, an NA of node A to the host on Ethernet is in the buffer; it
arrived from the 6LoWPAN side and carries a TLLAO of 2 units followed by an option whose
length field is 0: the IPv6 packet is 88 octets long (payload 48). -/
def ex_gw_zero_opt : Gateway :=
  { ex_gw0 with
    st := deliver ex_gw0.st
      (bufOfList (ex_na_with 123 194 ex_ip1 ex_host ex_ip1 (ex_tllao_eui ++ ex_opt_zero)))
      88 0 .IEEE_802_15_4 .UNDEFINED [] [] 10 1 }

/-- A TLLAO of 2 units with the EUI-64 form of the MAC address of the host on Ethernet. -/
def ex_tllao_host : List Nat := [2, 2] ++ ex_host_ll ++ [0, 0, 0, 0, 0, 0]

/-- The same TLLAO with padding octets that are not 0. -/
def ex_tllao_padded : List Nat := [2, 2] ++ ex_host_ll ++ [1, 2, 3, 4, 5, 6]

/-- An SLLAO of 2 units with the EUI-64 of the RR, which is derived from its MAC address. -/
def ex_sllao_rr : List Nat := [1, 2] ++ ex_rr_ll ++ [0, 0, 0, 0, 0, 0]

/-- The address `2001:db8::f26f`. -/
def ex_ip_f26f : List Nat :=
  [0x20, 0x01, 0x0d, 0xb8, 0, 0, 0, 0, 0, 0, 0, 0, 0, 0, 0xf2, 0x6f]

/-- An NA of the host to `ex_ip1` with the TLLAO `ex_tllao_host`, checksum valid. -/
def ex_na_tllao : State :=
  ex_pkt_state (ex_na_with 241 214 ex_host ex_ip1 ex_host ex_tllao_host)
    .IEEE_802_15_4 .IEEE_802_3 ex_eui_a ex_host_ll

/-- The same NA with the TLLAO `ex_tllao_padded`, checksum valid. -/
def ex_na_padded : State :=
  ex_pkt_state (ex_na_with 232 202 ex_host ex_ip1 ex_host ex_tllao_padded)
    .IEEE_802_15_4 .IEEE_802_3 ex_eui_a ex_host_ll

/-- An RA of the RR with the SLLAO `ex_sllao_rr` followed by an MTU option, checksum
valid. -/
def ex_ra_sllao_mtu : State :=
  ex_pkt_state (ex_ra_with 91 254 (ex_sllao_rr ++ ex_mtu)) .IEEE_802_15_4 .IEEE_802_3
    ex_rr_ll rimeaddr_null

/-- An NA with target `ex_ip_f26f` and the TLLAO `ex_tllao_host`: the message sums to
zero without the checksum field, and the field holds `ff ff`. -/
def ex_na_ffff : State :=
  ex_pkt_state (ex_na_with 0xff 0xff ex_host ex_ip1 ex_ip_f26f ex_tllao_host)
    .IEEE_802_15_4 .IEEE_802_3 ex_eui_a ex_host_ll

/-- A registration NS to the RR with the given checksum octets: SLLAO, then ARO with the
lifetime octets `hi lo`. -/
def ex_ns_registration_lifetime (c1 c2 : Nat) (src e : List Nat) (hi lo : Nat) : List Nat :=
  ex_ip_hdr 56 src ex_rr_ip ++ [135, 0, c1, c2, 0, 0, 0, 0] ++ ex_rr_ip
    ++ [1, 2] ++ e ++ [0, 0, 0, 0, 0, 0]
    ++ [131, 2, 0, 0, 0, 0, hi, lo] ++ e

/-- After `ex_s3` (node A holds `ex_ip1`, registered), the registration NS of node A for
`ex_ip1` with a lifetime of 1093 minutes (`04 45`) is in the buffer. -/
def ex_rereg_long : State :=
  deliver ex_s3 (bufOfList (ex_ns_registration_lifetime 242 64 ex_ip1 ex_eui_a 0x04 0x45)) 96 0
    .IEEE_802_15_4 .IEEE_802_3 ex_eui_a ex_rr_ll 200 20

/-- After `ex_s3`, node A registered `ex_ip1` again with a lifetime of 5 minutes: the
entry is registered with `aro_pending` set. -/
def ex_rereg : State :=
  run_input (deliver ex_s3 (bufOfList (ex_ns_registration ex_ip1 ex_eui_a)) 96 0
    .IEEE_802_15_4 .IEEE_802_3 ex_eui_a ex_rr_ll 200 20)

/-- After `ex_rereg`, the NA of the RR to `ex_ip1` is in the buffer; it carries a TLLAO of
1 unit and an option of 27 units, so its payload is 248 octets long. -/
def ex_na_rr_long : State :=
  deliver ex_rereg
    (bufOfList (ex_na_with 131 91 ex_rr_ip ex_ip1 ex_rr_ip (ex_tllao_mac ++ ex_opt_long)))
    288 0 .IEEE_802_3 .IEEE_802_15_4 ex_rr_ll ex_eui_a 210 21

/-- After `ex_s3`, an NA of the host on Ethernet to all-nodes for `ex_ip2`, which
nobody registered, is in the buffer. -/
def ex_na_unrelated : State :=
  deliver ex_s3 (bufOfList (ex_na_allnodes ex_host ex_ip2)) 64 0
    .IEEE_802_3 .IEEE_802_15_4 ex_host_ll rimeaddr_null 200 20

/-- After `ex_s3`, an NA of the host on Ethernet to all-nodes for `ex_ip1`, which node A
holds registered, is in the buffer. -/
def ex_na_registered_target : State :=
  deliver ex_s3 (bufOfList (ex_na_allnodes ex_host ex_ip1)) 64 0
    .IEEE_802_3 .IEEE_802_15_4 ex_host_ll rimeaddr_null 200 20

/-- A prefix information option for the prefix `2001:db8:0:k::/64` with the on-link and
autonomous flags set. -/
def ex_pio (k : Nat) : List Nat :=
  [3, 4, 64, 0xc0, 0, 0, 0x0e, 0x10, 0, 0, 0x07, 0x08, 0, 0, 0, 0,
   0x20, 0x01, 0x0d, 0xb8, 0, 0, 0, k, 0, 0, 0, 0, 0, 0, 0, 0]

/-- The state `s` with an RA of the RR from Ethernet in the buffer, with the given
checksum octets and options, at second `now`. -/
def ex_ra_in (s : State) (c1 c2 : Nat) (opts : List Nat) (now : Nat) : State :=
  deliver s (bufOfList (ex_ra_with c1 c2 opts)) (56 + opts.length) 0 .IEEE_802_3 .IEEE_802_15_4
    ex_rr_ll rimeaddr_null (16 * now) now

/-- After boot, an RA with two prefix information options is in the buffer. -/
def ex_ra_two_pio : State := ex_ra_in (pgw_nd_init boot_state) 192 32 (ex_pio 1 ++ ex_pio 2) 1

/-- After boot, the RR advertised the prefix 1: a context is created in slot 0. -/
def ex_ctx1 : State := run_input (ex_ra_in (pgw_nd_init boot_state) 70 216 (ex_pio 1) 1)

/-- Then the RR advertised the prefix 2: a context is created in slot 1. -/
def ex_ctx2 : State := run_input (ex_ra_in ex_ctx1 70 215 (ex_pio 2) 2)

/-- Then the RR advertised the prefix 3: a context is created in slot 2. -/
def ex_ctx3 : State := run_input (ex_ra_in ex_ctx2 70 214 (ex_pio 3) 3)

/-- After `ex_ctx3`, the RA with the prefix 3 is in the buffer again. -/
def ex_ctx3_again : State := ex_ra_in ex_ctx3 70 214 (ex_pio 3) 4

/-- After `ex_ctx3`, a periodic tick is due at second 1000, when the timers of the three
contexts have expired. -/
def ex_ctx3_aged : State :=
  deliver ex_ctx3 (fun _ => 0) 0 0 .UNDEFINED .UNDEFINED [] [] 16000 1000

/-- After `ex_ctx1`, periodic ticks at seconds 700 and 4400: the context in slot 0 is
in use for compression, then expired. -/
def ex_ctx_expired : State :=
  pgw_periodic (deliver
    (pgw_periodic (deliver ex_ctx1 (fun _ => 0) 0 0 .UNDEFINED .UNDEFINED [] [] 11200 700))
    (fun _ => 0) 0 0 .UNDEFINED .UNDEFINED [] [] 70400 4400)

/-- After `ex_ctx_expired`, an RA with the prefix 2 is in the buffer. -/
def ex_ra_after_expiry : State := ex_ra_in ex_ctx_expired 70 215 (ex_pio 2) 4401

/-- An RA of another router on Ethernet, with source `ex_ip_ll`, without options. -/
def ex_ra_other : List Nat :=
  ex_ip_hdr 16 ex_ip_ll linklocal_allnodes_mcast
    ++ [134, 0, 53, 37, 64, 0, 0x07, 0x08, 0, 0, 0, 0, 0, 0, 0, 0]

/-- After `ex_s1` (the RR is known), the RA of the other router is in the buffer. -/
def ex_second_router : State :=
  deliver ex_s1 (bufOfList ex_ra_other) 56 0 .IEEE_802_3 .IEEE_802_15_4
    ex_host_ll rimeaddr_null 50 5

/-- The gateway after `pgw_init` and frames from `n` distinct sources on the 6LoWPAN
side. -/
def ex_gw_fill (n : Nat) : Gateway :=
  (List.range n).foldl
    (fun g k => bridge_input (ex_gw_frame g [0x02, 0, 0, 0, 0, 0, 1, k] rimeaddr_null .IEEE_802_15_4) 0)
    ex_gw0

/-- The all-routers multicast address `ff02::2`. -/
def ex_allrouters : List Nat := [0xff, 0x02, 0, 0, 0, 0, 0, 0, 0, 0, 0, 0, 0, 0, 0, 2]

/-- An RS to the all-routers address with the given checksum octets and options. -/
def ex_rs (src : List Nat) (c1 c2 : Nat) (opts : List Nat) : List Nat :=
  ex_ip_hdr (8 + opts.length) src ex_allrouters ++ [133, 0, c1, c2, 0, 0, 0, 0] ++ opts

/-- The state `s` with the RS in the buffer, arrived from the 6LoWPAN node with EUI-64
`e`, at second `now`. -/
def ex_rs_in (s : State) (src e : List Nat) (c1 c2 : Nat) (opts : List Nat) (now : Nat) :
    State :=
  deliver s (bufOfList (ex_rs src c1 c2 opts)) (48 + opts.length) 0 .IEEE_802_15_4 .IEEE_802_3
    e rimeaddr_null (16 * now) now

/-- An SLLAO in the 6LoWPAN form with the EUI-64 `e`. -/
def ex_sllao (e : List Nat) : List Nat := [1, 2] ++ e ++ [0, 0, 0, 0, 0, 0]

/-- After `ex_s1`, an RS of node B, not yet in the cache, with source `ex_ip2`. -/
def ex_rs_new : State := ex_rs_in ex_s1 ex_ip2 ex_eui_b 74 224 (ex_sllao ex_eui_b) 20

/-- After `ex_s3` (node A holds `ex_ip1`), an RS of node A with an SLLAO. -/
def ex_rs_known : State := ex_rs_in ex_s3 ex_ip1 ex_eui_a 74 226 (ex_sllao ex_eui_a) 20

/-- After `ex_s3`, an RS of node A with an SLLAO followed by an option of length 0. -/
def ex_rs_zero : State :=
  ex_rs_in ex_s3 ex_ip1 ex_eui_a 74 218 (ex_sllao ex_eui_a ++ [0, 0, 0, 0, 0, 0, 0, 0]) 20

/-- With the cache of `ex_full_state` (25 registered entries, none for `ex_ip1`), an RS of
node B with source `ex_ip1` and an SLLAO. -/
def ex_rs_full : State := ex_rs_in ex_full_state ex_ip1 ex_eui_b 74 225 (ex_sllao ex_eui_b) 20

/-- Room for the Ethernet header and an IPv6 header for an ICMPv6 message whose payload
length takes two octets. -/
def ex_ip_hdr_long (len : Nat) (src dst : List Nat) : List Nat :=
  List.replicate 14 0 ++ [0x60, 0, 0, 0, len / 256, len % 256, 58, 255] ++ src ++ dst

/-- An option of 32 units (type 253): 256 octets. -/
def ex_opt_32 : List Nat := [253, 32] ++ List.replicate 254 0

/-- After `ex_s1`, an RS of node B with one option of 32 units is in the buffer. -/
def ex_rs_wrap : State :=
  deliver ex_s1
    (bufOfList (ex_ip_hdr_long 264 ex_ip2 ex_allrouters ++ [133, 0, 79, 220, 0, 0, 0, 0]
      ++ ex_opt_32))
    304 0 .IEEE_802_15_4 .IEEE_802_3 ex_eui_b rimeaddr_null 320 20

/-- After `ex_s1`, a unicast NS of node B to the RR with one option of 32 units is in the
buffer. -/
def ex_ns_wrap : State :=
  deliver ex_s1
    (bufOfList (ex_ip_hdr_long 280 ex_ip2 ex_rr_ip ++ [135, 0, 128, 156, 0, 0, 0, 0] ++ ex_rr_ip
      ++ ex_opt_32))
    320 0 .IEEE_802_15_4 .IEEE_802_3 ex_eui_b ex_rr_ll 320 20

/-- After `ex_s1`, an RA of the RR with one option of 32 units is in the buffer. -/
def ex_ra_wrap : State :=
  deliver ex_s1
    (bufOfList (ex_ip_hdr_long 272 ex_rr_ip linklocal_allnodes_mcast
      ++ [134, 0, 207, 109, 64, 0, 0x07, 0x08, 0, 0, 0, 0, 0, 0, 0, 0] ++ ex_opt_32))
    312 0 .IEEE_802_3 .IEEE_802_15_4 ex_rr_ll rimeaddr_null 320 20

/-- After `ex_s1`, an NS of node B for `ex_host` to its solicited-node multicast address,
with one option of 32 units, is in the buffer. -/
def ex_ns_mcast_wrap : State :=
  deliver ex_s1
    (bufOfList (ex_ip_hdr_long 280 ex_ip2 (uip_create_solicited_node ex_host)
      ++ [135, 0, 31, 225, 0, 0, 0, 0] ++ ex_host ++ ex_opt_32))
    320 0 .IEEE_802_15_4 .IEEE_802_3 ex_eui_b rimeaddr_null 320 20
/-- An option of 1 unit of a type the gateway does not know (253), all data octets `ff`. -/
def ex_opt_unknown : List Nat := [253, 1, 0xff, 0xff, 0xff, 0xff, 0xff, 0xff]

/-- After `ex_ctx1` (an RA with a prefix information option was handled), an RA of the RR
without a prefix information option is in the buffer. -/
def ex_ra_no_pio : State := ex_ra_in ex_ctx1 208 132 ex_opt_unknown 2

/-- After boot, the same RA without a prefix information option is in the buffer. -/
def ex_ra_no_pio_first : State := ex_ra_in (pgw_nd_init boot_state) 208 132 ex_opt_unknown 2
/-- A registration NS to the RR with the given checksum octets in which the ARO (lifetime
5 minutes) precedes the SLLAO. -/
def ex_ns_aro_first (c1 c2 : Nat) (src e : List Nat) : List Nat :=
  ex_ip_hdr 56 src ex_rr_ip ++ [135, 0, c1, c2, 0, 0, 0, 0] ++ ex_rr_ip
    ++ [131, 2, 0, 0, 0, 0, 0, 5] ++ e
    ++ [1, 2] ++ e ++ [0, 0, 0, 0, 0, 0]

/-- After `ex_s3` (node A holds `ex_ip1`, registered), the registration NS of node B for
`ex_ip1`, ARO first, is in the buffer. -/
def ex_duplicate_aro_first : State :=
  deliver ex_s3 (bufOfList (ex_ns_aro_first 246 126 ex_ip1 ex_eui_b)) 96 0
    .IEEE_802_15_4 .IEEE_802_3 ex_eui_b ex_rr_ll 200 20
/-- After `ex_rs_new` was handled (node B has a tentative entry created by its RS), the
periodic tick of the next second. -/
def ex_rs_tick1 : State :=
  pgw_periodic (deliver (run_input ex_rs_new) (fun _ => 0) 0 0 .UNDEFINED .UNDEFINED [] []
    336 21)

/-- Then the periodic tick two seconds later. -/
def ex_rs_tick2 : State :=
  pgw_periodic (deliver ex_rs_tick1 (fun _ => 0) 0 0 .UNDEFINED .UNDEFINED [] [] 368 23)
/-- After boot, the RA of the RR with the prefix information option for the prefix 1 and
no SLLAO is in the buffer (the RA that leads to `ex_ctx1`). -/
def ex_ra_pio1 : State := ex_ra_in (pgw_nd_init boot_state) 70 216 (ex_pio 1) 1
/-- After `ex_rs_new` was handled, an RS of node A with source `ex_ip1` and an SLLAO was
handled too: two entries are marked `ra_pending`. -/
def ex_two_pending : State :=
  run_input (ex_rs_in (run_input ex_rs_new) ex_ip1 ex_eui_a 74 226 (ex_sllao ex_eui_a) 21)

/-- Then the RA of the RR to all nodes, with its SLLAO of 1 unit, is in the buffer. -/
def ex_ra_fanout : State := ex_ra_in ex_two_pending 101 236 ex_sllao_mac 22
/-- After `ex_ctx1` (the context of the prefix 1 exists), an RS of node B was handled:
one entry is marked `ra_pending`. -/
def ex_one_pending : State :=
  run_input (ex_rs_in ex_ctx1 ex_ip2 ex_eui_b 74 224 (ex_sllao ex_eui_b) 20)

/-- Then an RA of the RR to all nodes of 288 octets is in the buffer: its SLLAO of 1 unit
and seven prefix information options for the prefix 1. -/
def ex_ra_long : State :=
  deliver ex_one_pending
    (bufOfList (ex_ip_hdr_long 248 ex_rr_ip linklocal_allnodes_mcast
      ++ [134, 0, 182, 238, 64, 0, 0x07, 0x08, 0, 0, 0, 0, 0, 0, 0, 0] ++ ex_sllao_mac
      ++ ex_pio 1 ++ ex_pio 1 ++ ex_pio 1 ++ ex_pio 1 ++ ex_pio 1 ++ ex_pio 1 ++ ex_pio 1))
    288 0 .IEEE_802_3 .IEEE_802_15_4 ex_rr_ll rimeaddr_null 352 22

/-- A prefix information option for the prefix `2000::/4`. -/
def ex_pio_short : List Nat :=
  [3, 4, 4, 0xc0, 0, 0, 0x0e, 0x10, 0, 0, 0x07, 0x08, 0, 0, 0, 0,
   0x20, 0, 0, 0, 0, 0, 0, 0, 0, 0, 0, 0, 0, 0, 0, 0]

/-- After boot, the RA of the RR with the prefix information option for `2000::/4` is in
the buffer (88 octets); the buffer holds octets `aa` after the packet. -/
def ex_ra_short : State :=
  deliver (pgw_nd_init boot_state)
    (bufOfList (ex_ra_with 144 146 ex_pio_short ++ List.replicate 64 0xaa))
    88 0 .IEEE_802_3 .IEEE_802_15_4 ex_rr_ll rimeaddr_null 16 1

/-- After the RA of `ex_ra_short` was handled (the context of slot 0 has length 4), an RA
of the RR without options is in the buffer (56 octets), followed by octets `aa`. -/
def ex_append_short : State :=
  deliver (run_input ex_ra_short) (bufOfList (ex_ra_with 205 142 [] ++ List.replicate 64 0xaa))
    56 0 .IEEE_802_3 .IEEE_802_15_4 ex_rr_ll rimeaddr_null 32 2

/-- After `ex_ctx1` (the context of slot 0 has length 64), the same RA and the same octets
after it are in the buffer. -/
def ex_append_64 : State :=
  deliver ex_ctx1 (bufOfList (ex_ra_with 205 142 [] ++ List.replicate 64 0xaa))
    56 0 .IEEE_802_3 .IEEE_802_15_4 ex_rr_ll rimeaddr_null 32 2

/-- After `ex_s3` (node A holds `ex_ip1`, registered at second 10 for 300 s), node B
registered `ex_ip2` at second 309: its entry (slot 23) is tentative and a DAD NS went
out. -/
def ex_b_registers : State :=
  run_input (deliver ex_s3 (bufOfList (ex_ns_registration_lifetime 246 125 ex_ip2 ex_eui_b 0 5))
    96 0 .IEEE_802_15_4 .IEEE_802_3 ex_eui_b ex_rr_ll 4944 309)

/-- Then it is second 310: the entry of node A has expired and the DAD timer of the entry
of node B has expired. -/
def ex_tick_behind_dad : State :=
  deliver ex_b_registers (fun _ => 0) 0 0 .UNDEFINED .UNDEFINED [] [] 4960 310

/-- After `ex_s3`, node A registered `ex_ip1` again with a lifetime of 0 minutes, and it
is the next second. -/
def ex_tick_lifetime_0 : State :=
  deliver
    (run_input (deliver ex_s3
      (bufOfList (ex_ns_registration_lifetime 246 133 ex_ip1 ex_eui_a 0 0)) 96 0
      .IEEE_802_15_4 .IEEE_802_3 ex_eui_a ex_rr_ll 200 20))
    (fun _ => 0) 0 0 .UNDEFINED .UNDEFINED [] [] 336 21

/-- A state that knows the RR, at tick 100 (second 10), whose cache holds 25 used
entries, none for `ex_ip1`: the entries of slots 3 and 7 are garbage-collectible, last
looked up at ticks `l3` and `l7`; the others are registered, last looked up at tick 10. -/
def ex_gc_state (l3 l7 : Nat) : State :=
  { ex_base ((List.range 25).map (fun k =>
      { ex_nbr [0x20, 0x01, 0x0d, 0xb8, 0, 0, 0, 0, 0, 0, 0, 0, 0, 0, 1, k] ex_eui_a
          (if k = 3 ∨ k = 7 then PGW_GARBAGE_COLLECTIBLE else PGW_REGISTERED) with
        last_lookup := if k = 3 then l3 else if k = 7 then l7 else 10 })) with
    clock_time := 100
    clock_seconds := 10 }

/-- The MAC address of the RR. -/
def ex_rr_mac : List Nat := [0x00, 0x11, 0x22, 0x33, 0x44, 0x55]

/-- The Ethernet MAC address of the gateway; `ex_gw_ll` is its EUI-64 form and
`ex_gw_ip` the link-local address derived from it. -/
def ex_gw_mac : List Nat := [0x02, 0, 0, 0, 0, 0x01]

def ex_gw_ll : List Nat := [0x02, 0, 0, 0xff, 0xfe, 0, 0, 0x01]

def ex_gw_ip : List Nat := [0xfe, 0x80, 0, 0, 0, 0, 0, 0, 0, 0, 0, 0xff, 0xfe, 0, 0, 0x01]

/-- A 6LoWPAN node C whose EUI-64 is derived from the MAC address `ex_mac_c`, and its
link-local address. -/
def ex_mac_c : List Nat := [0x02, 0, 0, 0, 0, 0x0c]

def ex_eui_c : List Nat := [0x02, 0, 0, 0xff, 0xfe, 0, 0, 0x0c]

def ex_ip_c : List Nat := [0xfe, 0x80, 0, 0, 0, 0, 0, 0, 0, 0, 0, 0xff, 0xfe, 0, 0, 0x0c]

/-- An Ethernet frame from the RR to the MAC address `dmac` with a Redirect message of
the RR for the IPv6 destination `dst`: the better first hop for `ex_host` is `ex_ip_ll`.
There is no option; the IPv6 packet is 80 octets long. -/
def ex_redirect (c1 c2 : Nat) (dmac dst : List Nat) : List Nat :=
  dmac ++ ex_rr_mac ++ [0x86, 0xdd] ++ [0x60, 0, 0, 0, 0, 40, 58, 255] ++ ex_rr_ip ++ dst
    ++ [ICMP6_REDIRECT, 0, c1, c2, 0, 0, 0, 0] ++ ex_ip_ll ++ ex_host

/-- After `pgw_init` with the node address `ex_gw_ll`, the gateway has seen a frame of
node C on the 6LoWPAN side, and the Redirect of the RR for node C arrives on Ethernet. -/
def ex_gw_redirect_lowpan : Gateway :=
  { bridge_input (ex_gw_frame (pgw_init boot_state ex_gw_ll) ex_eui_c rimeaddr_null
      .IEEE_802_15_4) 0 with
    st := deliver (pgw_init boot_state ex_gw_ll).st
      (bufOfList (ex_redirect 230 31 ex_mac_c ex_ip_c)) 80 0 .IEEE_802_3 .UNDEFINED [] [] 10 1 }

/-- After `pgw_init` with the node address `ex_gw_ll`, the Redirect of the RR for the
gateway itself arrives on Ethernet: the bridge decision is the local stack. -/
def ex_gw_redirect_local : Gateway :=
  { pgw_init boot_state ex_gw_ll with
    st := deliver (pgw_init boot_state ex_gw_ll).st
      (bufOfList (ex_redirect 230 42 ex_gw_mac ex_gw_ip)) 80 0 .IEEE_802_3 .UNDEFINED [] [] 10 1 }

/-- After `pgw_init` with the node address `ex_node_ll`, the same Redirect arrives on
Ethernet: the destination is not in the bridge table, the bridge decision is flood. -/
def ex_gw_redirect_flood : Gateway :=
  { ex_gw0 with
    st := deliver ex_gw0.st
      (bufOfList (ex_redirect 230 42 ex_gw_mac ex_gw_ip)) 80 0 .IEEE_802_3 .UNDEFINED [] [] 10 1 }

/-! ## Lemmas on the packet buffer and the table scan -/

theorem readBytes_length (b : Nat → Nat) (off n : Nat) : (readBytes b off n).length = n := by
  simp [readBytes]

theorem readBytes_congr (b c : Nat → Nat) (off n : Nat)
    (h : ∀ j, off ≤ j → j < off + n → b j = c j) : readBytes b off n = readBytes c off n := by
  unfold readBytes
  apply List.map_congr_left
  intro i hi
  simp only [List.mem_range] at hi
  exact h (off + i) (by omega) (by omega)

theorem readBytes_setByte (b : Nat → Nat) (off n i v : Nat) (h : i < off ∨ off + n ≤ i) :
    readBytes (setByte b i v) off n = readBytes b off n := by
  apply readBytes_congr
  intro j h1 h2
  simp only [setByte]
  rw [if_neg (by omega)]

theorem readBytes_store16 (b : Nat → Nat) (off n i v : Nat) (h : i + 1 < off ∨ off + n ≤ i) :
    readBytes (store16 b i v) off n = readBytes b off n := by
  unfold store16
  rw [readBytes_setByte _ _ _ _ _ (by omega), readBytes_setByte _ _ _ _ _ (by omega)]

theorem readBytes_memcpyVal_disj (b : Nat → Nat) (off n o : Nat) (l : List Nat) (m : Nat)
    (h : o + m ≤ off ∨ off + n ≤ o) :
    readBytes (memcpyVal b o l m) off n = readBytes b off n := by
  apply readBytes_congr
  intro j h1 h2
  simp only [memcpyVal]
  rw [if_neg (by omega)]

theorem readBytes_memsetBuf_disj (b : Nat → Nat) (off n o v m : Nat)
    (h : o + m ≤ off ∨ off + n ≤ o) :
    readBytes (memsetBuf b o v m) off n = readBytes b off n := by
  apply readBytes_congr
  intro j h1 h2
  simp only [memsetBuf]
  rw [if_neg (by omega)]

theorem readBytes_memcpyVal_same (b : Nat → Nat) (off : Nat) (l : List Nat) (n : Nat)
    (h : l.length = n) : readBytes (memcpyVal b off l n) off n = l := by
  apply List.ext_getElem
  · simp [readBytes, h]
  · intro i h1 h2
    simp only [readBytes_length] at h1
    simp only [readBytes, List.getElem_map, List.getElem_range, memcpyVal]
    rw [if_pos (by omega)]
    simp [List.getD_eq_getElem?_getD, List.getElem?_eq_getElem h2]

theorem list_loop_from_found (ip : List Nat) (cache : List pgw_nbr_t) (k i : Nat)
    (out : Option Nat) (n : pgw_nbr_t)
    (hn : cache[i]? = some n) (hu : n.isused = true) (hip : n.ipaddr = ip)
    (hfirst : ∀ j m, j < i → cache[j]? = some m → m.isused = true → m.ipaddr ≠ ip) :
    uip_ds6_list_loop_from ip cache k out = .FOUND (k + i) := by
  induction cache generalizing i k out with
  | nil => simp at hn
  | cons a rest ih =>
    cases i with
    | zero =>
      simp at hn
      subst hn
      simp [uip_ds6_list_loop_from, hu, hip]
    | succ i =>
      simp only [List.getElem?_cons_succ] at hn
      have h0 := hfirst 0 a (by omega) (by simp)
      have hrest : ∀ j m, j < i → rest[j]? = some m → m.isused = true → m.ipaddr ≠ ip := by
        intro j m hj hm
        exact hfirst (j + 1) m (by omega) (by simpa using hm)
      unfold uip_ds6_list_loop_from
      by_cases hau : a.isused = true
      · rw [if_pos hau, if_neg (h0 hau), ih (k + 1) i out hn hrest]
        congr 1
        omega
      · rw [if_neg hau, ih (k + 1) i (some k) hn hrest]
        congr 1
        omega

theorem pgw_nbr_lookup_first (cache : List pgw_nbr_t) (ip : List Nat) (i : Nat) (n : pgw_nbr_t)
    (hn : cache[i]? = some n) (hu : n.isused = true) (hip : n.ipaddr = ip)
    (hfirst : ∀ j m, j < i → cache[j]? = some m → m.isused = true → m.ipaddr ≠ ip) :
    pgw_nbr_lookup cache ip = some i := by
  simp [pgw_nbr_lookup, uip_ds6_list_loop, list_loop_from_found ip cache 0 i none n hn hu hip hfirst]


/-! ### Frame and content lemmas of the packet builders -/

theorem checksum_buf (s : State) (j : Nat) (h : j ≠ 56 ∧ j ≠ 57) :
    (pgw_update_icmp_checksum s).uip_buf j = s.uip_buf j := by
  simp only [pgw_update_icmp_checksum, store16, setByte, UIP_LLH_LEN, UIP_IPH_LEN]
  repeat rw [if_neg (by omega)]

theorem checksum_readBytes (s : State) (off n : Nat) (h : 57 < off ∨ off + n ≤ 56) :
    readBytes (pgw_update_icmp_checksum s).uip_buf off n = readBytes s.uip_buf off n := by
  apply readBytes_congr
  intro j h1 h2
  exact checksum_buf s j (by omega)

theorem checksum_len (s : State) : (pgw_update_icmp_checksum s).uip_len = s.uip_len := rfl
theorem checksum_ext_len (s : State) :
    (pgw_update_icmp_checksum s).uip_ext_len = s.uip_ext_len := rfl
theorem checksum_cache (s : State) :
    (pgw_update_icmp_checksum s).pgw_6ln_cache = s.pgw_6ln_cache := rfl
theorem checksum_outgoing (s : State) :
    (pgw_update_icmp_checksum s).outgoing_if = s.outgoing_if := rfl
theorem checksum_incoming (s : State) :
    (pgw_update_icmp_checksum s).incoming_if = s.incoming_if := rfl
theorem checksum_src_eui64 (s : State) :
    (pgw_update_icmp_checksum s).src_eui64 = s.src_eui64 := rfl
theorem checksum_dst_eui64 (s : State) :
    (pgw_update_icmp_checksum s).dst_eui64 = s.dst_eui64 := rfl
theorem checksum_rr_ipaddr (s : State) :
    (pgw_update_icmp_checksum s).rr_ipaddr = s.rr_ipaddr := rfl
theorem checksum_rr_lladdr (s : State) :
    (pgw_update_icmp_checksum s).rr_lladdr = s.rr_lladdr := rfl
theorem checksum_ipaddr (s : State) : (pgw_update_icmp_checksum s).ipaddr = s.ipaddr := rfl
theorem checksum_clock_time (s : State) :
    (pgw_update_icmp_checksum s).clock_time = s.clock_time := rfl

theorem append_len_llao (s : State) (type : Nat) (d : data_ptr) (st lt : Nat)
    (ht : type = 1 ∨ type = 2) :
    (pgw_append_icmp_opt s type d st lt).uip_len = (s.uip_len + 16) % 65536 := by
  rcases ht with h | h <;> subst h <;> simp [pgw_append_icmp_opt]

theorem append_len_aro (s : State) (d : data_ptr) (st lt : Nat) :
    (pgw_append_icmp_opt s 131 d st lt).uip_len = (s.uip_len + 16) % 65536 := by
  simp [pgw_append_icmp_opt]

theorem append_buf_frame (s : State) (type : Nat) (d : data_ptr) (st lt : Nat) (j : Nat)
    (h : j < 14 + s.uip_len ∧ j ≠ 19) :
    (pgw_append_icmp_opt s type d st lt).uip_buf j = s.uip_buf j := by
  obtain ⟨h1, h2⟩ := h
  unfold pgw_append_icmp_opt
  simp only [UIP_LLH_LEN]
  split_ifs
  · simp only [setByte, memcpyVal, memsetBuf, UIP_ND6_OPT_DATA_OFFSET, UIP_LLADDR_LEN]
    repeat rw [if_neg (by omega)]
  · simp only [setByte, memcpyVal, store16, UIP_LLADDR_LEN]
    repeat rw [if_neg (by omega)]
  · split
    · split
      · simp only [setByte, store16]
        repeat rw [if_neg (by omega)]
        split_ifs <;> simp only [setByte] <;> repeat (rw [if_neg (by omega)])
      · simp only [setByte]; rw [if_neg (by omega)]
    · simp only [setByte]; rw [if_neg (by omega)]
  · simp only [setByte]; rw [if_neg (by omega)]

theorem append_readBytes_frame (s : State) (type : Nat) (d : data_ptr) (st lt : Nat)
    (off n : Nat) (h : off + n ≤ 14 + s.uip_len ∧ (19 < off ∨ off + n ≤ 19)) :
    readBytes (pgw_append_icmp_opt s type d st lt).uip_buf off n = readBytes s.uip_buf off n := by
  apply readBytes_congr
  intro j h1 h2
  exact append_buf_frame s type d st lt j (by omega)

theorem setByte_eq (b : Nat → Nat) (i v : Nat) : setByte b i v i = v := by simp [setByte]

theorem setByte_ne (b : Nat → Nat) (i v j : Nat) (h : j ≠ i) : setByte b i v j = b j := by
  simp [setByte, h]

theorem memcpyVal_out (b : Nat → Nat) (off : Nat) (l : List Nat) (n j : Nat)
    (h : j < off ∨ off + n ≤ j) : memcpyVal b off l n j = b j := by
  simp only [memcpyVal]
  rw [if_neg (by omega)]

theorem memsetBuf_out (b : Nat → Nat) (off v n j : Nat)
    (h : j < off ∨ off + n ≤ j) : memsetBuf b off v n j = b j := by
  simp only [memsetBuf]
  rw [if_neg (by omega)]

theorem store16_out (b : Nat → Nat) (i v j : Nat) (h : j < i ∨ i + 1 < j) :
    store16 b i v j = b j := by
  simp only [store16, setByte]
  rw [if_neg (by omega), if_neg (by omega)]

theorem store16_lo (b : Nat → Nat) (i v : Nat) : store16 b i v i = v % 256 := by
  simp [store16, setByte]

theorem store16_hi (b : Nat → Nat) (i v j : Nat) (h : j = i + 1) :
    store16 b i v j = v / 256 % 256 := by
  subst h
  simp [store16, setByte]

theorem append_buf_type (s : State) (type : Nat) (d : data_ptr) (st lt : Nat) (j : Nat)
    (h : j = 14 + s.uip_len ∧ 6 ≤ s.uip_len ∧ (type = 1 ∨ type = 2 ∨ type = 131)) :
    (pgw_append_icmp_opt s type d st lt).uip_buf j = type := by
  obtain ⟨h1, h2, h3⟩ := h
  subst h1
  rcases h3 with h | h | h <;> subst h <;>
    simp (disch := omega) [pgw_append_icmp_opt, setByte_ne, setByte_eq, memcpyVal_out,
      memsetBuf_out, store16_out]

theorem append_buf_optlen (s : State) (type : Nat) (d : data_ptr) (st lt : Nat) (j : Nat)
    (h : j = 14 + s.uip_len + 1 ∧ 6 ≤ s.uip_len ∧ (type = 1 ∨ type = 2 ∨ type = 131)) :
    (pgw_append_icmp_opt s type d st lt).uip_buf j = 2 := by
  obtain ⟨h1, h2, h3⟩ := h
  subst h1
  rcases h3 with h | h | h <;> subst h <;>
    simp (disch := omega) [pgw_append_icmp_opt, setByte_ne, setByte_eq, memcpyVal_out,
      memsetBuf_out, store16_out]

theorem append_aro_status (s : State) (d : data_ptr) (st lt : Nat) (j : Nat)
    (h : j = 14 + s.uip_len + 2 ∧ 6 ≤ s.uip_len) :
    (pgw_append_icmp_opt s 131 d st lt).uip_buf j = st := by
  obtain ⟨h1, h2⟩ := h
  subst h1
  simp (disch := omega) [pgw_append_icmp_opt, setByte_ne, setByte_eq, memcpyVal_out,
      memsetBuf_out, store16_out]

theorem append_aro_lifetime_lo (s : State) (d : data_ptr) (st lt : Nat) (j : Nat)
    (h : j = 14 + s.uip_len + 6 ∧ 6 ≤ s.uip_len) :
    (pgw_append_icmp_opt s 131 d st lt).uip_buf j = lt % 256 := by
  obtain ⟨h1, h2⟩ := h
  subst h1
  simp (disch := omega) [pgw_append_icmp_opt, setByte_ne, setByte_eq, memcpyVal_out,
      memsetBuf_out, store16_out, store16_lo]

theorem append_aro_lifetime_hi (s : State) (d : data_ptr) (st lt : Nat) (j : Nat)
    (h : j = 14 + s.uip_len + 7 ∧ 6 ≤ s.uip_len) :
    (pgw_append_icmp_opt s 131 d st lt).uip_buf j = lt / 256 % 256 := by
  obtain ⟨h1, h2⟩ := h
  subst h1
  simp (disch := omega) [pgw_append_icmp_opt, setByte_ne, setByte_eq, memcpyVal_out,
      memsetBuf_out, store16_out, store16_hi]

theorem append_llao_val (s : State) (type : Nat) (l : List Nat) (st lt : Nat) (off : Nat)
    (h : off = 14 + s.uip_len + 2 ∧ 6 ≤ s.uip_len ∧ (type = 1 ∨ type = 2) ∧ l.length = 8) :
    readBytes (pgw_append_icmp_opt s type (.val l) st lt).uip_buf off 8 = l := by
  obtain ⟨h1, h2, h3, h4⟩ := h
  subst h1
  rcases h3 with h | h <;> subst h <;>
    simp (disch := omega) [pgw_append_icmp_opt, readBytes_setByte, readBytes_memsetBuf_disj,
      readBytes_memcpyVal_same, data_ptr.lladdr, h4]

theorem append_aro_val (s : State) (l : List Nat) (st lt : Nat) (off : Nat)
    (h : off = 14 + s.uip_len + 8 ∧ 6 ≤ s.uip_len ∧ l.length = 8) :
    readBytes (pgw_append_icmp_opt s 131 (.val l) st lt).uip_buf off 8 = l := by
  obtain ⟨h1, h2, h4⟩ := h
  subst h1
  simp (disch := omega) [pgw_append_icmp_opt, readBytes_setByte, readBytes_memsetBuf_disj,
      readBytes_memcpyVal_same, data_ptr.lladdr, h4]

theorem append_uip_ext_len (s : State) (type : Nat) (d : data_ptr) (st lt : Nat) :
    (pgw_append_icmp_opt s type d st lt).uip_ext_len = s.uip_ext_len := by
  unfold pgw_append_icmp_opt
  repeat' split
  all_goals rfl

theorem append_incoming_if (s : State) (type : Nat) (d : data_ptr) (st lt : Nat) :
    (pgw_append_icmp_opt s type d st lt).incoming_if = s.incoming_if := by
  unfold pgw_append_icmp_opt
  repeat' split
  all_goals rfl

theorem append_outgoing_if (s : State) (type : Nat) (d : data_ptr) (st lt : Nat) :
    (pgw_append_icmp_opt s type d st lt).outgoing_if = s.outgoing_if := by
  unfold pgw_append_icmp_opt
  repeat' split
  all_goals rfl

theorem append_src_eui64 (s : State) (type : Nat) (d : data_ptr) (st lt : Nat) :
    (pgw_append_icmp_opt s type d st lt).src_eui64 = s.src_eui64 := by
  unfold pgw_append_icmp_opt
  repeat' split
  all_goals rfl

theorem append_dst_eui64 (s : State) (type : Nat) (d : data_ptr) (st lt : Nat) :
    (pgw_append_icmp_opt s type d st lt).dst_eui64 = s.dst_eui64 := by
  unfold pgw_append_icmp_opt
  repeat' split
  all_goals rfl

theorem append_rr_ipaddr (s : State) (type : Nat) (d : data_ptr) (st lt : Nat) :
    (pgw_append_icmp_opt s type d st lt).rr_ipaddr = s.rr_ipaddr := by
  unfold pgw_append_icmp_opt
  repeat' split
  all_goals rfl

theorem append_rr_lladdr (s : State) (type : Nat) (d : data_ptr) (st lt : Nat) :
    (pgw_append_icmp_opt s type d st lt).rr_lladdr = s.rr_lladdr := by
  unfold pgw_append_icmp_opt
  repeat' split
  all_goals rfl

theorem append_ipaddr (s : State) (type : Nat) (d : data_ptr) (st lt : Nat) :
    (pgw_append_icmp_opt s type d st lt).ipaddr = s.ipaddr := by
  unfold pgw_append_icmp_opt
  repeat' split
  all_goals rfl

theorem append_pgw_6ln_cache (s : State) (type : Nat) (d : data_ptr) (st lt : Nat) :
    (pgw_append_icmp_opt s type d st lt).pgw_6ln_cache = s.pgw_6ln_cache := by
  unfold pgw_append_icmp_opt
  repeat' split
  all_goals rfl

theorem append_clock_time (s : State) (type : Nat) (d : data_ptr) (st lt : Nat) :
    (pgw_append_icmp_opt s type d st lt).clock_time = s.clock_time := by
  unfold pgw_append_icmp_opt
  repeat' split
  all_goals rfl

theorem append_clock_seconds (s : State) (type : Nat) (d : data_ptr) (st lt : Nat) :
    (pgw_append_icmp_opt s type d st lt).clock_seconds = s.clock_seconds := by
  unfold pgw_append_icmp_opt
  repeat' split
  all_goals rfl

theorem append_pgw_opt_llao (s : State) (type : Nat) (d : data_ptr) (st lt : Nat) :
    (pgw_append_icmp_opt s type d st lt).pgw_opt_llao = s.pgw_opt_llao := by
  unfold pgw_append_icmp_opt
  repeat' split
  all_goals rfl

theorem append_pgw_opt_aro (s : State) (type : Nat) (d : data_ptr) (st lt : Nat) :
    (pgw_append_icmp_opt s type d st lt).pgw_opt_aro = s.pgw_opt_aro := by
  unfold pgw_append_icmp_opt
  repeat' split
  all_goals rfl

theorem create_na_len (s : State) (src dst tgt : List Nat) (f : Nat) :
    (pgw_create_na s src dst tgt f).uip_len = 64 := rfl

theorem create_na_ext_len (s : State) (src dst tgt : List Nat) (f : Nat) :
    (pgw_create_na s src dst tgt f).uip_ext_len = 0 := rfl

theorem create_na_type (s : State) (src dst tgt : List Nat) (f : Nat) :
    (pgw_create_na s src dst tgt f).uip_buf 54 = 136 := by
  simp (disch := omega) [pgw_create_na, write_ip_icmp_hdr, uip_l2_l3_icmp_hdr_len, setByte_ne,
    setByte_eq, memcpyVal_out, store16_out]

theorem create_na_flags (s : State) (src dst tgt : List Nat) (f : Nat) :
    (pgw_create_na s src dst tgt f).uip_buf 58 = f := by
  simp (disch := omega) [pgw_create_na, write_ip_icmp_hdr, uip_l2_l3_icmp_hdr_len, setByte_ne,
    setByte_eq, memcpyVal_out, store16_out]

theorem create_na_src (s : State) (src dst tgt : List Nat) (f : Nat) (h : src.length = 16) :
    readBytes (pgw_create_na s src dst tgt f).uip_buf 22 16 = src := by
  simp (disch := omega) [pgw_create_na, write_ip_icmp_hdr, uip_l2_l3_icmp_hdr_len,
    readBytes_setByte, readBytes_store16, readBytes_memcpyVal_disj, readBytes_memcpyVal_same, h]

theorem create_na_dst (s : State) (src dst tgt : List Nat) (f : Nat) (h : dst.length = 16) :
    readBytes (pgw_create_na s src dst tgt f).uip_buf 38 16 = dst := by
  simp (disch := omega) [pgw_create_na, write_ip_icmp_hdr, uip_l2_l3_icmp_hdr_len,
    readBytes_setByte, readBytes_store16, readBytes_memcpyVal_disj, readBytes_memcpyVal_same, h]

theorem create_na_tgt (s : State) (src dst tgt : List Nat) (f : Nat) (h : tgt.length = 16) :
    readBytes (pgw_create_na s src dst tgt f).uip_buf 62 16 = tgt := by
  simp (disch := omega) [pgw_create_na, write_ip_icmp_hdr, uip_l2_l3_icmp_hdr_len,
    readBytes_setByte, readBytes_store16, readBytes_memcpyVal_disj, readBytes_memcpyVal_same, h]

theorem create_na_incoming_if (s : State) (src dst tgt : List Nat) (f : Nat) :
    (pgw_create_na s src dst tgt f).incoming_if = s.incoming_if := rfl

theorem create_na_outgoing_if (s : State) (src dst tgt : List Nat) (f : Nat) :
    (pgw_create_na s src dst tgt f).outgoing_if = s.outgoing_if := rfl

theorem create_na_src_eui64 (s : State) (src dst tgt : List Nat) (f : Nat) :
    (pgw_create_na s src dst tgt f).src_eui64 = s.src_eui64 := rfl

theorem create_na_dst_eui64 (s : State) (src dst tgt : List Nat) (f : Nat) :
    (pgw_create_na s src dst tgt f).dst_eui64 = s.dst_eui64 := rfl

theorem create_na_rr_ipaddr (s : State) (src dst tgt : List Nat) (f : Nat) :
    (pgw_create_na s src dst tgt f).rr_ipaddr = s.rr_ipaddr := rfl

theorem create_na_rr_lladdr (s : State) (src dst tgt : List Nat) (f : Nat) :
    (pgw_create_na s src dst tgt f).rr_lladdr = s.rr_lladdr := rfl

theorem create_na_ipaddr (s : State) (src dst tgt : List Nat) (f : Nat) :
    (pgw_create_na s src dst tgt f).ipaddr = s.ipaddr := rfl

theorem create_na_pgw_6ln_cache (s : State) (src dst tgt : List Nat) (f : Nat) :
    (pgw_create_na s src dst tgt f).pgw_6ln_cache = s.pgw_6ln_cache := rfl

theorem create_na_clock_time (s : State) (src dst tgt : List Nat) (f : Nat) :
    (pgw_create_na s src dst tgt f).clock_time = s.clock_time := rfl

theorem create_na_clock_seconds (s : State) (src dst tgt : List Nat) (f : Nat) :
    (pgw_create_na s src dst tgt f).clock_seconds = s.clock_seconds := rfl

theorem create_na_pgw_opt_llao (s : State) (src dst tgt : List Nat) (f : Nat) :
    (pgw_create_na s src dst tgt f).pgw_opt_llao = s.pgw_opt_llao := rfl

theorem create_na_pgw_opt_aro (s : State) (src dst tgt : List Nat) (f : Nat) :
    (pgw_create_na s src dst tgt f).pgw_opt_aro = s.pgw_opt_aro := rfl

theorem uip_htons_lo (v : Nat) : uip_htons v % 256 = v / 256 % 256 := by
  unfold uip_htons
  omega

theorem uip_htons_hi (v : Nat) : uip_htons v / 256 % 256 = v % 256 := by
  unfold uip_htons
  have h1 : (v % 256 * 256 + v / 256 % 256) / 256 = v % 256 := by
    rw [Nat.add_comm, Nat.add_mul_div_right _ _ (by norm_num : 0 < 256)]
    rw [Nat.div_eq_of_lt (Nat.mod_lt _ (by norm_num))]
    simp
  rw [h1]
  simp

theorem create_eui64_based_ipaddr_length (m : List Nat) :
    (create_eui64_based_ipaddr m).length = 16 := rfl

/-- The NA built by `pgw_dad_response`: globals, message type, flags and the ARO. -/
theorem pgw_dad_response_aro (s : State) (i : Nat) (n : pgw_nbr_t) (status : Nat)
    (hn : s.pgw_6ln_cache[i]? = some n) (hll : n.lladdr.length = 8) :
    (pgw_dad_response s i status).pgw_6ln_cache = s.pgw_6ln_cache
    ∧ (pgw_dad_response s i status).uip_len = 96
    ∧ (pgw_dad_response s i status).outgoing_if = .IEEE_802_15_4
    ∧ (pgw_dad_response s i status).dst_eui64 = n.lladdr
    ∧ (pgw_dad_response s i status).src_eui64 = s.rr_lladdr
    ∧ (pgw_dad_response s i status).uip_buf 54 = ICMP6_NA
    ∧ (pgw_dad_response s i status).uip_buf 58 = 0xE0
    ∧ (pgw_dad_response s i status).uip_buf 94 = UIP_ND6_OPT_ARO
    ∧ (pgw_dad_response s i status).uip_buf 95 = 2
    ∧ (pgw_dad_response s i status).uip_buf 96 = status
    ∧ (pgw_dad_response s i status).uip_buf 100 = ((n.reachable.interval / 60) % 65536) / 256 % 256
    ∧ (pgw_dad_response s i status).uip_buf 101 = ((n.reachable.interval / 60) % 65536) % 256
    ∧ readBytes (pgw_dad_response s i status).uip_buf 102 8 = n.lladdr := by
  simp only [pgw_dad_response, hn]
  by_cases hst : status = ARO_STATUS_SUCCESS
  · simp only [hst, if_true]
    refine ⟨?_, ?_, ?_, ?_, ?_, ?_, ?_, ?_, ?_, ?_, ?_, ?_, ?_⟩
    all_goals first
      | rfl
      | (simp (disch := simp [append_len_llao, append_len_aro, create_na_len, checksum_len, *])
          [srcipaddr, destipaddr, checksum_buf, checksum_readBytes,
          checksum_len, checksum_cache, append_len_llao, append_len_aro, append_buf_frame,
          append_readBytes_frame, append_buf_type, append_buf_optlen, append_aro_status,
          append_aro_lifetime_lo, append_aro_lifetime_hi, append_llao_val, append_aro_val,
          append_pgw_6ln_cache, append_rr_lladdr, checksum_rr_lladdr, create_na_rr_lladdr,
          create_na_pgw_6ln_cache,
          create_na_len, create_na_type, create_na_flags, create_na_src, create_na_dst,
          create_na_tgt, uip_htons_lo, uip_htons_hi, create_eui64_based_ipaddr_length, *])
  · simp only [hst, if_false]
    refine ⟨?_, ?_, ?_, ?_, ?_, ?_, ?_, ?_, ?_, ?_, ?_, ?_, ?_⟩
    all_goals first
      | rfl
      | (simp (disch := simp [append_len_llao, append_len_aro, create_na_len, checksum_len, *])
          [srcipaddr, destipaddr, checksum_buf, checksum_readBytes,
          checksum_len, checksum_cache, append_len_llao, append_len_aro, append_buf_frame,
          append_readBytes_frame, append_buf_type, append_buf_optlen, append_aro_status,
          append_aro_lifetime_lo, append_aro_lifetime_hi, append_llao_val, append_aro_val,
          append_pgw_6ln_cache, append_rr_lladdr, checksum_rr_lladdr, create_na_rr_lladdr,
          create_na_pgw_6ln_cache,
          create_na_len, create_na_type, create_na_flags, create_na_src, create_na_dst,
          create_na_tgt, uip_htons_lo, uip_htons_hi, create_eui64_based_ipaddr_length, *])

/-- The NA built by `pgw_dad_response`: addresses and the TLLAO. -/
theorem pgw_dad_response_addrs (s : State) (i : Nat) (n : pgw_nbr_t) (status : Nat)
    (hn : s.pgw_6ln_cache[i]? = some n)
    (hrr : s.rr_ipaddr.length = 16) (hrl : s.rr_lladdr.length = 8)
    (hip : n.ipaddr.length = 16) :
    srcipaddr (pgw_dad_response s i status) = s.rr_ipaddr
    ∧ destipaddr (pgw_dad_response s i status)
        = (if status = ARO_STATUS_SUCCESS then n.ipaddr else create_eui64_based_ipaddr n.lladdr)
    ∧ readBytes (pgw_dad_response s i status).uip_buf 62 16 = s.rr_ipaddr
    ∧ (pgw_dad_response s i status).uip_buf 78 = UIP_ND6_OPT_TLLAO
    ∧ (pgw_dad_response s i status).uip_buf 79 = 2
    ∧ readBytes (pgw_dad_response s i status).uip_buf 80 8 = s.rr_lladdr := by
  simp only [pgw_dad_response, hn]
  by_cases hst : status = ARO_STATUS_SUCCESS
  · simp only [hst, if_true]
    refine ⟨?_, ?_, ?_, ?_, ?_, ?_⟩
    all_goals first
      | rfl
      | (simp (disch := simp [append_len_llao, append_len_aro, create_na_len, checksum_len, *])
          [srcipaddr, destipaddr, checksum_buf, checksum_readBytes,
          checksum_len, checksum_cache, append_len_llao, append_len_aro, append_buf_frame,
          append_readBytes_frame, append_buf_type, append_buf_optlen, append_aro_status,
          append_aro_lifetime_lo, append_aro_lifetime_hi, append_llao_val, append_aro_val,
          append_pgw_6ln_cache, append_rr_lladdr, checksum_rr_lladdr, create_na_rr_lladdr,
          create_na_pgw_6ln_cache,
          create_na_len, create_na_type, create_na_flags, create_na_src, create_na_dst,
          create_na_tgt, uip_htons_lo, uip_htons_hi, create_eui64_based_ipaddr_length, *])
  · simp only [hst, if_false]
    refine ⟨?_, ?_, ?_, ?_, ?_, ?_⟩
    all_goals first
      | rfl
      | (simp (disch := simp [append_len_llao, append_len_aro, create_na_len, checksum_len, *])
          [srcipaddr, destipaddr, checksum_buf, checksum_readBytes,
          checksum_len, checksum_cache, append_len_llao, append_len_aro, append_buf_frame,
          append_readBytes_frame, append_buf_type, append_buf_optlen, append_aro_status,
          append_aro_lifetime_lo, append_aro_lifetime_hi, append_llao_val, append_aro_val,
          append_pgw_6ln_cache, append_rr_lladdr, checksum_rr_lladdr, create_na_rr_lladdr,
          create_na_pgw_6ln_cache,
          create_na_len, create_na_type, create_na_flags, create_na_src, create_na_dst,
          create_na_tgt, uip_htons_lo, uip_htons_hi, create_eui64_based_ipaddr_length, *])

/-! ## The registration and DAD properties -/

theorem updNbr_some (cache : List pgw_nbr_t) (i : Nat) (n : pgw_nbr_t)
    (f : pgw_nbr_t → pgw_nbr_t) (h : cache[i]? = some n) :
    updNbr cache i f = cache.set i (f n) := by
  simp [updNbr, h]

/-- DAD failure, for the first used entry of the table that holds the target of an NA
from Ethernet to the link-local all-nodes address, when that entry is tentative: the
entry is removed and an NA with ARO status 1 is left for the 6LoWPAN side. -/
theorem dad_failure_first (s : State) (i : Nat) (n : pgw_nbr_t)
    (hinc : s.incoming_if = .IEEE_802_3)
    (hdst : destipaddr s = linklocal_allnodes_mcast)
    (hn : s.pgw_6ln_cache[i]? = some n)
    (hused : n.isused = true) (hstate : n.state = PGW_TENTATIVE)
    (htgt : tgtipaddr s = n.ipaddr)
    (hfirst : ∀ j m, j < i → s.pgw_6ln_cache[j]? = some m → m.isused = true →
      m.ipaddr ≠ n.ipaddr)
    (hll : n.lladdr.length = 8) :
    (proxy_na_input s).pgw_6ln_cache = s.pgw_6ln_cache.set i { n with isused := false }
    ∧ (proxy_na_input s).uip_len = 96
    ∧ (proxy_na_input s).outgoing_if = .IEEE_802_15_4
    ∧ (proxy_na_input s).uip_buf 54 = ICMP6_NA
    ∧ (proxy_na_input s).uip_buf 94 = UIP_ND6_OPT_ARO
    ∧ (proxy_na_input s).uip_buf 95 = 2
    ∧ (proxy_na_input s).uip_buf 96 = ARO_STATUS_DUPLICATE
    ∧ readBytes (proxy_na_input s).uip_buf 102 8 = n.lladdr
    ∧ (proxy_na_input s).dst_eui64 = n.lladdr := by
  have hl : pgw_nbr_lookup s.pgw_6ln_cache (tgtipaddr s) = some i :=
    pgw_nbr_lookup_first _ _ i n hn hused htgt.symm (by rw [htgt]; exact hfirst)
  have hp := pgw_dad_response_aro s i n ARO_STATUS_DUPLICATE hn hll
  obtain ⟨h1, h2, h3, h4, _, h6, _, h8, h9, h10, _, _, h13⟩ := hp
  have he : proxy_na_input s = pgw_dad_failed s i := by
    simp [proxy_na_input, hinc, hdst, uip_is_addr_linklocal_allnodes_mcast, hl, hn, hstate]
  rw [he]
  simp only [pgw_dad_failed]
  refine ⟨?_, h2, h3, h6, h8, h9, h10, h13, h4⟩
  rw [h1, pgw_nbr_rm, updNbr_some _ _ _ _ hn]

/-- The option loop of `proxy_ns_input` on a registration NS finds both options. -/
theorem registration_ns_walk (s : State) (src e : List Nat) (l a fuel : Nat)
    (h : registration_ns s src e l a) (hf : 2 ≤ fuel) :
    opt_walk ns_opt_act fuel
      { s with pgw_opt_llao := none, pgw_opt_aro := none, pgw_opt_offset := UIP_ND6_NS_LEN }
    = some ({ s with pgw_opt_llao := some l, pgw_opt_aro := some a, pgw_opt_offset := 52 },
        false) := by
  obtain ⟨_, hext, hlen, _, _, _, _, _, _, _, _, hord, hl0, hl1, ha0, ha1, _, _⟩ := h
  obtain ⟨f1, rfl⟩ : ∃ f1, fuel = f1 + 2 := ⟨fuel - 2, by omega⟩
  rcases hord with ⟨rfl, rfl⟩ | ⟨rfl, rfl⟩
  · simp at hl0 hl1 ha0 ha1
    unfold opt_walk
    simp [uip_l3_icmp_hdr_len, uip_l2_l3_icmp_hdr_len, hext, hlen, hl1, ns_opt_act, hl0]
    unfold opt_walk
    simp [uip_l3_icmp_hdr_len, uip_l2_l3_icmp_hdr_len, hext, hlen, ha1, ns_opt_act, ha0]
    unfold opt_walk
    simp [uip_l3_icmp_hdr_len, uip_l2_l3_icmp_hdr_len, hext, hlen]
  · simp at hl0 hl1 ha0 ha1
    unfold opt_walk
    simp [uip_l3_icmp_hdr_len, uip_l2_l3_icmp_hdr_len, hext, hlen, ha1, ns_opt_act, ha0]
    unfold opt_walk
    simp [uip_l3_icmp_hdr_len, uip_l2_l3_icmp_hdr_len, hext, hlen, hl1, ns_opt_act, hl0]
    unfold opt_walk
    simp [uip_l3_icmp_hdr_len, uip_l2_l3_icmp_hdr_len, hext, hlen]

/-- On a registration NS, `proxy_ns_input` reaches the registration part with both
option pointers set. -/
theorem registration_ns_input (s : State) (src e : List Nat) (l a fuel : Nat)
    (h : registration_ns s src e l a) (hf : 2 ≤ fuel) :
    proxy_ns_input fuel s = some (proxy_ns_register
      { s with pgw_opt_llao := some l, pgw_opt_aro := some a, pgw_opt_offset := 52 }) := by
  have hw := registration_ns_walk s src e l a fuel h hf
  obtain ⟨hinc, _, _, _, _, _, hdst, htgt, hm, hu, _⟩ := h
  unfold proxy_ns_input
  simp only [hinc] at hw ⊢
  simp only [htgt, hdst, hm, hu, hw]
  simp

/-- The NA built by `pgw_registration_error`. -/
theorem registration_error_packet (s : State) (status : Nat) (hrr : s.rr_ipaddr.length = 16) :
    (pgw_registration_error s status).pgw_6ln_cache = s.pgw_6ln_cache
    ∧ (pgw_registration_error s status).uip_len = 96
    ∧ (pgw_registration_error s status).outgoing_if = .IEEE_802_15_4
    ∧ (pgw_registration_error s status).uip_buf 54 = ICMP6_NA
    ∧ (pgw_registration_error s status).uip_buf 58 = 0xE0
    ∧ srcipaddr (pgw_registration_error s status) = s.rr_ipaddr
    ∧ destipaddr (pgw_registration_error s status) = srcipaddr s
    ∧ (pgw_registration_error s status).uip_buf 78 = UIP_ND6_OPT_TLLAO
    ∧ (pgw_registration_error s status).uip_buf 79 = 2
    ∧ (pgw_registration_error s status).uip_buf 94 = UIP_ND6_OPT_ARO
    ∧ (pgw_registration_error s status).uip_buf 95 = 2
    ∧ (pgw_registration_error s status).uip_buf 96 = status
    ∧ (pgw_registration_error s status).src_eui64 = s.dst_eui64
    ∧ (pgw_registration_error s status).dst_eui64 = s.src_eui64 := by
  have hs : (srcipaddr s).length = 16 := readBytes_length _ _ _
  simp only [pgw_registration_error]
  refine ⟨?_, ?_, ?_, ?_, ?_, ?_, ?_, ?_, ?_, ?_, ?_, ?_, ?_, ?_⟩
  all_goals first
    | rfl
    | (simp (disch := simp [append_len_llao, append_len_aro, create_na_len, checksum_len, *])
        [srcipaddr, destipaddr, checksum_buf, checksum_readBytes,
        checksum_len, checksum_cache, append_len_llao, append_len_aro, append_buf_frame,
        append_readBytes_frame, append_buf_type, append_buf_optlen, append_aro_status,
        append_pgw_6ln_cache, create_na_pgw_6ln_cache,
        create_na_len, create_na_type, create_na_flags, create_na_src, create_na_dst,
        create_na_tgt, readBytes_length, *])

/-- The registration part of `proxy_ns_input` when the source is registered with an
EUI-64 other than the one of the ARO. -/
theorem proxy_ns_register_dup (t : State) (src e : List Nat) (l a i : Nat) (n : pgw_nbr_t)
    (hl : t.pgw_opt_llao = some l) (ha : t.pgw_opt_aro = some a)
    (hsrc : srcipaddr t = src) (hsu : uip_is_addr_unspecified src = false)
    (ha1 : t.uip_buf (a + 1) = 2) (ha2 : t.uip_buf (a + 2) = 0)
    (hdst : destipaddr t = t.rr_ipaddr) (htgt : tgtipaddr t = t.rr_ipaddr)
    (hde : t.dst_eui64 = t.rr_lladdr) (he : readBytes t.uip_buf (a + 8) 8 = e)
    (hlook : pgw_nbr_lookup t.pgw_6ln_cache src = some i)
    (hn : t.pgw_6ln_cache[i]? = some n) (hne : e ≠ n.lladdr) :
    proxy_ns_register t = pgw_registration_error t ARO_STATUS_DUPLICATE := by
  unfold proxy_ns_register
  simp [hl, ha, hsrc, hsu, ha1, ha2, hdst, htgt, hde, he, hlook, hn, hne]

/-- The registration part of `proxy_ns_input` when the source is not in the cache and
`pgw_nbr_add` fails. -/
theorem proxy_ns_register_full (t : State) (src e : List Nat) (l a : Nat)
    (hl : t.pgw_opt_llao = some l) (ha : t.pgw_opt_aro = some a)
    (hsrc : srcipaddr t = src) (hsu : uip_is_addr_unspecified src = false)
    (ha1 : t.uip_buf (a + 1) = 2) (ha2 : t.uip_buf (a + 2) = 0)
    (hdst : destipaddr t = t.rr_ipaddr) (htgt : tgtipaddr t = t.rr_ipaddr)
    (hde : t.dst_eui64 = t.rr_lladdr) (he : readBytes t.uip_buf (a + 8) 8 = e)
    (hlook : pgw_nbr_lookup t.pgw_6ln_cache src = none)
    (hadd : pgw_nbr_add t src (some e) 0 PGW_TENTATIVE = (t, none)) :
    proxy_ns_register t = pgw_registration_error t ARO_STATUS_RTR_NC_FULL := by
  unfold proxy_ns_register
  simp [hl, ha, hsrc, hsu, ha1, ha2, hdst, htgt, hde, he, hlook, hadd]

/-- The registration part of `proxy_ns_input` when the source is not in the cache and
`pgw_nbr_add` returns the slot `i`. -/
theorem proxy_ns_register_new (t u : State) (src e : List Nat) (l a i : Nat)
    (hl : t.pgw_opt_llao = some l) (ha : t.pgw_opt_aro = some a)
    (hsrc : srcipaddr t = src) (hsu : uip_is_addr_unspecified src = false)
    (ha1 : t.uip_buf (a + 1) = 2) (ha2 : t.uip_buf (a + 2) = 0)
    (hdst : destipaddr t = t.rr_ipaddr) (htgt : tgtipaddr t = t.rr_ipaddr)
    (hde : t.dst_eui64 = t.rr_lladdr) (he : readBytes t.uip_buf (a + 8) 8 = e)
    (hlook : pgw_nbr_lookup t.pgw_6ln_cache src = none)
    (hadd : pgw_nbr_add t src (some e) 0 PGW_TENTATIVE = (u, some i)) :
    proxy_ns_register t = pgw_dad
      { u with
        pgw_6ln_cache := updNbr u.pgw_6ln_cache i (fun m =>
          { m with
            aro_pending := true
            reachable := stimer_set u.clock_seconds
              ((uip_htons (load16 u.uip_buf (a + 6)) * 60) % 65536) }) } i := by
  unfold proxy_ns_register
  simp [hl, ha, hsrc, hsu, ha1, ha2, hdst, htgt, hde, he, hlook, hadd]

/-- Duplicate registration, when the first used entry of the table that holds the source
of a registration NS has another EUI-64: the cache is unchanged and an NA with ARO
status 1 is left for the 6LoWPAN side. -/
theorem duplicate_registration_first (s : State) (src e : List Nat) (l a fuel i : Nat)
    (n : pgw_nbr_t) (h : registration_ns s src e l a) (hf : 2 ≤ fuel)
    (hn : s.pgw_6ln_cache[i]? = some n) (hu : n.isused = true) (hip : n.ipaddr = src)
    (hfirst : ∀ j m, j < i → s.pgw_6ln_cache[j]? = some m → m.isused = true → m.ipaddr ≠ src)
    (hne : n.lladdr ≠ e) :
    ∃ t, proxy_ns_input fuel s = some t
      ∧ t.pgw_6ln_cache = s.pgw_6ln_cache
      ∧ t.outgoing_if = .IEEE_802_15_4
      ∧ t.uip_len = 96
      ∧ t.uip_buf 54 = ICMP6_NA
      ∧ t.uip_buf 94 = UIP_ND6_OPT_ARO
      ∧ t.uip_buf 95 = 2
      ∧ t.uip_buf 96 = ARO_STATUS_DUPLICATE := by
  have hin := registration_ns_input s src e l a fuel h hf
  have hlook := pgw_nbr_lookup_first s.pgw_6ln_cache src i n hn hu hip hfirst
  obtain ⟨_, hext, _, _, hsrc, hsu, hdst, htgt, _, _, hde, _, _, _, _, ha1, ha2, he⟩ := h
  have hrr : s.rr_ipaddr.length = 16 := by rw [← hdst]; exact readBytes_length _ _ _
  have hreg := proxy_ns_register_dup
    { s with pgw_opt_llao := some l, pgw_opt_aro := some a, pgw_opt_offset := 52 }
    src e l a i n rfl rfl hsrc hsu ha1 ha2 hdst htgt hde he hlook hn (Ne.symm hne)
  obtain ⟨h1, h2, h3, h4, _, _, _, _, _, h10, h11, h12, _, _⟩ := registration_error_packet
    { s with pgw_opt_llao := some l, pgw_opt_aro := some a, pgw_opt_offset := 52 }
    ARO_STATUS_DUPLICATE hrr
  rw [hin, hreg]
  exact ⟨_, rfl, h1, h3, h2, h4, h10, h11, h12⟩

theorem list_loop_from_nospace (ip : List Nat) (cache : List pgw_nbr_t) (k : Nat)
    (hfull : ∀ n ∈ cache, n.isused = true) (hnot : ∀ n ∈ cache, n.ipaddr ≠ ip) :
    uip_ds6_list_loop_from ip cache k none = .NOSPACE := by
  induction cache generalizing k with
  | nil => rfl
  | cons a rest ih =>
    unfold uip_ds6_list_loop_from
    rw [if_pos (hfull a (by simp)), if_neg (hnot a (by simp))]
    exact ih (k + 1) (fun n hn => hfull n (by simp [hn])) (fun n hn => hnot n (by simp [hn]))

theorem find_oldest_none (cache : List pgw_nbr_t) (k t : Nat)
    (h : ∀ n ∈ cache, n.state ≠ PGW_GARBAGE_COLLECTIBLE) :
    find_oldest cache k none t = none := by
  induction cache generalizing k with
  | nil => rfl
  | cons a rest ih =>
    unfold find_oldest
    have ha : a.state ≠ 0 := h a (by simp)
    simp only [PGW_GARBAGE_COLLECTIBLE, ha, decide_False, Bool.and_false, Bool.false_eq_true,
      if_false]
    exact ih (k + 1) (fun n hn => h n (by simp [hn]))

/-- `pgw_nbr_add` fails and changes nothing when every slot is used by a tentative or
registered entry and none holds the address. -/
theorem pgw_nbr_add_full (s : State) (ip : List Nat) (lladdr : Option (List Nat))
    (isrouter state : Nat)
    (hfull : ∀ n ∈ s.pgw_6ln_cache,
      n.isused = true ∧ (n.state = PGW_TENTATIVE ∨ n.state = PGW_REGISTERED))
    (hnot : ∀ n ∈ s.pgw_6ln_cache, n.ipaddr ≠ ip) :
    pgw_nbr_add s ip lladdr isrouter state = (s, none) := by
  have h1 : uip_ds6_list_loop s.pgw_6ln_cache ip = .NOSPACE :=
    list_loop_from_nospace ip _ 0 (fun n hn => (hfull n hn).1) hnot
  have h2 : find_oldest s.pgw_6ln_cache 0 none s.clock_time = none :=
    find_oldest_none _ 0 _ (fun n hn => by
      rcases (hfull n hn).2 with h | h <;> rw [h] <;> decide)
  unfold pgw_nbr_add pgw_nbr_add_cache pgw_nbr_add_fuel
  simp [h1, h2]

/-- C6: when every slot of the neighbor cache is used by a tentative or registered
entry and the source of a registration NS is not in the cache, `pgw_nbr_add` fails, no
entry is evicted or modified, and the NS is answered by an NA toward the 6LoWPAN side
whose ARO has status 2 (RTR_NC_FULL). -/
theorem cache_full_registration (s : State) (src e : List Nat) (l a fuel : Nat)
    (h : registration_ns s src e l a) (hf : 2 ≤ fuel)
    (hfull : ∀ n ∈ s.pgw_6ln_cache,
      n.isused = true ∧ (n.state = PGW_TENTATIVE ∨ n.state = PGW_REGISTERED))
    (hnot : ∀ n ∈ s.pgw_6ln_cache, n.ipaddr ≠ src) :
    pgw_nbr_add_cache s.clock_time s.clock_seconds src (some e) 0 PGW_TENTATIVE s.pgw_6ln_cache
      = (s.pgw_6ln_cache, none)
    ∧ ∃ t, proxy_ns_input fuel s = some t
      ∧ t.pgw_6ln_cache = s.pgw_6ln_cache
      ∧ t.outgoing_if = .IEEE_802_15_4
      ∧ t.uip_len = 96
      ∧ t.uip_buf 54 = ICMP6_NA
      ∧ t.uip_buf 94 = UIP_ND6_OPT_ARO
      ∧ t.uip_buf 95 = 2
      ∧ t.uip_buf 96 = ARO_STATUS_RTR_NC_FULL := by
  have hin := registration_ns_input s src e l a fuel h hf
  have hloop : uip_ds6_list_loop s.pgw_6ln_cache src = .NOSPACE :=
    list_loop_from_nospace src _ 0 (fun n hn => (hfull n hn).1) hnot
  have hlook : pgw_nbr_lookup s.pgw_6ln_cache src = none := by
    simp [pgw_nbr_lookup, hloop]
  obtain ⟨_, hext, _, _, hsrc, hsu, hdst, htgt, _, _, hde, _, _, _, _, ha1, ha2, he⟩ := h
  have hrr : s.rr_ipaddr.length = 16 := by rw [← hdst]; exact readBytes_length _ _ _
  have hadd := pgw_nbr_add_full
    { s with pgw_opt_llao := some l, pgw_opt_aro := some a, pgw_opt_offset := 52 }
    src (some e) 0 PGW_TENTATIVE hfull hnot
  have hadd0 := pgw_nbr_add_full s src (some e) 0 PGW_TENTATIVE hfull hnot
  have hreg := proxy_ns_register_full
    { s with pgw_opt_llao := some l, pgw_opt_aro := some a, pgw_opt_offset := 52 }
    src e l a rfl rfl hsrc hsu ha1 ha2 hdst htgt hde he hlook hadd
  obtain ⟨h1, h2, h3, h4, _, _, _, _, _, h10, h11, h12, _, _⟩ := registration_error_packet
    { s with pgw_opt_llao := some l, pgw_opt_aro := some a, pgw_opt_offset := 52 }
    ARO_STATUS_RTR_NC_FULL hrr
  refine ⟨?_, ?_⟩
  · have := congrArg (fun r => ((r.1).pgw_6ln_cache, r.2)) hadd0
    simpa [pgw_nbr_add] using this
  · rw [hin, hreg]
    exact ⟨_, rfl, h1, h3, h2, h4, h10, h11, h12⟩

/-- The loop of `proxy_ns_input` over the cache stops at the first used entry whose
address matches a target that is not link-local. -/
theorem proxy_ns_loop_first_global (k j : Nat) (s : State) (i : Nat) (n : pgw_nbr_t)
    (hk : i < j + k) (hj : j ≤ i)
    (hlocal : uip_is_addr_linklocal (tgtipaddr s) = false)
    (hn : s.pgw_6ln_cache[i]? = some n) (hu : n.isused = true)
    (hmatch : n.ipaddr = tgtipaddr s)
    (hfirst : ∀ q m, j ≤ q → q < i → s.pgw_6ln_cache[q]? = some m → m.isused = true →
      m.ipaddr ≠ tgtipaddr s) :
    proxy_ns_loop k j s = proxy_ns_reply { s with ipaddr := some (.to_nbr i) } i n := by
  induction k generalizing j s with
  | zero => omega
  | succ k ih =>
    unfold proxy_ns_loop
    by_cases hji : j = i
    · subst hji
      simp only [hn, hu, if_true, hlocal, Bool.false_eq_true, if_false]
      have : deref_ipaddr { s with ipaddr := some (ipaddr_ptr.to_nbr j) }
          = tgtipaddr { s with ipaddr := some (ipaddr_ptr.to_nbr j) } := by
        simp only [deref_ipaddr, hn, hmatch]
        rfl
      rw [if_pos this]
    · have hlt : j < i := by omega
      have hjl : j < s.pgw_6ln_cache.length := by
        have := List.getElem?_eq_some_iff.mp hn
        obtain ⟨h1, _⟩ := this
        omega
      have hm : s.pgw_6ln_cache[j]? = some (s.pgw_6ln_cache[j]) := List.getElem?_eq_getElem hjl
      simp only [hm]
      by_cases hmu : (s.pgw_6ln_cache[j]).isused = true
      · have hne := hfirst j _ (le_refl _) hlt hm hmu
        simp only [hmu, if_true, hlocal, Bool.false_eq_true, if_false]
        have : ¬ deref_ipaddr { s with ipaddr := some (ipaddr_ptr.to_nbr j) }
            = tgtipaddr { s with ipaddr := some (ipaddr_ptr.to_nbr j) } := by
          simp only [deref_ipaddr, hm]
          exact hne
        rw [if_neg this]
        exact ih (j + 1) { s with ipaddr := some (ipaddr_ptr.to_nbr j) } (by omega) (by omega)
          hlocal hn hmatch (fun q m h1 h2 => hfirst q m (by omega) h2)
      · simp only [hmu, Bool.false_eq_true, if_false]
        exact ih (j + 1) s (by omega) (by omega) hlocal hn hmatch
          (fun q m h1 h2 => hfirst q m (by omega) h2)

/-- The loop of `proxy_ns_input` over the cache stops at the first used entry whose
EUI-64 gives a link-local target. -/
theorem proxy_ns_loop_first_local (k j : Nat) (s : State) (i : Nat) (n : pgw_nbr_t)
    (hk : i < j + k) (hj : j ≤ i)
    (hlocal : uip_is_addr_linklocal (tgtipaddr s) = true)
    (hn : s.pgw_6ln_cache[i]? = some n) (hu : n.isused = true)
    (hmatch : create_eui64_based_ipaddr n.lladdr = tgtipaddr s)
    (hfirst : ∀ q m, j ≤ q → q < i → s.pgw_6ln_cache[q]? = some m → m.isused = true →
      create_eui64_based_ipaddr m.lladdr ≠ tgtipaddr s) :
    proxy_ns_loop k j s = proxy_ns_reply
      { s with fipaddr := create_eui64_based_ipaddr n.lladdr, ipaddr := some .to_fipaddr } i n := by
  induction k generalizing j s with
  | zero => omega
  | succ k ih =>
    unfold proxy_ns_loop
    by_cases hji : j = i
    · subst hji
      simp only [hn, hu, if_true, hlocal]
      have : deref_ipaddr
            { s with fipaddr := create_eui64_based_ipaddr n.lladdr, ipaddr := some .to_fipaddr }
          = tgtipaddr
            { s with fipaddr := create_eui64_based_ipaddr n.lladdr, ipaddr := some .to_fipaddr } := by
        simp only [deref_ipaddr, hmatch]
        rfl
      rw [if_pos this]
    · have hlt : j < i := by omega
      have hjl : j < s.pgw_6ln_cache.length := by
        have := List.getElem?_eq_some_iff.mp hn
        obtain ⟨h1, _⟩ := this
        omega
      have hm : s.pgw_6ln_cache[j]? = some (s.pgw_6ln_cache[j]) := List.getElem?_eq_getElem hjl
      simp only [hm]
      by_cases hmu : (s.pgw_6ln_cache[j]).isused = true
      · have hne := hfirst j _ (le_refl _) hlt hm hmu
        simp only [hmu, if_true, hlocal]
        have : ¬ deref_ipaddr
              { s with
                fipaddr := create_eui64_based_ipaddr (s.pgw_6ln_cache[j]).lladdr
                ipaddr := some .to_fipaddr }
            = tgtipaddr
              { s with
                fipaddr := create_eui64_based_ipaddr (s.pgw_6ln_cache[j]).lladdr
                ipaddr := some .to_fipaddr } := by
          simp only [deref_ipaddr]
          exact hne
        rw [if_neg this]
        exact ih (j + 1) _ (by omega) (by omega)
          hlocal hn hmatch (fun q m h1 h2 => hfirst q m (by omega) h2)
      · simp only [hmu, Bool.false_eq_true, if_false]
        exact ih (j + 1) s (by omega) (by omega) hlocal hn hmatch
          (fun q m h1 h2 => hfirst q m (by omega) h2)

/-- The NA `proxy_ns_input` builds on behalf of a registered entry for an NS sent for
address resolution. -/
theorem proxy_ns_reply_resolution (s : State) (i : Nat) (n : pgw_nbr_t)
    (hreg : n.state = PGW_REGISTERED)
    (hsrc : uip_is_addr_unspecified (srcipaddr s) = false)
    (hd : deref_ipaddr s = tgtipaddr s) (hll : n.lladdr.length = 8) :
    (proxy_ns_reply s i n).2 = false
    ∧ (proxy_ns_reply s i n).1.pgw_6ln_cache = s.pgw_6ln_cache
    ∧ (proxy_ns_reply s i n).1.outgoing_if = s.outgoing_if
    ∧ (proxy_ns_reply s i n).1.ipaddr = s.ipaddr
    ∧ (proxy_ns_reply s i n).1.uip_len = 80
    ∧ (proxy_ns_reply s i n).1.uip_buf 54 = ICMP6_NA
    ∧ (proxy_ns_reply s i n).1.uip_buf 58 = 0x60
    ∧ srcipaddr (proxy_ns_reply s i n).1 = tgtipaddr s
    ∧ destipaddr (proxy_ns_reply s i n).1 = srcipaddr s
    ∧ readBytes (proxy_ns_reply s i n).1.uip_buf 62 16 = tgtipaddr s
    ∧ (proxy_ns_reply s i n).1.uip_buf 78 = UIP_ND6_OPT_TLLAO
    ∧ (proxy_ns_reply s i n).1.uip_buf 79 = 2
    ∧ readBytes (proxy_ns_reply s i n).1.uip_buf 80 8 = n.lladdr
    ∧ (proxy_ns_reply s i n).1.src_eui64 = n.lladdr
    ∧ (proxy_ns_reply s i n).1.dst_eui64 = s.src_eui64 := by
  have h1 : (srcipaddr s).length = 16 := readBytes_length _ _ _
  have h2 : (tgtipaddr s).length = 16 := readBytes_length _ _ _
  simp only [proxy_ns_reply, hreg, hsrc, if_true, hd]
  refine ⟨?_, ?_, ?_, ?_, ?_, ?_, ?_, ?_, ?_, ?_, ?_, ?_, ?_, ?_, ?_⟩
  all_goals first
    | rfl
    | (simp (disch := simp [append_len_llao, append_len_aro, create_na_len, checksum_len, *])
        [srcipaddr, destipaddr, checksum_buf, checksum_readBytes,
        checksum_len, checksum_cache, checksum_outgoing, checksum_ipaddr, checksum_dst_eui64,
        append_len_llao, append_buf_frame, append_ipaddr, append_outgoing_if,
        append_dst_eui64, append_readBytes_frame, append_buf_type, append_buf_optlen,
        append_llao_val, append_pgw_6ln_cache, create_na_pgw_6ln_cache,
        create_na_len, create_na_type, create_na_flags, create_na_src, create_na_dst,
        create_na_tgt, create_na_outgoing_if, create_na_ipaddr, create_na_src_eui64, *])

/-- C9 (as amended): an NS from Ethernet with a specified source whose target is matched
by a registered entry is answered on the incoming interface by an NA from the target
to the source of the NS with flags OVERRIDE|SOLICITED and one TLLAO carrying the
EUI-64 of the entry; the entry matched is the first used one whose address (its
registered address for a target that is not link-local, the link-local address derived
from its EUI-64 for a link-local target) equals the target; the cache is unchanged. -/
theorem ns_address_resolution (fuel : Nat) (s : State) (i : Nat) (n : pgw_nbr_t)
    (hinc : s.incoming_if = .IEEE_802_3)
    (hn : s.pgw_6ln_cache[i]? = some n) (hu : n.isused = true)
    (hreg : n.state = PGW_REGISTERED)
    (hsrc : uip_is_addr_unspecified (srcipaddr s) = false)
    (hmatch : ns_match_addr (tgtipaddr s) n = tgtipaddr s)
    (hfirst : ∀ j m, j < i → s.pgw_6ln_cache[j]? = some m → m.isused = true →
      ns_match_addr (tgtipaddr s) m ≠ tgtipaddr s)
    (hll : n.lladdr.length = 8) :
    ∃ t, proxy_ns_input fuel s = some t
      ∧ t.pgw_6ln_cache = s.pgw_6ln_cache
      ∧ t.outgoing_if = s.incoming_if
      ∧ t.uip_len = 80
      ∧ t.uip_buf 54 = ICMP6_NA
      ∧ t.uip_buf 58 = (UIP_ND6_NA_FLAG_OVERRIDE ||| UIP_ND6_NA_FLAG_SOLICITED)
      ∧ srcipaddr t = tgtipaddr s
      ∧ destipaddr t = srcipaddr s
      ∧ readBytes t.uip_buf 62 16 = tgtipaddr s
      ∧ t.uip_buf 78 = UIP_ND6_OPT_TLLAO
      ∧ t.uip_buf 79 = 2
      ∧ readBytes t.uip_buf 80 8 = n.lladdr
      ∧ t.src_eui64 = n.lladdr
      ∧ t.dst_eui64 = s.src_eui64 := by
  have hil : i < s.pgw_6ln_cache.length := (List.getElem?_eq_some_iff.mp hn).1
  have key : ∃ s' : State, proxy_ns_loop s.pgw_6ln_cache.length 0
        { s with outgoing_if := s.incoming_if } = proxy_ns_reply s' i n
      ∧ s'.pgw_6ln_cache = s.pgw_6ln_cache ∧ s'.outgoing_if = s.incoming_if
      ∧ s'.ipaddr ≠ none ∧ srcipaddr s' = srcipaddr s ∧ tgtipaddr s' = tgtipaddr s
      ∧ deref_ipaddr s' = tgtipaddr s' ∧ s'.src_eui64 = s.src_eui64 := by
    by_cases hlocal : uip_is_addr_linklocal (tgtipaddr s) = true
    · simp only [ns_match_addr, hlocal, if_true] at hmatch hfirst
      refine ⟨_, proxy_ns_loop_first_local _ 0 { s with outgoing_if := s.incoming_if } i n
        (by omega) (by omega) hlocal hn hu hmatch
        (fun q m _ h2 => hfirst q m h2), rfl, rfl, by simp, rfl, rfl, ?_, rfl⟩
      simp only [deref_ipaddr, hmatch]
      rfl
    · have hlocal2 : uip_is_addr_linklocal (tgtipaddr s) = false := by simpa using hlocal
      simp only [ns_match_addr, hlocal2, Bool.false_eq_true, if_false] at hmatch hfirst
      refine ⟨_, proxy_ns_loop_first_global _ 0 { s with outgoing_if := s.incoming_if } i n
        (by omega) (by omega) hlocal2 hn hu hmatch
        (fun q m _ h2 => hfirst q m h2), rfl, rfl, by simp, rfl, rfl, ?_, rfl⟩
      simp only [deref_ipaddr, hn, hmatch]
      rfl
  obtain ⟨s', hloop, hc, ho, hi, hs, ht, hd, hse⟩ := key
  obtain ⟨r1, r2, r3, r4, r5, r6, r7, r8, r9, r10, r11, r12, r13, r14, r15⟩ :=
    proxy_ns_reply_resolution s' i n hreg (by rw [hs]; exact hsrc) hd hll
  unfold proxy_ns_input
  simp only [hinc] at hloop ⊢
  simp only [hloop, r1, Bool.false_eq_true, if_false]
  rw [if_neg (by rw [r4]; exact hi)]
  refine ⟨_, rfl, ?_, ?_, r5, r6, r7, ?_, ?_, ?_, r11, r12, r13, r14, ?_⟩
  · rw [r2, hc]
  · rw [r3, ho, hinc]
  · rw [r8, ht]
  · rw [r9, hs]
  · rw [r10, ht]
  · rw [r15, hse]

theorem updNbr_length (cache : List pgw_nbr_t) (i : Nat) (f : pgw_nbr_t → pgw_nbr_t) :
    (updNbr cache i f).length = cache.length := by
  unfold updNbr
  split <;> simp

theorem updNbr_getElem?_ne (cache : List pgw_nbr_t) (i q : Nat) (f : pgw_nbr_t → pgw_nbr_t)
    (h : q ≠ i) : (updNbr cache i f)[q]? = cache[q]? := by
  unfold updNbr
  split
  · rw [List.getElem?_set_ne (Ne.symm h)]
  · rfl

theorem updNbr_getElem?_eq (cache : List pgw_nbr_t) (i : Nat) (n : pgw_nbr_t)
    (f : pgw_nbr_t → pgw_nbr_t) (h : cache[i]? = some n) :
    (updNbr cache i f)[i]? = some (f n) := by
  have hil : i < cache.length := (List.getElem?_eq_some_iff.mp h).1
  simp [updNbr, h, List.getElem?_set_self hil]

/-- The neighbor loop of `pgw_periodic` hands to `pgw_dad` the first entry that is due;
before that it only removes entries. -/
theorem periodic_nbrs_first_due (k j : Nat) (s : State) (i : Nat) (n : pgw_nbr_t)
    (hk : i < j + k) (hj : j ≤ i)
    (hn : s.pgw_6ln_cache[i]? = some n) (hdue : dad_due s n)
    (hfirst : ∀ q m, j ≤ q → q < i → s.pgw_6ln_cache[q]? = some m → ¬ dad_due s m) :
    ∃ cs : List pgw_nbr_t, periodic_nbrs k j s = pgw_dad { s with pgw_6ln_cache := cs } i
      ∧ cs[i]? = some n := by
  induction k generalizing j s with
  | zero => omega
  | succ k ih =>
    unfold periodic_nbrs
    by_cases hji : j = i
    · subst hji
      obtain ⟨d1, d2, d3, d4, d5, d6⟩ := hdue
      simp only [hn, d1, d2, d3, d4, d5, d6, if_true, and_self, Bool.false_eq_true, if_false]
      exact ⟨s.pgw_6ln_cache, rfl, hn⟩
    · have hlt : j < i := by omega
      have hjl : j < s.pgw_6ln_cache.length := by
        have := (List.getElem?_eq_some_iff.mp hn).1
        omega
      have hm : s.pgw_6ln_cache[j]? = some (s.pgw_6ln_cache[j]) := List.getElem?_eq_getElem hjl
      have hnd := hfirst j _ (le_refl _) hlt hm
      simp only [hm]
      have hrest : ∀ q m, j + 1 ≤ q → q < i → s.pgw_6ln_cache[q]? = some m → ¬ dad_due s m :=
        fun q m h1 h2 => hfirst q m (by omega) h2
      split_ifs with h1 h2 h3 h4
      · obtain ⟨cs, hc1, hc2⟩ := ih (j + 1)
          { s with pgw_6ln_cache := pgw_nbr_rm s.pgw_6ln_cache j } (by omega) (by omega)
          (by
            show (pgw_nbr_rm s.pgw_6ln_cache j)[i]? = some n
            rw [pgw_nbr_rm, updNbr_getElem?_ne _ _ _ _ (by omega)]
            exact hn)
          hdue
          (fun q m h1 h2 h3 => hrest q m h1 h2 (by
            have : (pgw_nbr_rm s.pgw_6ln_cache j)[q]? = some m := h3
            rw [pgw_nbr_rm, updNbr_getElem?_ne _ _ _ _ (by omega)] at this
            exact this))
        exact ⟨cs, hc1, hc2⟩
      · exfalso
        apply hnd
        exact ⟨h1, by simpa using h2, h3.1, h3.2, h4.1, h4.2⟩
      · exact ih (j + 1) s (by omega) (by omega) hn hdue hrest
      · exact ih (j + 1) s (by omega) (by omega) hn hdue hrest
      · exact ih (j + 1) s (by omega) (by omega) hn hdue hrest

/-- C2 (as amended): `pgw_periodic` completes DAD for the first entry of the table that
is used, tentative, not link-local, not expired, with at most `PGW_MAX_DAD_NS` DAD NS
sent and an expired DAD timer, when its count equals `PGW_MAX_DAD_NS`: the entry becomes
registered with `aro_pending` clear, and an NA with flags ROUTER|SOLICITED|OVERRIDE from
the RR to the address of the entry, with a TLLAO carrying the EUI-64 of the RR and an ARO
with status 0, the lifetime `interval / 60` (as a 16-bit field in network order) and the
EUI-64 of the entry, is left for emission on the 6LoWPAN side. -/
theorem dad_success_registers (s : State) (i : Nat) (n : pgw_nbr_t)
    (hn : s.pgw_6ln_cache[i]? = some n) (hdue : dad_due s n)
    (hcount : n.dadnscount = PGW_MAX_DAD_NS)
    (hfirst : ∀ j m, j < i → s.pgw_6ln_cache[j]? = some m → ¬ dad_due s m)
    (hrr : s.rr_ipaddr.length = 16) (hrl : s.rr_lladdr.length = 8)
    (hip : n.ipaddr.length = 16) (hll : n.lladdr.length = 8) :
    (pgw_periodic s).pgw_6ln_cache[i]?
        = some { n with state := PGW_REGISTERED, aro_pending := false }
    ∧ (pgw_periodic s).outgoing_if = .IEEE_802_15_4
    ∧ (pgw_periodic s).uip_len = 96
    ∧ (pgw_periodic s).dst_eui64 = n.lladdr
    ∧ (pgw_periodic s).uip_buf 54 = ICMP6_NA
    ∧ (pgw_periodic s).uip_buf 58
        = (UIP_ND6_NA_FLAG_ROUTER ||| UIP_ND6_NA_FLAG_SOLICITED ||| UIP_ND6_NA_FLAG_OVERRIDE)
    ∧ srcipaddr (pgw_periodic s) = s.rr_ipaddr
    ∧ destipaddr (pgw_periodic s) = n.ipaddr
    ∧ (pgw_periodic s).uip_buf 78 = UIP_ND6_OPT_TLLAO
    ∧ (pgw_periodic s).uip_buf 79 = 2
    ∧ readBytes (pgw_periodic s).uip_buf 80 8 = s.rr_lladdr
    ∧ (pgw_periodic s).uip_buf 94 = UIP_ND6_OPT_ARO
    ∧ (pgw_periodic s).uip_buf 95 = 2
    ∧ (pgw_periodic s).uip_buf 96 = ARO_STATUS_SUCCESS
    ∧ (pgw_periodic s).uip_buf 100 * 256 + (pgw_periodic s).uip_buf 101
        = (n.reachable.interval / 60) % 65536
    ∧ readBytes (pgw_periodic s).uip_buf 102 8 = n.lladdr := by
  have hil : i < s.pgw_6ln_cache.length := (List.getElem?_eq_some_iff.mp hn).1
  obtain ⟨cs, hc1, hc2⟩ := periodic_nbrs_first_due s.pgw_6ln_cache.length 0
    { s with
      pgw_addr_context_table := (periodic_contexts s.clock_seconds
        SICSLOWPAN_CONF_MAX_ADDR_CONTEXTS s.pgw_addr_context_table s.context_chaged).1
      context_chaged := (periodic_contexts s.clock_seconds
        SICSLOWPAN_CONF_MAX_ADDR_CONTEXTS s.pgw_addr_context_table s.context_chaged).2 }
    i n (by omega) (by omega) hn hdue (fun q m _ h2 h3 => hfirst q m h2 h3)
  have hp : pgw_periodic s = pgw_dad_response
      { s with
        pgw_addr_context_table := (periodic_contexts s.clock_seconds
          SICSLOWPAN_CONF_MAX_ADDR_CONTEXTS s.pgw_addr_context_table s.context_chaged).1
        context_chaged := (periodic_contexts s.clock_seconds
          SICSLOWPAN_CONF_MAX_ADDR_CONTEXTS s.pgw_addr_context_table s.context_chaged).2
        pgw_6ln_cache := updNbr cs i (fun m =>
          { m with state := PGW_REGISTERED, aro_pending := false }) } i ARO_STATUS_SUCCESS := by
    unfold pgw_periodic
    simp only []
    rw [hc1]
    unfold pgw_dad
    simp only [hc2, hcount]
    simp
  have hn' := updNbr_getElem?_eq cs i n
    (fun m => { m with state := PGW_REGISTERED, aro_pending := false }) hc2
  rw [hp]
  obtain ⟨a1, a2, a3, a4, _, a6, a7, a8, a9, a10, a11, a12, a13⟩ :=
    pgw_dad_response_aro
      { s with
        pgw_addr_context_table := (periodic_contexts s.clock_seconds
          SICSLOWPAN_CONF_MAX_ADDR_CONTEXTS s.pgw_addr_context_table s.context_chaged).1
        context_chaged := (periodic_contexts s.clock_seconds
          SICSLOWPAN_CONF_MAX_ADDR_CONTEXTS s.pgw_addr_context_table s.context_chaged).2
        pgw_6ln_cache := updNbr cs i (fun m =>
          { m with state := PGW_REGISTERED, aro_pending := false }) }
      i { n with state := PGW_REGISTERED, aro_pending := false } ARO_STATUS_SUCCESS hn' hll
  obtain ⟨b1, b2, _, b4, b5, b6⟩ :=
    pgw_dad_response_addrs
      { s with
        pgw_addr_context_table := (periodic_contexts s.clock_seconds
          SICSLOWPAN_CONF_MAX_ADDR_CONTEXTS s.pgw_addr_context_table s.context_chaged).1
        context_chaged := (periodic_contexts s.clock_seconds
          SICSLOWPAN_CONF_MAX_ADDR_CONTEXTS s.pgw_addr_context_table s.context_chaged).2
        pgw_6ln_cache := updNbr cs i (fun m =>
          { m with state := PGW_REGISTERED, aro_pending := false }) }
      i { n with state := PGW_REGISTERED, aro_pending := false } ARO_STATUS_SUCCESS hn' hrr hrl hip
  refine ⟨?_, a3, a2, a4, a6, a7, b1, ?_, b4, b5, b6, a8, a9, a10, ?_, a13⟩
  · rw [a1]; exact hn'
  · rw [b2]; simp
  · rw [a11, a12]
    show (n.reachable.interval / 60 % 65536 / 256 % 256) * 256
      + n.reachable.interval / 60 % 65536 % 256 = n.reachable.interval / 60 % 65536
    omega

/-! ## The uniqueness invariant of the neighbor cache -/

theorem updNbr_getElem? (cache : List pgw_nbr_t) (i q : Nat) (f : pgw_nbr_t → pgw_nbr_t) :
    (updNbr cache i f)[q]? = (cache[q]?).map (fun n => if q = i then f n else n) := by
  by_cases h : q = i
  · subst h
    cases hq : cache[q]? with
    | none => simp [updNbr, hq]
    | some n => rw [updNbr_getElem?_eq _ _ _ _ hq]; simp
  · rw [updNbr_getElem?_ne _ _ _ _ h]
    cases cache[q]? <;> simp [h]

/-- Assignments to an entry that keep its address and do not mark it used keep the
addresses of the used entries distinct. -/
theorem UniqueIp_updNbr (cache : List pgw_nbr_t) (i : Nat) (f : pgw_nbr_t → pgw_nbr_t)
    (hf : ∀ n, ((f n).isused = true → n.isused = true) ∧ (f n).ipaddr = n.ipaddr)
    (h : UniqueIp cache) : UniqueIp (updNbr cache i f) := by
  intro p q n m hp hq hnu hmu hip
  rw [updNbr_getElem?] at hp hq
  cases hp0 : cache[p]? with
  | none => simp [hp0] at hp
  | some n0 =>
    cases hq0 : cache[q]? with
    | none => simp [hq0] at hq
    | some m0 =>
      simp only [hp0, hq0, Option.map_some', Option.some.injEq] at hp hq
      have hn1 : n0.isused = true ∧ n0.ipaddr = n.ipaddr := by
        subst hp
        split_ifs at hnu ⊢
        · exact ⟨(hf n0).1 hnu, (hf n0).2.symm⟩
        · exact ⟨hnu, rfl⟩
      have hm1 : m0.isused = true ∧ m0.ipaddr = m.ipaddr := by
        subst hq
        split_ifs at hmu ⊢
        · exact ⟨(hf m0).1 hmu, (hf m0).2.symm⟩
        · exact ⟨hmu, rfl⟩
      exact h p q n0 m0 hp0 hq0 hn1.1 hm1.1 (by rw [hn1.2, hm1.2, hip])

theorem UniqueIp_rm (cache : List pgw_nbr_t) (i : Nat) (h : UniqueIp cache) :
    UniqueIp (pgw_nbr_rm cache i) :=
  UniqueIp_updNbr cache i _ (fun n => ⟨fun hh => by simp at hh, rfl⟩) h

theorem list_loop_from_freespace (ip : List Nat) (cache : List pgw_nbr_t) (k : Nat)
    (out : Option Nat) (i : Nat)
    (h : uip_ds6_list_loop_from ip cache k out = .FREESPACE i) :
    (∀ (q : Nat) (n : pgw_nbr_t), cache[q]? = some n → n.isused = true → n.ipaddr ≠ ip)
    ∧ (out = some i ∨ (k ≤ i ∧ ∃ n, cache[i - k]? = some n ∧ n.isused = false)) := by
  induction cache generalizing k out with
  | nil =>
    cases out with
    | none => simp [uip_ds6_list_loop_from] at h
    | some j =>
      simp only [uip_ds6_list_loop_from, list_loop_result.FREESPACE.injEq] at h
      subst h
      exact ⟨by simp, Or.inl rfl⟩
  | cons a rest ih =>
    unfold uip_ds6_list_loop_from at h
    split_ifs at h with h1 h2
    · obtain ⟨g1, g2⟩ := ih (k + 1) out h
      refine ⟨?_, ?_⟩
      · intro q n hq hn
        cases q with
        | zero => simp at hq; subst hq; exact h2
        | succ q => exact g1 q n (by simpa using hq) hn
      · rcases g2 with g | ⟨g3, n, g4, g5⟩
        · exact Or.inl g
        · right
          refine ⟨by omega, n, ?_, g5⟩
          have : i - k = (i - (k + 1)) + 1 := by omega
          rw [this]
          simpa using g4
    · obtain ⟨g1, g2⟩ := ih (k + 1) (some k) h
      refine ⟨?_, ?_⟩
      · intro q n hq hn
        cases q with
        | zero => simp at hq; subst hq; exact absurd hn h1
        | succ q => exact g1 q n (by simpa using hq) hn
      · rcases g2 with g | ⟨g3, n, g4, g5⟩
        · right
          simp only [Option.some.injEq] at g
          subst g
          exact ⟨le_refl _, a, by simp, by simpa using h1⟩
        · right
          refine ⟨by omega, n, ?_, g5⟩
          have : i - k = (i - (k + 1)) + 1 := by omega
          rw [this]
          simpa using g4

theorem nbr_fill_isused_ipaddr (now_t now_s : Nat) (ip : List Nat) (lladdr : Option (List Nat))
    (isrouter state : Nat) (n : pgw_nbr_t) :
    (nbr_fill now_t now_s ip lladdr isrouter state n).isused = true
    ∧ (nbr_fill now_t now_s ip lladdr isrouter state n).ipaddr = ip := by
  unfold nbr_fill
  simp only []
  split_ifs <;> exact ⟨rfl, rfl⟩

theorem UniqueIp_fill (now_t now_s : Nat) (ip : List Nat) (lladdr : Option (List Nat))
    (isrouter state : Nat) (cache : List pgw_nbr_t) (i : Nat)
    (hloop : uip_ds6_list_loop cache ip = .FREESPACE i) (h : UniqueIp cache) :
    UniqueIp (updNbr cache i (nbr_fill now_t now_s ip lladdr isrouter state)) := by
  obtain ⟨g1, g2⟩ := list_loop_from_freespace ip cache 0 none i hloop
  intro p q n m hp hq hnu hmu hip
  rw [updNbr_getElem?] at hp hq
  cases hp0 : cache[p]? with
  | none => simp [hp0] at hp
  | some n0 =>
    cases hq0 : cache[q]? with
    | none => simp [hq0] at hq
    | some m0 =>
      simp only [hp0, hq0, Option.map_some', Option.some.injEq] at hp hq
      by_cases hpi : p = i
      · by_cases hqi : q = i
        · omega
        · exfalso
          simp only [hpi, if_true] at hp
          simp only [hqi, if_false] at hq
          subst hp hq
          rw [(nbr_fill_isused_ipaddr _ _ _ _ _ _ _).2] at hip
          exact g1 q m0 hq0 hmu hip.symm
      · by_cases hqi : q = i
        · exfalso
          simp only [hpi, if_false] at hp
          simp only [hqi, if_true] at hq
          subst hp hq
          rw [(nbr_fill_isused_ipaddr _ _ _ _ _ _ _).2] at hip
          exact g1 p n0 hp0 hnu hip
        · simp only [hpi, if_false] at hp
          simp only [hqi, if_false] at hq
          subst hp hq
          exact h p q n0 m0 hp0 hq0 hnu hmu hip

/-- `pgw_nbr_add` keeps the addresses of the used entries distinct. -/
theorem UniqueIp_add_fuel (now_t now_s : Nat) (ip : List Nat) (lladdr : Option (List Nat))
    (isrouter state fuel : Nat) (cache : List pgw_nbr_t) (h : UniqueIp cache) :
    UniqueIp (pgw_nbr_add_fuel now_t now_s ip lladdr isrouter state fuel cache).1 := by
  induction fuel generalizing cache with
  | zero =>
    unfold pgw_nbr_add_fuel
    split
    · rename_i i hloop
      exact UniqueIp_fill _ _ _ _ _ _ _ _ hloop h
    · split
      · exact UniqueIp_rm _ _ h
      · exact h
    · exact h
  | succ f ih =>
    unfold pgw_nbr_add_fuel
    split
    · rename_i i hloop
      exact UniqueIp_fill _ _ _ _ _ _ _ _ hloop h
    · split
      · exact ih _ (UniqueIp_rm _ _ h)
      · exact h
    · exact h

theorem UniqueIp_add (s : State) (ip : List Nat) (lladdr : Option (List Nat))
    (isrouter state : Nat) (h : UniqueIp s.pgw_6ln_cache) :
    UniqueIp (pgw_nbr_add s ip lladdr isrouter state).1.pgw_6ln_cache :=
  UniqueIp_add_fuel _ _ _ _ _ _ _ _ h

/-! ### The handlers keep the addresses of the used entries distinct -/

theorem create_ns_pgw_6ln_cache (s : State) (src dst : Option (List Nat)) (tgt : List Nat) :
    (pgw_create_ns s src dst tgt).pgw_6ln_cache = s.pgw_6ln_cache := rfl

theorem pgw_dad_response_cache (s : State) (i status : Nat) :
    (pgw_dad_response s i status).pgw_6ln_cache = s.pgw_6ln_cache := by
  unfold pgw_dad_response
  split
  · rfl
  · simp only [checksum_cache, append_pgw_6ln_cache, create_na_pgw_6ln_cache]
    split_ifs <;> rfl

theorem pgw_registration_error_cache (s : State) (status : Nat) :
    (pgw_registration_error s status).pgw_6ln_cache = s.pgw_6ln_cache := by
  unfold pgw_registration_error
  simp only [checksum_cache, append_pgw_6ln_cache, create_na_pgw_6ln_cache]

theorem UniqueIp_dad (s : State) (i : Nat) (h : UniqueIp s.pgw_6ln_cache) :
    UniqueIp (pgw_dad s i).pgw_6ln_cache := by
  unfold pgw_dad
  split
  · exact h
  · split_ifs
    · exact UniqueIp_updNbr _ _ _ (fun n => ⟨fun hh => hh, rfl⟩) h
    · rw [pgw_dad_response_cache]
      exact UniqueIp_updNbr _ _ _ (fun n => ⟨fun hh => hh, rfl⟩) h

theorem UniqueIp_dad_failed (s : State) (i : Nat) (h : UniqueIp s.pgw_6ln_cache) :
    UniqueIp (pgw_dad_failed s i).pgw_6ln_cache := by
  unfold pgw_dad_failed
  simp only [pgw_dad_response_cache]
  exact UniqueIp_rm _ _ h

theorem UniqueIp_ns_reply (s : State) (i : Nat) (n : pgw_nbr_t)
    (h : UniqueIp s.pgw_6ln_cache) : UniqueIp (proxy_ns_reply s i n).1.pgw_6ln_cache := by
  unfold proxy_ns_reply
  split_ifs
  · simp only [checksum_cache, append_pgw_6ln_cache, create_na_pgw_6ln_cache]
    exact h
  · simp only [checksum_cache, append_pgw_6ln_cache, create_na_pgw_6ln_cache]
    exact h
  · exact UniqueIp_dad_failed s i h
  · exact h
  · exact h

theorem UniqueIp_ns_loop (k j : Nat) (s : State) (h : UniqueIp s.pgw_6ln_cache) :
    UniqueIp (proxy_ns_loop k j s).1.pgw_6ln_cache := by
  induction k generalizing j s with
  | zero => exact h
  | succ k ih =>
    unfold proxy_ns_loop
    split
    · exact h
    · simp only []
      split_ifs
      all_goals first
        | exact h
        | exact UniqueIp_ns_reply _ _ _ h
        | exact ih _ _ h

theorem opt_walk_cache (act : State → Nat → State)
    (hact : ∀ s o, (act s o).pgw_6ln_cache = s.pgw_6ln_cache) (fuel : Nat) (s t : State)
    (d : Bool) (h : opt_walk act fuel s = some (t, d)) :
    t.pgw_6ln_cache = s.pgw_6ln_cache := by
  induction fuel generalizing s with
  | zero =>
    unfold opt_walk at h
    by_cases hc : uip_l3_icmp_hdr_len s + s.pgw_opt_offset < s.uip_len
    · rw [if_pos hc] at h
      simp at h
    · rw [if_neg hc] at h
      simp only [Option.some.injEq, Prod.mk.injEq] at h
      obtain ⟨rfl, _⟩ := h
      rfl
  | succ f ih =>
    unfold opt_walk at h
    by_cases hc : uip_l3_icmp_hdr_len s + s.pgw_opt_offset < s.uip_len
    · rw [if_pos hc] at h
      simp only [] at h
      by_cases hz : s.uip_buf (uip_l2_l3_icmp_hdr_len s + s.pgw_opt_offset + 1) = 0
      · rw [if_pos hz] at h
        simp only [Option.some.injEq, Prod.mk.injEq] at h
        obtain ⟨rfl, _⟩ := h
        rfl
      · rw [if_neg hz] at h
        have := ih _ h
        rw [this]
        exact hact _ _
    · rw [if_neg hc] at h
      simp only [Option.some.injEq, Prod.mk.injEq] at h
      obtain ⟨rfl, _⟩ := h
      rfl

theorem ns_opt_act_cache (s : State) (o : Nat) :
    (ns_opt_act s o).pgw_6ln_cache = s.pgw_6ln_cache := by
  unfold ns_opt_act
  split_ifs <;> rfl

theorem rs_opt_act_cache (s : State) (o : Nat) :
    (rs_opt_act s o).pgw_6ln_cache = s.pgw_6ln_cache := by
  unfold rs_opt_act
  split_ifs <;> rfl

theorem ra_opt_act_cache (s : State) (o : Nat) :
    (ra_opt_act s o).pgw_6ln_cache = s.pgw_6ln_cache := by
  unfold ra_opt_act
  split_ifs <;> rfl

theorem UniqueIp_ns_register (s : State) (h : UniqueIp s.pgw_6ln_cache) :
    UniqueIp (proxy_ns_register s).pgw_6ln_cache := by
  unfold proxy_ns_register
  simp only []
  have h1 : UniqueIp (if uip_is_addr_unspecified (srcipaddr s) = true ∨ s.pgw_opt_llao = none
      then { s with pgw_opt_aro := none } else s).pgw_6ln_cache := by
    split_ifs <;> exact h
  generalize (if uip_is_addr_unspecified (srcipaddr s) = true ∨ s.pgw_opt_llao = none
      then { s with pgw_opt_aro := none } else s) = s1 at h1 ⊢
  split
  · exact h1
  · split_ifs
    · exact h1
    · exact h1
    · split
      · split
        · rw [pgw_registration_error_cache]
          exact UniqueIp_add _ _ _ _ _ h1
        · apply UniqueIp_dad
          exact UniqueIp_updNbr _ _ _ (fun n => ⟨fun hh => hh, rfl⟩)
            (UniqueIp_add _ _ _ _ _ h1)
      · split
        · exact h1
        · split_ifs
          · rw [pgw_registration_error_cache]
            exact h1
          · exact UniqueIp_updNbr _ _ _ (fun n => ⟨fun hh => hh, rfl⟩) h1
          · exact h1

theorem UniqueIp_ns_input (fuel : Nat) (s t : State) (ht : proxy_ns_input fuel s = some t)
    (h : UniqueIp s.pgw_6ln_cache) : UniqueIp t.pgw_6ln_cache := by
  unfold proxy_ns_input at ht
  split at ht
  · have := UniqueIp_ns_loop s.pgw_6ln_cache.length 0 { s with outgoing_if := s.incoming_if } h
    simp only [] at ht
    split_ifs at ht <;> simp only [Option.some.injEq] at ht <;> subst ht <;> exact this
  · have := UniqueIp_ns_loop s.pgw_6ln_cache.length 0 { s with outgoing_if := s.incoming_if } h
    simp only [] at ht
    split_ifs at ht <;> simp only [Option.some.injEq] at ht <;> subst ht <;> exact this
  · split_ifs at ht
    · simp only [Option.some.injEq] at ht; subst ht; exact h
    · simp only [Option.some.injEq] at ht; subst ht; exact h
    · split at ht
      · simp at ht
      · rename_i s2 hw
        have hc := opt_walk_cache _ ns_opt_act_cache _ _ _ _ hw
        simp only [Option.some.injEq] at ht; subst ht
        show UniqueIp s2.pgw_6ln_cache
        rw [hc]; exact h
      · rename_i s2 hw
        have hc := opt_walk_cache _ ns_opt_act_cache _ _ _ _ hw
        simp only [Option.some.injEq] at ht; subst ht
        apply UniqueIp_ns_register
        rw [hc]; exact h
  · simp only [Option.some.injEq] at ht; subst ht; exact h

theorem UniqueIp_na_input (s : State) (h : UniqueIp s.pgw_6ln_cache) :
    UniqueIp (proxy_na_input s).pgw_6ln_cache := by
  unfold proxy_na_input
  split
  · split_ifs
    · split
      · exact h
      · split
        · exact h
        · split_ifs
          · exact UniqueIp_dad_failed _ _ h
          · exact h
    · split
      · exact h
      · split
        · exact h
        · split_ifs
          · simp only [checksum_cache, append_pgw_6ln_cache]
            exact UniqueIp_updNbr _ _ _ (fun n => ⟨fun hh => hh, rfl⟩)
              (UniqueIp_updNbr _ _ _ (fun n => ⟨fun hh => hh, rfl⟩) h)
          · exact h
          · exact h
  · split_ifs
    · split
      · exact h
      · split
        · exact h
        · split_ifs
          · exact UniqueIp_dad_failed _ _ h
          · exact h
    · split
      · exact h
      · split
        · exact h
        · split_ifs
          · simp only [checksum_cache, append_pgw_6ln_cache]
            exact UniqueIp_updNbr _ _ _ (fun n => ⟨fun hh => hh, rfl⟩)
              (UniqueIp_updNbr _ _ _ (fun n => ⟨fun hh => hh, rfl⟩) h)
          · exact h
          · exact h
  · exact h
  · exact h

theorem UniqueIp_rs_register (s : State) (h : UniqueIp s.pgw_6ln_cache) :
    UniqueIp (proxy_rs_register s).pgw_6ln_cache := by
  unfold proxy_rs_register
  split
  · exact h
  · rename_i l hl
    simp only []
    cases hlook : pgw_nbr_lookup s.pgw_6ln_cache (srcipaddr s) with
    | none =>
      simp only []
      have key := UniqueIp_add s (srcipaddr s)
        (some (readBytes s.uip_buf (l + UIP_ND6_OPT_DATA_OFFSET) 8)) 0 PGW_TENTATIVE h
      split
      · exact key
      · exact UniqueIp_updNbr _ _ _ (fun n => ⟨fun hh => hh, rfl⟩) key
    | some i =>
      simp only []
      exact UniqueIp_updNbr _ _ _ (fun n => ⟨fun hh => hh, rfl⟩) h

theorem UniqueIp_rs_input (fuel : Nat) (s t : State) (ht : proxy_rs_input fuel s = some t)
    (h : UniqueIp s.pgw_6ln_cache) : UniqueIp t.pgw_6ln_cache := by
  unfold proxy_rs_input at ht
  split at ht
  · simp only [Option.some.injEq] at ht; subst ht; exact h
  · simp only [Option.some.injEq] at ht; subst ht; exact h
  · split_ifs at ht
    · simp only [Option.some.injEq] at ht; subst ht; exact h
    · split at ht
      · simp at ht
      · rename_i s2 hw
        have hc := opt_walk_cache _ rs_opt_act_cache _ _ _ _ hw
        simp only [Option.some.injEq] at ht; subst ht
        show UniqueIp s2.pgw_6ln_cache
        rw [hc]; exact h
      · rename_i s2 hw
        have hc := opt_walk_cache _ rs_opt_act_cache _ _ _ _ hw
        simp only [Option.some.injEq] at ht; subst ht
        apply UniqueIp_rs_register
        rw [hc]; exact h
  · simp only [Option.some.injEq] at ht; subst ht; exact h

theorem translate_opt_cache (target : interface_t) (s t : State) (off : Nat)
    (h : translate_opt target s off = some t) : t.pgw_6ln_cache = s.pgw_6ln_cache := by
  unfold translate_opt at h
  simp only [] at h
  split_ifs at h <;> simp only [Option.some.injEq] at h <;> subst h <;> rfl

theorem translate_loop_cache (target : interface_t) (fuel : Nat) (s t : State) (off : Nat)
    (h : translate_loop target fuel s off = some t) : t.pgw_6ln_cache = s.pgw_6ln_cache := by
  induction fuel generalizing s off with
  | zero =>
    unfold translate_loop at h
    by_cases hc : uip_l3_icmp_hdr_len s + off < s.uip_len
    · rw [if_pos hc] at h
      simp at h
    · rw [if_neg hc] at h
      simp only [Option.some.injEq] at h
      subst h; rfl
  | succ f ih =>
    unfold translate_loop at h
    by_cases hc : uip_l3_icmp_hdr_len s + off < s.uip_len
    · rw [if_pos hc] at h
      simp only [] at h
      by_cases hz : s.uip_buf (uip_l2_l3_icmp_hdr_len s + off + 1) = 0
      · rw [if_pos hz] at h
        simp only [Option.some.injEq] at h
        subst h; rfl
      · rw [if_neg hz] at h
        split at h
        · simp only [Option.some.injEq] at h
          subst h; rfl
        · rename_i s1 h1
          rw [ih _ _ h, translate_opt_cache _ _ _ _ h1]
    · rw [if_neg hc] at h
      simp only [Option.some.injEq] at h
      subst h; rfl

theorem translate_icmp_lladdr_cache (fuel : Nat) (target : interface_t) (s t : State)
    (h : translate_icmp_lladdr fuel target s = some t) :
    t.pgw_6ln_cache = s.pgw_6ln_cache := by
  unfold translate_icmp_lladdr at h
  simp only [] at h
  split_ifs at h
  all_goals first
    | (simp only [Option.some.injEq] at h; subst h; rfl)
    | exact translate_loop_cache _ _ _ _ _ h

theorem pgw_fwd_output_cache (fuel : Nat) (s t : State) (src dst : List Nat)
    (h : pgw_fwd_output fuel s src dst = some t) : t.pgw_6ln_cache = s.pgw_6ln_cache := by
  unfold pgw_fwd_output at h
  split at h
  · split at h
    · simp only [Option.bind_eq_some] at h
      obtain ⟨s1, h1, s2, h2, h3⟩ := h
      simp only [Option.some.injEq] at h3
      subst h3
      have e1 := translate_icmp_lladdr_cache _ _ _ _ h1
      have e2 := translate_icmp_lladdr_cache _ _ _ _ h2
      show s2.pgw_6ln_cache = _
      rw [e2]
      show s1.pgw_6ln_cache = _
      rw [e1]
    · simp only [Option.bind_eq_some] at h
      obtain ⟨s1, h1, s2, h2, h3⟩ := h
      simp only [Option.some.injEq] at h3
      subst h3
      have e1 := translate_icmp_lladdr_cache _ _ _ _ h1
      have e2 := translate_icmp_lladdr_cache _ _ _ _ h2
      show s2.pgw_6ln_cache = _
      rw [e2]
      show s1.pgw_6ln_cache = _
      rw [e1]
    · simp only [Option.bind_eq_some] at h
      obtain ⟨s2, h2, h3⟩ := h
      simp only [Option.some.injEq] at h3
      subst h3
      have e2 := translate_icmp_lladdr_cache _ _ _ _ h2
      show s2.pgw_6ln_cache = _
      rw [e2]
      rfl
    · simp only [Option.some.injEq] at h
      subst h; rfl
  · split at h
    · simp only [Option.bind_eq_some] at h
      obtain ⟨s1, h1, h3⟩ := h
      simp only [Option.some.injEq] at h3
      subst h3
      show s1.pgw_6ln_cache = _
      exact translate_icmp_lladdr_cache _ _ _ _ h1
    · simp only [Option.some.injEq] at h
      subst h; rfl
  · split at h
    · simp only [Option.bind_eq_some] at h
      obtain ⟨s1, h1, h3⟩ := h
      simp only [Option.some.injEq] at h3
      subst h3
      show s1.pgw_6ln_cache = _
      exact translate_icmp_lladdr_cache _ _ _ _ h1
    · simp only [Option.some.injEq] at h
      subst h; rfl
  · simp only [Option.bind_eq_some] at h
    obtain ⟨s1, h1, h3⟩ := h
    simp only [Option.some.injEq] at h3
    subst h3
    show s1.pgw_6ln_cache = _
    exact translate_icmp_lladdr_cache _ _ _ _ h1

theorem pgw_output_cache (fuel : Nat) (s t : State) (h : pgw_output fuel s = some t) :
    t.pgw_6ln_cache = s.pgw_6ln_cache := by
  unfold pgw_output at h
  split_ifs at h
  · simp only [Option.bind_eq_some] at h
    obtain ⟨s1, h1, h3⟩ := h
    simp only [Option.some.injEq] at h3
    subst h3
    show s1.pgw_6ln_cache = _
    exact pgw_fwd_output_cache _ _ _ _ _ h1
  · simp only [Option.some.injEq] at h
    subst h; rfl

theorem proxy_ra_pio_cache (s : State) :
    (proxy_ra_pio s).pgw_6ln_cache = s.pgw_6ln_cache := by
  unfold proxy_ra_pio
  split
  · rfl
  · simp only []
    split
    · simp only [pgw_context_create]
      split <;> rfl
    · split
      · rfl
      · split_ifs <;> rfl

theorem ra_append_contexts_cache (k i : Nat) (s : State) :
    (ra_append_contexts k i s).pgw_6ln_cache = s.pgw_6ln_cache := by
  induction k generalizing i s with
  | zero => rfl
  | succ k ih =>
    unfold ra_append_contexts
    split
    · rfl
    · split_ifs
      · rw [ih, append_pgw_6ln_cache]
      · exact ih _ _

theorem UniqueIp_map (cache : List pgw_nbr_t) (f : pgw_nbr_t → pgw_nbr_t)
    (hf : ∀ n, ((f n).isused = true → n.isused = true) ∧ (f n).ipaddr = n.ipaddr)
    (h : UniqueIp cache) : UniqueIp (cache.map f) := by
  intro p q n m hp hq hnu hmu hip
  rw [List.getElem?_map] at hp hq
  cases hp0 : cache[p]? with
  | none => simp [hp0] at hp
  | some n0 =>
    cases hq0 : cache[q]? with
    | none => simp [hq0] at hq
    | some m0 =>
      simp only [hp0, hq0, Option.map_some', Option.some.injEq] at hp hq
      subst hp hq
      exact h p q n0 m0 hp0 hq0 ((hf n0).1 hnu) ((hf m0).1 hmu)
        (by rw [← (hf n0).2, ← (hf m0).2]; exact hip)

theorem UniqueIp_clear_pending (cache : List pgw_nbr_t) (h : UniqueIp cache) :
    UniqueIp (ra_clear_pending cache) := by
  unfold ra_clear_pending
  apply UniqueIp_map _ _ _ h
  intro n
  split_ifs <;> exact ⟨fun hh => hh, rfl⟩

theorem UniqueIp_ra_fanout (fuel aux_len k i : Nat) (s t : State)
    (ht : ra_fanout fuel aux_len k i s = some t) (h : UniqueIp s.pgw_6ln_cache) :
    UniqueIp t.pgw_6ln_cache := by
  induction k generalizing i s with
  | zero =>
    simp only [ra_fanout, Option.some.injEq] at ht
    subst ht; exact h
  | succ k ih =>
    unfold ra_fanout at ht
    split at ht
    · simp only [Option.some.injEq] at ht
      subst ht; exact h
    · split_ifs at ht
      · simp only [] at ht
        split at ht
        · simp at ht
        · rename_i s2 ho
          have hc := pgw_output_cache _ _ _ ho
          have hu : UniqueIp s2.pgw_6ln_cache := by rw [hc]; exact h
          exact ih _ _ ht (UniqueIp_updNbr _ _ _ (fun n => ⟨fun hh => hh, rfl⟩) hu)
      · exact ih _ _ ht h

theorem UniqueIp_ra_forward (fuel : Nat) (s t : State) (ht : proxy_ra_forward fuel s = some t)
    (h : UniqueIp s.pgw_6ln_cache) : UniqueIp t.pgw_6ln_cache := by
  unfold proxy_ra_forward at ht
  simp only [] at ht
  have h2 : UniqueIp (proxy_ra_pio s).pgw_6ln_cache := by
    rw [proxy_ra_pio_cache]; exact h
  generalize proxy_ra_pio s = s2 at ht h2
  split_ifs at ht with c1 c2 c3 c4 c5 c6
  all_goals first
    | (simp only [Option.some.injEq] at ht; subst ht
       first
         | exact h2
         | (simp only [checksum_cache, ra_append_contexts_cache, append_pgw_6ln_cache]; exact h2)
         | (apply UniqueIp_clear_pending
            simp only [checksum_cache, ra_append_contexts_cache, append_pgw_6ln_cache]
            exact h2))
    | skip
  all_goals (split at ht)
  all_goals first
    | (simp at ht; done)
    | (rename_i s6 hf
       simp only [Option.some.injEq] at ht
       subst ht
       apply UniqueIp_ra_fanout _ _ _ _ _ _ hf
       simp only [checksum_cache, ra_append_contexts_cache, append_pgw_6ln_cache]
       exact h2)
    | (simp only [Option.some.injEq] at ht
       subst ht
       show UniqueIp (updNbr _ _ _)
       refine UniqueIp_updNbr _ _ _ (fun n => ?_) ?_
       · exact ⟨fun hh => hh, rfl⟩
       · simp only [checksum_cache, ra_append_contexts_cache, append_pgw_6ln_cache]
         exact h2)
    | (simp only [Option.some.injEq] at ht
       subst ht
       simp only [discard, checksum_cache, ra_append_contexts_cache, append_pgw_6ln_cache]
       exact h2)

theorem UniqueIp_ra_input (fuel : Nat) (s t : State) (ht : proxy_ra_input fuel s = some t)
    (h : UniqueIp s.pgw_6ln_cache) : UniqueIp t.pgw_6ln_cache := by
  unfold proxy_ra_input at ht
  split at ht
  · simp only [] at ht
    split at ht
    · simp at ht
    · rename_i s1 hw
      have hc := opt_walk_cache _ ra_opt_act_cache _ _ _ _ hw
      simp only [Option.some.injEq] at ht; subst ht
      show UniqueIp s1.pgw_6ln_cache
      rw [hc]; exact h
    · rename_i s1 hw
      have hc := opt_walk_cache _ ra_opt_act_cache _ _ _ _ hw
      apply UniqueIp_ra_forward _ _ _ ht
      rw [hc]; exact h
  · simp only [Option.some.injEq] at ht; subst ht; exact h
  · simp only [Option.some.injEq] at ht; subst ht; exact h
  · simp only [Option.some.injEq] at ht; subst ht; exact h

theorem UniqueIp_proxy_input (fuel : Nat) (s t : State) (ht : proxy_input fuel s = some t)
    (h : UniqueIp s.pgw_6ln_cache) : UniqueIp t.pgw_6ln_cache := by
  unfold proxy_input at ht
  simp only [] at ht
  split_ifs at ht
  · exact UniqueIp_ns_input _ _ _ ht h
  · simp only [Option.some.injEq] at ht; subst ht
    exact UniqueIp_na_input _ h
  · exact UniqueIp_rs_input _ _ _ ht h
  · exact UniqueIp_ra_input _ _ _ ht h
  · simp only [Option.some.injEq] at ht; subst ht
    exact h
  · simp only [Option.some.injEq] at ht; subst ht
    exact h

theorem UniqueIp_periodic_nbrs (k i : Nat) (s : State) (h : UniqueIp s.pgw_6ln_cache) :
    UniqueIp (periodic_nbrs k i s).pgw_6ln_cache := by
  induction k generalizing i s with
  | zero => exact h
  | succ k ih =>
    unfold periodic_nbrs
    split
    · exact h
    · split_ifs
      all_goals first
        | exact ih _ _ h
        | exact ih _ _ (UniqueIp_rm _ _ h)
        | exact UniqueIp_dad _ _ h

theorem UniqueIp_periodic (s : State) (h : UniqueIp s.pgw_6ln_cache) :
    UniqueIp (pgw_periodic s).pgw_6ln_cache := by
  unfold pgw_periodic
  exact UniqueIp_periodic_nbrs _ _ _ h

theorem UniqueIp_init : UniqueIp (pgw_nd_init boot_state).pgw_6ln_cache := by
  intro i j n m hi hj hn _ _
  simp only [pgw_nd_init] at hi
  have : n = nbr_zero := List.eq_of_mem_replicate (List.getElem?_mem hi)
  rw [this] at hn
  simp [nbr_zero] at hn

/-- The addresses of the used entries are distinct in every reachable state. -/
theorem reachable_UniqueIp (s : State) (h : Reachable s) : UniqueIp s.pgw_6ln_cache := by
  induction h with
  | init => exact UniqueIp_init
  | deliver s buf len ext_len inc out src dst ct cs _ ih => exact ih
  | input s t fuel _ ht ih => exact UniqueIp_proxy_input fuel s t ht ih
  | output s t fuel _ ht ih =>
    rw [pgw_output_cache fuel s t ht]
    exact ih
  | periodic s _ ih => exact UniqueIp_periodic s ih

/-- C7: in every state reachable from `pgw_nd_init` by handling NS, NA, RS, RA and
redirect packets, emitting, and periodic ticks, no two used entries of the neighbor
cache hold the same IPv6 address. -/
theorem unique_ipv6_address (s : State) (h : Reachable s) : UniqueIp s.pgw_6ln_cache :=
  reachable_UniqueIp s h

/-- C8 (as amended): in every reachable state no two used entries of the neighbor cache
hold both the same IPv6 address and the same EUI-64. -/
theorem unique_address_pair (s : State) (h : Reachable s) : UniquePair s.pgw_6ln_cache :=
  fun i j n m hi hj hn hm hip _ => reachable_UniqueIp s h i j n m hi hj hn hm hip

/-! ## The example states are reachable -/

theorem run_input_reachable (s : State) (hs : Reachable s)
    (h : (proxy_input 8 s).isSome = true) : Reachable (run_input s) := by
  apply Reachable.input s _ 8 hs
  unfold run_input
  cases hp : proxy_input 8 s with
  | none => simp [hp] at h
  | some t => rfl

set_option maxRecDepth 1000000 in
theorem ex_s1_reachable : Reachable ex_s1 :=
  run_input_reachable _ (Reachable.deliver _ _ _ _ _ _ _ _ _ _ Reachable.init) (by decide!)

set_option maxRecDepth 1000000 in
theorem ex_s2_reachable : Reachable ex_s2 :=
  run_input_reachable _ (Reachable.deliver _ _ _ _ _ _ _ _ _ _ ex_s1_reachable) (by decide!)

theorem ex_s3_reachable : Reachable ex_s3 :=
  Reachable.periodic _ (Reachable.deliver _ _ _ _ _ _ _ _ _ _ ex_s2_reachable)

set_option maxRecDepth 1000000 in
theorem ex_s4_reachable : Reachable ex_s4 :=
  run_input_reachable _ (Reachable.deliver _ _ _ _ _ _ _ _ _ _ ex_s3_reachable) (by decide!)

theorem ex_s5_reachable : Reachable ex_s5 :=
  Reachable.periodic _ (Reachable.deliver _ _ _ _ _ _ _ _ _ _ ex_s4_reachable)

set_option maxRecDepth 1000000 in
theorem ex_dad_failed_reachable : Reachable ex_dad_failed :=
  run_input_reachable _ (Reachable.deliver _ _ _ _ _ _ _ _ _ _ ex_s2_reachable) (by decide!)

set_option maxRecDepth 1000000 in
theorem ex_ll_pending_reachable : Reachable ex_ll_pending :=
  run_input_reachable _ (Reachable.deliver _ _ _ _ _ _ _ _ _ _ ex_s1_reachable) (by decide!)

set_option maxRecDepth 1000000 in
theorem ex_ll_registered_reachable : Reachable ex_ll_registered :=
  run_input_reachable _ (Reachable.deliver _ _ _ _ _ _ _ _ _ _ ex_ll_pending_reachable)
    (by decide!)

/-! ## Registration properties in reachable states -/

theorem first_of_UniqueIp (cache : List pgw_nbr_t) (h : UniqueIp cache) (i : Nat)
    (n : pgw_nbr_t) (hn : cache[i]? = some n) (hu : n.isused = true) :
    ∀ j m, j < i → cache[j]? = some m → m.isused = true → m.ipaddr ≠ n.ipaddr := by
  intro j m hj hm hmu heq
  have := h j i m n hm hn hmu hu heq
  omega

/-- C3: in every reachable state, an NA from Ethernet to the link-local all-nodes address
whose target is the address of a tentative entry removes that entry from the neighbor
cache, leaves every other entry unchanged, and leaves for emission on the 6LoWPAN side an
NA whose ARO has status 1 (DUPLICATE) and the EUI-64 of the entry, with the link-layer
address of the entry as L2 destination. -/
theorem dad_failure_removes_tentative (s : State) (hreach : Reachable s) (i : Nat)
    (n : pgw_nbr_t)
    (hinc : s.incoming_if = .IEEE_802_3)
    (hdst : destipaddr s = linklocal_allnodes_mcast)
    (hn : s.pgw_6ln_cache[i]? = some n)
    (hused : n.isused = true) (hstate : n.state = PGW_TENTATIVE)
    (htgt : tgtipaddr s = n.ipaddr)
    (hll : n.lladdr.length = 8) :
    (proxy_na_input s).pgw_6ln_cache = s.pgw_6ln_cache.set i { n with isused := false }
    ∧ (proxy_na_input s).uip_len = 96
    ∧ (proxy_na_input s).outgoing_if = .IEEE_802_15_4
    ∧ (proxy_na_input s).uip_buf 54 = ICMP6_NA
    ∧ (proxy_na_input s).uip_buf 94 = UIP_ND6_OPT_ARO
    ∧ (proxy_na_input s).uip_buf 95 = 2
    ∧ (proxy_na_input s).uip_buf 96 = ARO_STATUS_DUPLICATE
    ∧ readBytes (proxy_na_input s).uip_buf 102 8 = n.lladdr
    ∧ (proxy_na_input s).dst_eui64 = n.lladdr :=
  dad_failure_first s i n hinc hdst hn hused hstate htgt
    (first_of_UniqueIp _ (reachable_UniqueIp s hreach) i n hn hused) hll

/-- C4: in every reachable state, a registration NS from the 6LoWPAN side whose source is
held by a cache entry with another EUI-64 leaves the neighbor cache completely unchanged,
and the packet left for emission toward the 6LoWPAN side is an NA whose ARO has status 1
(DUPLICATE). -/
theorem duplicate_registration_keeps_owner (s : State) (hreach : Reachable s)
    (src e : List Nat) (l a fuel i : Nat) (n : pgw_nbr_t)
    (h : registration_ns s src e l a) (hf : 2 ≤ fuel)
    (hn : s.pgw_6ln_cache[i]? = some n) (hu : n.isused = true) (hip : n.ipaddr = src)
    (hne : n.lladdr ≠ e) :
    ∃ t, proxy_ns_input fuel s = some t
      ∧ t.pgw_6ln_cache = s.pgw_6ln_cache
      ∧ t.outgoing_if = .IEEE_802_15_4
      ∧ t.uip_len = 96
      ∧ t.uip_buf 54 = ICMP6_NA
      ∧ t.uip_buf 94 = UIP_ND6_OPT_ARO
      ∧ t.uip_buf 95 = 2
      ∧ t.uip_buf 96 = ARO_STATUS_DUPLICATE :=
  duplicate_registration_first s src e l a fuel i n h hf hn hu hip
    (hip ▸ first_of_UniqueIp _ (reachable_UniqueIp s hreach) i n hn hu) hne

/-! ## The properties at the example states -/

set_option maxRecDepth 1000000 in
/-- C1 at a reachable state: after the DAD failure for `ex_ip1` freed slot 24, the
registration NS of node B for `ex_ip2` (cache with a free slot and no entry for
`ex_ip2`) is handled by `proxy_ns_input` without any DAD NS: the new entry in slot 24 is
at once registered with `aro_pending` clear and DAD count 1 (the count left by the
previous owner of the slot), and the packet left for emission is an NA of 96 octets
toward the 6LoWPAN side with ARO status 0, not an NS toward Ethernet. -/
theorem reused_slot_skips_dad :
    Reachable ex_reused_slot
    ∧ registration_ns ex_reused_slot ex_ip2 ex_eui_b 78 94
    ∧ uip_ds6_list_loop ex_reused_slot.pgw_6ln_cache ex_ip2 = .FREESPACE 24
    ∧ (proxy_ns_input 8 ex_reused_slot).map (fun t =>
        t.pgw_6ln_cache[24]?.map (fun n => (n.isused, n.ipaddr, n.lladdr)))
      = some (some (true, ex_ip2, ex_eui_b))
    ∧ (proxy_ns_input 8 ex_reused_slot).map (fun t =>
        t.pgw_6ln_cache[24]?.map (fun n => (n.state, n.aro_pending, n.dadnscount)))
      = some (some (PGW_REGISTERED, false, 1))
    ∧ (proxy_ns_input 8 ex_reused_slot).map (fun t =>
        (t.outgoing_if, t.uip_len, t.uip_buf 54, t.uip_buf 94, t.uip_buf 96))
      = some (.IEEE_802_15_4, 96, ICMP6_NA, UIP_ND6_OPT_ARO, ARO_STATUS_SUCCESS) := by
  refine ⟨Reachable.deliver _ _ _ _ _ _ _ _ _ _ ex_dad_failed_reachable, ?_, ?_, ?_, ?_, ?_⟩
  · unfold registration_ns; decide!
  · decide!
  · decide!
  · decide!
  · decide!

set_option maxRecDepth 1000000 in
/-- C2, witness: a tentative entry for the global address `ex_ip1` with one DAD NS sent
and an expired DAD timer is registered by `pgw_periodic`. -/
theorem dad_success_registers_witness :
    (pgw_periodic (ex_eth_state ex_ip1 PGW_TENTATIVE [] 0)).pgw_6ln_cache[0]?
        = some { ex_nbr ex_ip1 ex_eui_a PGW_TENTATIVE with
            state := PGW_REGISTERED, aro_pending := false }
    ∧ (pgw_periodic (ex_eth_state ex_ip1 PGW_TENTATIVE [] 0)).uip_buf 96 = ARO_STATUS_SUCCESS :=
  have h := dad_success_registers (ex_eth_state ex_ip1 PGW_TENTATIVE [] 0) 0
    (ex_nbr ex_ip1 ex_eui_a PGW_TENTATIVE) (by rfl) (by unfold dad_due; decide) (by rfl)
    (by intro j m hj; omega) (by rfl) (by rfl) (by rfl) (by rfl)
  ⟨h.1, h.2.2.2.2.2.2.2.2.2.2.2.2.2.1⟩

set_option maxRecDepth 1000000 in
/-- C2 as stated does not hold: in a reachable state, the tentative entry of slot 24
holds the link-local address `ex_ip_ll`, its reachable timer has not expired, one DAD NS
is counted and its DAD timer has expired, and it is the only used entry; `pgw_periodic`
leaves it tentative with `aro_pending` set and leaves no packet for emission. -/
theorem linklocal_entry_stays_tentative :
    Reachable ex_linklocal_tentative
    ∧ ex_linklocal_tentative.pgw_6ln_cache[24]?.map (fun n =>
        (n.isused, n.state, n.ipaddr, stimer_expired ex_linklocal_tentative.clock_seconds n.reachable,
         decide (PGW_MAX_DAD_NS ≤ n.dadnscount),
         timer_expired ex_linklocal_tentative.clock_time n.dadtimer))
      = some (true, PGW_TENTATIVE, ex_ip_ll, false, true, true)
    ∧ (∀ n ∈ ex_linklocal_tentative.pgw_6ln_cache.take 24, n.isused = false)
    ∧ (pgw_periodic ex_linklocal_tentative).pgw_6ln_cache[24]?.map (fun n =>
        (n.isused, n.state, n.aro_pending)) = some (true, PGW_TENTATIVE, true)
    ∧ (pgw_periodic ex_linklocal_tentative).uip_len = 0 := by
  refine ⟨Reachable.deliver _ _ _ _ _ _ _ _ _ _ ex_ll_pending_reachable, ?_, ?_, ?_, ?_⟩
    <;> decide!

set_option maxRecDepth 1000000 in
/-- C3, witness: in the reachable state `ex_s2` slot 24 holds `ex_ip1`, tentative; an NA
from Ethernet to all-nodes that defends `ex_ip1` removes the entry, and an NA with ARO
status 1 goes to node A. -/
theorem dad_failure_removes_tentative_witness :
    (proxy_na_input ex_defended).pgw_6ln_cache
        = ex_defended.pgw_6ln_cache.set 24
            { ex_defended.pgw_6ln_cache.getD 24 nbr_zero with isused := false }
    ∧ (proxy_na_input ex_defended).uip_buf 96 = ARO_STATUS_DUPLICATE
    ∧ (proxy_na_input ex_defended).dst_eui64 = ex_eui_a :=
  have h := dad_failure_removes_tentative ex_defended
    (Reachable.deliver _ _ _ _ _ _ _ _ _ _ ex_s2_reachable) 24
    (ex_defended.pgw_6ln_cache.getD 24 nbr_zero)
    (by rfl) (by decide!) (by decide!) (by decide!) (by decide!) (by decide!) (by decide!)
  ⟨h.1, h.2.2.2.2.2.2.1, h.2.2.2.2.2.2.2.2.trans (by decide!)⟩

set_option maxRecDepth 1000000 in
/-- C4, witness: in the reachable state `ex_duplicate` node A holds `ex_ip1` in slot 24
and node B asks for `ex_ip1`. -/
theorem duplicate_registration_keeps_owner_witness :
    ∃ t, proxy_ns_input 8 ex_duplicate = some t
      ∧ t.pgw_6ln_cache = ex_duplicate.pgw_6ln_cache
      ∧ t.outgoing_if = .IEEE_802_15_4
      ∧ t.uip_len = 96
      ∧ t.uip_buf 54 = ICMP6_NA
      ∧ t.uip_buf 94 = UIP_ND6_OPT_ARO
      ∧ t.uip_buf 95 = 2
      ∧ t.uip_buf 96 = ARO_STATUS_DUPLICATE :=
  duplicate_registration_keeps_owner ex_duplicate
    (Reachable.deliver _ _ _ _ _ _ _ _ _ _ ex_s3_reachable) ex_ip1 ex_eui_b 78 94 8 24
    (ex_duplicate.pgw_6ln_cache.getD 24 nbr_zero)
    (by unfold registration_ns; decide!) (by decide) (by decide!) (by decide!) (by decide!)
    (by decide!)

set_option maxRecDepth 1000000 in
/-- C5 at a reachable state: node A holds `ex_ip1` (registered) and node B, with another
EUI-64, sends a registration NS with source `ex_ip1`; the NA with ARO status 1 left by
`proxy_ns_input` has the IPv6 destination `ex_ip1`, the source of the NS, which is not
the link-local address derived from the EUI-64 of node B. -/
theorem duplicate_error_na_destination :
    Reachable ex_duplicate
    ∧ registration_ns ex_duplicate ex_ip1 ex_eui_b 78 94
    ∧ ex_duplicate.pgw_6ln_cache[24]?.map (fun n => (n.isused, n.ipaddr, n.lladdr))
        = some (true, ex_ip1, ex_eui_a)
    ∧ (proxy_ns_input 8 ex_duplicate).map (fun t =>
        (t.uip_buf 54, t.uip_buf 94, t.uip_buf 96, destipaddr t))
      = some (ICMP6_NA, UIP_ND6_OPT_ARO, ARO_STATUS_DUPLICATE, ex_ip1)
    ∧ create_eui64_based_ipaddr ex_eui_b
        = [0xfe, 0x80, 0, 0, 0, 0, 0, 0, 0, 0, 0, 0, 0, 0, 0, 0x0b]
    ∧ ex_ip1 ≠ create_eui64_based_ipaddr ex_eui_b := by
  refine ⟨Reachable.deliver _ _ _ _ _ _ _ _ _ _ ex_s3_reachable, ?_, ?_, ?_, ?_, ?_⟩
  · unfold registration_ns; decide!
  · decide!
  · decide!
  · decide
  · decide

set_option maxRecDepth 1000000 in
/-- C6, witness: all 25 slots hold registered entries and node B asks for `ex_ip1`. -/
theorem cache_full_registration_witness :
    pgw_nbr_add_cache ex_full_state.clock_time ex_full_state.clock_seconds ex_ip1 (some ex_eui_b) 0
        PGW_TENTATIVE ex_full_state.pgw_6ln_cache
      = (ex_full_state.pgw_6ln_cache, none)
    ∧ ∃ t, proxy_ns_input 2 ex_full_state = some t
      ∧ t.pgw_6ln_cache = ex_full_state.pgw_6ln_cache
      ∧ t.outgoing_if = .IEEE_802_15_4
      ∧ t.uip_len = 96
      ∧ t.uip_buf 54 = ICMP6_NA
      ∧ t.uip_buf 94 = UIP_ND6_OPT_ARO
      ∧ t.uip_buf 95 = 2
      ∧ t.uip_buf 96 = ARO_STATUS_RTR_NC_FULL :=
  cache_full_registration ex_full_state ex_ip1 ex_eui_b 78 94 2
    (by unfold registration_ns; decide) (by decide) (by decide!) (by decide!)

/-- C7, witness: the cache of `ex_s5` (two registered entries) has no address twice. -/
theorem unique_ipv6_address_witness : UniqueIp ex_s5.pgw_6ln_cache :=
  unique_ipv6_address ex_s5 ex_s5_reachable

/-- C8 (as amended), witness: the cache of `ex_s5` has no pair twice. -/
theorem unique_address_pair_witness : UniquePair ex_s5.pgw_6ln_cache :=
  unique_address_pair ex_s5 ex_s5_reachable

set_option maxRecDepth 1000000 in
/-- C8 as stated does not hold: `ex_s5` is reachable (an RA, two registration NS of the
same node for two addresses, each followed by a periodic tick) and its slots 23 and 24
are both used and registered with the same EUI-64. -/
theorem same_eui64_registered_twice :
    Reachable ex_s5
    ∧ ex_s5.pgw_6ln_cache[23]?.map (fun n => (n.isused, n.state, n.ipaddr, n.lladdr))
      = some (true, PGW_REGISTERED, ex_ip2, ex_eui_a)
    ∧ ex_s5.pgw_6ln_cache[24]?.map (fun n => (n.isused, n.state, n.ipaddr, n.lladdr))
      = some (true, PGW_REGISTERED, ex_ip1, ex_eui_a)
    ∧ ¬ UniqueEui ex_s5.pgw_6ln_cache := by
  have h23 : ex_s5.pgw_6ln_cache[23]?.map (fun n => (n.isused, n.state, n.ipaddr, n.lladdr))
      = some (true, PGW_REGISTERED, ex_ip2, ex_eui_a) := by decide!
  have h24 : ex_s5.pgw_6ln_cache[24]?.map (fun n => (n.isused, n.state, n.ipaddr, n.lladdr))
      = some (true, PGW_REGISTERED, ex_ip1, ex_eui_a) := by decide!
  refine ⟨ex_s5_reachable, h23, h24, ?_⟩
  intro hu
  cases hn : ex_s5.pgw_6ln_cache[23]? with
  | none => rw [hn] at h23; simp at h23
  | some n =>
    cases hm : ex_s5.pgw_6ln_cache[24]? with
    | none => rw [hm] at h24; simp at h24
    | some m =>
      rw [hn] at h23
      rw [hm] at h24
      simp only [Option.map_some', Option.some.injEq, Prod.mk.injEq] at h23 h24
      have := hu 23 24 n m hn hm h23.1 h24.1 (by rw [h23.2.2.2, h24.2.2.2])
      omega

set_option maxRecDepth 1000000 in
/-- C9 (as amended), witness: the host on Ethernet resolves the registered `ex_ip1`. -/
theorem ns_address_resolution_witness :
    ∃ t, proxy_ns_input 8 (ex_eth_state ex_ip1 PGW_REGISTERED (ex_ns_eth ex_host ex_ip1) 72) = some t
      ∧ t.uip_len = 80
      ∧ t.uip_buf 54 = ICMP6_NA
      ∧ srcipaddr t = ex_ip1
      ∧ destipaddr t = ex_host
      ∧ readBytes t.uip_buf 80 8 = ex_eui_a :=
  have h := ns_address_resolution 8
    (ex_eth_state ex_ip1 PGW_REGISTERED (ex_ns_eth ex_host ex_ip1) 72) 0
    (ex_nbr ex_ip1 ex_eui_a PGW_REGISTERED) (by rfl) (by rfl) (by rfl) (by rfl) (by decide)
    (by decide) (by intro j m hj; omega) (by rfl)
  h.elim (fun t ht => ⟨t, ht.1, ht.2.2.2.1, ht.2.2.2.2.1, ht.2.2.2.2.2.2.1,
    ht.2.2.2.2.2.2.2.1, ht.2.2.2.2.2.2.2.2.2.2.2.1⟩)

set_option maxRecDepth 1000000 in
/-- C9 as stated does not hold: in the reachable state `ex_ll_query` slot 24 is registered
for the link-local address `ex_ip_ll`, which is not the address derived from the EUI-64
of the entry; the NS from Ethernet with the specified source `ex_host` and target
`ex_ip_ll` is left in the buffer as it came, an NS of 72 octets: no NA is built. -/
theorem linklocal_target_not_resolved :
    Reachable ex_ll_query
    ∧ ex_ll_query.pgw_6ln_cache[24]?.map (fun n => (n.isused, n.state, n.ipaddr, n.lladdr))
      = some (true, PGW_REGISTERED, ex_ip_ll, ex_eui_a)
    ∧ ex_ll_query.incoming_if = .IEEE_802_3
    ∧ tgtipaddr ex_ll_query = ex_ip_ll
    ∧ srcipaddr ex_ll_query = ex_host
    ∧ uip_is_addr_unspecified ex_host = false
    ∧ (proxy_ns_input 8 ex_ll_query).map (fun t => (t.uip_buf 54, t.uip_len))
      = some (ICMP6_NS, 72)
    ∧ (proxy_ns_input 8 ex_ll_query).map (fun t => readBytes t.uip_buf 14 72)
      = some (readBytes ex_ll_query.uip_buf 14 72) := by
  refine ⟨Reachable.deliver _ _ _ _ _ _ _ _ _ _ ex_ll_registered_reachable,
    ?_, ?_, ?_, ?_, ?_, ?_, ?_⟩ <;> decide!

set_option maxRecDepth 1000000 in
/-- C10 at a reachable state: the only used entry of the cache holds `ex_ip1`, and an NS
from Ethernet asks for `ex_ip2`; `proxy_ns_input` does not discard the packet: `uip_len`
is still 72 afterwards and the NS is unchanged. -/
theorem unknown_target_not_discarded :
    Reachable ex_unknown_target
    ∧ ex_unknown_target.incoming_if = .IEEE_802_3
    ∧ tgtipaddr ex_unknown_target = ex_ip2
    ∧ (∀ n ∈ ex_unknown_target.pgw_6ln_cache, n.isused = true →
        n.ipaddr ≠ ex_ip2 ∧ create_eui64_based_ipaddr n.lladdr ≠ ex_ip2)
    ∧ (proxy_ns_input 8 ex_unknown_target).map (fun t => (t.uip_len, t.uip_buf 54))
      = some (72, ICMP6_NS) := by
  refine ⟨Reachable.deliver _ _ _ _ _ _ _ _ _ _ ex_s3_reachable, ?_, ?_, ?_, ?_⟩ <;> decide!

/-! ## DAD from Ethernet against a tentative address -/

theorem pgw_dad_response_ipaddr (s : State) (i status : Nat) :
    (pgw_dad_response s i status).ipaddr = s.ipaddr := by
  unfold pgw_dad_response
  split
  · rfl
  · simp only [checksum_ipaddr, append_ipaddr, create_na_ipaddr]
    split <;> rfl

/-- C11 (as amended): an NS from Ethernet with the unspecified source whose target is
matched by a tentative entry (the first used entry whose address, its registered address
for a target that is not link-local and the link-local address derived from its EUI-64
for a link-local target, equals the target) removes that entry, leaves the other entries
unchanged, sends nothing back to Ethernet, and leaves for emission on the 6LoWPAN side
an NA of 96 octets whose ARO has status 1 (DUPLICATE) and the EUI-64 of the entry, with
the link-layer address of the entry as L2 destination. -/
theorem ns_dad_against_tentative (fuel : Nat) (s : State) (i : Nat) (n : pgw_nbr_t)
    (hinc : s.incoming_if = .IEEE_802_3)
    (hn : s.pgw_6ln_cache[i]? = some n) (hu : n.isused = true)
    (hst : n.state = PGW_TENTATIVE)
    (hsrc : uip_is_addr_unspecified (srcipaddr s) = true)
    (hmatch : ns_match_addr (tgtipaddr s) n = tgtipaddr s)
    (hfirst : ∀ j m, j < i → s.pgw_6ln_cache[j]? = some m → m.isused = true →
      ns_match_addr (tgtipaddr s) m ≠ tgtipaddr s)
    (hll : n.lladdr.length = 8) :
    ∃ t, proxy_ns_input fuel s = some t
      ∧ t.pgw_6ln_cache = s.pgw_6ln_cache.set i { n with isused := false }
      ∧ t.uip_len = 96
      ∧ t.outgoing_if = .IEEE_802_15_4
      ∧ t.uip_buf 54 = ICMP6_NA
      ∧ t.uip_buf 94 = UIP_ND6_OPT_ARO
      ∧ t.uip_buf 95 = 2
      ∧ t.uip_buf 96 = ARO_STATUS_DUPLICATE
      ∧ readBytes t.uip_buf 102 8 = n.lladdr
      ∧ t.dst_eui64 = n.lladdr := by
  have key : ∃ s' : State, proxy_ns_loop s.pgw_6ln_cache.length 0
        { s with outgoing_if := s.incoming_if } = proxy_ns_reply s' i n
      ∧ s'.pgw_6ln_cache = s.pgw_6ln_cache
      ∧ s'.ipaddr ≠ none ∧ srcipaddr s' = srcipaddr s := by
    have hil : i < s.pgw_6ln_cache.length := (List.getElem?_eq_some_iff.mp hn).1
    by_cases hlocal : uip_is_addr_linklocal (tgtipaddr s) = true
    · simp only [ns_match_addr, hlocal, if_true] at hmatch hfirst
      exact ⟨_, proxy_ns_loop_first_local _ 0 { s with outgoing_if := s.incoming_if } i n
        (by omega) (by omega) hlocal hn hu hmatch
        (fun q m _ h2 => hfirst q m h2), rfl, by simp, rfl⟩
    · have hlocal2 : uip_is_addr_linklocal (tgtipaddr s) = false := by simpa using hlocal
      simp only [ns_match_addr, hlocal2, Bool.false_eq_true, if_false] at hmatch hfirst
      exact ⟨_, proxy_ns_loop_first_global _ 0 { s with outgoing_if := s.incoming_if } i n
        (by omega) (by omega) hlocal2 hn hu hmatch
        (fun q m _ h2 => hfirst q m h2), rfl, by simp, rfl⟩
  obtain ⟨s', hloop, hc, hi, hs⟩ := key
  have hn' : s'.pgw_6ln_cache[i]? = some n := by rw [hc]; exact hn
  have hrep : proxy_ns_reply s' i n = (pgw_dad_failed s' i, false) := by
    have h1 : n.state ≠ PGW_REGISTERED := by rw [hst]; decide
    unfold proxy_ns_reply
    rw [if_neg h1, if_pos hst, hs, hsrc]
    rfl
  obtain ⟨h1, h2, h3, h4, _, h6, _, h8, h9, h10, _, _, h13⟩ :=
    pgw_dad_response_aro s' i n ARO_STATUS_DUPLICATE hn' hll
  unfold proxy_ns_input
  simp only [hinc] at hloop ⊢
  simp only [hloop, hrep, Bool.false_eq_true, if_false]
  have hip : (pgw_dad_failed s' i).ipaddr ≠ none := by
    simp only [pgw_dad_failed, pgw_dad_response_ipaddr]
    exact hi
  rw [if_neg hip]
  refine ⟨_, rfl, ?_, h2, h3, h6, h8, h9, h10, h13, h4⟩
  simp only [pgw_dad_failed]
  rw [h1, pgw_nbr_rm, updNbr_some _ _ _ _ hn', hc]

/-! ## The translation of link-layer addresses -/

theorem setByte_self (b : Nat → Nat) (i : Nat) : setByte b i (b i) = b := by
  funext j
  simp only [setByte]
  split_ifs with h
  · rw [h]
  · rfl

theorem create_ethernet_in_place (b : Nat → Nat) (p : Nat) :
    create_ethernet_lladdr_buf b p p
      = setByte (setByte (setByte b (p + 3) (b (p + 5))) (p + 4) (b (p + 6))) (p + 5)
          (b (p + 7)) := by
  simp (disch := omega) only [create_ethernet_lladdr_buf, setByte_self, setByte_ne]

theorem create_6lowpan_in_place (b : Nat → Nat) (p : Nat) :
    create_6lowpan_lladdr_buf b p p
      = setByte (setByte (setByte (setByte (setByte b (p + 7) (b (p + 5))) (p + 5) (b (p + 3)))
          (p + 6) (b (p + 4))) (p + 3) 0xff) (p + 4) 0xfe := by
  simp (disch := omega) only [create_6lowpan_lladdr_buf, setByte_self, setByte_ne]

theorem create_ethernet_apart (b : Nat → Nat) (p q : Nat) (h : p + 6 ≤ q ∨ q + 8 ≤ p) :
    create_ethernet_lladdr_buf b p q
      = setByte (setByte (setByte (setByte (setByte (setByte b (p + 0) (b (q + 0))) (p + 1)
          (b (q + 1))) (p + 2) (b (q + 2))) (p + 3) (b (q + 5))) (p + 4) (b (q + 6))) (p + 5)
          (b (q + 7)) := by
  simp (disch := omega) only [create_ethernet_lladdr_buf, setByte_ne]

theorem create_6lowpan_apart (b : Nat → Nat) (p q : Nat) (h : p + 8 ≤ q ∨ q + 6 ≤ p) :
    create_6lowpan_lladdr_buf b q p
      = setByte (setByte (setByte (setByte (setByte (setByte (setByte (setByte b (p + 0)
          (b (q + 0))) (p + 1) (b (q + 1))) (p + 2) (b (q + 2))) (p + 7) (b (q + 5))) (p + 5)
          (b (q + 3))) (p + 6) (b (q + 4))) (p + 3) 0xff) (p + 4) 0xfe := by
  simp (disch := omega) only [create_6lowpan_lladdr_buf, setByte_ne]

/-- C18: `create_ethernet_lladdr` maps the EUI-64 `e` to the MAC `e0 e1 e2 e5 e6 e7` and
`create_6lowpan_lladdr` maps the MAC `m` to the EUI-64 `m0 m1 m2 ff fe m3 m4 m5`, with
both pointers into the packet buffer, the same memory (`q = p`) or memory that does not
overlap, and for addresses held outside the buffer; an EUI-64 whose octets 3 and 4 are
`ff fe` is restored by EUI-64 to Ethernet to EUI-64, and every MAC is restored by
Ethernet to EUI-64 to Ethernet. -/
theorem lladdr_translation_round_trip :
    (∀ (b : Nat → Nat) (p q : Nat), (q = p ∨ p + 6 ≤ q ∨ q + 8 ≤ p) →
      readBytes (create_ethernet_lladdr_buf b p q) p 6
        = [b q, b (q + 1), b (q + 2), b (q + 5), b (q + 6), b (q + 7)])
    ∧ (∀ (b : Nat → Nat) (p q : Nat), (q = p ∨ p + 8 ≤ q ∨ q + 6 ≤ p) →
      readBytes (create_6lowpan_lladdr_buf b q p) p 8
        = [b q, b (q + 1), b (q + 2), 0xff, 0xfe, b (q + 3), b (q + 4), b (q + 5)])
    ∧ (∀ e : List Nat, create_ethernet_lladdr e
        = [e.getD 0 0, e.getD 1 0, e.getD 2 0, e.getD 5 0, e.getD 6 0, e.getD 7 0])
    ∧ (∀ m : List Nat, create_6lowpan_lladdr m
        = [m.getD 0 0, m.getD 1 0, m.getD 2 0, 0xff, 0xfe, m.getD 3 0, m.getD 4 0, m.getD 5 0])
    ∧ (∀ (b : Nat → Nat) (p : Nat), b (p + 3) = 0xff → b (p + 4) = 0xfe →
      readBytes (create_6lowpan_lladdr_buf (create_ethernet_lladdr_buf b p p) p p) p 8
        = readBytes b p 8)
    ∧ (∀ (b : Nat → Nat) (p : Nat),
      readBytes (create_ethernet_lladdr_buf (create_6lowpan_lladdr_buf b p p) p p) p 6
        = readBytes b p 6)
    ∧ (∀ e : List Nat, e.length = 8 → e.getD 3 0 = 0xff → e.getD 4 0 = 0xfe →
      create_6lowpan_lladdr (create_ethernet_lladdr e) = e)
    ∧ (∀ m : List Nat, m.length = 6 →
      create_ethernet_lladdr (create_6lowpan_lladdr m) = m) := by
  refine ⟨?_, ?_, ?_, ?_, ?_, ?_, ?_, ?_⟩
  · intro b p q h
    rcases h with h | h
    · subst h
      rw [create_ethernet_in_place]
      simp (disch := omega) [readBytes, List.range, List.range.loop, setByte_eq, setByte_ne]
    · rw [create_ethernet_apart b p q h]
      simp (disch := omega) [readBytes, List.range, List.range.loop, setByte_eq, setByte_ne]
  · intro b p q h
    rcases h with h | h
    · subst h
      rw [create_6lowpan_in_place]
      simp (disch := omega) [readBytes, List.range, List.range.loop, setByte_eq, setByte_ne]
    · rw [create_6lowpan_apart b p q h]
      simp (disch := omega) [readBytes, List.range, List.range.loop, setByte_eq, setByte_ne]
  · intro e; rfl
  · intro m; rfl
  · intro b p h3 h4
    rw [create_6lowpan_in_place, create_ethernet_in_place]
    simp (disch := omega) [readBytes, List.range, List.range.loop, setByte_eq, setByte_ne,
      h3, h4]
  · intro b p
    rw [create_ethernet_in_place, create_6lowpan_in_place]
    simp (disch := omega) [readBytes, List.range, List.range.loop, setByte_eq, setByte_ne]
  · intro e h1 h3 h4
    match e, h1 with
    | [a0, a1, a2, a3, a4, a5, a6, a7], _ =>
      simp [create_6lowpan_lladdr, create_ethernet_lladdr] at h3 h4 ⊢
      exact ⟨h3.symm, h4.symm⟩
  · intro m h1
    match m, h1 with
    | [a0, a1, a2, a3, a4, a5], _ => rfl

/-- C18, witness: the round trips on the EUI-64 form and on the MAC address of the host. -/
theorem lladdr_translation_round_trip_witness :
    create_6lowpan_lladdr (create_ethernet_lladdr ex_host_ll) = ex_host_ll
    ∧ create_ethernet_lladdr (create_6lowpan_lladdr [0x00, 0xaa, 0xbb, 0xcc, 0xdd, 0xee])
        = [0x00, 0xaa, 0xbb, 0xcc, 0xdd, 0xee]
    ∧ readBytes (create_6lowpan_lladdr_buf (create_ethernet_lladdr_buf
          (bufOfList ex_host_ll) 0 0) 0 0) 0 8 = readBytes (bufOfList ex_host_ll) 0 8 :=
  ⟨lladdr_translation_round_trip.2.2.2.2.2.2.1 ex_host_ll (by rfl) (by rfl) (by rfl),
   lladdr_translation_round_trip.2.2.2.2.2.2.2 _ (by rfl),
   lladdr_translation_round_trip.2.2.2.2.1 (bufOfList ex_host_ll) 0 (by rfl) (by rfl)⟩

/-! ## The bridge table -/

theorem bridge_lookup_from_none (a : List Nat) (l : List bridge_entry_t) (i : Nat) :
    bridge_lookup_from a l i = none ↔ ∀ e ∈ l, e.addr ≠ a := by
  induction l generalizing i with
  | nil => simp [bridge_lookup_from]
  | cons x rest ih =>
    simp only [bridge_lookup_from, List.mem_cons, forall_eq_or_imp]
    by_cases h : a = x.addr
    · simp [h]
    · simp only [if_neg h, ih]
      constructor
      · intro hr
        exact ⟨fun hx => h hx.symm, hr⟩
      · intro hr
        exact hr.2

theorem bridge_lookup_from_some (a : List Nat) (l : List bridge_entry_t) (i k : Nat)
    (h : bridge_lookup_from a l i = some k) :
    ∃ j e, k = i + j ∧ l[j]? = some e ∧ e.addr = a := by
  induction l generalizing i with
  | nil => simp [bridge_lookup_from] at h
  | cons x rest ih =>
    simp only [bridge_lookup_from] at h
    by_cases hx : a = x.addr
    · rw [if_pos hx] at h
      exact ⟨0, x, by simpa using h.symm, by simp, hx.symm⟩
    · rw [if_neg hx] at h
      obtain ⟨j, e, h1, h2, h3⟩ := ih (i + 1) h
      exact ⟨j + 1, e, by omega, by simpa using h2, h3⟩

theorem bridge_lookup_from_append (a : List Nat) (l : List bridge_entry_t) (e : bridge_entry_t)
    (i : Nat) (hl : ∀ x ∈ l, x.addr ≠ a) (he : e.addr = a) :
    bridge_lookup_from a (l ++ [e]) i = some (i + l.length) := by
  induction l generalizing i with
  | nil => simp [bridge_lookup_from, he]
  | cons x rest ih =>
    have hx : ¬ a = x.addr := fun h => hl x (List.mem_cons_self _ _) h.symm
    have := ih (i + 1) (fun y hy => hl y (List.mem_cons_of_mem _ hy))
    rw [List.cons_append, bridge_lookup_from, if_neg hx, this, List.length_cons,
      Option.some.injEq]
    omega

theorem bridge_lookup_from_set (a : List Nat) (l : List bridge_entry_t) (e : bridge_entry_t)
    (i idx : Nat) (hidx : idx < l.length) (hl : ∀ x ∈ l, x.addr ≠ a) (he : e.addr = a) :
    bridge_lookup_from a (l.set idx e) i = some (i + idx) := by
  induction l generalizing i idx with
  | nil => simp at hidx
  | cons x rest ih =>
    cases idx with
    | zero => simp [bridge_lookup_from, he]
    | succ n =>
      have hx : ¬ a = x.addr := fun h => hl x (List.mem_cons_self _ _) h.symm
      simp only [List.set_cons_succ, bridge_lookup_from, if_neg hx]
      rw [ih (i + 1) n (by simpa using hidx) (fun y hy => hl y (List.mem_cons_of_mem _ hy)),
        Option.some.injEq]
      omega

/-- What `bridge_addr_lookup` finds for an address right after `bridge_addr_add` stored it,
when no entry in use held the address before. -/
theorem bridge_lookup_after_add (t : bridge_table_t) (a : List Nat) (i : interface_t)
    (rand : Nat) (hlen : t.table.length = MAX_BRIDGE_ENTRIES) (hel : t.elems ≤ MAX_BRIDGE_ENTRIES)
    (hnone : bridge_addr_lookup t a = none) :
    ∃ k, bridge_addr_lookup (bridge_addr_add t a i rand) a = some k
      ∧ (bridge_addr_add t a i rand).table[k]? = some { interface := i, addr := a } := by
  unfold bridge_addr_lookup at hnone
  rw [bridge_lookup_from_none] at hnone
  simp only [MAX_BRIDGE_ENTRIES] at hlen hel
  by_cases hfull : t.elems = 30
  · have hidx : rand % 30 < t.table.length := by
      rw [hlen]; exact Nat.mod_lt _ (by decide)
    refine ⟨rand % 30, ?_, ?_⟩
    · simp only [bridge_addr_lookup, bridge_addr_add, MAX_BRIDGE_ENTRIES, hfull, ne_eq,
        not_true_eq_false, if_false]
      have h1 : (t.table.set (rand % 30) { interface := i, addr := a }).take 30
          = (t.table.take 30).set (rand % 30) { interface := i, addr := a } := by
        rw [List.take_of_length_le (by simp [hlen]), List.take_of_length_le (by simp [hlen])]
      rw [h1, bridge_lookup_from_set a _ _ 0 (rand % 30) (by simp [hlen]; exact Nat.mod_lt _ (by decide))
        (by rw [hfull] at hnone; exact hnone) rfl]
      simp
    · simp only [bridge_addr_add, MAX_BRIDGE_ENTRIES, hfull, ne_eq, not_true_eq_false, if_false]
      rw [List.getElem?_set_self hidx]
  · have hlt : t.elems < 30 := by omega
    refine ⟨t.elems, ?_, ?_⟩
    · simp only [bridge_addr_lookup, bridge_addr_add, MAX_BRIDGE_ENTRIES, ne_eq, hfull,
        not_false_eq_true, if_true]
      have h256 : (t.elems + 1) % 256 = t.elems + 1 := Nat.mod_eq_of_lt (by omega)
      rw [h256]
      have h1 : (t.table.set t.elems { interface := i, addr := a }).take (t.elems + 1)
          = t.table.take t.elems ++ [{ interface := i, addr := a }] := by
        apply List.ext_getElem?
        intro q
        by_cases hq : q < t.elems
        · rw [List.getElem?_take, if_pos (by omega), List.getElem?_set_ne (by omega),
            List.getElem?_append_left (by simp; omega), List.getElem?_take, if_pos hq]
        · by_cases hq2 : q = t.elems
          · subst hq2
            rw [List.getElem?_take, if_pos (by omega), List.getElem?_set_self (by omega),
              List.getElem?_append_right (by simp [hlen]; try omega)]
            simp [hlen, Nat.min_eq_left (Nat.le_of_lt hlt)]
          · rw [List.getElem?_take, if_neg (by omega), List.getElem?_eq_none (by simp; omega)]
      rw [h1, bridge_lookup_from_append a _ _ 0 hnone rfl]
      simp [hlen, Nat.min_eq_left (Nat.le_of_lt hlt)]
    · simp only [bridge_addr_add, MAX_BRIDGE_ENTRIES, ne_eq, hfull, not_false_eq_true, if_true]
      rw [List.getElem?_set_self (by omega)]

theorem bridge_take_getElem? (t : bridge_table_t) (j : Nat) (e : bridge_entry_t)
    (h : (t.table.take t.elems)[j]? = some e) : t.table[j]? = some e := by
  rw [List.getElem?_take] at h
  split_ifs at h
  exact h

/-- The entries in use after `bridge_addr_add`: one more at the end when the table is not
full, one overwritten at the index drawn from the random source when it is. -/
theorem bridge_add_entries (t : bridge_table_t) (a : List Nat) (i : interface_t) (rand : Nat)
    (hlen : t.table.length = MAX_BRIDGE_ENTRIES) (hel : t.elems ≤ MAX_BRIDGE_ENTRIES) :
    (bridge_addr_add t a i rand).table.length = MAX_BRIDGE_ENTRIES
    ∧ (bridge_addr_add t a i rand).elems ≤ MAX_BRIDGE_ENTRIES
    ∧ (bridge_addr_add t a i rand).table.take (bridge_addr_add t a i rand).elems
      = if t.elems = MAX_BRIDGE_ENTRIES then
          (t.table.take t.elems).set (rand % MAX_BRIDGE_ENTRIES) { interface := i, addr := a }
        else t.table.take t.elems ++ [{ interface := i, addr := a }] := by
  simp only [MAX_BRIDGE_ENTRIES] at hlen hel ⊢
  by_cases hfull : t.elems = 30
  · simp only [bridge_addr_add, MAX_BRIDGE_ENTRIES, hfull, ne_eq, not_true_eq_false, if_false,
      if_true, List.length_set, hlen, le_refl, true_and]
    rw [List.take_of_length_le (by simp [hlen]), List.take_of_length_le (by simp [hlen])]
  · have hlt : t.elems < 30 := by omega
    have h256 : (t.elems + 1) % 256 = t.elems + 1 := Nat.mod_eq_of_lt (by omega)
    simp only [bridge_addr_add, MAX_BRIDGE_ENTRIES, ne_eq, hfull, not_false_eq_true, if_true,
      if_false, List.length_set, hlen, h256, true_and]
    refine ⟨by omega, ?_⟩
    apply List.ext_getElem?
    intro q
    by_cases hq : q < t.elems
    · rw [List.getElem?_take, if_pos (by omega), List.getElem?_set_ne (by omega),
        List.getElem?_append_left (by simp; omega), List.getElem?_take, if_pos hq]
    · by_cases hq2 : q = t.elems
      · subst hq2
        rw [List.getElem?_take, if_pos (by omega), List.getElem?_set_self (by omega),
          List.getElem?_append_right (by simp [hlen]; try omega)]
        simp [hlen, Nat.min_eq_left (Nat.le_of_lt hlt)]
      · rw [List.getElem?_take, if_neg (by omega), List.getElem?_eq_none (by simp; omega)]

/-- C19 (as amended): after the learning step of `bridge_input` for a frame with source
`a` arriving on interface `i`, `bridge_addr_lookup(a)` returns an entry holding `a`; its
interface is `i` when no entry in use held `a` before the frame, and otherwise the table
is unchanged and the entry is the one found before, with the interface stored in it. -/
theorem bridge_learn_then_lookup (g : Gateway) (rand : Nat)
    (hlen : g.brigde_table.table.length = MAX_BRIDGE_ENTRIES)
    (hel : g.brigde_table.elems ≤ MAX_BRIDGE_ENTRIES) :
    ∃ k e, bridge_addr_lookup (bridge_input g rand).brigde_table g.st.src_eui64 = some k
      ∧ (bridge_input g rand).brigde_table.table[k]? = some e
      ∧ e.addr = g.st.src_eui64
      ∧ (bridge_addr_lookup g.brigde_table g.st.src_eui64 = none →
          e.interface = g.st.incoming_if)
      ∧ (∀ k0, bridge_addr_lookup g.brigde_table g.st.src_eui64 = some k0 →
          (bridge_input g rand).brigde_table = g.brigde_table ∧ k = k0) := by
  cases hl : bridge_addr_lookup g.brigde_table g.st.src_eui64 with
  | none =>
    obtain ⟨k, h1, h2⟩ := bridge_lookup_after_add g.brigde_table g.st.src_eui64
      g.st.incoming_if rand hlen hel hl
    have hb : (bridge_input g rand).brigde_table
        = bridge_addr_add g.brigde_table g.st.src_eui64 g.st.incoming_if rand := by
      simp only [bridge_input, hl]
    rw [hb]
    exact ⟨k, _, h1, h2, rfl, fun _ => rfl, fun k0 h => by simp at h⟩
  | some k0 =>
    have hb : (bridge_input g rand).brigde_table = g.brigde_table := by
      simp only [bridge_input, hl]
    rw [hb]
    obtain ⟨j, e, h1, h2, h3⟩ := bridge_lookup_from_some _ _ _ _ hl
    refine ⟨k0, e, hl, ?_, h3, fun h => by simp at h, fun k1 h => ⟨rfl, ?_⟩⟩
    · have : k0 = j := by omega
      rw [this]
      exact bridge_take_getElem? _ _ _ h2
    · simpa using h

/-- The bridge tables reached from `pgw_fwd_init` keep 30 slots and at most 30 entries in
use, and hold no entry in use with the all-zero address when neither the node address nor
the source of any frame is all-zero. -/
theorem bridge_run_no_multicast (node_addr : List Nat) (hnode : node_addr ≠ rimeaddr_null)
    (t : bridge_table_t) (h : bridge_run node_addr (fun a => a ≠ rimeaddr_null) t) :
    t.table.length = MAX_BRIDGE_ENTRIES ∧ t.elems ≤ MAX_BRIDGE_ENTRIES
      ∧ ∀ e ∈ t.table.take t.elems, e.addr ≠ rimeaddr_null := by
  induction h with
  | init =>
    have h := bridge_add_entries
      { table := List.replicate MAX_BRIDGE_ENTRIES
          { interface := .UNDEFINED, addr := List.replicate 8 0 }
        elems := 0 } node_addr .LOCAL 0 (by simp) (by simp)
    refine ⟨h.1, h.2.1, ?_⟩
    unfold pgw_fwd_init
    rw [h.2.2]
    simp [hnode]
  | frame g rand _ hs ih =>
    obtain ⟨h1, h2, h3⟩ := ih
    cases hl : bridge_addr_lookup g.brigde_table g.st.src_eui64 with
    | some k0 =>
      have hb : (bridge_input g rand).brigde_table = g.brigde_table := by
        simp only [bridge_input, hl]
      rw [hb]
      exact ⟨h1, h2, h3⟩
    | none =>
      have hb : (bridge_input g rand).brigde_table
          = bridge_addr_add g.brigde_table g.st.src_eui64 g.st.incoming_if rand := by
        simp only [bridge_input, hl]
      rw [hb]
      have h := bridge_add_entries g.brigde_table g.st.src_eui64 g.st.incoming_if rand h1 h2
      refine ⟨h.1, h.2.1, ?_⟩
      rw [h.2.2]
      intro e he
      split_ifs at he
      · rcases List.mem_or_eq_of_mem_set he with h5 | h5
        · exact h3 e h5
        · rw [h5]; exact hs
      · rcases List.mem_append.mp he with h5 | h5
        · exact h3 e h5
        · simp only [List.mem_singleton] at h5
          rw [h5]; exact hs

/-- C20 (as amended): starting from `pgw_fwd_init` with a node address that is not
all-zero, after `bridge_input` has processed any sequence of frames whose source EUI-64
is not all-zero (with arbitrary destinations), no entry in use of the bridge table holds
the all-zero EUI-64; and in every state of the table a frame whose destination is
all-zero gets `outgoing_if = UNDEFINED`. -/
theorem multicast_never_learned (node_addr : List Nat) (hnode : node_addr ≠ rimeaddr_null)
    (t : bridge_table_t) (h : bridge_run node_addr (fun a => a ≠ rimeaddr_null) t) :
    (∀ e ∈ t.table.take t.elems, e.addr ≠ rimeaddr_null)
    ∧ ∀ (g : Gateway) (rand : Nat), g.st.dst_eui64 = rimeaddr_null →
        (bridge_input g rand).st.outgoing_if = .UNDEFINED := by
  refine ⟨(bridge_run_no_multicast node_addr hnode t h).2.2, ?_⟩
  intro g rand hd
  simp only [bridge_input, hd, is_multicast_lladdr, decide_True, if_true]
  split <;> rfl

/-! ## The ICMPv6 checksum -/

theorem chksum_add_lt (a t : Nat) : chksum_add a t < 65536 := by
  unfold chksum_add
  simp only []
  split_ifs <;> omega

theorem chksum_add_mod (a t : Nat) (ha : a < 65536) (ht : t < 65536) :
    chksum_add a t % 65535 = (a + t) % 65535 := by
  unfold chksum_add
  simp only []
  split_ifs <;> omega

theorem chksum_add_zero (a : Nat) (ha : a < 65536) : chksum_add a 0 = a := by
  unfold chksum_add
  simp only []
  split_ifs <;> omega

theorem chksum_lt (b : Nat → Nat) (n : Nat) : ∀ (sum off : Nat), sum < 65536 →
    chksum b sum off n < 65536 := by
  induction n using Nat.strong_induction_on with
  | _ n ih =>
    intro sum off hs
    match n with
    | 0 => simpa [chksum] using hs
    | 1 => simpa [chksum] using chksum_add_lt _ _
    | m + 2 =>
      rw [chksum]
      exact ih m (by omega) _ _ (chksum_add_lt _ _)

theorem chksum_mod (b : Nat → Nat) (n : Nat) : ∀ (sum off : Nat), sum < 65536 →
    chksum b sum off n % 65535 = (sum + word_sum b off n) % 65535 := by
  induction n using Nat.strong_induction_on with
  | _ n ih =>
    intro sum off hs
    match n with
    | 0 => simp [chksum, word_sum]
    | 1 =>
      rw [chksum, word_sum]
      exact chksum_add_mod _ _ hs (Nat.mod_lt _ (by decide))
    | m + 2 =>
      rw [chksum, word_sum, ih m (by omega) _ _ (chksum_add_lt _ _)]
      have := chksum_add_mod sum ((b off * 256 + b (off + 1)) % 65536) hs
        (Nat.mod_lt _ (by decide))
      omega

theorem chksum_congr (b c : Nat → Nat) (n : Nat) : ∀ (sum off : Nat),
    (∀ j, off ≤ j → j < off + n → b j = c j) → chksum b sum off n = chksum c sum off n := by
  induction n using Nat.strong_induction_on with
  | _ n ih =>
    intro sum off h
    match n with
    | 0 => simp [chksum]
    | 1 => rw [chksum, chksum, h off (by omega) (by omega)]
    | m + 2 =>
      rw [chksum, chksum, h off (by omega) (by omega), h (off + 1) (by omega) (by omega)]
      exact ih m (by omega) _ _ (fun j h1 h2 => h j (by omega) (by omega))

theorem word_sum_congr (b c : Nat → Nat) (n : Nat) : ∀ (off : Nat),
    (∀ j, off ≤ j → j < off + n → b j = c j) → word_sum b off n = word_sum c off n := by
  induction n using Nat.strong_induction_on with
  | _ n ih =>
    intro off h
    match n with
    | 0 => simp [word_sum]
    | 1 => rw [word_sum, word_sum, h off (by omega) (by omega)]
    | m + 2 =>
      rw [word_sum, word_sum, h off (by omega) (by omega), h (off + 1) (by omega) (by omega),
        ih m (by omega) _ (fun j h1 h2 => h j (by omega) (by omega))]

/-- `uip_icmp6chksum` on a packet without extension headers. -/
theorem icmp6chksum_no_ext (s : State) (hext : s.uip_ext_len = 0) :
    uip_icmp6chksum s
      = if chksum s.uip_buf (chksum s.uip_buf ((ip_payload_len s + 58) % 65536) 22 32) 54
            (ip_payload_len s) = 0 then 0xffff
        else uip_htons (chksum s.uip_buf
          (chksum s.uip_buf ((ip_payload_len s + 58) % 65536) 22 32) 54 (ip_payload_len s)) := by
  have h : (s.uip_buf (14 + 4) * 256 % 65536 + s.uip_buf (14 + 5) + 65536 - 0 % 65536) % 65536
      = (s.uip_buf (14 + 4) * 256 % 65536 + s.uip_buf (14 + 5)) % 65536 := by omega
  simp only [uip_icmp6chksum, upper_layer_chksum, ip_payload_len, hext, UIP_LLH_LEN,
    UIP_IPH_LEN, UIP_PROTO_ICMP6, h]

/-- `pgw_update_icmp_checksum` as two stores into the checksum field. -/
theorem update_checksum_buf (s : State) :
    (pgw_update_icmp_checksum s).uip_buf
      = store16 (store16 s.uip_buf 56 0) 56
          (65535 - uip_icmp6chksum { s with uip_buf := store16 s.uip_buf 56 0 }) := rfl

/-- The checksum field after `pgw_update_icmp_checksum`, in terms of the sum `S` that
`upper_layer_chksum` computes with the field zeroed. -/
theorem update_checksum_field (s : State) (hext : s.uip_ext_len = 0) :
    ∃ S, S < 65536
      ∧ S = chksum (store16 s.uip_buf 56 0)
          (chksum s.uip_buf ((ip_payload_len s + 58) % 65536) 22 32) 54 (ip_payload_len s)
      ∧ (pgw_update_icmp_checksum s).uip_buf
        = store16 (store16 s.uip_buf 56 0) 56
            (65535 - (if S = 0 then 65535 else uip_htons S)) := by
  have hL1 : ip_payload_len { s with uip_buf := store16 s.uip_buf 56 0 } = ip_payload_len s := by
    simp only [ip_payload_len, UIP_LLH_LEN]
    rw [store16_out _ _ _ _ (by omega), store16_out _ _ _ _ (by omega)]
  have hA1 : chksum (store16 s.uip_buf 56 0) ((ip_payload_len s + 58) % 65536) 22 32
      = chksum s.uip_buf ((ip_payload_len s + 58) % 65536) 22 32 :=
    chksum_congr _ _ _ _ _ (fun j h1 h2 => store16_out _ _ _ _ (by omega))
  refine ⟨_, chksum_lt _ _ _ _ (chksum_lt _ _ _ _ (Nat.mod_lt _ (by decide))), rfl, ?_⟩
  rw [update_checksum_buf,
    icmp6chksum_no_ext { s with uip_buf := store16 s.uip_buf 56 0 } hext, hL1]
  simp only []
  rw [hA1]

theorem checksum_field_word (S : Nat) (hSlt : S < 65536) :
    ((65535 - uip_htons S) % 256 * 256 + (65535 - uip_htons S) / 256 % 256) % 65536
      = 65535 - S := by
  unfold uip_htons
  obtain ⟨a, b, ha, hb⟩ : ∃ a b, S % 256 + a = 255 ∧ S / 256 + b = 255 :=
    ⟨255 - S % 256, 255 - S / 256, by omega, by omega⟩
  have h1 : 65535 - (S % 256 * 256 + S / 256 % 256) = a * 256 + b := by omega
  rw [h1]
  have h2 : (a * 256 + b) % 256 = b := by omega
  have h3 : (a * 256 + b) / 256 = a := by omega
  rw [h2, h3]
  clear h1 h2 h3
  have h4 : a % 256 = a := Nat.mod_eq_of_lt (by omega)
  have h5 : (b * 256 + a) % 65536 = b * 256 + a := Nat.mod_eq_of_lt (by omega)
  rw [h4, h5]
  omega

theorem checksum_arith (S w W sumA T : Nat) (hSlt : S < 65536)
    (hS : S % 65535 = (sumA + (w + (0 + W))) % 65535)
    (hT : T % 65535 = (sumA + (w + (((65535 - (if S = 0 then 65535 else uip_htons S)) % 256 * 256
      + (65535 - (if S = 0 then 65535 else uip_htons S)) / 256 % 256) % 65536 + W))) % 65535) :
    T % 65535 = 0 := by
  by_cases hz : S = 0
  · subst hz
    simp only [if_true] at hT
    omega
  · rw [if_neg hz, checksum_field_word S hSlt] at hT
    omega

/-- The one's-complement sum `upper_layer_chksum` computes over the pseudo-header and the
message is congruent to zero modulo `0xffff` after `pgw_update_icmp_checksum`. -/
theorem update_checksum_sum (s : State) (hext : s.uip_ext_len = 0)
    (hlen : 4 ≤ ip_payload_len s) :
    chksum (pgw_update_icmp_checksum s).uip_buf
        (chksum (pgw_update_icmp_checksum s).uip_buf
          ((ip_payload_len (pgw_update_icmp_checksum s) + 58) % 65536) 22 32) 54
        (ip_payload_len (pgw_update_icmp_checksum s)) % 65535 = 0 := by
  obtain ⟨m, hm⟩ : ∃ m, ip_payload_len s = m + 4 := ⟨ip_payload_len s - 4, by omega⟩
  have hL2 : ip_payload_len (pgw_update_icmp_checksum s) = ip_payload_len s := by
    simp only [ip_payload_len, UIP_LLH_LEN]
    rw [checksum_buf s _ (by omega), checksum_buf s _ (by omega)]
  have hA2 : chksum (pgw_update_icmp_checksum s).uip_buf ((ip_payload_len s + 58) % 65536) 22 32
      = chksum s.uip_buf ((ip_payload_len s + 58) % 65536) 22 32 :=
    chksum_congr _ _ _ _ _ (fun j h1 h2 => checksum_buf s j (by omega))
  obtain ⟨S, hSlt, hSd, hbuf⟩ := update_checksum_field s hext
  rw [hL2, hA2]
  generalize hsA : chksum s.uip_buf ((ip_payload_len s + 58) % 65536) 22 32 = sumA at hSd ⊢
  have hsAlt : sumA < 65536 := by
    rw [← hsA]; exact chksum_lt _ _ _ _ (Nat.mod_lt _ (by decide))
  rw [hm] at hSd ⊢
  have hS := chksum_mod (store16 s.uip_buf 56 0) (m + 4) sumA 54 hsAlt
  rw [← hSd] at hS
  have hT := chksum_mod (pgw_update_icmp_checksum s).uip_buf (m + 4) sumA 54 hsAlt
  have hW : word_sum (pgw_update_icmp_checksum s).uip_buf 58 m
      = word_sum (store16 s.uip_buf 56 0) 58 m :=
    word_sum_congr _ _ _ _ (fun j h1 h2 => by
      rw [checksum_buf s j (by omega), store16_out _ _ _ _ (by omega)])
  have e1 : word_sum (store16 s.uip_buf 56 0) 54 (m + 4)
      = (s.uip_buf 54 * 256 + s.uip_buf 55) % 65536
        + (0 + word_sum (store16 s.uip_buf 56 0) 58 m) := by
    rw [show m + 4 = (m + 2) + 2 from rfl, word_sum, word_sum,
      store16_out _ _ _ 54 (by omega), store16_out _ _ _ 55 (by omega),
      store16_lo, store16_hi _ _ _ (56 + 1) rfl]
  have e2 : word_sum (pgw_update_icmp_checksum s).uip_buf 54 (m + 4)
      = (s.uip_buf 54 * 256 + s.uip_buf 55) % 65536
        + (((65535 - (if S = 0 then 65535 else uip_htons S)) % 256 * 256
            + (65535 - (if S = 0 then 65535 else uip_htons S)) / 256 % 256) % 65536
          + word_sum (store16 s.uip_buf 56 0) 58 m) := by
    rw [show m + 4 = (m + 2) + 2 from rfl, word_sum, word_sum, hW,
      checksum_buf s 54 (by omega), checksum_buf s 55 (by omega), hbuf,
      store16_lo, store16_hi _ _ _ (56 + 1) rfl]
  rw [e1] at hS
  rw [e2] at hT
  exact checksum_arith S _ _ sumA _ hSlt hS hT

/-- C14: for every packet in the buffer without extension headers whose IPv6 payload
length field covers at least the ICMPv6 header, after `pgw_update_icmp_checksum` the
checksum verifies: `uip_icmp6chksum` recomputed on the result returns `0xffff`, and the
sum of the pseudo-header (length, next header 58, source, destination) and of the 16-bit
words of the whole message, checksum field included, is zero in one's-complement
arithmetic (a multiple of `0xffff`), for odd and even lengths. -/
theorem checksum_verifies_after_update (s : State) (hext : s.uip_ext_len = 0)
    (hlen : 4 ≤ ip_payload_len s) :
    uip_icmp6chksum (pgw_update_icmp_checksum s) = 0xffff
    ∧ (ip_payload_len s + 58 < 65536 →
        (ip_payload_len s + 58 + word_sum (pgw_update_icmp_checksum s).uip_buf 22 32
          + word_sum (pgw_update_icmp_checksum s).uip_buf 54 (ip_payload_len s)) % 65535 = 0) := by
  have h0 := update_checksum_sum s hext hlen
  have hL2 : ip_payload_len (pgw_update_icmp_checksum s) = ip_payload_len s := by
    simp only [ip_payload_len, UIP_LLH_LEN]
    rw [checksum_buf s _ (by omega), checksum_buf s _ (by omega)]
  constructor
  · rw [icmp6chksum_no_ext _ (by rw [checksum_ext_len]; exact hext)]
    have hlt := chksum_lt (pgw_update_icmp_checksum s).uip_buf
      (ip_payload_len (pgw_update_icmp_checksum s))
      (chksum (pgw_update_icmp_checksum s).uip_buf
        ((ip_payload_len (pgw_update_icmp_checksum s) + 58) % 65536) 22 32) 54
      (chksum_lt _ _ _ _ (Nat.mod_lt _ (by decide)))
    generalize chksum (pgw_update_icmp_checksum s).uip_buf
      (chksum (pgw_update_icmp_checksum s).uip_buf
        ((ip_payload_len (pgw_update_icmp_checksum s) + 58) % 65536) 22 32) 54
      (ip_payload_len (pgw_update_icmp_checksum s)) = T at h0 hlt ⊢
    have hT : T = 0 ∨ T = 65535 := by omega
    rcases hT with hT | hT
    · simp [hT]
    · subst hT
      decide
  · intro hsmall
    rw [hL2] at h0
    have h1 := chksum_mod (pgw_update_icmp_checksum s).uip_buf (ip_payload_len s)
      (chksum (pgw_update_icmp_checksum s).uip_buf ((ip_payload_len s + 58) % 65536) 22 32) 54
      (chksum_lt _ _ _ _ (Nat.mod_lt _ (by decide)))
    have h2 := chksum_mod (pgw_update_icmp_checksum s).uip_buf 32
      ((ip_payload_len s + 58) % 65536) 22 (Nat.mod_lt _ (by decide))
    rw [Nat.mod_eq_of_lt hsmall] at h2 h1 h0
    omega

/-! ## The properties at the example states: DAD from Ethernet, checksum, bridge -/

set_option maxRecDepth 1000000 in
/-- C11, witness: the host on Ethernet runs DAD for the tentative address `ex_ip1`. -/
theorem ns_dad_against_tentative_witness :
    ∃ t, proxy_ns_input 8 (ex_eth_state ex_ip1 PGW_TENTATIVE (ex_ns_dad ex_ip1) 64) = some t
      ∧ t.pgw_6ln_cache
          = (ex_eth_state ex_ip1 PGW_TENTATIVE (ex_ns_dad ex_ip1) 64).pgw_6ln_cache.set 0
              { ex_nbr ex_ip1 ex_eui_a PGW_TENTATIVE with isused := false }
      ∧ t.uip_len = 96
      ∧ t.outgoing_if = .IEEE_802_15_4
      ∧ t.uip_buf 96 = ARO_STATUS_DUPLICATE :=
  have h := ns_dad_against_tentative 8
    (ex_eth_state ex_ip1 PGW_TENTATIVE (ex_ns_dad ex_ip1) 64) 0
    (ex_nbr ex_ip1 ex_eui_a PGW_TENTATIVE) (by rfl) (by rfl) (by rfl) (by rfl) (by decide)
    (by decide) (by intro j m hj; omega) (by rfl)
  h.elim (fun t ht => ⟨t, ht.1, ht.2.1, ht.2.2.1, ht.2.2.2.1, ht.2.2.2.2.2.2.2.1⟩)

set_option maxRecDepth 1000000 in
/-- C11 as stated does not hold. In the reachable state `ex_eth_dad` slot 24 is tentative
for `ex_ip1` and an NS from Ethernet with the unspecified source has target `ex_ip1`: the
entry is removed, but `uip_len` is 96 afterwards, an NA with ARO status 1 being left for
the 6LoWPAN side. In the reachable state `ex_eth_dad_ll` slot 24 is tentative for the
link-local `ex_ip_ll`, which is not derived from its EUI-64, and the NS has target
`ex_ip_ll`: the entry is not removed. -/
theorem eth_dad_not_silent :
    Reachable ex_eth_dad
    ∧ ex_eth_dad.pgw_6ln_cache[24]?.map (fun n => (n.isused, n.state, n.ipaddr))
        = some (true, PGW_TENTATIVE, ex_ip1)
    ∧ ex_eth_dad.incoming_if = .IEEE_802_3
    ∧ uip_is_addr_unspecified (srcipaddr ex_eth_dad) = true
    ∧ tgtipaddr ex_eth_dad = ex_ip1
    ∧ (proxy_ns_input 8 ex_eth_dad).map (fun t =>
        (t.pgw_6ln_cache[24]?.map (fun n => n.isused), t.uip_len, t.uip_buf 54, t.uip_buf 96))
      = some (some false, 96, ICMP6_NA, ARO_STATUS_DUPLICATE)
    ∧ (proxy_ns_input 8 ex_eth_dad).map (fun t => t.outgoing_if) = some .IEEE_802_15_4
    ∧ Reachable ex_eth_dad_ll
    ∧ ex_eth_dad_ll.pgw_6ln_cache[24]?.map (fun n => (n.isused, n.state, n.ipaddr))
        = some (true, PGW_TENTATIVE, ex_ip_ll)
    ∧ uip_is_addr_unspecified (srcipaddr ex_eth_dad_ll) = true
    ∧ tgtipaddr ex_eth_dad_ll = ex_ip_ll
    ∧ (proxy_ns_input 8 ex_eth_dad_ll).map (fun t =>
        t.pgw_6ln_cache[24]?.map (fun n => (n.isused, n.state)))
      = some (some (true, PGW_TENTATIVE)) := by
  refine ⟨Reachable.deliver _ _ _ _ _ _ _ _ _ _ ex_s2_reachable, ?_, ?_, ?_, ?_, ?_, ?_,
    Reachable.deliver _ _ _ _ _ _ _ _ _ _ ex_ll_pending_reachable, ?_, ?_, ?_, ?_⟩ <;> decide!

set_option maxRecDepth 1000000 in
/-- C14, witness: the checksum of an NA of 24 octets verifies after the update. -/
theorem checksum_verifies_after_update_witness :
    uip_icmp6chksum (pgw_update_icmp_checksum ex_defended) = 0xffff :=
  (checksum_verifies_after_update ex_defended (by rfl) (by decide!)).1

set_option maxRecDepth 1000000 in
/-- C19 (as amended), witness: after `pgw_init`, a frame from node A arrives on the
6LoWPAN side; node A is then found with that interface. -/
theorem bridge_learn_then_lookup_witness :
    ∃ k e,
      bridge_addr_lookup
          (bridge_input (ex_gw_frame ex_gw0 ex_eui_a rimeaddr_null .IEEE_802_15_4) 7).brigde_table
          ex_eui_a = some k
      ∧ (bridge_input (ex_gw_frame ex_gw0 ex_eui_a rimeaddr_null .IEEE_802_15_4) 7).brigde_table.table[k]?
          = some e
      ∧ e.addr = ex_eui_a ∧ e.interface = .IEEE_802_15_4 :=
  have h := bridge_learn_then_lookup (ex_gw_frame ex_gw0 ex_eui_a rimeaddr_null .IEEE_802_15_4) 7
    (by decide) (by decide)
  h.elim (fun k hk => hk.elim (fun e he => ⟨k, e, he.1, he.2.1, he.2.2.1, he.2.2.2.1 (by decide)⟩))

set_option maxRecDepth 1000000 in
/-- C19 as stated does not hold: the address of the host, which is not all-zero, was
learned on Ethernet; after the learning step for a frame with that source arriving on the
6LoWPAN side, `bridge_addr_lookup` still returns the entry with interface Ethernet. -/
theorem bridge_keeps_first_interface :
    ex_gw_moved.st.src_eui64 = ex_host_ll
    ∧ ex_gw_moved.st.incoming_if = .IEEE_802_15_4
    ∧ is_multicast_lladdr ex_host_ll = false
    ∧ (bridge_addr_lookup (bridge_input ex_gw_moved 0).brigde_table ex_host_ll).bind
        (fun k => (bridge_input ex_gw_moved 0).brigde_table.table[k]?)
      = some { interface := .IEEE_802_3, addr := ex_host_ll } := by
  refine ⟨?_, ?_, ?_, ?_⟩ <;> decide

set_option maxRecDepth 1000000 in
/-- C20 (as amended), witness: after a frame from node A the table of `ex_gw0` holds no
all-zero address. -/
theorem multicast_never_learned_witness :
    ex_node_ll ≠ rimeaddr_null
    ∧ rimeaddr_null ∉
      ((bridge_input (ex_gw_frame ex_gw0 ex_eui_a rimeaddr_null .IEEE_802_15_4) 7).brigde_table.table.take
        (bridge_input (ex_gw_frame ex_gw0 ex_eui_a rimeaddr_null .IEEE_802_15_4) 7).brigde_table.elems).map
        (fun e => e.addr) :=
  ⟨by decide, fun h => (List.mem_map.1 h).elim (fun e he =>
    (multicast_never_learned ex_node_ll (by decide) _
      (bridge_run.frame (ex_gw_frame ex_gw0 ex_eui_a rimeaddr_null .IEEE_802_15_4) 7
        bridge_run.init (by decide))).1 e he.1 he.2)⟩

set_option maxRecDepth 1000000 in
/-- C20 as stated does not hold: from `pgw_fwd_init`, one frame whose source EUI-64 is
all-zero leaves an entry in use that holds the all-zero address. -/
theorem multicast_source_is_learned :
    bridge_run ex_node_ll (fun _ => True)
      (bridge_input (ex_gw_frame ex_gw0 rimeaddr_null ex_host_ll .IEEE_802_15_4) 0).brigde_table
    ∧ (bridge_input (ex_gw_frame ex_gw0 rimeaddr_null ex_host_ll .IEEE_802_15_4) 0).brigde_table.elems
        = 2
    ∧ (bridge_input (ex_gw_frame ex_gw0 rimeaddr_null ex_host_ll .IEEE_802_15_4) 0).brigde_table.table[1]?
        = some { interface := .IEEE_802_15_4, addr := rimeaddr_null } := by
  refine ⟨bridge_run.frame (ex_gw_frame ex_gw0 rimeaddr_null ex_host_ll .IEEE_802_15_4) 0
    bridge_run.init trivial, ?_, ?_⟩ <;> decide

/-! ## The rewrite of the options at example packets -/

set_option maxRecDepth 1000000 in
/-- C12 at an RA from Ethernet whose options are an MTU option followed by an SLLAO of 1
unit (checksum valid, option list well formed): `translate_icmp_lladdr` toward the
6LoWPAN side removes the MTU option and leaves the SLLAO as it came, 1 unit long with the
6-octet MAC address, where it should be 2 units long with the EUI-64. -/
theorem sllao_after_filtered_option_not_translated :
    uip_icmp6chksum ex_ra_mtu_sllao = 0xffff
    ∧ ex_ra_mtu_sllao.uip_len = 72
    ∧ readBytes ex_ra_mtu_sllao.uip_buf 54 2 = [ICMP6_RA, 0]
    ∧ readBytes ex_ra_mtu_sllao.uip_buf 70 16 = ex_mtu ++ ex_sllao_mac
    ∧ (translate_icmp_lladdr 8 .IEEE_802_15_4 ex_ra_mtu_sllao).map (fun t =>
        (t.uip_len, readBytes t.uip_buf 70 8)) = some (64, ex_sllao_mac) := by
  refine ⟨?_, ?_, ?_, ?_, ?_⟩ <;> decide!

set_option maxRecDepth 1000000 in
/-- C13 at an NA from Ethernet with a TLLAO of 1 unit followed by an option of 27 units
(payload length 248, field `0 248`, checksum valid): after `translate_icmp_lladdr`
toward the 6LoWPAN side `uip_len` is 296, so the payload is 256 octets long, and the
payload length field holds `0 0`; and `pgw_append_icmp_opt` of an ARO on the same packet
gives `uip_len` 304, a payload of 264 octets, with the field `0 8`. -/
theorem payload_length_high_octet_lost :
    uip_icmp6chksum ex_na_long = 0xffff
    ∧ ex_na_long.uip_len = 288
    ∧ readBytes ex_na_long.uip_buf 18 2 = [0, 248]
    ∧ (translate_icmp_lladdr 8 .IEEE_802_15_4 ex_na_long).map (fun t =>
        (t.uip_len, readBytes t.uip_buf 18 2, readBytes t.uip_buf 78 16))
      = some (296, [0, 0], [2, 2, 0x00, 0xaa, 0xbb, 0xff, 0xfe, 0xcc, 0xdd, 0xee, 0, 0, 0, 0, 0, 0])
    ∧ (pgw_append_icmp_opt ex_na_long UIP_ND6_OPT_ARO (.val ex_eui_a) 0 5).uip_len = 304
    ∧ readBytes (pgw_append_icmp_opt ex_na_long UIP_ND6_OPT_ARO (.val ex_eui_a) 0 5).uip_buf
        18 2 = [0, 8] := by
  refine ⟨?_, ?_, ?_, ?_, ?_, ?_⟩ <;> decide!

set_option maxRecDepth 1000000 in
/-- C16 at an RA from Ethernet whose options are an MTU option followed by a recursive
DNS server option (checksum valid, option list well formed): `translate_icmp_lladdr`
toward the 6LoWPAN side removes the MTU option only; the recursive DNS server option
(type 25, 3 units) remains in the packet and `uip_len` has shrunk by 8, not by 32. -/
theorem filter_skips_option_after_removed_one :
    uip_icmp6chksum ex_ra_mtu_rdnss = 0xffff
    ∧ ex_ra_mtu_rdnss.uip_len = 88
    ∧ readBytes ex_ra_mtu_rdnss.uip_buf 54 2 = [ICMP6_RA, 0]
    ∧ readBytes ex_ra_mtu_rdnss.uip_buf 70 32 = ex_mtu ++ ex_rdnss
    ∧ (translate_icmp_lladdr 8 .IEEE_802_15_4 ex_ra_mtu_rdnss).map (fun t =>
        (t.uip_len, readBytes t.uip_buf 70 24)) = some (80, ex_rdnss) := by
  refine ⟨?_, ?_, ?_, ?_, ?_⟩ <;> decide!

set_option maxRecDepth 1000000 in
/-- C17 at the gateway after `pgw_init`: an NA arrives from the 6LoWPAN side (sender node
A, receiver the host on Ethernet, not yet in the bridge table), 88 octets long with a
valid checksum, with a TLLAO of 2 units followed by an option whose length field is 0,
inside the packet. `translate_icmp_lladdr` toward Ethernet rewrites the TLLAO to 1 unit
and returns at the option of length 0, which stays in the packet (80 octets).
`pgw_input` emits the packet twice: on Ethernet, 80 octets long after the Ethernet
header, with the rewritten TLLAO and the option of length 0, and to the local stack, 88
octets long as it came. -/
theorem zero_length_option_is_emitted :
    ex_gw_zero_opt.st.incoming_if = .IEEE_802_15_4
    ∧ ex_gw_zero_opt.st.uip_len = 88
    ∧ readBytes ex_gw_zero_opt.st.uip_buf 18 2 = [0, 48]
    ∧ ex_gw_zero_opt.st.uip_buf 54 = ICMP6_NA
    ∧ uip_icmp6chksum ex_gw_zero_opt.st = 0xffff
    ∧ readBytes ex_gw_zero_opt.st.uip_buf 78 24 = ex_tllao_eui ++ ex_opt_zero
    ∧ ex_gw_zero_opt.st.sent = []
    ∧ (translate_icmp_lladdr 8 .IEEE_802_3 ex_gw_zero_opt.st).map (fun t =>
        (t.uip_len, readBytes t.uip_buf 78 16))
      = some (80, [2, 1, 0x02, 0, 0, 0, 0, 0x0a] ++ ex_opt_zero)
    ∧ (pgw_input 8 ex_gw_zero_opt ex_eui_a ex_host_ll 0).map (fun g =>
        g.st.sent.map (fun f => (f.iface, f.len, f.bytes.length)))
      = some [(.IEEE_802_3, 80, 94), (.LOCAL, 88, 88)]
    ∧ (pgw_input 8 ex_gw_zero_opt ex_eui_a ex_host_ll 0).map (fun g =>
        g.st.sent.map (fun f => f.dst))
      = some [some ex_host_ll, some ex_host_ll]
    ∧ (pgw_input 8 ex_gw_zero_opt ex_eui_a ex_host_ll 0).bind (fun g =>
        g.st.sent[0]?.map (fun f => f.bytes.drop 78))
      = some ([2, 1, 0x02, 0, 0, 0, 0, 0x0a] ++ ex_opt_zero)
    ∧ (pgw_input 8 ex_gw_zero_opt ex_eui_a ex_host_ll 0).bind (fun g =>
        g.st.sent[1]?.map (fun f => f.bytes.drop 64))
      = some (ex_tllao_eui ++ ex_opt_zero)
    ∧ (pgw_input 8 ex_gw_zero_opt ex_eui_a ex_host_ll 0).map (fun g => g.st.uip_len)
      = some 0 := by
  refine ⟨?_, ?_, ?_, ?_, ?_, ?_, ?_, ?_, ?_, ?_, ?_, ?_, ?_⟩ <;> decide!

/-! ## The rewrite of link-layer address options: round trip -/

theorem holds_append (b : Nat → Nat) (pos : Nat) (l1 l2 : List Nat) :
    holds b pos (l1 ++ l2) ↔ holds b pos l1 ∧ holds b (pos + l1.length) l2 := by
  unfold holds
  constructor
  · intro h
    constructor
    · intro k hk
      rw [h k (by simp; omega), List.getD_append _ _ _ _ hk]
    · intro k hk
      have := h (l1.length + k) (by simp; omega)
      rw [List.getD_append_right _ _ _ _ (by omega)] at this
      rw [← Nat.add_assoc] at this
      simpa using this
  · rintro ⟨h1, h2⟩ k hk
    by_cases hk1 : k < l1.length
    · rw [h1 k hk1, List.getD_append _ _ _ _ hk1]
    · have := h2 (k - l1.length) (by simp at hk; omega)
      rw [List.getD_append_right _ _ _ _ (by omega), ← this]
      congr 1
      omega

theorem holds_congr (b c : Nat → Nat) (pos : Nat) (l : List Nat)
    (h : ∀ j, pos ≤ j → j < pos + l.length → c j = b j) (hb : holds b pos l) : holds c pos l := by
  intro k hk
  rw [h (pos + k) (by omega) (by omega)]
  exact hb k hk

theorem holds_readBytes (b : Nat → Nat) (pos : Nat) (l : List Nat) :
    holds b pos l ↔ readBytes b pos l.length = l := by
  constructor
  · intro h
    apply List.ext_getElem
    · simp [readBytes]
    · intro k h1 h2
      simp only [readBytes, List.getElem_map, List.getElem_range]
      rw [h k h2, List.getD_eq_getElem _ _ h2]
  · intro h k hk
    have h1 : (readBytes b pos l.length).getD k 0 = l.getD k 0 := by rw [h]
    rw [← h1]
    simp [readBytes, List.getD_eq_getElem, hk]

theorem same_rest_refl (s : State) : same_rest s s := rfl

theorem same_rest_trans (u t s : State) (h1 : same_rest u t) (h2 : same_rest t s) :
    same_rest u s := by
  unfold same_rest at *
  rw [← h2]
  rw [← h1]

theorem same_rest_ext (t s : State) (h : same_rest t s) (hb : t.uip_buf = s.uip_buf)
    (hl : t.uip_len = s.uip_len) : t = s := by
  unfold same_rest at h
  rw [← h, ← hb, ← hl]

theorem same_rest_ext_len (t s : State) (h : same_rest t s) : t.uip_ext_len = s.uip_ext_len := by
  unfold same_rest at h
  rw [← h]

theorem icmp6chksum_congr (t s : State) (hb : t.uip_buf = s.uip_buf)
    (he : t.uip_ext_len = s.uip_ext_len) : uip_icmp6chksum t = uip_icmp6chksum s := by
  simp only [uip_icmp6chksum, upper_layer_chksum, hb, he]

theorem checksum_canonical_update (s : State) :
    checksum_canonical (pgw_update_icmp_checksum s) := by
  unfold checksum_canonical
  have hb0 : store16 (pgw_update_icmp_checksum s).uip_buf 56 0 = store16 s.uip_buf 56 0 := by
    rw [update_checksum_buf]
    funext j
    simp only [store16, setByte]
    split_ifs <;> rfl
  have hc : uip_icmp6chksum
      { pgw_update_icmp_checksum s with
        uip_buf := store16 (pgw_update_icmp_checksum s).uip_buf 56 0 }
      = uip_icmp6chksum { s with uip_buf := store16 s.uip_buf 56 0 } :=
    icmp6chksum_congr _ _ hb0 rfl
  rw [update_checksum_buf (pgw_update_icmp_checksum s), hc, hb0]
  rfl

theorem checksum_canonical_agree (t s : State) (ht : checksum_canonical t)
    (hs : checksum_canonical s) (he : t.uip_ext_len = s.uip_ext_len)
    (h : ∀ j, j ≠ 56 → j ≠ 57 → t.uip_buf j = s.uip_buf j) : t.uip_buf = s.uip_buf := by
  unfold checksum_canonical at ht hs
  rw [← ht, ← hs, update_checksum_buf, update_checksum_buf]
  have h0 : store16 t.uip_buf 56 0 = store16 s.uip_buf 56 0 := by
    funext j
    simp only [store16, setByte]
    split_ifs <;> first | rfl | exact h j (by omega) (by omega)
  rw [h0, icmp6chksum_congr { t with uip_buf := store16 s.uip_buf 56 0 }
    { s with uip_buf := store16 s.uip_buf 56 0 } rfl he]

theorem memmoveBuf_in (b : Nat → Nat) (dst src n j : Nat) (h : dst ≤ j ∧ j < dst + n) :
    memmoveBuf b dst src n j = b (src + (j - dst)) := by
  simp only [memmoveBuf]
  rw [if_pos h]

theorem memmoveBuf_out (b : Nat → Nat) (dst src n j : Nat) (h : j < dst ∨ dst + n ≤ j) :
    memmoveBuf b dst src n j = b j := by
  simp only [memmoveBuf]
  rw [if_neg (by omega)]

theorem memsetBuf_in (b : Nat → Nat) (off v n j : Nat) (h : off ≤ j ∧ j < off + n) :
    memsetBuf b off v n j = v := by
  simp only [memsetBuf]
  rw [if_pos h]

/-- The Ethernet branch of `translate_opt` at a link-layer address option of 2 units that
is followed by `r` octets. -/
theorem translate_opt_ethernet (s : State) (off r : Nat) (hext : s.uip_ext_len = 0)
    (hty : s.uip_buf (58 + off) = 1 ∨ s.uip_buf (58 + off) = 2)
    (hl : s.uip_buf (58 + off + 1) = 2) (hlen : s.uip_len = 44 + off + 16 + r)
    (hb : off + 16 + r ≤ 60000) :
    translate_opt .IEEE_802_3 s off
      = some (pgw_update_icmp_checksum
          { s with
            uip_buf := setByte (setByte (setByte
              (memmoveBuf (setByte (setByte (setByte s.uip_buf (58 + off + 5)
                  (s.uip_buf (58 + off + 7))) (58 + off + 6) (s.uip_buf (58 + off + 8)))
                  (58 + off + 7) (s.uip_buf (58 + off + 9)))
                (58 + off + 8) (58 + off + 16) r)
              19 ((off + 12 + r) % 256)) 18 0) (58 + off + 1) 1
            uip_len := 44 + off + 8 + r }) := by
  have h1 : (44 + off + 16 + r + 65536 - (44 + off + 16) % 65536) % 65536 = r := by omega
  have h2 : (44 + off + 16 + r + 65536 - 8) % 65536 = 44 + off + 8 + r := by omega
  have h3 : (44 + off + 8 + r + 65536 - 40) % 65536 % 256 = (off + 12 + r) % 256 := by omega
  have h4 : ((off + 12 + r) % 256) >>> 8 = 0 := by
    rw [Nat.shiftRight_eq_div_pow]
    omega
  unfold translate_opt
  simp (disch := omega) only [uip_l2_l3_icmp_hdr_len, uip_l3_icmp_hdr_len, hext, UIP_LLH_LEN,
    UIP_IPH_LEN, UIP_ICMPH_LEN, UIP_ND6_OPT_SLLAO, UIP_ND6_OPT_TLLAO, UIP_ND6_OPT_DATA_OFFSET,
    Nat.add_zero, Nat.reduceAdd, hty, if_true, reduceCtorEq, if_false, create_ethernet_in_place,
    setByte_ne, hl, Nat.reduceShiftLeft, hlen, set_ip_len_llao]
  have h5 : 58 + off + 16 - 8 = 58 + off + 8 := by omega
  rw [h1, h2, h3, h4, h5]

/-- What the Ethernet branch of `translate_opt` leaves in the buffer. -/
theorem translate_opt_ethernet_spec (s : State) (off r : Nat) (hext : s.uip_ext_len = 0)
    (hty : s.uip_buf (58 + off) = 1 ∨ s.uip_buf (58 + off) = 2)
    (hl : s.uip_buf (58 + off + 1) = 2) (hlen : s.uip_len = 44 + off + 16 + r)
    (hb : off + 16 + r ≤ 60000) :
    ∃ t, translate_opt .IEEE_802_3 s off = some t ∧ same_rest t s
      ∧ t.uip_len = 44 + off + 8 + r
      ∧ (∀ j, j < 58 + off + 5 → j ≠ 18 → j ≠ 19 → j ≠ 56 → j ≠ 57 → j ≠ 58 + off + 1 →
          t.uip_buf j = s.uip_buf j)
      ∧ t.uip_buf (58 + off + 1) = 1
      ∧ t.uip_buf (58 + off + 5) = s.uip_buf (58 + off + 7)
      ∧ t.uip_buf (58 + off + 6) = s.uip_buf (58 + off + 8)
      ∧ t.uip_buf (58 + off + 7) = s.uip_buf (58 + off + 9)
      ∧ (∀ k, k < r → t.uip_buf (58 + off + 8 + k) = s.uip_buf (58 + off + 16 + k))
      ∧ (∀ j, 58 + off + 8 + r ≤ j → t.uip_buf j = s.uip_buf j)
      ∧ t.uip_buf 18 = 0 ∧ t.uip_buf 19 = (t.uip_len - 40) % 256
      ∧ checksum_canonical t := by
  refine ⟨_, translate_opt_ethernet s off r hext hty hl hlen hb, rfl, rfl, ?_, ?_, ?_, ?_, ?_,
    ?_, ?_, ?_, ?_, checksum_canonical_update _⟩
  · intro j h1 h2 h3 h4 h5 h6
    rw [checksum_buf _ _ ⟨h4, h5⟩]
    simp (disch := omega) only [setByte_ne, memmoveBuf_out]
  · rw [checksum_buf _ _ (by omega)]
    simp (disch := omega) only [setByte_eq]
  · rw [checksum_buf _ _ (by omega)]
    simp (disch := omega) only [setByte_ne, memmoveBuf_out, setByte_eq]
  · rw [checksum_buf _ _ (by omega)]
    simp (disch := omega) only [setByte_ne, memmoveBuf_out, setByte_eq]
  · rw [checksum_buf _ _ (by omega)]
    simp (disch := omega) only [setByte_ne, memmoveBuf_out, setByte_eq]
  · intro k hk
    rw [checksum_buf _ _ (by omega)]
    simp (disch := omega) only [setByte_ne, memmoveBuf_in]
    congr 1
    omega
  · intro j hj
    rw [checksum_buf _ _ (by omega)]
    simp (disch := omega) only [setByte_ne, memmoveBuf_out]
  · rw [checksum_buf _ _ (by omega)]
    simp (disch := omega) only [setByte_ne, setByte_eq]
  · rw [checksum_buf _ _ (by omega), checksum_len]
    simp (disch := omega) only [setByte_ne, setByte_eq]
    congr 1
    omega

/-- The 6LoWPAN branch of `translate_opt` at a link-layer address option of 1 unit that
is followed by `r` octets. -/
theorem translate_opt_lowpan (s : State) (off r : Nat) (hext : s.uip_ext_len = 0)
    (hty : s.uip_buf (58 + off) = 1 ∨ s.uip_buf (58 + off) = 2)
    (hl : s.uip_buf (58 + off + 1) = 1) (hlen : s.uip_len = 44 + off + 8 + r)
    (hb : off + 16 + r ≤ 60000) :
    translate_opt .IEEE_802_15_4 s off
      = some (pgw_update_icmp_checksum
          { s with
            uip_buf := setByte (memsetBuf (setByte (setByte (setByte (setByte (setByte
              (setByte (setByte (memmoveBuf s.uip_buf (58 + off + 16) (58 + off + 8) r)
                19 ((off + 20 + r) % 256)) 18 0)
              (58 + off + 9) (s.uip_buf (58 + off + 7))) (58 + off + 7) (s.uip_buf (58 + off + 5)))
              (58 + off + 8) (s.uip_buf (58 + off + 6))) (58 + off + 5) 0xff) (58 + off + 6) 0xfe)
              (58 + off + 10) 0 6) (58 + off + 1) 2
            uip_len := 44 + off + 16 + r }) := by
  have h1 : (44 + off + 8 + r + 65536 - (44 + off + 8) % 65536) % 65536 = r := by omega
  have h2 : (44 + off + 8 + r + 8) % 65536 = 44 + off + 16 + r := by omega
  have h3 : (44 + off + 16 + r + 65536 - 40) % 65536 % 256 = (off + 20 + r) % 256 := by omega
  have h4 : ((off + 20 + r) % 256) >>> 8 = 0 := by
    rw [Nat.shiftRight_eq_div_pow]
    omega
  unfold translate_opt
  simp (disch := omega) only [uip_l2_l3_icmp_hdr_len, uip_l3_icmp_hdr_len, hext, UIP_LLH_LEN,
    UIP_IPH_LEN, UIP_ICMPH_LEN, UIP_ND6_OPT_SLLAO, UIP_ND6_OPT_TLLAO, UIP_ND6_OPT_DATA_OFFSET,
    Nat.add_zero, Nat.reduceAdd, hty, if_true, create_6lowpan_in_place,
    hl, Nat.reduceShiftLeft, hlen, set_ip_len_llao, h1, h2, h3, h4]
  simp (disch := omega) only [setByte_ne, memmoveBuf_out]

/-- What the 6LoWPAN branch of `translate_opt` leaves in the buffer. -/
theorem translate_opt_lowpan_spec (s : State) (off r : Nat) (hext : s.uip_ext_len = 0)
    (hty : s.uip_buf (58 + off) = 1 ∨ s.uip_buf (58 + off) = 2)
    (hl : s.uip_buf (58 + off + 1) = 1) (hlen : s.uip_len = 44 + off + 8 + r)
    (hb : off + 16 + r ≤ 60000) :
    ∃ t, translate_opt .IEEE_802_15_4 s off = some t ∧ same_rest t s
      ∧ t.uip_len = 44 + off + 16 + r
      ∧ (∀ j, j < 58 + off + 5 → j ≠ 18 → j ≠ 19 → j ≠ 56 → j ≠ 57 → j ≠ 58 + off + 1 →
          t.uip_buf j = s.uip_buf j)
      ∧ t.uip_buf (58 + off + 1) = 2
      ∧ t.uip_buf (58 + off + 5) = 0xff
      ∧ t.uip_buf (58 + off + 6) = 0xfe
      ∧ t.uip_buf (58 + off + 7) = s.uip_buf (58 + off + 5)
      ∧ t.uip_buf (58 + off + 8) = s.uip_buf (58 + off + 6)
      ∧ t.uip_buf (58 + off + 9) = s.uip_buf (58 + off + 7)
      ∧ (∀ k, k < 6 → t.uip_buf (58 + off + 10 + k) = 0)
      ∧ (∀ k, k < r → t.uip_buf (58 + off + 16 + k) = s.uip_buf (58 + off + 8 + k))
      ∧ (∀ j, 58 + off + 16 + r ≤ j → t.uip_buf j = s.uip_buf j)
      ∧ t.uip_buf 18 = 0 ∧ t.uip_buf 19 = (t.uip_len - 40) % 256
      ∧ checksum_canonical t := by
  refine ⟨_, translate_opt_lowpan s off r hext hty hl hlen hb, rfl, rfl, ?_, ?_, ?_, ?_, ?_,
    ?_, ?_, ?_, ?_, ?_, ?_, ?_, checksum_canonical_update _⟩
  · intro j h1 h2 h3 h4 h5 h6
    rw [checksum_buf _ _ ⟨h4, h5⟩]
    simp (disch := omega) only [setByte_ne, memmoveBuf_out, memsetBuf_out]
  · rw [checksum_buf _ _ (by omega)]
    simp (disch := omega) only [setByte_eq]
  · rw [checksum_buf _ _ (by omega)]
    simp (disch := omega) only [setByte_ne, memsetBuf_out, setByte_eq]
  · rw [checksum_buf _ _ (by omega)]
    simp (disch := omega) only [setByte_ne, memsetBuf_out, setByte_eq]
  · rw [checksum_buf _ _ (by omega)]
    simp (disch := omega) only [setByte_ne, memsetBuf_out, setByte_eq]
  · rw [checksum_buf _ _ (by omega)]
    simp (disch := omega) only [setByte_ne, memsetBuf_out, setByte_eq]
  · rw [checksum_buf _ _ (by omega)]
    simp (disch := omega) only [setByte_ne, memsetBuf_out, setByte_eq]
  · intro k hk
    rw [checksum_buf _ _ (by omega)]
    simp (disch := omega) only [setByte_ne, memsetBuf_in]
  · intro k hk
    rw [checksum_buf _ _ (by omega)]
    simp (disch := omega) only [setByte_ne, memsetBuf_out, memmoveBuf_in]
    congr 1
    omega
  · intro j hj
    rw [checksum_buf _ _ (by omega)]
    simp (disch := omega) only [setByte_ne, memsetBuf_out, memmoveBuf_out]
  · rw [checksum_buf _ _ (by omega)]
    simp (disch := omega) only [setByte_ne, memsetBuf_out, setByte_eq]
  · rw [checksum_buf _ _ (by omega), checksum_len]
    simp (disch := omega) only [setByte_ne, memsetBuf_out, setByte_eq]
    congr 1
    omega

theorem translate_loop_done (target : interface_t) (fuel : Nat) (s : State) (off : Nat)
    (hext : s.uip_ext_len = 0) (h : s.uip_len ≤ 44 + off) :
    translate_loop target fuel s off = some s := by
  unfold translate_loop
  simp only [uip_l3_icmp_hdr_len, hext, UIP_IPH_LEN, UIP_ICMPH_LEN]
  rw [if_neg (by omega)]

theorem translate_loop_step (target : interface_t) (f : Nat) (s s1 : State) (off l1 : Nat)
    (hext : s.uip_ext_len = 0) (hext1 : s1.uip_ext_len = 0) (hlt : 44 + off < s.uip_len)
    (hnz : s.uip_buf (58 + off + 1) ≠ 0) (hopt : translate_opt target s off = some s1)
    (hl1 : s1.uip_buf (58 + off + 1) = l1) (hwrap : off + 8 * l1 ≤ 255) :
    translate_loop target (f + 1) s off = translate_loop target f s1 (off + 8 * l1) := by
  have h1 : (off + l1 <<< 3) % 256 = off + 8 * l1 := by
    rw [Nat.shiftLeft_eq]
    omega
  conv_lhs => unfold translate_loop
  simp only [uip_l3_icmp_hdr_len, uip_l2_l3_icmp_hdr_len, hext, hext1, UIP_IPH_LEN,
    UIP_ICMPH_LEN, UIP_LLH_LEN, Nat.add_zero, Nat.reduceAdd, hopt, hl1, h1]
  rw [if_pos hlt, if_neg hnz]

theorem translate_opt_keep (target : interface_t) (s : State) (off : Nat)
    (hext : s.uip_ext_len = 0)
    (hty : ¬ (s.uip_buf (58 + off) = 1 ∨ s.uip_buf (58 + off) = 2))
    (hk : target = .IEEE_802_3 ∨ s.uip_buf 54 ≠ ICMP6_RA
      ∨ s.uip_buf (58 + off) = UIP_ND6_OPT_PREFIX_INFO ∨ s.uip_buf (58 + off) = UIP_ND6_OPT_6CO) :
    translate_opt target s off = some s := by
  unfold translate_opt
  simp only [uip_l2_l3_icmp_hdr_len, hext, UIP_LLH_LEN, UIP_IPH_LEN, UIP_ICMPH_LEN,
    UIP_ND6_OPT_SLLAO, UIP_ND6_OPT_TLLAO, Nat.add_zero, Nat.reduceAdd, hty, if_false]
  rw [if_neg]
  rintro ⟨h1, h2, h3, h4⟩
  rcases hk with h | h | h | h
  · rw [h] at h1
    exact absurd h1 (by decide)
  · exact h h2
  · exact h3 h
  · exact h4 h

theorem holds_at (b : Nat → Nat) (pos : Nat) (l : List Nat) (h : holds b pos l) (k : Nat)
    (hk : k < l.length) : b (pos + k) = l.getD k 0 := h k hk

/-- The Ethernet branch of `translate_opt` on the octets of the option. -/
theorem translate_opt_ethernet_list (s : State) (off r : Nat) (o : List Nat)
    (hext : s.uip_ext_len = 0) (hho : holds s.uip_buf (58 + off) o) (hty : opt_is_llao o)
    (hl : o.getD 1 0 = 2) (holen : o.length = 16) (hlen : s.uip_len = 44 + off + 16 + r)
    (hb : off + 16 + r ≤ 60000) :
    ∃ t, translate_opt .IEEE_802_3 s off = some t ∧ same_rest t s
      ∧ t.uip_len = 44 + off + 8 + r
      ∧ t.uip_buf (58 + off + 1) = 1
      ∧ holds t.uip_buf (58 + off) (opt_to_ethernet o)
      ∧ (∀ j, j < 58 + off → j ≠ 18 → j ≠ 19 → j ≠ 56 → j ≠ 57 → t.uip_buf j = s.uip_buf j)
      ∧ (∀ k, k < r → t.uip_buf (58 + off + 8 + k) = s.uip_buf (58 + off + 16 + k))
      ∧ (∀ j, 58 + off + 8 + r ≤ j → t.uip_buf j = s.uip_buf j)
      ∧ t.uip_buf 18 = 0 ∧ t.uip_buf 19 = (t.uip_len - 40) % 256
      ∧ checksum_canonical t := by
  have h0 : s.uip_buf (58 + off) = o.getD 0 0 := hho 0 (by omega)
  have h1 : s.uip_buf (58 + off + 1) = o.getD 1 0 := hho 1 (by omega)
  obtain ⟨t, ht, hsr, hlt, hP1, hb1, hb5, hb6, hb7, hmv, hfr, h18, h19, hcan⟩ :=
    translate_opt_ethernet_spec s off r hext (by rw [h0]; exact hty) (by rw [h1, hl]) hlen hb
  refine ⟨t, ht, hsr, hlt, hb1, ?_, ?_, hmv, hfr, h18, h19, hcan⟩
  · have he : opt_to_ethernet o
        = [o.getD 0 0, 1, o.getD 2 0, o.getD 3 0, o.getD 4 0, o.getD 7 0, o.getD 8 0,
           o.getD 9 0] := if_pos hty
    rw [he]
    intro k hk
    simp only [List.length_cons, List.length_nil] at hk
    have h2 := hho 2 (by omega)
    have h3 := hho 3 (by omega)
    have h4 := hho 4 (by omega)
    have h7 := hho 7 (by omega)
    have h8 := hho 8 (by omega)
    have h9 := hho 9 (by omega)
    have q0 := hP1 (58 + off) (by omega) (by omega) (by omega) (by omega) (by omega) (by omega)
    have q2 := hP1 (58 + off + 2) (by omega) (by omega) (by omega) (by omega) (by omega)
      (by omega)
    have q3 := hP1 (58 + off + 3) (by omega) (by omega) (by omega) (by omega) (by omega)
      (by omega)
    have q4 := hP1 (58 + off + 4) (by omega) (by omega) (by omega) (by omega) (by omega)
      (by omega)
    interval_cases k
    · exact q0.trans h0
    · exact hb1
    · exact q2.trans h2
    · exact q3.trans h3
    · exact q4.trans h4
    · exact hb5.trans h7
    · exact hb6.trans h8
    · exact hb7.trans h9
  · intro j h1 h2 h3 h4 h5
    exact hP1 j (by omega) h2 h3 h4 h5 (by omega)

/-- The 6LoWPAN branch of `translate_opt` on the octets of the option. -/
theorem translate_opt_lowpan_list (s : State) (off r : Nat) (o : List Nat)
    (hext : s.uip_ext_len = 0) (hho : holds s.uip_buf (58 + off) o) (hty : opt_is_llao o)
    (hl : o.getD 1 0 = 1) (holen : o.length = 8) (hlen : s.uip_len = 44 + off + 8 + r)
    (hb : off + 16 + r ≤ 60000) :
    ∃ t, translate_opt .IEEE_802_15_4 s off = some t ∧ same_rest t s
      ∧ t.uip_len = 44 + off + 16 + r
      ∧ t.uip_buf (58 + off + 1) = 2
      ∧ holds t.uip_buf (58 + off) (opt_to_lowpan o)
      ∧ (∀ j, j < 58 + off → j ≠ 18 → j ≠ 19 → j ≠ 56 → j ≠ 57 → t.uip_buf j = s.uip_buf j)
      ∧ (∀ k, k < r → t.uip_buf (58 + off + 16 + k) = s.uip_buf (58 + off + 8 + k))
      ∧ (∀ j, 58 + off + 16 + r ≤ j → t.uip_buf j = s.uip_buf j)
      ∧ t.uip_buf 18 = 0 ∧ t.uip_buf 19 = (t.uip_len - 40) % 256
      ∧ checksum_canonical t := by
  have h0 : s.uip_buf (58 + off) = o.getD 0 0 := hho 0 (by omega)
  have h1 : s.uip_buf (58 + off + 1) = o.getD 1 0 := hho 1 (by omega)
  obtain ⟨t, ht, hsr, hlt, hP1, hb1, hb5, hb6, hb7, hb8, hb9, hz, hmv, hfr, h18, h19, hcan⟩ :=
    translate_opt_lowpan_spec s off r hext (by rw [h0]; exact hty) (by rw [h1, hl]) hlen hb
  refine ⟨t, ht, hsr, hlt, hb1, ?_, ?_, hmv, hfr, h18, h19, hcan⟩
  · have he : opt_to_lowpan o
        = [o.getD 0 0, 2, o.getD 2 0, o.getD 3 0, o.getD 4 0, 0xff, 0xfe,
           o.getD 5 0, o.getD 6 0, o.getD 7 0, 0, 0, 0, 0, 0, 0] := if_pos hty
    rw [he]
    intro k hk
    simp only [List.length_cons, List.length_nil] at hk
    have h2 := hho 2 (by omega)
    have h3 := hho 3 (by omega)
    have h4 := hho 4 (by omega)
    have h5 := hho 5 (by omega)
    have h6 := hho 6 (by omega)
    have h7 := hho 7 (by omega)
    have q0 := hP1 (58 + off) (by omega) (by omega) (by omega) (by omega) (by omega) (by omega)
    have q2 := hP1 (58 + off + 2) (by omega) (by omega) (by omega) (by omega) (by omega)
      (by omega)
    have q3 := hP1 (58 + off + 3) (by omega) (by omega) (by omega) (by omega) (by omega)
      (by omega)
    have q4 := hP1 (58 + off + 4) (by omega) (by omega) (by omega) (by omega) (by omega)
      (by omega)
    have z0 := hz 0 (by omega)
    have z1 := hz 1 (by omega)
    have z2 := hz 2 (by omega)
    have z3 := hz 3 (by omega)
    have z4 := hz 4 (by omega)
    have z5 := hz 5 (by omega)
    interval_cases k
    · exact q0.trans h0
    · exact hb1
    · exact q2.trans h2
    · exact q3.trans h3
    · exact q4.trans h4
    · exact hb5
    · exact hb6
    · exact hb7.trans h5
    · exact hb8.trans h6
    · exact hb9.trans h7
    · exact z0
    · exact z1
    · exact z2
    · exact z3
    · exact z4
    · exact z5
  · intro j h1 h2 h3 h4 h5
    exact hP1 j (by omega) h2 h3 h4 h5 (by omega)

theorem opt_wf_length (o : List Nat) (h : opt_wf o) : 8 ≤ o.length := by
  unfold opt_wf at h
  omega

/-- The option loop of `translate_icmp_lladdr` toward Ethernet on a list of options whose
link-layer address options are 2 units long. -/
theorem translate_loop_ethernet (opts : List (List Nat)) :
    ∀ (fuel : Nat) (s : State) (off : Nat),
      s.uip_ext_len = 0 →
      holds s.uip_buf (58 + off) (opts_bytes opts) →
      s.uip_len = 44 + off + (opts_bytes opts).length →
      off + (opts_bytes opts).length ≤ 255 →
      (∀ o ∈ opts, opt_wf o ∧ (opt_is_llao o → o.getD 1 0 = 2)) →
      opts.length ≤ fuel →
      ∃ t, translate_loop .IEEE_802_3 fuel s off = some t ∧ same_rest t s
        ∧ t.uip_len = 44 + off + (opts_bytes (opts.map opt_to_ethernet)).length
        ∧ holds t.uip_buf (58 + off) (opts_bytes (opts.map opt_to_ethernet))
        ∧ (∀ j, j < 58 + off → j ≠ 18 → j ≠ 19 → j ≠ 56 → j ≠ 57 → t.uip_buf j = s.uip_buf j)
        ∧ (∀ j, 14 + s.uip_len ≤ j → t.uip_buf j = s.uip_buf j)
        ∧ ((∃ o ∈ opts, opt_is_llao o) →
            t.uip_buf 18 = 0 ∧ t.uip_buf 19 = (t.uip_len - 40) % 256 ∧ checksum_canonical t)
        ∧ ((∀ o ∈ opts, ¬ opt_is_llao o) → t = s) := by
  induction opts with
  | nil =>
    intro fuel s off hext hh hlen hb hopt hfuel
    simp only [opts_bytes, List.length_nil, Nat.add_zero] at hlen
    refine ⟨s, translate_loop_done _ _ _ _ hext (by omega), same_rest_refl s, ?_, ?_,
      fun _ _ _ _ _ _ => rfl, fun _ _ => rfl, ?_, fun _ => rfl⟩
    · simpa [opts_bytes] using hlen
    · intro k hk
      simp [opts_bytes] at hk
    · rintro ⟨o, ho, _⟩
      simp at ho
  | cons o rest ih =>
    intro fuel s off hext hh hlen hb hopt hfuel
    obtain ⟨hwf, hll⟩ := hopt o (List.mem_cons_self _ _)
    have hol := opt_wf_length o hwf
    obtain ⟨hpos, holen⟩ := hwf
    simp only [opts_bytes, List.length_append] at hlen hb
    rw [opts_bytes, holds_append] at hh
    obtain ⟨hho, hhr⟩ := hh
    have h0 : s.uip_buf (58 + off) = o.getD 0 0 := hho 0 (by omega)
    have h1 : s.uip_buf (58 + off + 1) = o.getD 1 0 := hho 1 (by omega)
    have hrest : ∀ o1 ∈ rest, opt_wf o1 ∧ (opt_is_llao o1 → o1.getD 1 0 = 2) :=
      fun o1 ho1 => hopt o1 (List.mem_cons_of_mem _ ho1)
    cases fuel with
    | zero => simp at hfuel
    | succ f =>
      have hf : rest.length ≤ f := by
        simp only [List.length_cons] at hfuel
        omega
      by_cases hty : opt_is_llao o
      · have hl2 := hll hty
        have ho16 : o.length = 16 := by omega
        obtain ⟨t1, ht1, hsr1, hlen1, hb1, hh1, hlo1, hmv1, hfr1, h18, h19, hcan⟩ :=
          translate_opt_ethernet_list s off (opts_bytes rest).length o hext hho hty hl2 ho16
            (by omega) (by omega)
        have hext1 : t1.uip_ext_len = 0 := (same_rest_ext_len t1 s hsr1).trans hext
        have hhr1 : holds t1.uip_buf (58 + (off + 8)) (opts_bytes rest) := by
          intro k hk
          have := hmv1 k hk
          have h2 := hhr k hk
          rw [ho16] at h2
          have e : 58 + (off + 8) + k = 58 + off + 8 + k := by omega
          rw [e, this]
          exact h2
        obtain ⟨t, ht, hsr, hlent, hht, hlo, hhi, hyes, hno⟩ :=
          ih f t1 (off + 8) hext1 hhr1 (by omega) (by omega) hrest hf
        have he : opt_to_ethernet o
            = [o.getD 0 0, 1, o.getD 2 0, o.getD 3 0, o.getD 4 0, o.getD 7 0, o.getD 8 0,
               o.getD 9 0] := if_pos hty
        have he8 : (opt_to_ethernet o).length = 8 := by rw [he]; rfl
        refine ⟨t, ?_, same_rest_trans t t1 s hsr hsr1, ?_, ?_, ?_, ?_, ?_, ?_⟩
        · rw [translate_loop_step .IEEE_802_3 f s t1 off 1 hext hext1 (by omega)
            (by rw [h1, hl2]; decide) ht1 hb1 (by omega)]
          exact ht
        · simp only [List.map_cons, opts_bytes, List.length_append, he8]
          omega
        · simp only [List.map_cons, opts_bytes]
          rw [holds_append, he8]
          refine ⟨?_, ?_⟩
          · apply holds_congr t1.uip_buf _ _ _ _ hh1
            intro j hj1 hj2
            exact hlo j (by omega) (by omega) (by omega) (by omega) (by omega)
          · have e : 58 + off + 8 = 58 + (off + 8) := by omega
            rw [e]
            exact hht
        · intro j hj h2 h3 h4 h5
          rw [hlo j (by omega) h2 h3 h4 h5]
          exact hlo1 j hj h2 h3 h4 h5
        · intro j hj
          rw [hhi j (by omega)]
          exact hfr1 j (by omega)
        · intro _
          by_cases hr : ∃ o1 ∈ rest, opt_is_llao o1
          · exact hyes hr
          · have : t = t1 := hno (fun o1 ho1 h => hr ⟨o1, ho1, h⟩)
            rw [this]
            exact ⟨h18, h19, hcan⟩
        · intro hnone
          exact absurd hty (hnone o (List.mem_cons_self _ _))
      · have hkeep : translate_opt .IEEE_802_3 s off = some s :=
          translate_opt_keep _ s off hext (by rw [h0]; exact hty) (Or.inl rfl)
        have hhr1 : holds s.uip_buf (58 + (off + 8 * o.getD 1 0)) (opts_bytes rest) := by
          have e : 58 + (off + 8 * o.getD 1 0) = 58 + off + o.length := by omega
          rw [e]
          exact hhr
        obtain ⟨t, ht, hsr, hlent, hht, hlo, hhi, hyes, hno⟩ :=
          ih f s (off + 8 * o.getD 1 0) hext hhr1 (by omega) (by omega) hrest hf
        have he : opt_to_ethernet o = o := if_neg hty
        refine ⟨t, ?_, hsr, ?_, ?_, ?_, hhi, ?_, ?_⟩
        · rw [translate_loop_step .IEEE_802_3 f s s off (o.getD 1 0) hext hext (by omega)
            (by rw [h1]; omega) hkeep h1 (by omega)]
          exact ht
        · simp only [List.map_cons, opts_bytes, List.length_append, he]
          omega
        · simp only [List.map_cons, opts_bytes]
          rw [holds_append, he]
          refine ⟨?_, ?_⟩
          · apply holds_congr s.uip_buf _ _ _ _ hho
            intro j hj1 hj2
            exact hlo j (by omega) (by omega) (by omega) (by omega) (by omega)
          · have e : 58 + off + o.length = 58 + (off + 8 * o.getD 1 0) := by omega
            rw [e]
            exact hht
        · intro j hj h2 h3 h4 h5
          exact hlo j (by omega) h2 h3 h4 h5
        · rintro ⟨o1, ho1, h⟩
          rcases List.mem_cons.1 ho1 with e | e
          · rw [e] at h
            exact absurd h hty
          · exact hyes ⟨o1, e, h⟩
        · intro hnone
          exact hno (fun o1 ho1 => hnone o1 (List.mem_cons_of_mem _ ho1))

theorem lowpan_bytes_le (opts : List (List Nat))
    (h : ∀ o ∈ opts, opt_wf o ∧ (opt_is_llao o → o.getD 1 0 = 1)) :
    (opts_bytes opts).length ≤ (opts_bytes (opts.map opt_to_lowpan)).length := by
  induction opts with
  | nil => simp [opts_bytes]
  | cons o rest ih =>
    have h1 := ih (fun o1 ho1 => h o1 (List.mem_cons_of_mem _ ho1))
    obtain ⟨⟨hpos, holen⟩, hll⟩ := h o (List.mem_cons_self _ _)
    simp only [List.map_cons, opts_bytes, List.length_append]
    by_cases hty : opt_is_llao o
    · have he : opt_to_lowpan o
          = [o.getD 0 0, 2, o.getD 2 0, o.getD 3 0, o.getD 4 0, 0xff, 0xfe,
             o.getD 5 0, o.getD 6 0, o.getD 7 0, 0, 0, 0, 0, 0, 0] := if_pos hty
      have he16 : (opt_to_lowpan o).length = 16 := by rw [he]; rfl
      have := hll hty
      omega
    · have he : opt_to_lowpan o = o := if_neg hty
      rw [he]
      omega

/-- The option loop of `translate_icmp_lladdr` toward the 6LoWPAN side on a list of
options whose link-layer address options are 1 unit long and of which none is filtered. -/
theorem translate_loop_lowpan (opts : List (List Nat)) :
    ∀ (fuel : Nat) (s : State) (off : Nat),
      s.uip_ext_len = 0 →
      holds s.uip_buf (58 + off) (opts_bytes opts) →
      s.uip_len = 44 + off + (opts_bytes opts).length →
      off + (opts_bytes (opts.map opt_to_lowpan)).length ≤ 255 →
      (∀ o ∈ opts, opt_wf o ∧ (opt_is_llao o → o.getD 1 0 = 1)) →
      (s.uip_buf 54 ≠ ICMP6_RA ∨ ∀ o ∈ opts, opt_kept_in_ra o) →
      opts.length ≤ fuel →
      ∃ t, translate_loop .IEEE_802_15_4 fuel s off = some t ∧ same_rest t s
        ∧ t.uip_len = 44 + off + (opts_bytes (opts.map opt_to_lowpan)).length
        ∧ holds t.uip_buf (58 + off) (opts_bytes (opts.map opt_to_lowpan))
        ∧ (∀ j, j < 58 + off → j ≠ 18 → j ≠ 19 → j ≠ 56 → j ≠ 57 → t.uip_buf j = s.uip_buf j)
        ∧ (∀ j, 14 + t.uip_len ≤ j → t.uip_buf j = s.uip_buf j)
        ∧ ((∃ o ∈ opts, opt_is_llao o) →
            t.uip_buf 18 = 0 ∧ t.uip_buf 19 = (t.uip_len - 40) % 256 ∧ checksum_canonical t)
        ∧ ((∀ o ∈ opts, ¬ opt_is_llao o) → t = s) := by
  induction opts with
  | nil =>
    intro fuel s off hext hh hlen hb hopt hfil hfuel
    simp only [opts_bytes, List.length_nil, Nat.add_zero] at hlen
    refine ⟨s, translate_loop_done _ _ _ _ hext (by omega), same_rest_refl s, ?_, ?_,
      fun _ _ _ _ _ _ => rfl, fun _ _ => rfl, ?_, fun _ => rfl⟩
    · simpa [opts_bytes] using hlen
    · intro k hk
      simp [opts_bytes] at hk
    · rintro ⟨o, ho, _⟩
      simp at ho
  | cons o rest ih =>
    intro fuel s off hext hh hlen hb hopt hfil hfuel
    obtain ⟨hwf, hll⟩ := hopt o (List.mem_cons_self _ _)
    have hol := opt_wf_length o hwf
    obtain ⟨hpos, holen⟩ := hwf
    have hrest : ∀ o1 ∈ rest, opt_wf o1 ∧ (opt_is_llao o1 → o1.getD 1 0 = 1) :=
      fun o1 ho1 => hopt o1 (List.mem_cons_of_mem _ ho1)
    have hle := lowpan_bytes_le rest hrest
    simp only [List.map_cons, opts_bytes, List.length_append] at hlen hb
    rw [opts_bytes, holds_append] at hh
    obtain ⟨hho, hhr⟩ := hh
    have h0 : s.uip_buf (58 + off) = o.getD 0 0 := hho 0 (by omega)
    have h1 : s.uip_buf (58 + off + 1) = o.getD 1 0 := hho 1 (by omega)
    cases fuel with
    | zero => simp at hfuel
    | succ f =>
      have hf : rest.length ≤ f := by
        simp only [List.length_cons] at hfuel
        omega
      by_cases hty : opt_is_llao o
      · have hl1 := hll hty
        have ho8 : o.length = 8 := by omega
        have he : opt_to_lowpan o
            = [o.getD 0 0, 2, o.getD 2 0, o.getD 3 0, o.getD 4 0, 0xff, 0xfe,
               o.getD 5 0, o.getD 6 0, o.getD 7 0, 0, 0, 0, 0, 0, 0] := if_pos hty
        have he16 : (opt_to_lowpan o).length = 16 := by rw [he]; rfl
        rw [he16] at hb
        obtain ⟨t1, ht1, hsr1, hlen1, hb1, hh1, hlo1, hmv1, hfr1, h18, h19, hcan⟩ :=
          translate_opt_lowpan_list s off (opts_bytes rest).length o hext hho hty hl1 ho8
            (by omega) (by omega)
        have hext1 : t1.uip_ext_len = 0 := (same_rest_ext_len t1 s hsr1).trans hext
        have hhr1 : holds t1.uip_buf (58 + (off + 16)) (opts_bytes rest) := by
          intro k hk
          have := hmv1 k hk
          have h2 := hhr k hk
          rw [ho8] at h2
          have e : 58 + (off + 16) + k = 58 + off + 16 + k := by omega
          rw [e, this]
          exact h2
        have hfil1 : t1.uip_buf 54 ≠ ICMP6_RA ∨ ∀ o1 ∈ rest, opt_kept_in_ra o1 := by
          rcases hfil with h | h
          · left
            rw [hlo1 54 (by omega) (by omega) (by omega) (by omega) (by omega)]
            exact h
          · right
            exact fun o1 ho1 => h o1 (List.mem_cons_of_mem _ ho1)
        obtain ⟨t, ht, hsr, hlent, hht, hlo, hhi, hyes, hno⟩ :=
          ih f t1 (off + 16) hext1 hhr1 (by omega) (by omega) hrest hfil1 hf
        refine ⟨t, ?_, same_rest_trans t t1 s hsr hsr1, ?_, ?_, ?_, ?_, ?_, ?_⟩
        · rw [translate_loop_step .IEEE_802_15_4 f s t1 off 2 hext hext1 (by omega)
            (by rw [h1, hl1]; decide) ht1 hb1 (by omega)]
          exact ht
        · simp only [List.map_cons, opts_bytes, List.length_append, he16]
          omega
        · simp only [List.map_cons, opts_bytes]
          rw [holds_append, he16]
          refine ⟨?_, ?_⟩
          · apply holds_congr t1.uip_buf _ _ _ _ hh1
            intro j hj1 hj2
            exact hlo j (by omega) (by omega) (by omega) (by omega) (by omega)
          · have e : 58 + off + 16 = 58 + (off + 16) := by omega
            rw [e]
            exact hht
        · intro j hj h2 h3 h4 h5
          rw [hlo j (by omega) h2 h3 h4 h5]
          exact hlo1 j hj h2 h3 h4 h5
        · intro j hj
          rw [hhi j hj]
          exact hfr1 j (by omega)
        · intro _
          by_cases hr : ∃ o1 ∈ rest, opt_is_llao o1
          · exact hyes hr
          · have : t = t1 := hno (fun o1 ho1 h => hr ⟨o1, ho1, h⟩)
            rw [this]
            exact ⟨h18, h19, hcan⟩
        · intro hnone
          exact absurd hty (hnone o (List.mem_cons_self _ _))
      · have he : opt_to_lowpan o = o := if_neg hty
        rw [he] at hb
        have hkeep : translate_opt .IEEE_802_15_4 s off = some s := by
          apply translate_opt_keep _ s off hext (by rw [h0]; exact hty)
          rcases hfil with h | h
          · exact Or.inr (Or.inl h)
          · rcases h o (List.mem_cons_self _ _) with h3 | h3 | h3
            · exact absurd h3 hty
            · exact Or.inr (Or.inr (Or.inl (h0.trans h3)))
            · exact Or.inr (Or.inr (Or.inr (h0.trans h3)))
        have hhr1 : holds s.uip_buf (58 + (off + 8 * o.getD 1 0)) (opts_bytes rest) := by
          have e : 58 + (off + 8 * o.getD 1 0) = 58 + off + o.length := by omega
          rw [e]
          exact hhr
        have hfil1 : s.uip_buf 54 ≠ ICMP6_RA ∨ ∀ o1 ∈ rest, opt_kept_in_ra o1 := by
          rcases hfil with h | h
          · exact Or.inl h
          · exact Or.inr (fun o1 ho1 => h o1 (List.mem_cons_of_mem _ ho1))
        obtain ⟨t, ht, hsr, hlent, hht, hlo, hhi, hyes, hno⟩ :=
          ih f s (off + 8 * o.getD 1 0) hext hhr1 (by omega) (by omega) hrest hfil1 hf
        refine ⟨t, ?_, hsr, ?_, ?_, ?_, hhi, ?_, ?_⟩
        · rw [translate_loop_step .IEEE_802_15_4 f s s off (o.getD 1 0) hext hext (by omega)
            (by rw [h1]; omega) hkeep h1 (by omega)]
          exact ht
        · simp only [List.map_cons, opts_bytes, List.length_append, he]
          omega
        · simp only [List.map_cons, opts_bytes]
          rw [holds_append, he]
          refine ⟨?_, ?_⟩
          · apply holds_congr s.uip_buf _ _ _ _ hho
            intro j hj1 hj2
            exact hlo j (by omega) (by omega) (by omega) (by omega) (by omega)
          · have e : 58 + off + o.length = 58 + (off + 8 * o.getD 1 0) := by omega
            rw [e]
            exact hht
        · intro j hj h2 h3 h4 h5
          exact hlo j (by omega) h2 h3 h4 h5
        · rintro ⟨o1, ho1, h⟩
          rcases List.mem_cons.1 ho1 with e | e
          · rw [e] at h
            exact absurd h hty
          · exact hyes ⟨o1, e, h⟩
        · intro hnone
          exact hno (fun o1 ho1 => hnone o1 (List.mem_cons_of_mem _ ho1))

theorem checksum_field_digits (S c1 c2 : Nat) (hS : S < 65536) (h1 : c1 < 256) (h2 : c2 < 256)
    (hne : ¬ (c1 = 255 ∧ c2 = 255)) (hsum : (S + (c1 * 256 + c2)) % 65535 = 0) :
    (65535 - (if S = 0 then 65535 else uip_htons S)) % 256 = c1
    ∧ (65535 - (if S = 0 then 65535 else uip_htons S)) / 256 % 256 = c2 := by
  have hC : c1 * 256 + c2 < 65535 := by omega
  obtain ⟨q, hq⟩ : ∃ q, S + (c1 * 256 + c2) = 65535 * q :=
    ⟨(S + (c1 * 256 + c2)) / 65535, by
      have := Nat.div_add_mod (S + (c1 * 256 + c2)) 65535
      rw [hsum] at this
      omega⟩
  have hq2 : q < 2 := by omega
  by_cases hz : S = 0
  · subst hz
    simp only [if_true]
    interval_cases q <;> omega
  · rw [if_neg hz]
    have hw := checksum_field_word S hS
    generalize 65535 - uip_htons S = V at hw ⊢
    have ha : V % 256 < 256 := Nat.mod_lt _ (by decide)
    have hb : V / 256 % 256 < 256 := Nat.mod_lt _ (by decide)
    generalize V % 256 = a at hw ha ⊢
    generalize V / 256 % 256 = b at hw hb ⊢
    rw [Nat.mod_eq_of_lt (by omega)] at hw
    interval_cases q <;> omega

theorem checksum_sum_zero (S T X C : Nat) (hC : C < 65536) (hS : S % 65535 = X % 65535)
    (hT : T % 65535 = (X + C % 65536) % 65535) (hT0 : T % 65535 = 0) :
    (S + C) % 65535 = 0 := by
  rw [Nat.mod_eq_of_lt hC] at hT
  omega

/-- A checksum that verifies and is not written `0xffff` is the one
`pgw_update_icmp_checksum` writes. -/
theorem checksum_valid_canonical (s : State) (hext : s.uip_ext_len = 0)
    (hlen : 4 ≤ ip_payload_len s) (hv : checksum_valid s) : checksum_canonical s := by
  obtain ⟨hver, hc1, hc2, hne⟩ := hv
  obtain ⟨m, hm⟩ : ∃ m, ip_payload_len s = m + 4 := ⟨ip_payload_len s - 4, by omega⟩
  obtain ⟨S, hSlt, hSd, hbuf⟩ := update_checksum_field s hext
  rw [icmp6chksum_no_ext s hext] at hver
  generalize hsA : chksum s.uip_buf ((ip_payload_len s + 58) % 65536) 22 32 = sumA
    at hSd hver
  have hsAlt : sumA < 65536 := by
    rw [← hsA]; exact chksum_lt _ _ _ _ (Nat.mod_lt _ (by decide))
  rw [hm] at hSd hver
  have hS := chksum_mod (store16 s.uip_buf 56 0) (m + 4) sumA 54 hsAlt
  rw [← hSd] at hS
  have hT := chksum_mod s.uip_buf (m + 4) sumA 54 hsAlt
  have hTlt := chksum_lt s.uip_buf (m + 4) sumA 54 hsAlt
  have hW : word_sum (store16 s.uip_buf 56 0) 58 m = word_sum s.uip_buf 58 m :=
    word_sum_congr _ _ _ _ (fun j h1 h2 => store16_out _ _ _ _ (by omega))
  have e1 : word_sum (store16 s.uip_buf 56 0) 54 (m + 4)
      = (s.uip_buf 54 * 256 + s.uip_buf 55) % 65536 + (0 + word_sum s.uip_buf 58 m) := by
    rw [show m + 4 = (m + 2) + 2 from rfl, word_sum, word_sum, hW,
      store16_out _ _ _ 54 (by omega), store16_out _ _ _ 55 (by omega),
      store16_lo, store16_hi _ _ _ (56 + 1) rfl]
  have e2 : word_sum s.uip_buf 54 (m + 4)
      = (s.uip_buf 54 * 256 + s.uip_buf 55) % 65536
        + ((s.uip_buf 56 * 256 + s.uip_buf 57) % 65536 + word_sum s.uip_buf 58 m) := by
    rw [show m + 4 = (m + 2) + 2 from rfl, word_sum, word_sum]
  rw [e1] at hS
  rw [e2] at hT
  generalize chksum s.uip_buf sumA 54 (m + 4) = T at hver hT hTlt
  have hT0 : T % 65535 = 0 := by
    by_cases hz : T = 0
    · rw [hz]
    · rw [if_neg hz] at hver
      unfold uip_htons at hver
      omega
  have hsum : (S + (s.uip_buf 56 * 256 + s.uip_buf 57)) % 65535 = 0 :=
    checksum_sum_zero S T
      (sumA + ((s.uip_buf 54 * 256 + s.uip_buf 55) % 65536 + word_sum s.uip_buf 58 m)) _
      (by omega) (by rw [hS]; congr 1; omega) (by rw [hT]; congr 1; omega) hT0
  obtain ⟨d1, d2⟩ := checksum_field_digits S _ _ hSlt hc1 hc2 hne hsum
  unfold checksum_canonical
  rw [hbuf]
  funext j
  by_cases h56 : j = 56
  · rw [h56, store16_lo, d1]
  · by_cases h57 : j = 57
    · rw [h57, store16_hi _ _ _ 57 rfl, d2]
    · rw [store16_out _ _ _ _ (by omega), store16_out _ _ _ _ (by omega)]

theorem list_of_length_16 (o : List Nat) (h : o.length = 16) :
    o = [o.getD 0 0, o.getD 1 0, o.getD 2 0, o.getD 3 0, o.getD 4 0, o.getD 5 0, o.getD 6 0,
         o.getD 7 0, o.getD 8 0, o.getD 9 0, o.getD 10 0, o.getD 11 0, o.getD 12 0,
         o.getD 13 0, o.getD 14 0, o.getD 15 0] := by
  match o, h with
  | [_, _, _, _, _, _, _, _, _, _, _, _, _, _, _, _], _ => rfl

theorem opt_round_trip (o : List Nat) (hwf : opt_wf o)
    (hll : opt_is_llao o → opt_llao_eui64 o) : opt_to_lowpan (opt_to_ethernet o) = o := by
  by_cases hty : opt_is_llao o
  · obtain ⟨h1, h5, h6, h10, h11, h12, h13, h14, h15⟩ := hll hty
    have h16 : o.length = 16 := by
      unfold opt_wf at hwf
      omega
    have he : opt_to_ethernet o
        = [o.getD 0 0, 1, o.getD 2 0, o.getD 3 0, o.getD 4 0, o.getD 7 0, o.getD 8 0,
           o.getD 9 0] := if_pos hty
    rw [he]
    have hty2 : ([o.getD 0 0, 1, o.getD 2 0, o.getD 3 0, o.getD 4 0, o.getD 7 0, o.getD 8 0,
        o.getD 9 0].getD 0 0 = UIP_ND6_OPT_SLLAO
        ∨ [o.getD 0 0, 1, o.getD 2 0, o.getD 3 0, o.getD 4 0, o.getD 7 0, o.getD 8 0,
        o.getD 9 0].getD 0 0 = UIP_ND6_OPT_TLLAO) := hty
    unfold opt_to_lowpan
    rw [if_pos hty2]
    conv_rhs => rw [list_of_length_16 o h16, h1, h5, h6, h10, h11, h12, h13, h14, h15]
    rfl
  · have he : opt_to_ethernet o = o := if_neg hty
    rw [he]
    exact if_neg hty

theorem opts_round_trip (opts : List (List Nat))
    (h : ∀ o ∈ opts, opt_wf o ∧ (opt_is_llao o → opt_llao_eui64 o)) :
    (opts.map opt_to_ethernet).map opt_to_lowpan = opts := by
  induction opts with
  | nil => rfl
  | cons o rest ih =>
    rw [List.map_cons, List.map_cons, ih (fun o1 ho1 => h o1 (List.mem_cons_of_mem _ ho1)),
      opt_round_trip o (h o (List.mem_cons_self _ _)).1 (h o (List.mem_cons_self _ _)).2]

theorem opt_to_ethernet_llao (o : List Nat) :
    opt_is_llao (opt_to_ethernet o) ↔ opt_is_llao o := by
  by_cases hty : opt_is_llao o
  · have he : opt_to_ethernet o
        = [o.getD 0 0, 1, o.getD 2 0, o.getD 3 0, o.getD 4 0, o.getD 7 0, o.getD 8 0,
           o.getD 9 0] := if_pos hty
    rw [he]
    exact Iff.rfl
  · have he : opt_to_ethernet o = o := if_neg hty
    rw [he]

theorem opt_to_ethernet_wf (o : List Nat) (hwf : opt_wf o) :
    opt_wf (opt_to_ethernet o)
      ∧ (opt_is_llao (opt_to_ethernet o) → (opt_to_ethernet o).getD 1 0 = 1) := by
  by_cases hty : opt_is_llao o
  · have he : opt_to_ethernet o
        = [o.getD 0 0, 1, o.getD 2 0, o.getD 3 0, o.getD 4 0, o.getD 7 0, o.getD 8 0,
           o.getD 9 0] := if_pos hty
    rw [he]
    exact ⟨⟨Nat.zero_lt_one, rfl⟩, fun _ => rfl⟩
  · have he : opt_to_ethernet o = o := if_neg hty
    rw [he]
    exact ⟨hwf, fun h => absurd h hty⟩

theorem opt_to_ethernet_kept (o : List Nat) (h : opt_kept_in_ra o) :
    opt_kept_in_ra (opt_to_ethernet o) := by
  by_cases hty : opt_is_llao o
  · have he : opt_to_ethernet o
        = [o.getD 0 0, 1, o.getD 2 0, o.getD 3 0, o.getD 4 0, o.getD 7 0, o.getD 8 0,
           o.getD 9 0] := if_pos hty
    rw [he]
    exact Or.inl hty
  · have he : opt_to_ethernet o = o := if_neg hty
    rw [he]
    exact h

theorem translate_icmp_lladdr_nd (fuel : Nat) (target : interface_t) (s : State)
    (hproto : s.uip_buf 20 = UIP_PROTO_ICMP6)
    (htype : s.uip_buf 54 = ICMP6_NS ∨ s.uip_buf 54 = ICMP6_NA ∨ s.uip_buf 54 = ICMP6_RS
      ∨ s.uip_buf 54 = ICMP6_RA) :
    translate_icmp_lladdr fuel target s = translate_loop target fuel s (nd_options_offset s) := by
  unfold translate_icmp_lladdr nd_options_offset
  simp only [UIP_LLH_LEN, UIP_IPH_LEN, Nat.reduceAdd, hproto, ne_eq, not_true_eq_false,
    if_false]
  rcases htype with h | h | h | h <;> simp [h]

theorem nd_options_offset_le (s : State) : nd_options_offset s ≤ 20 := by
  unfold nd_options_offset
  simp only [UIP_ND6_NA_LEN, UIP_ND6_RS_LEN, UIP_ND6_RA_LEN]
  split_ifs <;> omega

theorem nd_options_offset_congr (t s : State) (h : t.uip_buf 54 = s.uip_buf 54) :
    nd_options_offset t = nd_options_offset s := by
  unfold nd_options_offset
  simp only [UIP_LLH_LEN, UIP_IPH_LEN, Nat.reduceAdd, h]

/-- C15, amended: for every NS, NA, RS or RA in the buffer, without extension headers,
whose options `opts` are well formed and fill the packet up to `uip_len`, whose payload
length field agrees with `uip_len` and is under 256, whose checksum verifies and is not
written `ff ff`, whose SLLAO/TLLAO options are 2 units long with an EUI-64 derived from a
MAC address (octets 3 and 4 are `ff fe`) and six zero octets of padding, and, in an RA,
whose options are all SLLAO/TLLAO, Prefix Information or 6LoWPAN Context options:
`translate_icmp_lladdr` toward Ethernet and then toward the 6LoWPAN side returns, with
fuel for one step per option, the state it started from, buffer and `uip_len`
included. -/
theorem rewriter_round_trip (fuel : Nat) (s : State) (opts : List (List Nat))
    (hext : s.uip_ext_len = 0)
    (hproto : s.uip_buf 20 = UIP_PROTO_ICMP6)
    (htype : s.uip_buf 54 = ICMP6_NS ∨ s.uip_buf 54 = ICMP6_NA ∨ s.uip_buf 54 = ICMP6_RS
      ∨ s.uip_buf 54 = ICMP6_RA)
    (hopts : readBytes s.uip_buf (58 + nd_options_offset s) (opts_bytes opts).length
      = opts_bytes opts)
    (hlen : s.uip_len = 44 + nd_options_offset s + (opts_bytes opts).length)
    (hshort : s.uip_len - 40 < 256)
    (hfield : s.uip_buf 18 = 0 ∧ s.uip_buf 19 = s.uip_len - 40)
    (hck : checksum_valid s)
    (hwf : ∀ o ∈ opts, opt_wf o ∧ (opt_is_llao o → opt_llao_eui64 o))
    (hra : s.uip_buf 54 = ICMP6_RA → ∀ o ∈ opts, opt_kept_in_ra o)
    (hfuel : opts.length ≤ fuel) :
    (translate_icmp_lladdr fuel .IEEE_802_3 s).bind (translate_icmp_lladdr fuel .IEEE_802_15_4)
      = some s := by
  obtain ⟨h18, h19⟩ := hfield
  have hoff := nd_options_offset_le s
  generalize hoffd : nd_options_offset s = off at hopts hlen hoff
  have hh : holds s.uip_buf (58 + off) (opts_bytes opts) := (holds_readBytes _ _ _).2 hopts
  have hpl : ip_payload_len s = s.uip_len - 40 := by
    simp only [ip_payload_len, UIP_LLH_LEN, Nat.reduceAdd, h18, h19]
    omega
  have hcan : checksum_canonical s :=
    checksum_valid_canonical s hext (by rw [hpl]; omega) hck
  obtain ⟨t1, ht1, hsr1, hlen1, hht1, hlo1, hhi1, hyes1, hno1⟩ :=
    translate_loop_ethernet opts fuel s off hext hh hlen (by omega)
      (fun o ho => ⟨(hwf o ho).1, fun h => ((hwf o ho).2 h).1⟩) hfuel
  have hext1 : t1.uip_ext_len = 0 := (same_rest_ext_len t1 s hsr1).trans hext
  have h20 : t1.uip_buf 20 = s.uip_buf 20 :=
    hlo1 20 (by omega) (by omega) (by omega) (by omega) (by omega)
  have h54 : t1.uip_buf 54 = s.uip_buf 54 :=
    hlo1 54 (by omega) (by omega) (by omega) (by omega) (by omega)
  have hrt := opts_round_trip opts hwf
  have hwf1 : ∀ o ∈ opts.map opt_to_ethernet, opt_wf o ∧ (opt_is_llao o → o.getD 1 0 = 1) := by
    intro o1 ho1
    obtain ⟨o, ho, rfl⟩ := List.mem_map.1 ho1
    exact opt_to_ethernet_wf o (hwf o ho).1
  have hfil1 : t1.uip_buf 54 ≠ ICMP6_RA ∨ ∀ o ∈ opts.map opt_to_ethernet, opt_kept_in_ra o := by
    by_cases hr : s.uip_buf 54 = ICMP6_RA
    · right
      intro o1 ho1
      obtain ⟨o, ho, rfl⟩ := List.mem_map.1 ho1
      exact opt_to_ethernet_kept o (hra hr o ho)
    · left
      rw [h54]
      exact hr
  obtain ⟨t2, ht2, hsr2, hlen2, hht2, hlo2, hhi2, hyes2, hno2⟩ :=
    translate_loop_lowpan (opts.map opt_to_ethernet) fuel t1 off hext1 hht1 hlen1
      (by rw [hrt]; omega) hwf1 hfil1 (by rw [List.length_map]; exact hfuel)
  rw [hrt] at hlen2 hht2
  have hfinal : t2 = s := by
    by_cases hl : ∃ o ∈ opts, opt_is_llao o
    · apply same_rest_ext t2 s (same_rest_trans t2 t1 s hsr2 hsr1) _ (by omega)
      obtain ⟨o, ho, hol⟩ := hl
      obtain ⟨g18, g19, gcan⟩ := hyes2
        ⟨opt_to_ethernet o, List.mem_map_of_mem _ ho,
          (opt_to_ethernet_llao o).2 hol⟩
      apply checksum_canonical_agree t2 s gcan hcan
        ((same_rest_ext_len t2 t1 hsr2).trans (hext1.trans hext.symm))
      intro j h56 h57
      by_cases j18 : j = 18
      · rw [j18, g18, h18]
      · by_cases j19 : j = 19
        · rw [j19, g19, h19, hlen2, hlen]
          exact Nat.mod_eq_of_lt (by omega)
        · by_cases jlo : j < 58 + off
          · rw [hlo2 j jlo j18 j19 h56 h57]
            exact hlo1 j jlo j18 j19 h56 h57
          · by_cases jhi : j < 58 + off + (opts_bytes opts).length
            · have e : j = 58 + off + (j - (58 + off)) := by omega
              rw [e, hht2 _ (by omega), hh _ (by omega)]
            · rw [hhi2 j (by omega)]
              exact hhi1 j (by omega)
    · have hn : ∀ o ∈ opts, ¬ opt_is_llao o := fun o ho h => hl ⟨o, ho, h⟩
      have e1 : t1 = s := hno1 hn
      have e2 : t2 = t1 := by
        apply hno2
        intro o1 ho1
        obtain ⟨o, ho, rfl⟩ := List.mem_map.1 ho1
        exact fun h => hn o ho ((opt_to_ethernet_llao o).1 h)
      rw [e2, e1]
  rw [translate_icmp_lladdr_nd fuel _ s hproto htype, hoffd, ht1, Option.some_bind,
    translate_icmp_lladdr_nd fuel _ t1 (h20.trans hproto) (by rw [h54]; exact htype),
    nd_options_offset_congr t1 s h54, hoffd, ht2, hfinal]

/-! ## The round trip of the rewrite at example packets -/

set_option maxRecDepth 1000000 in
/-- C15, witness: the NA `ex_na_tllao`, whose only option is a TLLAO of 2 units with the
EUI-64 `00 aa bb ff fe cc dd ee` and zero padding, comes back unchanged. -/
theorem rewriter_round_trip_witness :
    checksum_valid ex_na_tllao
    ∧ readBytes ex_na_tllao.uip_buf 78 16 = ex_tllao_host
    ∧ ex_na_tllao.uip_len = 80
    ∧ (translate_icmp_lladdr 8 .IEEE_802_3 ex_na_tllao).bind
        (translate_icmp_lladdr 8 .IEEE_802_15_4) = some ex_na_tllao :=
  have hck : checksum_valid ex_na_tllao := ⟨by decide!, by decide!, by decide!, by decide!⟩
  ⟨hck, by decide!, by decide!,
    rewriter_round_trip 8 ex_na_tllao [ex_tllao_host] (by rfl) (by decide!) (by decide!)
      (by decide!) (by decide!) (by decide!) ⟨by decide!, by decide!⟩ hck
      (by
        intro o ho
        rw [List.mem_singleton] at ho
        subst ho
        exact ⟨by unfold opt_wf; decide, fun _ => by unfold opt_llao_eui64; decide⟩)
      (fun h => absurd h (by decide!)) (by decide)⟩

set_option maxRecDepth 1000000 in
/-- C15 as stated does not hold. Each of the three packets has a checksum that verifies
and one SLLAO/TLLAO, 2 units long, whose EUI-64 has `ff fe` in octets 3 and 4.
In the RA `ex_ra_sllao_mtu` the SLLAO is followed by an MTU option: after the rewrite
toward Ethernet and back the MTU option is gone and `uip_len` is 72, not 80.
In the NA `ex_na_padded` the padding of the TLLAO is `1 2 3 4 5 6`: it comes back as six
zero octets. In the NA `ex_na_ffff` the checksum field holds `ff ff`: it comes back as
`00 00`. -/
theorem round_trip_changes_packet :
    uip_icmp6chksum ex_ra_sllao_mtu = 0xffff
    ∧ ex_ra_sllao_mtu.uip_len = 80
    ∧ readBytes ex_ra_sllao_mtu.uip_buf 70 24 = ex_sllao_rr ++ ex_mtu
    ∧ ((translate_icmp_lladdr 8 .IEEE_802_3 ex_ra_sllao_mtu).bind
        (translate_icmp_lladdr 8 .IEEE_802_15_4)).map (fun t =>
          (t.uip_len, readBytes t.uip_buf 70 16)) = some (72, ex_sllao_rr)
    ∧ uip_icmp6chksum ex_na_padded = 0xffff
    ∧ ex_na_padded.uip_len = 80
    ∧ readBytes ex_na_padded.uip_buf 78 16 = ex_tllao_padded
    ∧ ((translate_icmp_lladdr 8 .IEEE_802_3 ex_na_padded).bind
        (translate_icmp_lladdr 8 .IEEE_802_15_4)).map (fun t =>
          (t.uip_len, readBytes t.uip_buf 78 16)) = some (80, ex_tllao_host)
    ∧ uip_icmp6chksum ex_na_ffff = 0xffff
    ∧ ex_na_ffff.uip_len = 80
    ∧ readBytes ex_na_ffff.uip_buf 78 16 = ex_tllao_host
    ∧ readBytes ex_na_ffff.uip_buf 56 2 = [0xff, 0xff]
    ∧ ((translate_icmp_lladdr 8 .IEEE_802_3 ex_na_ffff).bind
        (translate_icmp_lladdr 8 .IEEE_802_15_4)).map (fun t =>
          (t.uip_len, readBytes t.uip_buf 56 2, readBytes t.uip_buf 78 16))
        = some (80, [0, 0], ex_tllao_host) := by
  refine ⟨?_, ?_, ?_, ?_, ?_, ?_, ?_, ?_, ?_, ?_, ?_, ?_, ?_⟩ <;> decide!

/-! ## The capacity of the bridge table -/

theorem bridge_run_bounds (node_addr : List Nat) (P : List Nat → Prop) (t : bridge_table_t)
    (h : bridge_run node_addr P t) :
    t.table.length = MAX_BRIDGE_ENTRIES ∧ t.elems ≤ MAX_BRIDGE_ENTRIES := by
  induction h with
  | init =>
    have h := bridge_add_entries
      { table := List.replicate MAX_BRIDGE_ENTRIES
          { interface := .UNDEFINED, addr := List.replicate 8 0 }
        elems := 0 } node_addr .LOCAL 0 (by simp) (by simp)
    exact ⟨h.1, h.2.1⟩
  | frame g rand _ _ ih =>
    cases hl : bridge_addr_lookup g.brigde_table g.st.src_eui64 with
    | some k0 =>
      have hb : (bridge_input g rand).brigde_table = g.brigde_table := by
        simp only [bridge_input, hl]
      rw [hb]
      exact ih
    | none =>
      have hb : (bridge_input g rand).brigde_table
          = bridge_addr_add g.brigde_table g.st.src_eui64 g.st.incoming_if rand := by
        simp only [bridge_input, hl]
      rw [hb]
      have h := bridge_add_entries g.brigde_table g.st.src_eui64 g.st.incoming_if rand ih.1 ih.2
      exact ⟨h.1, h.2.1⟩

theorem bridge_run_fill (l : List Nat) : ∀ (g : Gateway),
    bridge_run ex_node_ll (fun _ => True) g.brigde_table →
    bridge_run ex_node_ll (fun _ => True)
      (l.foldl (fun g k =>
        bridge_input (ex_gw_frame g [0x02, 0, 0, 0, 0, 0, 1, k] rimeaddr_null .IEEE_802_15_4) 0)
        g).brigde_table := by
  induction l with
  | nil => intro g h; exact h
  | cons k rest ih =>
    intro g h
    rw [List.foldl_cons]
    exact ih _ (bridge_run.frame
      (ex_gw_frame g [0x02, 0, 0, 0, 0, 0, 1, k] rimeaddr_null .IEEE_802_15_4) 0 h trivial)

/-- C21: in every bridge table reachable from `pgw_fwd_init` by `bridge_input` on
arbitrary frames the element count is at most `MAX_BRIDGE_ENTRIES` (30), and
`bridge_addr_add` on such a table always yields a table: when the count is under 30 the
new pair is stored at index `elems`, right after the entries in use, and the count grows
by one; when the count is 30 the new pair overwrites the entry at index `rand % 30`, which
is under 30, and the count stays 30; in both cases every other entry is unchanged. -/
theorem bridge_capacity_and_eviction (node_addr : List Nat) (t : bridge_table_t)
    (h : bridge_run node_addr (fun _ => True) t) (a : List Nat) (i : interface_t) (rand : Nat) :
    t.elems ≤ MAX_BRIDGE_ENTRIES
    ∧ (t.elems < MAX_BRIDGE_ENTRIES →
        (bridge_addr_add t a i rand).elems = t.elems + 1
        ∧ (bridge_addr_add t a i rand).table[t.elems]? = some { interface := i, addr := a }
        ∧ ∀ k, k ≠ t.elems → (bridge_addr_add t a i rand).table[k]? = t.table[k]?)
    ∧ (t.elems = MAX_BRIDGE_ENTRIES →
        (bridge_addr_add t a i rand).elems = MAX_BRIDGE_ENTRIES
        ∧ rand % MAX_BRIDGE_ENTRIES < MAX_BRIDGE_ENTRIES
        ∧ (bridge_addr_add t a i rand).table[rand % MAX_BRIDGE_ENTRIES]?
            = some { interface := i, addr := a }
        ∧ ∀ k, k ≠ rand % MAX_BRIDGE_ENTRIES →
            (bridge_addr_add t a i rand).table[k]? = t.table[k]?) := by
  obtain ⟨hlen, hel⟩ := bridge_run_bounds node_addr _ t h
  simp only [MAX_BRIDGE_ENTRIES] at hlen hel ⊢
  refine ⟨hel, ?_, ?_⟩
  · intro hlt
    have hne : t.elems ≠ 30 := by omega
    have h256 : (t.elems + 1) % 256 = t.elems + 1 := Nat.mod_eq_of_lt (by omega)
    simp only [bridge_addr_add, MAX_BRIDGE_ENTRIES, ne_eq, hne, not_false_eq_true, if_true, h256,
      true_and]
    refine ⟨List.getElem?_set_self (by omega), ?_⟩
    intro k hk
    exact List.getElem?_set_ne (Ne.symm hk)
  · intro hfull
    have hr : rand % 30 < 30 := Nat.mod_lt _ (by decide)
    simp only [bridge_addr_add, MAX_BRIDGE_ENTRIES, hfull, ne_eq, not_true_eq_false, if_false,
      true_and]
    refine ⟨hr, List.getElem?_set_self (by omega), ?_⟩
    intro k hk
    exact List.getElem?_set_ne (Ne.symm hk)

set_option maxRecDepth 1000000 in
/-- C21, witness: right after `pgw_fwd_init` the table holds one entry and a second one
is stored at index 1; after frames from 29 more sources the table is full, and the next
pair, with 37 drawn from the random source, overwrites the entry at index 7. -/
theorem bridge_capacity_and_eviction_witness :
    (pgw_fwd_init ex_node_ll).elems = 1
    ∧ (bridge_addr_add (pgw_fwd_init ex_node_ll) ex_host_ll .IEEE_802_3 37).elems = 2
    ∧ (bridge_addr_add (pgw_fwd_init ex_node_ll) ex_host_ll .IEEE_802_3 37).table[1]?
        = some { interface := .IEEE_802_3, addr := ex_host_ll }
    ∧ (ex_gw_fill 29).brigde_table.elems = 30
    ∧ (bridge_addr_add (ex_gw_fill 29).brigde_table ex_host_ll .IEEE_802_3 37).elems = 30
    ∧ (bridge_addr_add (ex_gw_fill 29).brigde_table ex_host_ll .IEEE_802_3 37).table[7]?
        = some { interface := .IEEE_802_3, addr := ex_host_ll } :=
  have h1 := (bridge_capacity_and_eviction ex_node_ll (pgw_fwd_init ex_node_ll)
    bridge_run.init ex_host_ll .IEEE_802_3 37).2.1 (by decide)
  have h2 := (bridge_capacity_and_eviction ex_node_ll (ex_gw_fill 29).brigde_table
    (bridge_run_fill (List.range 29) ex_gw0 bridge_run.init) ex_host_ll .IEEE_802_3 37).2.2
    (by decide!)
  ⟨by decide, h1.1, h1.2.1, by decide!, h2.1, h2.2.2.1⟩

/-! ## The handlers of NA, NS and RA at example states -/

set_option maxRecDepth 1000000 in
theorem ex_rereg_reachable : Reachable ex_rereg :=
  run_input_reachable _ (Reachable.deliver _ _ _ _ _ _ _ _ _ _ ex_s3_reachable) (by decide!)

set_option maxRecDepth 1000000 in
theorem ex_ctx1_reachable : Reachable ex_ctx1 :=
  run_input_reachable _ (Reachable.deliver _ _ _ _ _ _ _ _ _ _ Reachable.init) (by decide!)

set_option maxRecDepth 1000000 in
theorem ex_ctx2_reachable : Reachable ex_ctx2 :=
  run_input_reachable _ (Reachable.deliver _ _ _ _ _ _ _ _ _ _ ex_ctx1_reachable) (by decide!)

set_option maxRecDepth 1000000 in
theorem ex_ctx3_reachable : Reachable ex_ctx3 :=
  run_input_reachable _ (Reachable.deliver _ _ _ _ _ _ _ _ _ _ ex_ctx2_reachable) (by decide!)

set_option maxRecDepth 1000000 in
/-- C22 at a reachable state: node A holds `ex_ip1`, registered with `aro_pending` set
(slot 24), and the NA of the RR to `ex_ip1` arrives from Ethernet with a payload of 248
octets (field `00 f8`, `uip_len` 288, checksum valid). `proxy_na_input` completes the
registration and appends the ARO, `uip_len` becomes 304, but the payload length field
holds `00 08`: it has not increased by 16 to 264 (`01 08`). -/
theorem registration_na_payload_length_wraps :
    Reachable ex_na_rr_long
    ∧ ex_na_rr_long.incoming_if = .IEEE_802_3
    ∧ uip_icmp6chksum ex_na_rr_long = 0xffff
    ∧ ex_na_rr_long.uip_len = 288
    ∧ readBytes ex_na_rr_long.uip_buf 18 2 = [0, 248]
    ∧ srcipaddr ex_na_rr_long = ex_na_rr_long.rr_ipaddr
    ∧ destipaddr ex_na_rr_long = ex_ip1
    ∧ ex_na_rr_long.pgw_6ln_cache[24]?.map (fun n => (n.isused, n.ipaddr, n.state, n.aro_pending))
        = some (true, ex_ip1, PGW_REGISTERED, true)
    ∧ (proxy_na_input ex_na_rr_long).pgw_6ln_cache[24]?.map (fun n =>
        (n.state, n.aro_pending, n.reachable)) = some (PGW_REGISTERED, false, ⟨21, 300⟩)
    ∧ (proxy_na_input ex_na_rr_long).uip_len = 304
    ∧ readBytes (proxy_na_input ex_na_rr_long).uip_buf 302 16
        = [131, 2, 0, 0, 0, 0, 0, 5] ++ ex_eui_a
    ∧ readBytes (proxy_na_input ex_na_rr_long).uip_buf 18 2 = [0, 8] := by
  refine ⟨Reachable.deliver _ _ _ _ _ _ _ _ _ _ ex_rereg_reachable,
    ?_, ?_, ?_, ?_, ?_, ?_, ?_, ?_, ?_, ?_, ?_⟩ <;> decide!

set_option maxRecDepth 1000000 in
/-- C23 at a reachable state: the only used entry of the cache holds `ex_ip1`,
registered, and an NA from Ethernet to the link-local all-nodes address has the target
`ex_ip2`, which matches no entry: `proxy_na_input` discards it, `uip_len` is 0. The same
NA with target `ex_ip1`, which matches the registered entry, is left as it came. -/
theorem unrelated_allnodes_na_discarded :
    Reachable ex_na_unrelated
    ∧ ex_na_unrelated.incoming_if = .IEEE_802_3
    ∧ ex_na_unrelated.uip_buf 54 = ICMP6_NA
    ∧ uip_is_addr_linklocal_allnodes_mcast (destipaddr ex_na_unrelated) = true
    ∧ tgtipaddr ex_na_unrelated = ex_ip2
    ∧ pgw_nbr_lookup ex_na_unrelated.pgw_6ln_cache ex_ip2 = none
    ∧ ex_na_unrelated.uip_len = 64
    ∧ (proxy_na_input ex_na_unrelated).uip_len = 0
    ∧ tgtipaddr ex_na_registered_target = ex_ip1
    ∧ (proxy_na_input ex_na_registered_target).uip_len = 64 := by
  refine ⟨Reachable.deliver _ _ _ _ _ _ _ _ _ _ ex_s3_reachable,
    ?_, ?_, ?_, ?_, ?_, ?_, ?_, ?_, ?_⟩ <;> decide!

set_option maxRecDepth 1000000 in
/-- C24 at a reachable state: node A holds `ex_ip1`, registered (slot 24), and registers
it again with an ARO whose lifetime is 1093 minutes (`04 45`). The NS is forwarded and
`aro_pending` is set, but the reachable interval of the entry is 44 seconds, which is
`60 * 1093 = 65580` cut to 16 bits, not 65580. -/
theorem reregistration_lifetime_wraps :
    Reachable ex_rereg_long
    ∧ ex_rereg_long.incoming_if = .IEEE_802_15_4
    ∧ ex_rereg_long.uip_buf 54 = ICMP6_NS
    ∧ srcipaddr ex_rereg_long = ex_ip1
    ∧ readBytes ex_rereg_long.uip_buf 94 16 = [131, 2, 0, 0, 0, 0, 0x04, 0x45] ++ ex_eui_a
    ∧ ex_rereg_long.pgw_6ln_cache[24]?.map (fun n => (n.isused, n.ipaddr, n.lladdr, n.state))
        = some (true, ex_ip1, ex_eui_a, PGW_REGISTERED)
    ∧ (proxy_ns_input 8 ex_rereg_long).map (fun t => t.uip_len) = some 96
    ∧ (proxy_ns_input 8 ex_rereg_long).map (fun t =>
        t.pgw_6ln_cache[24]?.map (fun n => (n.state, n.aro_pending, n.reachable.interval)))
      = some (some (PGW_REGISTERED, true, 44)) := by
  refine ⟨Reachable.deliver _ _ _ _ _ _ _ _ _ _ ex_s3_reachable,
    ?_, ?_, ?_, ?_, ?_, ?_, ?_⟩ <;> decide!

set_option maxRecDepth 1000000 in
/-- C27 after boot: an RA from Ethernet carries two prefix information options, at
indices 70 and 102 of the buffer, both with the on-link flag set (`c0`). The RA is
forwarded: one frame goes to the 6LoWPAN side, and in it the first prefix information
option still has the flag octet `c0`; only the second one has `40`. -/
theorem first_pio_keeps_onlink_flag :
    ex_ra_two_pio.incoming_if = .IEEE_802_3
    ∧ ex_ra_two_pio.uip_buf 54 = ICMP6_RA
    ∧ uip_icmp6chksum ex_ra_two_pio = 0xffff
    ∧ ex_ra_two_pio.uip_len = 120
    ∧ readBytes ex_ra_two_pio.uip_buf 70 64 = ex_pio 1 ++ ex_pio 2
    ∧ (proxy_ra_input 8 ex_ra_two_pio).map (fun t =>
        (t.uip_len, readBytes t.uip_buf 70 4, readBytes t.uip_buf 102 4))
      = some (152, [3, 4, 64, 0xc0], [3, 4, 64, 0x40])
    ∧ ((proxy_ra_input 8 ex_ra_two_pio).bind (pgw_output 8)).map (fun t =>
        t.sent.map (fun f => (f.iface, (f.bytes.drop 56).take 4, (f.bytes.drop 88).take 4)))
      = some [(.IEEE_802_15_4, [3, 4, 64, 0xc0], [3, 4, 64, 0x40])] := by
  refine ⟨?_, ?_, ?_, ?_, ?_, ?_, ?_⟩ <;> decide!

set_option maxRecDepth 1000000 in
/-- C28 at a reachable state: three RAs advertised the prefixes 1, 2 and 3, the contexts
are in slots 0, 1 and 2, and slot 3 is not in use. The RA with the prefix 3 arrives
again (its prefix is at index 86 of the buffer): `pgw_context_lookup_by_prefix`, which
visits the first two slots only, does not return the context of slot 2, and
`proxy_ra_input` allocates a second context for the prefix 3 in slot 3. -/
theorem context_beyond_second_slot_not_found :
    Reachable ex_ctx3_again
    ∧ ex_ctx3_again.incoming_if = .IEEE_802_3
    ∧ ex_ctx3_again.uip_buf 54 = ICMP6_RA
    ∧ readBytes ex_ctx3_again.uip_buf 70 32 = ex_pio 3
    ∧ (ex_ctx3_again.pgw_addr_context_table.take 4).map (fun c =>
        (c.state, c.context_id, c.prefix_.take 8))
      = [(IN_USE_UNCOMPRESS_ONLY, 0, [0x20, 0x01, 0x0d, 0xb8, 0, 0, 0, 1]),
         (IN_USE_UNCOMPRESS_ONLY, 1, [0x20, 0x01, 0x0d, 0xb8, 0, 0, 0, 2]),
         (IN_USE_UNCOMPRESS_ONLY, 2, [0x20, 0x01, 0x0d, 0xb8, 0, 0, 0, 3]),
         (NOT_IN_USE, 0, [0, 0, 0, 0, 0, 0, 0, 0])]
    ∧ pgw_context_lookup_by_prefix ex_ctx3_again 86 = none
    ∧ (proxy_ra_input 8 ex_ctx3_again).map (fun t =>
        (t.pgw_addr_context_table.drop 2).take 2 |>.map (fun c =>
          (c.state, c.context_id, c.prefix_.take 8)))
      = some [(IN_USE_UNCOMPRESS_ONLY, 2, [0x20, 0x01, 0x0d, 0xb8, 0, 0, 0, 3]),
              (IN_USE_UNCOMPRESS_ONLY, 3, [0x20, 0x01, 0x0d, 0xb8, 0, 0, 0, 3])] := by
  refine ⟨Reachable.deliver _ _ _ _ _ _ _ _ _ _ ex_ctx3_reachable,
    ?_, ?_, ?_, ?_, ?_, ?_⟩ <;> decide!

set_option maxRecDepth 1000000 in
/-- C29 at a reachable state: the contexts of slots 0, 1 and 2 were created at seconds
1, 2 and 3 with a lifetime of 600 s, and `pgw_periodic` runs at second 1000, when all
three timers have expired. The contexts of slots 0 and 1 become `IN_USE_COMPRESS` with a
timer of 3600 s; the context of slot 2 is left as it was, `IN_USE_UNCOMPRESS_ONLY` with
its expired timer, because the loop visits the first two slots only. -/
theorem context_beyond_second_slot_not_aged :
    Reachable ex_ctx3_aged
    ∧ ex_ctx3_aged.clock_seconds = 1000
    ∧ (ex_ctx3_aged.pgw_addr_context_table.take 3).map (fun c =>
        (c.state, c.vlifetime, stimer_expired ex_ctx3_aged.clock_seconds c.vlifetime))
      = [(IN_USE_UNCOMPRESS_ONLY, ⟨1, 600⟩, true), (IN_USE_UNCOMPRESS_ONLY, ⟨2, 600⟩, true),
         (IN_USE_UNCOMPRESS_ONLY, ⟨3, 600⟩, true)]
    ∧ ((pgw_periodic ex_ctx3_aged).pgw_addr_context_table.take 3).map (fun c =>
        (c.state, c.vlifetime))
      = [(IN_USE_COMPRESS, ⟨1000, 3600⟩), (IN_USE_COMPRESS, ⟨1000, 3600⟩),
         (IN_USE_UNCOMPRESS_ONLY, ⟨3, 600⟩)]
    ∧ (pgw_periodic ex_ctx3_aged).context_chaged = true := by
  refine ⟨Reachable.deliver _ _ _ _ _ _ _ _ _ _ ex_ctx3_reachable, ?_, ?_, ?_, ?_⟩ <;> decide!

/-! ## The identity of the RR -/

theorem keeps_rr_refl (s : State) : keeps_rr s s := ⟨rfl, rfl⟩

theorem keeps_rr_trans (u t s : State) (h1 : keeps_rr u t) (h2 : keeps_rr t s) : keeps_rr u s :=
  ⟨h1.1.trans h2.1, h1.2.trans h2.2⟩

theorem append_keeps_rr (s : State) (type : Nat) (d : data_ptr) (st lt : Nat) :
    keeps_rr (pgw_append_icmp_opt s type d st lt) s :=
  ⟨append_rr_ipaddr s type d st lt, append_rr_lladdr s type d st lt⟩

theorem pgw_dad_response_keeps_rr (s : State) (i status : Nat) :
    keeps_rr (pgw_dad_response s i status) s := by
  unfold pgw_dad_response
  split
  · exact keeps_rr_refl s
  · refine ⟨?_, ?_⟩
    · simp only [checksum_rr_ipaddr, append_rr_ipaddr, create_na_rr_ipaddr]
      split_ifs <;> rfl
    · simp only [checksum_rr_lladdr, append_rr_lladdr, create_na_rr_lladdr]
      split_ifs <;> rfl

theorem pgw_dad_keeps_rr (s : State) (i : Nat) : keeps_rr (pgw_dad s i) s := by
  unfold pgw_dad
  split
  · exact keeps_rr_refl s
  · split_ifs
    · exact ⟨rfl, rfl⟩
    · exact keeps_rr_trans _ _ _ (pgw_dad_response_keeps_rr _ _ _) ⟨rfl, rfl⟩

theorem pgw_dad_failed_keeps_rr (s : State) (i : Nat) : keeps_rr (pgw_dad_failed s i) s := by
  unfold pgw_dad_failed
  exact keeps_rr_trans _ _ _ ⟨rfl, rfl⟩ (pgw_dad_response_keeps_rr s i _)

theorem pgw_registration_error_keeps_rr (s : State) (status : Nat) :
    keeps_rr (pgw_registration_error s status) s := by
  unfold pgw_registration_error
  refine ⟨?_, ?_⟩
  · simp only [checksum_rr_ipaddr, append_rr_ipaddr, create_na_rr_ipaddr]
  · simp only [checksum_rr_lladdr, append_rr_lladdr, create_na_rr_lladdr]

theorem proxy_ns_reply_keeps_rr (s : State) (i : Nat) (n : pgw_nbr_t) :
    keeps_rr (proxy_ns_reply s i n).1 s := by
  unfold proxy_ns_reply
  split_ifs
  · refine ⟨?_, ?_⟩
    · simp only [checksum_rr_ipaddr, append_rr_ipaddr, create_na_rr_ipaddr]
    · simp only [checksum_rr_lladdr, append_rr_lladdr, create_na_rr_lladdr]
  · refine ⟨?_, ?_⟩
    · simp only [checksum_rr_ipaddr, append_rr_ipaddr, create_na_rr_ipaddr]
    · simp only [checksum_rr_lladdr, append_rr_lladdr, create_na_rr_lladdr]
  · exact pgw_dad_failed_keeps_rr s i
  · exact keeps_rr_refl s
  · exact keeps_rr_refl s

theorem proxy_ns_loop_keeps_rr (k : Nat) : ∀ (j : Nat) (s : State),
    keeps_rr (proxy_ns_loop k j s).1 s := by
  induction k with
  | zero => intro j s; exact keeps_rr_refl s
  | succ k ih =>
    intro j s
    unfold proxy_ns_loop
    split
    · exact keeps_rr_refl s
    · simp only []
      split_ifs
      all_goals first
        | exact ih _ _
        | exact keeps_rr_trans _ _ _ (proxy_ns_reply_keeps_rr _ _ _) ⟨rfl, rfl⟩

theorem opt_walk_keeps_rr (act : State → Nat → State)
    (hact : ∀ s o, keeps_rr (act s o) s) (fuel : Nat) (s t : State)
    (d : Bool) (h : opt_walk act fuel s = some (t, d)) : keeps_rr t s := by
  induction fuel generalizing s with
  | zero =>
    unfold opt_walk at h
    by_cases hc : uip_l3_icmp_hdr_len s + s.pgw_opt_offset < s.uip_len
    · rw [if_pos hc] at h
      simp at h
    · rw [if_neg hc] at h
      simp only [Option.some.injEq, Prod.mk.injEq] at h
      obtain ⟨rfl, _⟩ := h
      exact keeps_rr_refl _
  | succ f ih =>
    unfold opt_walk at h
    by_cases hc : uip_l3_icmp_hdr_len s + s.pgw_opt_offset < s.uip_len
    · rw [if_pos hc] at h
      simp only [] at h
      by_cases hz : s.uip_buf (uip_l2_l3_icmp_hdr_len s + s.pgw_opt_offset + 1) = 0
      · rw [if_pos hz] at h
        simp only [Option.some.injEq, Prod.mk.injEq] at h
        obtain ⟨rfl, _⟩ := h
        exact keeps_rr_refl _
      · rw [if_neg hz] at h
        exact keeps_rr_trans _ _ _ (ih _ h) (keeps_rr_trans _ _ _ ⟨rfl, rfl⟩ (hact _ _))
    · rw [if_neg hc] at h
      simp only [Option.some.injEq, Prod.mk.injEq] at h
      obtain ⟨rfl, _⟩ := h
      exact keeps_rr_refl _

theorem ns_opt_act_keeps_rr (s : State) (o : Nat) : keeps_rr (ns_opt_act s o) s := by
  unfold ns_opt_act
  split_ifs <;> exact ⟨rfl, rfl⟩

theorem rs_opt_act_keeps_rr (s : State) (o : Nat) : keeps_rr (rs_opt_act s o) s := by
  unfold rs_opt_act
  split_ifs <;> exact ⟨rfl, rfl⟩

theorem ra_opt_act_keeps_rr (s : State) (o : Nat) : keeps_rr (ra_opt_act s o) s := by
  unfold ra_opt_act
  split_ifs <;> exact ⟨rfl, rfl⟩

theorem proxy_ns_register_keeps_rr (s : State) : keeps_rr (proxy_ns_register s) s := by
  unfold proxy_ns_register
  simp only []
  have h1 : keeps_rr (if uip_is_addr_unspecified (srcipaddr s) = true ∨ s.pgw_opt_llao = none
      then { s with pgw_opt_aro := none } else s) s := by
    split_ifs <;> exact ⟨rfl, rfl⟩
  generalize (if uip_is_addr_unspecified (srcipaddr s) = true ∨ s.pgw_opt_llao = none
      then { s with pgw_opt_aro := none } else s) = s1 at h1 ⊢
  split
  · exact h1
  · split_ifs
    · exact keeps_rr_trans _ _ _ ⟨rfl, rfl⟩ h1
    · exact keeps_rr_trans _ _ _ ⟨rfl, rfl⟩ h1
    · split
      · split
        · exact keeps_rr_trans _ _ _ (pgw_registration_error_keeps_rr _ _)
            (keeps_rr_trans _ _ _ ⟨rfl, rfl⟩ h1)
        · exact keeps_rr_trans _ _ _ (pgw_dad_keeps_rr _ _) (keeps_rr_trans _ _ _ ⟨rfl, rfl⟩ h1)
      · split
        · exact h1
        · split_ifs
          · exact keeps_rr_trans _ _ _ (pgw_registration_error_keeps_rr _ _) h1
          · exact keeps_rr_trans _ _ _ ⟨rfl, rfl⟩ h1
          · exact keeps_rr_trans _ _ _ ⟨rfl, rfl⟩ h1

theorem proxy_ns_input_keeps_rr (fuel : Nat) (s t : State)
    (ht : proxy_ns_input fuel s = some t) : keeps_rr t s := by
  unfold proxy_ns_input at ht
  split at ht
  · have := proxy_ns_loop_keeps_rr s.pgw_6ln_cache.length 0 { s with outgoing_if := s.incoming_if }
    simp only [] at ht
    split_ifs at ht <;> simp only [Option.some.injEq] at ht <;> subst ht <;>
      exact keeps_rr_trans _ _ _ ⟨rfl, rfl⟩ (keeps_rr_trans _ _ _ this ⟨rfl, rfl⟩)
  · have := proxy_ns_loop_keeps_rr s.pgw_6ln_cache.length 0 { s with outgoing_if := s.incoming_if }
    simp only [] at ht
    split_ifs at ht <;> simp only [Option.some.injEq] at ht <;> subst ht <;>
      exact keeps_rr_trans _ _ _ ⟨rfl, rfl⟩ (keeps_rr_trans _ _ _ this ⟨rfl, rfl⟩)
  · split_ifs at ht
    · simp only [Option.some.injEq] at ht; subst ht; exact ⟨rfl, rfl⟩
    · simp only [Option.some.injEq] at ht; subst ht; exact ⟨rfl, rfl⟩
    · split at ht
      · simp at ht
      · rename_i s2 hw
        have hc := opt_walk_keeps_rr _ ns_opt_act_keeps_rr _ _ _ _ hw
        simp only [Option.some.injEq] at ht; subst ht
        exact keeps_rr_trans _ _ _ ⟨rfl, rfl⟩ (keeps_rr_trans _ _ _ hc ⟨rfl, rfl⟩)
      · rename_i s2 hw
        have hc := opt_walk_keeps_rr _ ns_opt_act_keeps_rr _ _ _ _ hw
        simp only [Option.some.injEq] at ht; subst ht
        exact keeps_rr_trans _ _ _ (proxy_ns_register_keeps_rr _)
          (keeps_rr_trans _ _ _ hc ⟨rfl, rfl⟩)
  · simp only [Option.some.injEq] at ht; subst ht; exact keeps_rr_refl _

theorem proxy_na_input_keeps_rr (s : State) : keeps_rr (proxy_na_input s) s := by
  have key : ∀ (i : Nat) (n : pgw_nbr_t),
      keeps_rr
        { pgw_update_icmp_checksum (pgw_append_icmp_opt
            { s with
              pgw_6ln_cache := updNbr s.pgw_6ln_cache i (fun m =>
                { m with state := PGW_REGISTERED, aro_pending := false }) }
            UIP_ND6_OPT_ARO (.val n.lladdr) ARO_STATUS_SUCCESS
            (uip_htons ((n.reachable.interval / 60) % 65536))) with
          pgw_6ln_cache := updNbr (pgw_update_icmp_checksum (pgw_append_icmp_opt
            { s with
              pgw_6ln_cache := updNbr s.pgw_6ln_cache i (fun m =>
                { m with state := PGW_REGISTERED, aro_pending := false }) }
            UIP_ND6_OPT_ARO (.val n.lladdr) ARO_STATUS_SUCCESS
            (uip_htons ((n.reachable.interval / 60) % 65536)))).pgw_6ln_cache i (fun m =>
              { m with reachable := stimer_restart (pgw_update_icmp_checksum (pgw_append_icmp_opt
            { s with
              pgw_6ln_cache := updNbr s.pgw_6ln_cache i (fun m =>
                { m with state := PGW_REGISTERED, aro_pending := false }) }
            UIP_ND6_OPT_ARO (.val n.lladdr) ARO_STATUS_SUCCESS
            (uip_htons ((n.reachable.interval / 60) % 65536)))).clock_seconds m.reachable }) } s := by
    intro i n
    exact keeps_rr_trans _ _ _ ⟨rfl, rfl⟩ (keeps_rr_trans _ _ _ ⟨rfl, rfl⟩
      (keeps_rr_trans _ _ _ (append_keeps_rr _ _ _ _ _) ⟨rfl, rfl⟩))
  unfold proxy_na_input
  split
  · split_ifs
    · split
      · exact ⟨rfl, rfl⟩
      · split
        · exact keeps_rr_refl s
        · split_ifs
          · exact pgw_dad_failed_keeps_rr _ _
          · exact keeps_rr_refl s
    · split
      · exact ⟨rfl, rfl⟩
      · split
        · exact keeps_rr_refl s
        · split_ifs
          · exact key _ _
          · exact keeps_rr_refl s
          · exact ⟨rfl, rfl⟩
  · split_ifs
    · split
      · exact ⟨rfl, rfl⟩
      · split
        · exact keeps_rr_refl s
        · split_ifs
          · exact pgw_dad_failed_keeps_rr _ _
          · exact keeps_rr_refl s
    · split
      · exact ⟨rfl, rfl⟩
      · split
        · exact keeps_rr_refl s
        · split_ifs
          · exact key _ _
          · exact keeps_rr_refl s
          · exact ⟨rfl, rfl⟩
  · exact keeps_rr_refl s
  · exact keeps_rr_refl s

theorem proxy_rs_register_keeps_rr (s : State) : keeps_rr (proxy_rs_register s) s := by
  unfold proxy_rs_register
  split
  · exact ⟨rfl, rfl⟩
  · simp only []
    cases hlook : pgw_nbr_lookup s.pgw_6ln_cache (srcipaddr s) with
    | none =>
      simp only []
      split
      · exact ⟨rfl, rfl⟩
      · exact ⟨rfl, rfl⟩
    | some i =>
      simp only []
      exact ⟨rfl, rfl⟩

theorem proxy_rs_input_keeps_rr (fuel : Nat) (s t : State)
    (ht : proxy_rs_input fuel s = some t) : keeps_rr t s := by
  unfold proxy_rs_input at ht
  split at ht
  · simp only [Option.some.injEq] at ht; subst ht; exact ⟨rfl, rfl⟩
  · simp only [Option.some.injEq] at ht; subst ht; exact ⟨rfl, rfl⟩
  · split_ifs at ht
    · simp only [Option.some.injEq] at ht; subst ht; exact ⟨rfl, rfl⟩
    · split at ht
      · simp at ht
      · rename_i s2 hw
        have hc := opt_walk_keeps_rr _ rs_opt_act_keeps_rr _ _ _ _ hw
        simp only [Option.some.injEq] at ht; subst ht
        exact keeps_rr_trans _ _ _ ⟨rfl, rfl⟩ (keeps_rr_trans _ _ _ hc ⟨rfl, rfl⟩)
      · rename_i s2 hw
        have hc := opt_walk_keeps_rr _ rs_opt_act_keeps_rr _ _ _ _ hw
        simp only [Option.some.injEq] at ht; subst ht
        exact keeps_rr_trans _ _ _ (proxy_rs_register_keeps_rr _)
          (keeps_rr_trans _ _ _ hc ⟨rfl, rfl⟩)
  · simp only [Option.some.injEq] at ht; subst ht; exact keeps_rr_refl _

theorem translate_opt_keeps_rr (target : interface_t) (s t : State) (off : Nat)
    (h : translate_opt target s off = some t) : keeps_rr t s := by
  unfold translate_opt at h
  simp only [] at h
  split_ifs at h <;> simp only [Option.some.injEq] at h <;> subst h <;> exact ⟨rfl, rfl⟩

theorem translate_loop_keeps_rr (target : interface_t) (fuel : Nat) (s t : State) (off : Nat)
    (h : translate_loop target fuel s off = some t) : keeps_rr t s := by
  induction fuel generalizing s off with
  | zero =>
    unfold translate_loop at h
    by_cases hc : uip_l3_icmp_hdr_len s + off < s.uip_len
    · rw [if_pos hc] at h
      simp at h
    · rw [if_neg hc] at h
      simp only [Option.some.injEq] at h
      subst h; exact keeps_rr_refl _
  | succ f ih =>
    unfold translate_loop at h
    by_cases hc : uip_l3_icmp_hdr_len s + off < s.uip_len
    · rw [if_pos hc] at h
      simp only [] at h
      by_cases hz : s.uip_buf (uip_l2_l3_icmp_hdr_len s + off + 1) = 0
      · rw [if_pos hz] at h
        simp only [Option.some.injEq] at h
        subst h; exact keeps_rr_refl _
      · rw [if_neg hz] at h
        split at h
        · simp only [Option.some.injEq] at h
          subst h; exact keeps_rr_refl _
        · rename_i s1 h1
          exact keeps_rr_trans _ _ _ (ih _ _ h) (translate_opt_keeps_rr _ _ _ _ h1)
    · rw [if_neg hc] at h
      simp only [Option.some.injEq] at h
      subst h; exact keeps_rr_refl _

theorem translate_icmp_lladdr_keeps_rr (fuel : Nat) (target : interface_t) (s t : State)
    (h : translate_icmp_lladdr fuel target s = some t) : keeps_rr t s := by
  unfold translate_icmp_lladdr at h
  simp only [] at h
  split_ifs at h
  all_goals first
    | (simp only [Option.some.injEq] at h; subst h; exact keeps_rr_refl _)
    | exact translate_loop_keeps_rr _ _ _ _ _ h

theorem pgw_fwd_output_keeps_rr (fuel : Nat) (s t : State) (src dst : List Nat)
    (h : pgw_fwd_output fuel s src dst = some t) : keeps_rr t s := by
  unfold pgw_fwd_output at h
  split at h
  · split at h
    · simp only [Option.bind_eq_some] at h
      obtain ⟨s1, h1, s2, h2, h3⟩ := h
      simp only [Option.some.injEq] at h3
      subst h3
      have e1 := translate_icmp_lladdr_keeps_rr _ _ _ _ h1
      have e2 := translate_icmp_lladdr_keeps_rr _ _ _ _ h2
      exact ⟨e2.1.trans e1.1, e2.2.trans e1.2⟩
    · simp only [Option.bind_eq_some] at h
      obtain ⟨s1, h1, s2, h2, h3⟩ := h
      simp only [Option.some.injEq] at h3
      subst h3
      have e1 := translate_icmp_lladdr_keeps_rr _ _ _ _ h1
      have e2 := translate_icmp_lladdr_keeps_rr _ _ _ _ h2
      exact ⟨e2.1.trans e1.1, e2.2.trans e1.2⟩
    · simp only [Option.bind_eq_some] at h
      obtain ⟨s2, h2, h3⟩ := h
      simp only [Option.some.injEq] at h3
      subst h3
      have e2 := translate_icmp_lladdr_keeps_rr _ _ _ _ h2
      exact ⟨e2.1, e2.2⟩
    · simp only [Option.some.injEq] at h
      subst h; exact ⟨rfl, rfl⟩
  · split at h
    · simp only [Option.bind_eq_some] at h
      obtain ⟨s1, h1, h3⟩ := h
      simp only [Option.some.injEq] at h3
      subst h3
      have e1 := translate_icmp_lladdr_keeps_rr _ _ _ _ h1
      exact ⟨e1.1, e1.2⟩
    · simp only [Option.some.injEq] at h
      subst h; exact ⟨rfl, rfl⟩
  · split at h
    · simp only [Option.bind_eq_some] at h
      obtain ⟨s1, h1, h3⟩ := h
      simp only [Option.some.injEq] at h3
      subst h3
      have e1 := translate_icmp_lladdr_keeps_rr _ _ _ _ h1
      exact ⟨e1.1, e1.2⟩
    · simp only [Option.some.injEq] at h
      subst h; exact ⟨rfl, rfl⟩
  · simp only [Option.bind_eq_some] at h
    obtain ⟨s1, h1, h3⟩ := h
    simp only [Option.some.injEq] at h3
    subst h3
    have e1 := translate_icmp_lladdr_keeps_rr _ _ _ _ h1
    exact ⟨e1.1, e1.2⟩

theorem pgw_output_keeps_rr (fuel : Nat) (s t : State) (h : pgw_output fuel s = some t) :
    keeps_rr t s := by
  unfold pgw_output at h
  split_ifs at h
  · simp only [Option.bind_eq_some] at h
    obtain ⟨s1, h1, h3⟩ := h
    simp only [Option.some.injEq] at h3
    subst h3
    have e1 := pgw_fwd_output_keeps_rr _ _ _ _ _ h1
    exact ⟨e1.1, e1.2⟩
  · simp only [Option.some.injEq] at h
    subst h; exact keeps_rr_refl _

theorem proxy_ra_pio_keeps_rr (s : State) : keeps_rr (proxy_ra_pio s) s := by
  unfold proxy_ra_pio
  split
  · exact keeps_rr_refl s
  · simp only []
    split
    · simp only [pgw_context_create]
      split <;> exact ⟨rfl, rfl⟩
    · split
      · exact ⟨rfl, rfl⟩
      · split_ifs <;> exact ⟨rfl, rfl⟩

theorem ra_append_contexts_keeps_rr (k : Nat) : ∀ (i : Nat) (s : State),
    keeps_rr (ra_append_contexts k i s) s := by
  induction k with
  | zero => intro i s; exact keeps_rr_refl s
  | succ k ih =>
    intro i s
    unfold ra_append_contexts
    split
    · exact keeps_rr_refl s
    · split_ifs
      · have e1 := append_keeps_rr s UIP_ND6_OPT_6CO (.context i) 0 0
        have e2 := ih (i + 1) (pgw_append_icmp_opt s UIP_ND6_OPT_6CO (.context i) 0 0)
        exact ⟨e2.1.trans e1.1, e2.2.trans e1.2⟩
      · exact ih _ _

theorem ra_fanout_keeps_rr (fuel aux_len k : Nat) : ∀ (i : Nat) (s t : State),
    ra_fanout fuel aux_len k i s = some t → keeps_rr t s := by
  induction k with
  | zero =>
    intro i s t h
    unfold ra_fanout at h
    simp only [Option.some.injEq] at h
    subst h; exact keeps_rr_refl _
  | succ k ih =>
    intro i s t h
    unfold ra_fanout at h
    split at h
    · simp only [Option.some.injEq] at h
      subst h; exact keeps_rr_refl _
    · split_ifs at h
      · simp only [] at h
        split at h
        · simp at h
        · rename_i s2 h2
          have e1 := pgw_output_keeps_rr _ _ _ h2
          have e2 := ih _ _ _ h
          exact ⟨e2.1.trans e1.1, e2.2.trans e1.2⟩
      · exact ih _ _ _ h

theorem proxy_ra_forward_keeps_rr (fuel : Nat) (s t : State)
    (ht : proxy_ra_forward fuel s = some t) : keeps_rr t s := by
  unfold proxy_ra_forward at ht
  simp only [] at ht
  have h2 := proxy_ra_pio_keeps_rr s
  generalize proxy_ra_pio s = s2 at h2 ht
  have h3 : keeps_rr (if s2.pgw_opt_llao = none then
        pgw_append_icmp_opt s2 UIP_ND6_OPT_SLLAO (.val s2.src_eui64) 0 0
      else s2) s := by
    by_cases hl : s2.pgw_opt_llao = none
    · rw [if_pos hl]
      have e := append_keeps_rr s2 UIP_ND6_OPT_SLLAO (.val s2.src_eui64) 0 0
      exact ⟨e.1.trans h2.1, e.2.trans h2.2⟩
    · rw [if_neg hl]
      exact h2
  generalize (if s2.pgw_opt_llao = none then
        pgw_append_icmp_opt s2 UIP_ND6_OPT_SLLAO (.val s2.src_eui64) 0 0
      else s2) = s3 at h3 ht
  have h4 := ra_append_contexts_keeps_rr SICSLOWPAN_CONF_MAX_ADDR_CONTEXTS 0 s3
  have h5 : keeps_rr (pgw_update_icmp_checksum
      (ra_append_contexts SICSLOWPAN_CONF_MAX_ADDR_CONTEXTS 0 s3)) s :=
    ⟨h4.1.trans h3.1, h4.2.trans h3.2⟩
  generalize pgw_update_icmp_checksum
      (ra_append_contexts SICSLOWPAN_CONF_MAX_ADDR_CONTEXTS 0 s3) = s5 at h5 ht
  split_ifs at ht
  · simp only [Option.some.injEq] at ht
    subst ht
    exact ⟨h2.1, h2.2⟩
  all_goals first
    | (simp only [Option.some.injEq] at ht
       subst ht
       exact ⟨h5.1, h5.2⟩)
    | (split at ht
       · exact absurd ht (by simp)
       · rename_i s6 h6
         simp only [Option.some.injEq] at ht
         subst ht
         have e := ra_fanout_keeps_rr _ _ _ _ _ _ h6
         exact ⟨e.1.trans h5.1, e.2.trans h5.2⟩)
    | (split at ht <;> simp only [Option.some.injEq] at ht <;> subst ht <;>
         exact ⟨h5.1, h5.2⟩)

/-- On a packet from Ethernet `proxy_ra_input` stores the source of the RA as the RR. -/
theorem proxy_ra_input_ethernet_rr (fuel : Nat) (s t : State)
    (hi : s.incoming_if = .IEEE_802_3) (ht : proxy_ra_input fuel s = some t) :
    t.rr_ipaddr = srcipaddr s ∧ t.rr_lladdr = s.src_eui64 := by
  unfold proxy_ra_input at ht
  rw [hi] at ht
  simp only [] at ht
  split at ht
  · exact absurd ht (by simp)
  · rename_i s1 h1
    simp only [Option.some.injEq] at ht
    subst ht
    have e := opt_walk_keeps_rr ra_opt_act ra_opt_act_keeps_rr _ _ _ _ h1
    exact ⟨e.1, e.2⟩
  · rename_i s1 h1
    have e := opt_walk_keeps_rr ra_opt_act ra_opt_act_keeps_rr _ _ _ _ h1
    have e2 := proxy_ra_forward_keeps_rr _ _ _ ht
    exact ⟨e2.1.trans e.1, e2.2.trans e.2⟩

/-- On a packet from any other interface `proxy_ra_input` keeps the RR. -/
theorem proxy_ra_input_other_keeps_rr (fuel : Nat) (s t : State)
    (hi : s.incoming_if ≠ .IEEE_802_3) (ht : proxy_ra_input fuel s = some t) :
    keeps_rr t s := by
  unfold proxy_ra_input at ht
  split at ht
  · rename_i h
    exact absurd h hi
  · simp only [Option.some.injEq] at ht
    subst ht
    exact ⟨rfl, rfl⟩
  · simp only [Option.some.injEq] at ht
    subst ht
    exact ⟨rfl, rfl⟩
  · simp only [Option.some.injEq] at ht
    subst ht
    exact ⟨rfl, rfl⟩

theorem proxy_input_keeps_rr (fuel : Nat) (s t : State)
    (hn : ¬ (s.uip_buf (UIP_LLH_LEN + UIP_IPH_LEN) = ICMP6_RA ∧ s.incoming_if = .IEEE_802_3))
    (ht : proxy_input fuel s = some t) : keeps_rr t s := by
  unfold proxy_input at ht
  simp only [] at ht
  split_ifs at ht with h1 h2 h3 h4 h5
  · exact proxy_ns_input_keeps_rr fuel s t ht
  · simp only [Option.some.injEq] at ht
    subst ht
    exact proxy_na_input_keeps_rr s
  · exact proxy_rs_input_keeps_rr fuel s t ht
  · exact proxy_ra_input_other_keeps_rr fuel s t (fun hi => hn ⟨h4, hi⟩) ht
  · simp only [Option.some.injEq] at ht
    subst ht
    exact ⟨rfl, rfl⟩
  · simp only [Option.some.injEq] at ht
    subst ht
    exact ⟨rfl, rfl⟩

theorem proxy_input_ra_ethernet_rr (fuel : Nat) (s t : State)
    (hr : s.uip_buf (UIP_LLH_LEN + UIP_IPH_LEN) = ICMP6_RA) (hi : s.incoming_if = .IEEE_802_3)
    (ht : proxy_input fuel s = some t) :
    t.rr_ipaddr = srcipaddr s ∧ t.rr_lladdr = s.src_eui64 := by
  unfold proxy_input at ht
  simp only [] at ht
  rw [hr] at ht
  exact proxy_ra_input_ethernet_rr fuel s t hi ht

/-- C26 (as the code has it): the identity of the RR is not captured once. When
`proxy_input` handles an RA that came in from Ethernet, `rr_ipaddr` and `rr_lladdr`
become the source address and the source EUI-64 of that RA, whatever they held before;
when it handles any other packet they are left as they were; and `pgw_output` on the
result leaves them as they were. -/
theorem rr_identity_follows_each_ethernet_ra (fuel : Nat) (s t u : State)
    (ht : proxy_input fuel s = some t) (hu : pgw_output fuel t = some u) :
    (if s.uip_buf (UIP_LLH_LEN + UIP_IPH_LEN) = ICMP6_RA ∧ s.incoming_if = .IEEE_802_3 then
        t.rr_ipaddr = srcipaddr s ∧ t.rr_lladdr = s.src_eui64
      else keeps_rr t s)
    ∧ keeps_rr u t := by
  refine ⟨?_, pgw_output_keeps_rr fuel t u hu⟩
  split_ifs with h
  · exact proxy_input_ra_ethernet_rr fuel s t h.1 h.2 ht
  · exact proxy_input_keeps_rr fuel s t h ht

set_option maxRecDepth 1000000 in
/-- C26, witness: the registration NS of node A after the RR is known (`ex_s1`) is
not an RA; `proxy_input` returns `ex_s2`, where the RR is the one of `ex_s1`, and
`pgw_output` on `ex_s2` returns a state with the same RR. -/
theorem rr_identity_follows_each_ethernet_ra_witness :
    proxy_input 8 (deliver ex_s1 (bufOfList (ex_ns_registration ex_ip1 ex_eui_a)) 96 0
        .IEEE_802_15_4 .IEEE_802_3 ex_eui_a ex_rr_ll 100 10) = some ex_s2
    ∧ (pgw_output 8 ex_s2).isSome = true
    ∧ keeps_rr ex_s2 (deliver ex_s1 (bufOfList (ex_ns_registration ex_ip1 ex_eui_a)) 96 0
        .IEEE_802_15_4 .IEEE_802_3 ex_eui_a ex_rr_ll 100 10)
    ∧ keeps_rr ((pgw_output 8 ex_s2).getD ex_s2) ex_s2 := by
  have h1 : proxy_input 8 (deliver ex_s1 (bufOfList (ex_ns_registration ex_ip1 ex_eui_a)) 96 0
      .IEEE_802_15_4 .IEEE_802_3 ex_eui_a ex_rr_ll 100 10) = some ex_s2 := by
    have h : (proxy_input 8 (deliver ex_s1 (bufOfList (ex_ns_registration ex_ip1 ex_eui_a))
        96 0 .IEEE_802_15_4 .IEEE_802_3 ex_eui_a ex_rr_ll 100 10)).isSome = true := by decide!
    obtain ⟨x, hx⟩ := Option.isSome_iff_exists.mp h
    unfold ex_s2 run_input
    rw [hx]
    rfl
  have h2 : (pgw_output 8 ex_s2).isSome = true := by decide!
  obtain ⟨u, hu⟩ := Option.isSome_iff_exists.mp h2
  have key := rr_identity_follows_each_ethernet_ra 8 _ ex_s2 u h1 hu
  rw [if_neg (by decide!)] at key
  refine ⟨h1, h2, key.1, ?_⟩
  rw [hu]
  exact key.2

set_option maxRecDepth 1000000 in
/-- C26, counterexample: at `ex_second_router` the RR is known (`ex_rr_ip`, `ex_rr_ll`,
set by the first RA) and an RA from the Ethernet source `ex_ip_ll` / `ex_host_ll` is in
the buffer. After `proxy_input` the RR is that second source, and the RA is dropped
(nothing was pending). -/
theorem second_router_replaces_rr :
    ex_second_router.rr_ipaddr = ex_rr_ip ∧ ex_second_router.rr_lladdr = ex_rr_ll
    ∧ ex_second_router.incoming_if = .IEEE_802_3
    ∧ (proxy_input 8 ex_second_router).map (fun t => t.rr_ipaddr) = some ex_ip_ll
    ∧ (proxy_input 8 ex_second_router).map (fun t => t.rr_lladdr) = some ex_host_ll
    ∧ (proxy_input 8 ex_second_router).map (fun t => t.uip_len) = some 0 := by
  refine ⟨?_, ?_, ?_, ?_, ?_, ?_⟩ <;> decide!

/-! ## The 6COs appended to an RA -/

theorem append_context_table (s : State) (type : Nat) (d : data_ptr) (st lt : Nat) :
    (pgw_append_icmp_opt s type d st lt).pgw_addr_context_table = s.pgw_addr_context_table := by
  unfold pgw_append_icmp_opt
  simp only []
  split_ifs
  · rfl
  · rfl
  · split
    · split <;> rfl
    · rfl
  · rfl

theorem sixco_units_bounds (c : pgw_addr_context_t) :
    sixco_units c = 2 ∨ sixco_units c = 3 := by
  unfold sixco_units
  split_ifs
  · exact Or.inr rfl
  · exact Or.inl rfl

theorem append_6co_len (s : State) (i : Nat) (c : pgw_addr_context_t)
    (hc : s.pgw_addr_context_table[i]? = some c) (hlen : 6 ≤ s.uip_len) :
    (pgw_append_icmp_opt s UIP_ND6_OPT_6CO (.context i) 0 0).uip_len
      = (s.uip_len + 8 * sixco_units c) % 65536 := by
  have hu : sixco_units c <<< 3 = 8 * sixco_units c := by
    rw [Nat.shiftLeft_eq]; omega
  unfold pgw_append_icmp_opt
  simp only [UIP_ND6_OPT_6CO, UIP_ND6_OPT_SLLAO, UIP_ND6_OPT_TLLAO, UIP_ND6_OPT_ARO, UIP_LLH_LEN]
  rw [if_neg (by decide), if_neg (by decide), if_pos trivial]
  simp only [hc]
  by_cases hs : c.state = IN_USE_COMPRESS
  · simp (disch := omega) only [hs, if_true, setByte_ne, setByte_eq, store16_out, if_neg]
    rw [← hu]; rfl
  · simp (disch := omega) only [hs, if_false, setByte_ne, setByte_eq, store16_out, if_neg]
    rw [← hu]; rfl

theorem append_6co_head (s : State) (i : Nat) (c : pgw_addr_context_t)
    (hc : s.pgw_addr_context_table[i]? = some c) (hlen : 6 ≤ s.uip_len) :
    readBytes (pgw_append_icmp_opt s UIP_ND6_OPT_6CO (.context i) 0 0).uip_buf
      (UIP_LLH_LEN + s.uip_len) 8 = sixco_head c := by
  have h6 : uip_htons (c.vlifetime.interval / 60 % 65536) % 256
      = c.vlifetime.interval / 60 % 65536 / 256 % 256 := by
    unfold uip_htons; omega
  have h7 : uip_htons (c.vlifetime.interval / 60 % 65536) / 256 % 256
      = c.vlifetime.interval / 60 % 256 := by
    unfold uip_htons
    have e : c.vlifetime.interval / 60 % 256 = c.vlifetime.interval / 60 % 65536 % 256 := by
      omega
    rw [e]
    generalize c.vlifetime.interval / 60 % 65536 = v
    have hb : v / 256 % 256 < 256 := Nat.mod_lt _ (by decide)
    have ha : v % 256 < 256 := Nat.mod_lt _ (by decide)
    generalize v / 256 % 256 = b at hb
    generalize v % 256 = a at ha
    omega
  unfold pgw_append_icmp_opt
  simp only [UIP_ND6_OPT_6CO, UIP_ND6_OPT_SLLAO, UIP_ND6_OPT_TLLAO, UIP_ND6_OPT_ARO, UIP_LLH_LEN]
  rw [if_neg (by decide), if_neg (by decide), if_pos trivial]
  simp only [hc, readBytes, List.range, List.range.loop, List.map, sixco_head, sixco_units,
    UIP_ND6_OPT_6CO]
  by_cases hs : c.state = IN_USE_COMPRESS
  · simp (disch := omega) only [hs, if_true, setByte_ne, setByte_eq, store16_out, if_neg,
      store16_lo, store16_hi, Nat.add_zero, h6, h7]
  · simp (disch := omega) only [hs, if_false, setByte_ne, setByte_eq, store16_out, if_neg,
      store16_lo, store16_hi, Nat.add_zero, h6, h7]

theorem ra_append_contexts_spec (k : Nat) : ∀ (i : Nat) (s : State),
    6 ≤ s.uip_len → s.uip_len + 24 * k < 65536 →
    (ra_append_contexts k i s).uip_len
        = s.uip_len + ((((s.pgw_addr_context_table.drop i).take k).filter
            (fun c => decide (c.state ≠ NOT_IN_USE))).map (fun c => 8 * sixco_units c)).sum
    ∧ holds_6co (ra_append_contexts k i s).uip_buf (UIP_LLH_LEN + s.uip_len)
        (((s.pgw_addr_context_table.drop i).take k).filter
          (fun c => decide (c.state ≠ NOT_IN_USE)))
    ∧ (ra_append_contexts k i s).pgw_addr_context_table = s.pgw_addr_context_table
    ∧ ∀ j, j < UIP_LLH_LEN + s.uip_len → j ≠ 19 →
        (ra_append_contexts k i s).uip_buf j = s.uip_buf j := by
  induction k with
  | zero =>
    intro i s _ _
    simp only [ra_append_contexts, List.take_zero, List.filter_nil, List.map_nil, List.sum_nil,
      Nat.add_zero, holds_6co, true_and]
    intros; trivial
  | succ k ih =>
    intro i s hlen hmax
    unfold ra_append_contexts
    cases hc : s.pgw_addr_context_table[i]? with
    | none =>
      have hd : s.pgw_addr_context_table.drop i = [] :=
        List.drop_eq_nil_of_le (List.getElem?_eq_none_iff.mp hc)
      simp only [hd, List.take_nil, List.filter_nil, List.map_nil, List.sum_nil, Nat.add_zero,
        holds_6co, true_and]
      intros; trivial
    | some c =>
      have hd : s.pgw_addr_context_table.drop i = c :: s.pgw_addr_context_table.drop (i + 1) := by
        obtain ⟨hi, hci⟩ := List.getElem?_eq_some_iff.mp hc
        rw [← hci]
        exact List.drop_eq_getElem_cons hi
      simp only [hd, List.take_succ_cons]
      by_cases hs : c.state = NOT_IN_USE
      · have hf : ∀ l : List pgw_addr_context_t,
            (c :: l).filter (fun c => decide (c.state ≠ NOT_IN_USE))
              = l.filter (fun c => decide (c.state ≠ NOT_IN_USE)) := by
          intro l
          rw [List.filter_cons_of_neg (by simp [hs])]
        rw [hf, if_neg (by simp [hs])]
        exact ih (i + 1) s hlen (by omega)
      · have hf : ∀ l : List pgw_addr_context_t,
            (c :: l).filter (fun c => decide (c.state ≠ NOT_IN_USE))
              = c :: l.filter (fun c => decide (c.state ≠ NOT_IN_USE)) := by
          intro l
          rw [List.filter_cons_of_pos (by simp [hs])]
        rw [hf, if_pos hs]
        have hu := sixco_units_bounds c
        have hl := append_6co_len s i c hc hlen
        rw [Nat.mod_eq_of_lt (by omega)] at hl
        have ht := append_context_table s UIP_ND6_OPT_6CO (.context i) 0 0
        have hh := append_6co_head s i c hc hlen
        obtain ⟨r1, r2, r3, r4⟩ := ih (i + 1)
          (pgw_append_icmp_opt s UIP_ND6_OPT_6CO (.context i) 0 0) (by omega) (by omega)
        rw [ht] at r1 r2 r3
        rw [hl] at r1 r2 r4
        refine ⟨?_, ⟨?_, ?_⟩, r3, ?_⟩
        · rw [r1, List.map_cons, List.sum_cons]; omega
        · rw [← hh]
          apply readBytes_congr
          intro j h1 h2
          exact r4 j (by simp only [UIP_LLH_LEN] at h1 h2 ⊢; omega)
            (by simp only [UIP_LLH_LEN] at h1 h2; omega)
        · have e : UIP_LLH_LEN + (s.uip_len + 8 * sixco_units c)
              = UIP_LLH_LEN + s.uip_len + 8 * sixco_units c := by omega
          rw [← e]
          exact r2
        · intro j h1 h2
          rw [r4 j (by simp only [UIP_LLH_LEN] at h1 ⊢; omega) h2]
          exact append_buf_frame s _ _ _ _ j ⟨by simp only [UIP_LLH_LEN] at h1; omega, h2⟩

theorem filter_first_slots (l : List pgw_addr_context_t) (k : Nat)
    (h : ∀ c ∈ l.drop k, c.state = NOT_IN_USE) :
    (l.take k).filter (fun c => decide (c.state ≠ NOT_IN_USE))
      = l.filter (fun c => decide (c.state ≠ NOT_IN_USE)) := by
  have e : (l.drop k).filter (fun c => decide (c.state ≠ NOT_IN_USE)) = [] := by
    rw [List.filter_eq_nil_iff]
    intro c hc
    simp [h c hc]
  conv_rhs => rw [← List.take_append_drop k l, List.filter_append, e, List.append_nil]

/-- C30 (as the code has it), for a context table in which every slot after the first
`SICSLOWPAN_CONF_MAX_ADDR_CONTEXTS` is `NOT_IN_USE`, and a packet of at least an IPv6
header with room left in `uip_len`: the loop of `proxy_ra_input` appends, from the end of
the packet on, exactly one 6CO per context whose state is not `NOT_IN_USE`, in the order
of the table, so also for a context in state `EXPIRED`, and none for a context in state
`NOT_IN_USE`; `uip_len` grows by the lengths of these options, the context table is
unchanged, and the packet before the appended options is unchanged except for the low
octet of the payload length. -/
theorem sixco_per_context_not_unused (s : State)
    (hlen : UIP_IPH_LEN ≤ s.uip_len) (hmax : s.uip_len + 48 < 65536)
    (hrest : ∀ c ∈ s.pgw_addr_context_table.drop SICSLOWPAN_CONF_MAX_ADDR_CONTEXTS,
      c.state = NOT_IN_USE) :
    (ra_append_contexts SICSLOWPAN_CONF_MAX_ADDR_CONTEXTS 0 s).uip_len
        = s.uip_len + ((s.pgw_addr_context_table.filter
            (fun c => decide (c.state ≠ NOT_IN_USE))).map (fun c => 8 * sixco_units c)).sum
    ∧ holds_6co (ra_append_contexts SICSLOWPAN_CONF_MAX_ADDR_CONTEXTS 0 s).uip_buf
        (UIP_LLH_LEN + s.uip_len)
        (s.pgw_addr_context_table.filter (fun c => decide (c.state ≠ NOT_IN_USE)))
    ∧ (ra_append_contexts SICSLOWPAN_CONF_MAX_ADDR_CONTEXTS 0 s).pgw_addr_context_table
        = s.pgw_addr_context_table
    ∧ ∀ j, j < UIP_LLH_LEN + s.uip_len → j ≠ UIP_LLH_LEN + 5 →
        (ra_append_contexts SICSLOWPAN_CONF_MAX_ADDR_CONTEXTS 0 s).uip_buf j = s.uip_buf j := by
  have h := ra_append_contexts_spec SICSLOWPAN_CONF_MAX_ADDR_CONTEXTS 0 s
    (by simp only [UIP_IPH_LEN] at hlen; omega)
    (by simp only [SICSLOWPAN_CONF_MAX_ADDR_CONTEXTS]; omega)
  rw [List.drop_zero, filter_first_slots _ _ hrest] at h
  exact h

set_option maxRecDepth 1000000 in
/-- C30, witness: at `ex_ra_after_expiry` the packet has 88 octets and the only context
not `NOT_IN_USE` is the one of slot 0, in state `EXPIRED`; the loop appends its 6CO and
`uip_len` becomes 104. -/
theorem sixco_per_context_not_unused_witness :
    ex_ra_after_expiry.uip_len = 88
    ∧ (ex_ra_after_expiry.pgw_addr_context_table.filter
        (fun c => decide (c.state ≠ NOT_IN_USE))).map (fun c => (c.state, c.context_id))
      = [(EXPIRED, 0)]
    ∧ (ra_append_contexts SICSLOWPAN_CONF_MAX_ADDR_CONTEXTS 0 ex_ra_after_expiry).uip_len = 104
    ∧ holds_6co (ra_append_contexts SICSLOWPAN_CONF_MAX_ADDR_CONTEXTS 0 ex_ra_after_expiry).uip_buf
        (UIP_LLH_LEN + ex_ra_after_expiry.uip_len)
        (ex_ra_after_expiry.pgw_addr_context_table.filter
          (fun c => decide (c.state ≠ NOT_IN_USE)))
    ∧ (ra_append_contexts SICSLOWPAN_CONF_MAX_ADDR_CONTEXTS 0
          ex_ra_after_expiry).pgw_addr_context_table
        = ex_ra_after_expiry.pgw_addr_context_table :=
  have h := sixco_per_context_not_unused ex_ra_after_expiry (by decide!) (by decide!)
    (by decide!)
  ⟨by decide!, by decide!, h.1.trans (by decide!), h.2.1, h.2.2.1⟩

set_option maxRecDepth 1000000 in
theorem ex_ra_after_expiry_reachable : Reachable ex_ra_after_expiry :=
  Reachable.deliver _ _ _ _ _ _ _ _ _ _ (Reachable.periodic _
    (Reachable.deliver _ _ _ _ _ _ _ _ _ _ (Reachable.periodic _
      (Reachable.deliver _ _ _ _ _ _ _ _ _ _ ex_ctx1_reachable))))

set_option maxRecDepth 1000000 in
/-- C30, counterexample, at a reachable state: the context of slot 0 (prefix 1) is in
state `EXPIRED` and an RA of the RR with the prefix 2 arrives from Ethernet.
`proxy_input` creates the context of slot 1 and forwards the RA with an SLLAO and two
6COs appended: the first, at index 118, is the one of the `EXPIRED` context 0 (C flag
clear, lifetime 60 minutes), the second, at index 134, the one of the new context 1. -/
theorem expired_context_is_advertised :
    Reachable ex_ra_after_expiry
    ∧ ex_ra_after_expiry.incoming_if = .IEEE_802_3
    ∧ ex_ra_after_expiry.uip_buf 54 = ICMP6_RA
    ∧ uip_icmp6chksum ex_ra_after_expiry = 0xffff
    ∧ ex_ra_after_expiry.uip_len = 88
    ∧ (ex_ra_after_expiry.pgw_addr_context_table.take 2).map (fun c =>
        (c.state, c.context_id, c.prefix_.take 8))
      = [(EXPIRED, 0, [0x20, 0x01, 0x0d, 0xb8, 0, 0, 0, 1]),
         (NOT_IN_USE, 0, [0, 0, 0, 0, 0, 0, 0, 0])]
    ∧ (proxy_input 8 ex_ra_after_expiry).map (fun t =>
        (t.pgw_addr_context_table.take 2).map (fun c => (c.state, c.context_id)))
      = some [(EXPIRED, 0), (IN_USE_UNCOMPRESS_ONLY, 1)]
    ∧ (proxy_input 8 ex_ra_after_expiry).map (fun t => t.uip_len) = some 136
    ∧ (proxy_input 8 ex_ra_after_expiry).map (fun t => readBytes t.uip_buf 118 16)
      = some [32, 2, 64, 0, 0, 0, 0, 60, 0x20, 0x01, 0x0d, 0xb8, 0, 0, 0, 1]
    ∧ (proxy_input 8 ex_ra_after_expiry).map (fun t => readBytes t.uip_buf 134 16)
      = some [32, 2, 64, 1, 0, 0, 0, 10, 0x20, 0x01, 0x0d, 0xb8, 0, 0, 0, 2] := by
  refine ⟨ex_ra_after_expiry_reachable, ?_, ?_, ?_, ?_, ?_, ?_, ?_, ?_, ?_⟩ <;> decide!

/-! ## Router solicitations -/

theorem last_sllao_none (opts : List (List Nat)) (pos : Nat) (r : Option Nat)
    (h : ∀ o ∈ opts, o.getD 0 0 ≠ UIP_ND6_OPT_SLLAO) : last_sllao opts pos r = r := by
  induction opts generalizing pos r with
  | nil => rfl
  | cons o rest ih =>
    unfold last_sllao
    rw [if_neg (h o (by simp))]
    exact ih _ _ (fun q hq => h q (by simp [hq]))

theorem opts_bytes_append (l1 l2 : List (List Nat)) :
    opts_bytes (l1 ++ l2) = opts_bytes l1 ++ opts_bytes l2 := by
  induction l1 with
  | nil => rfl
  | cons o rest ih => simp [opts_bytes, ih]

theorem last_sllao_append (pre post : List (List Nat)) (pos : Nat) (r : Option Nat) :
    last_sllao (pre ++ post) pos r
      = last_sllao post (pos + (opts_bytes pre).length) (last_sllao pre pos r) := by
  induction pre generalizing pos r with
  | nil => rfl
  | cons o rest ih =>
    have e : (o :: rest) ++ post = o :: (rest ++ post) := rfl
    rw [e]
    conv_lhs => unfold last_sllao
    rw [ih]
    conv_rhs => rw [opts_bytes, List.length_append, ← Nat.add_assoc]
    rfl

/-- The index left in `pgw_opt_llao` when the last SLLAO of the options is `o`. -/
theorem last_sllao_split (pre post : List (List Nat)) (o : List Nat) (pos : Nat)
    (r : Option Nat) (ho : o.getD 0 0 = UIP_ND6_OPT_SLLAO)
    (hpost : ∀ q ∈ post, q.getD 0 0 ≠ UIP_ND6_OPT_SLLAO) :
    last_sllao (pre ++ o :: post) pos r = some (pos + (opts_bytes pre).length) := by
  rw [last_sllao_append]
  unfold last_sllao
  rw [if_pos ho]
  exact last_sllao_none post _ _ hpost

/-- The option loop of `proxy_rs_input` over well-formed options that end within the
packet: after as many rounds as there are options `pgw_opt_offset` is past them and
`pgw_opt_llao` holds the index of the last SLLAO. -/
theorem rs_walk_options (opts : List (List Nat)) : ∀ (f : Nat) (s : State),
    holds s.uip_buf (uip_l2_l3_icmp_hdr_len s + s.pgw_opt_offset) (opts_bytes opts) →
    (∀ o ∈ opts, opt_wf o) →
    uip_l3_icmp_hdr_len s + s.pgw_opt_offset + (opts_bytes opts).length ≤ s.uip_len →
    s.pgw_opt_offset + (opts_bytes opts).length < 256 →
    opt_walk rs_opt_act (opts.length + f) s
      = opt_walk rs_opt_act f
          { s with
            pgw_opt_llao :=
              last_sllao opts (uip_l2_l3_icmp_hdr_len s + s.pgw_opt_offset) s.pgw_opt_llao
            pgw_opt_offset := s.pgw_opt_offset + (opts_bytes opts).length } := by
  induction opts with
  | nil =>
    intro f s _ _ _ _
    simp only [List.length_nil, Nat.zero_add, opts_bytes, last_sllao, Nat.add_zero]
  | cons o rest ih =>
    intro f s hh hwf hlen hoff
    have hwo : opt_wf o := hwf o (by simp)
    have h8 := opt_wf_length o hwo
    simp only [opts_bytes, List.length_append] at hh hlen hoff
    rw [holds_append] at hh
    have e : (o :: rest).length + f = (rest.length + f) + 1 := by
      simp only [List.length_cons]; omega
    rw [e]
    conv_lhs => unfold opt_walk
    rw [if_pos (by omega)]
    simp only []
    have h1 : s.uip_buf (uip_l2_l3_icmp_hdr_len s + s.pgw_opt_offset + 1) = o.getD 1 0 :=
      hh.1 1 (by omega)
    have h0 : s.uip_buf (uip_l2_l3_icmp_hdr_len s + s.pgw_opt_offset) = o.getD 0 0 :=
      hh.1 0 (by omega)
    rw [if_neg (by rw [h1]; exact Nat.pos_iff_ne_zero.mp hwo.1)]
    have hsh : o.getD 1 0 <<< 3 = o.length := by
      rw [Nat.shiftLeft_eq, hwo.2]; omega
    by_cases ht : o.getD 0 0 = UIP_ND6_OPT_SLLAO
    · have hact : rs_opt_act s (uip_l2_l3_icmp_hdr_len s + s.pgw_opt_offset)
          = { s with pgw_opt_llao := some (uip_l2_l3_icmp_hdr_len s + s.pgw_opt_offset) } := by
        unfold rs_opt_act
        rw [if_pos (by rw [h0]; exact ht)]
      rw [hact]
      simp only [uip_l2_l3_icmp_hdr_len] at h1 ⊢
      rw [h1, hsh, Nat.mod_eq_of_lt (by omega)]
      have := ih f
        { s with
          pgw_opt_llao := some (UIP_LLH_LEN + UIP_IPH_LEN + s.uip_ext_len + UIP_ICMPH_LEN
            + s.pgw_opt_offset)
          pgw_opt_offset := s.pgw_opt_offset + o.length }
        (by
          simp only [uip_l2_l3_icmp_hdr_len] at hh ⊢
          have := hh.2
          rw [← Nat.add_assoc]
          exact this)
        (fun q hq => hwf q (by simp [hq]))
        (by simp only [uip_l3_icmp_hdr_len] at hlen ⊢; omega)
        (by simp only []; omega)
      rw [this]
      simp only [uip_l2_l3_icmp_hdr_len, last_sllao, opts_bytes, List.length_append, if_pos ht,
        Nat.add_assoc]
    · have hact : rs_opt_act s (uip_l2_l3_icmp_hdr_len s + s.pgw_opt_offset) = s := by
        unfold rs_opt_act
        rw [if_neg (by rw [h0]; exact ht)]
      rw [hact]
      rw [h1, hsh, Nat.mod_eq_of_lt (by omega)]
      have := ih f
        { s with pgw_opt_offset := s.pgw_opt_offset + o.length }
        (by
          simp only [uip_l2_l3_icmp_hdr_len] at hh ⊢
          have := hh.2
          rw [← Nat.add_assoc]
          exact this)
        (fun q hq => hwf q (by simp [hq]))
        (by simp only [uip_l3_icmp_hdr_len] at hlen ⊢; omega)
        (by simp only []; omega)
      rw [this]
      simp only [uip_l2_l3_icmp_hdr_len, last_sllao, opts_bytes, List.length_append, if_neg ht,
        Nat.add_assoc]

/-- The option loop of `proxy_rs_input` on an RS whose well-formed options end the
packet. -/
theorem rs_walk_end (s : State) (opts : List (List Nat)) (fuel : Nat)
    (h : rs_options s opts []) (hf : opts.length ≤ fuel) :
    opt_walk rs_opt_act fuel { s with pgw_opt_llao := none, pgw_opt_offset := UIP_ND6_RS_LEN }
      = some ({ s with
          pgw_opt_llao := last_sllao opts (uip_l2_l3_icmp_hdr_len s + UIP_ND6_RS_LEN) none
          pgw_opt_offset := UIP_ND6_RS_LEN + (opts_bytes opts).length }, false) := by
  obtain ⟨_, _, hh, hwf, hlen, hoff⟩ := h
  rw [List.append_nil] at hh hlen
  have e : fuel = opts.length + (fuel - opts.length) := by omega
  rw [e, rs_walk_options opts (fuel - opts.length)
    { s with pgw_opt_llao := none, pgw_opt_offset := UIP_ND6_RS_LEN } hh hwf (by
      simp only [uip_l3_icmp_hdr_len] at hlen ⊢; omega) hoff]
  unfold opt_walk
  rw [if_neg (by simp only [uip_l3_icmp_hdr_len] at hlen ⊢; omega)]
  rfl

/-- The option loop of `proxy_rs_input` on an RS in which well-formed options are
followed by an option of length 0. -/
theorem rs_walk_zero (s : State) (opts : List (List Nat)) (tail : List Nat) (fuel : Nat)
    (h : rs_options s opts tail) (ht : 2 ≤ tail.length) (hz : tail.getD 1 0 = 0)
    (hf : opts.length < fuel) :
    opt_walk rs_opt_act fuel { s with pgw_opt_llao := none, pgw_opt_offset := UIP_ND6_RS_LEN }
      = some ({ s with
          pgw_opt_llao := last_sllao opts (uip_l2_l3_icmp_hdr_len s + UIP_ND6_RS_LEN) none
          pgw_opt_offset := UIP_ND6_RS_LEN + (opts_bytes opts).length }, true) := by
  obtain ⟨_, _, hh, hwf, hlen, hoff⟩ := h
  rw [holds_append] at hh
  rw [List.length_append] at hlen
  have e : fuel = opts.length + ((fuel - opts.length - 1) + 1) := by omega
  rw [e, rs_walk_options opts ((fuel - opts.length - 1) + 1)
    { s with pgw_opt_llao := none, pgw_opt_offset := UIP_ND6_RS_LEN } hh.1 hwf (by
      simp only [uip_l3_icmp_hdr_len] at hlen ⊢; omega) hoff]
  unfold opt_walk
  rw [if_pos (by simp only [uip_l3_icmp_hdr_len] at hlen ⊢; omega)]
  simp only []
  have h1 := hh.2 1 (by omega)
  rw [hz] at h1
  rw [if_pos (by
    simp only [uip_l2_l3_icmp_hdr_len] at h1 ⊢
    rw [← h1]
    congr 1
    omega)]
  rfl

theorem list_loop_from_found_inv (ip : List Nat) (cache : List pgw_nbr_t) (k : Nat)
    (out : Option Nat) (i : Nat) (h : uip_ds6_list_loop_from ip cache k out = .FOUND i) :
    k ≤ i ∧ ∃ n, cache[i - k]? = some n ∧ n.isused = true ∧ n.ipaddr = ip := by
  induction cache generalizing k out with
  | nil => cases out <;> simp [uip_ds6_list_loop_from] at h
  | cons a rest ih =>
    unfold uip_ds6_list_loop_from at h
    split_ifs at h with h1 h2
    · simp only [list_loop_result.FOUND.injEq] at h
      subst h
      exact ⟨le_refl _, a, by simp, h1, h2⟩
    · obtain ⟨g1, n, g2, g3⟩ := ih (k + 1) out h
      refine ⟨by omega, n, ?_, g3⟩
      have : i - k = (i - (k + 1)) + 1 := by omega
      rw [this]
      simpa using g2
    · obtain ⟨g1, n, g2, g3⟩ := ih (k + 1) (some k) h
      refine ⟨by omega, n, ?_, g3⟩
      have : i - k = (i - (k + 1)) + 1 := by omega
      rw [this]
      simpa using g2

/-- The entry `pgw_nbr_lookup` returns is a used entry of the cache with the address. -/
theorem pgw_nbr_lookup_some (cache : List pgw_nbr_t) (ip : List Nat) (i : Nat)
    (h : pgw_nbr_lookup cache ip = some i) :
    ∃ n, cache[i]? = some n ∧ n.isused = true ∧ n.ipaddr = ip := by
  unfold pgw_nbr_lookup at h
  split at h
  · rename_i j hj
    simp only [Option.some.injEq] at h
    subst h
    exact (list_loop_from_found_inv ip cache 0 none j hj).2
  · simp at h

/-- The slot `pgw_nbr_add` returns holds the entry filled by its `FREESPACE` branch. -/
theorem pgw_nbr_add_fuel_some (now_t now_s : Nat) (ip : List Nat) (lladdr : Option (List Nat))
    (isrouter state : Nat) (fuel : Nat) : ∀ (cache cs : List pgw_nbr_t) (i : Nat),
    pgw_nbr_add_fuel now_t now_s ip lladdr isrouter state fuel cache = (cs, some i) →
    ∃ n0, cs[i]? = some (nbr_fill now_t now_s ip lladdr isrouter state n0) := by
  induction fuel with
  | zero =>
    intro cache cs i h
    unfold pgw_nbr_add_fuel at h
    split at h
    · rename_i j hj
      simp only [Prod.mk.injEq, Option.some.injEq] at h
      obtain ⟨rfl, rfl⟩ := h
      rcases (list_loop_from_freespace ip cache 0 none j hj).2 with g | ⟨_, n, g, _⟩
      · simp at g
      · exact ⟨n, updNbr_getElem?_eq _ _ _ _ g⟩
    · split at h <;> simp at h
    · simp at h
  | succ f ih =>
    intro cache cs i h
    unfold pgw_nbr_add_fuel at h
    split at h
    · rename_i j hj
      simp only [Prod.mk.injEq, Option.some.injEq] at h
      obtain ⟨rfl, rfl⟩ := h
      rcases (list_loop_from_freespace ip cache 0 none j hj).2 with g | ⟨_, n, g, _⟩
      · simp at g
      · exact ⟨n, updNbr_getElem?_eq _ _ _ _ g⟩
    · split at h
      · exact ih _ _ _ h
      · simp at h
    · simp at h

theorem proxy_rs_register_found (s : State) (l i : Nat) (hl : s.pgw_opt_llao = some l)
    (hlook : pgw_nbr_lookup s.pgw_6ln_cache (srcipaddr s) = some i) :
    proxy_rs_register s
      = { s with
          pgw_6ln_cache := updNbr s.pgw_6ln_cache i (fun m => { m with ra_pending := true })
          ra_pending := true } := by
  unfold proxy_rs_register
  simp [hl, hlook]

theorem proxy_rs_register_added (s : State) (l i : Nat) (cs : List pgw_nbr_t)
    (hl : s.pgw_opt_llao = some l)
    (hlook : pgw_nbr_lookup s.pgw_6ln_cache (srcipaddr s) = none)
    (hadd : pgw_nbr_add_cache s.clock_time s.clock_seconds (srcipaddr s)
      (some (readBytes s.uip_buf (l + UIP_ND6_OPT_DATA_OFFSET) 8)) 0 PGW_TENTATIVE
      s.pgw_6ln_cache = (cs, some i)) :
    proxy_rs_register s
      = { s with
          pgw_6ln_cache := updNbr cs i (fun m => { m with ra_pending := true })
          ra_pending := true } := by
  unfold proxy_rs_register pgw_nbr_add
  simp only [hl, hlook, hadd]

theorem proxy_rs_register_not_added (s : State) (l : Nat) (cs : List pgw_nbr_t)
    (hl : s.pgw_opt_llao = some l)
    (hlook : pgw_nbr_lookup s.pgw_6ln_cache (srcipaddr s) = none)
    (hadd : pgw_nbr_add_cache s.clock_time s.clock_seconds (srcipaddr s)
      (some (readBytes s.uip_buf (l + UIP_ND6_OPT_DATA_OFFSET) 8)) 0 PGW_TENTATIVE
      s.pgw_6ln_cache = (cs, none)) :
    proxy_rs_register s = { s with pgw_6ln_cache := cs } := by
  unfold proxy_rs_register pgw_nbr_add
  simp only [hl, hlook, hadd]

theorem nbr_fill_tentative (now_t now_s : Nat) (ip l : List Nat) (n : pgw_nbr_t) :
    (nbr_fill now_t now_s ip (some l) 0 PGW_TENTATIVE n).isused = true
    ∧ (nbr_fill now_t now_s ip (some l) 0 PGW_TENTATIVE n).ipaddr = ip
    ∧ (nbr_fill now_t now_s ip (some l) 0 PGW_TENTATIVE n).lladdr = l
    ∧ (nbr_fill now_t now_s ip (some l) 0 PGW_TENTATIVE n).state = PGW_TENTATIVE := by
  simp [nbr_fill]

theorem proxy_rs_input_lowpan (fuel : Nat) (s : State)
    (hi : s.incoming_if = .IEEE_802_15_4)
    (hu : uip_is_addr_unspecified (srcipaddr s) = false) :
    proxy_rs_input fuel s
      = match opt_walk rs_opt_act fuel
          { s with pgw_opt_llao := none, pgw_opt_offset := UIP_ND6_RS_LEN } with
        | none => none
        | some (s2, true) => some (discard s2)
        | some (s2, false) => some (proxy_rs_register s2) := by
  unfold proxy_rs_input
  rw [hi]
  simp only [hu, Bool.false_eq_true, if_false]

/-- An RS with an SLLAO among well-formed options that end the packet is not discarded:
the entry found for the source, or the entry `pgw_nbr_add` creates for it, gets
`ra_pending`, and so does the gateway; when `pgw_nbr_add` returns no entry nothing else
changes. -/
theorem rs_with_sllao (fuel : Nat) (s : State) (pre post : List (List Nat)) (o : List Nat)
    (h : rs_options s (pre ++ o :: post) []) (hf : (pre ++ o :: post).length ≤ fuel)
    (ho : o.getD 0 0 = UIP_ND6_OPT_SLLAO)
    (hpost : ∀ q ∈ post, q.getD 0 0 ≠ UIP_ND6_OPT_SLLAO) :
    ∃ t, proxy_rs_input fuel s = some t
      ∧ t.uip_len = s.uip_len ∧ t.uip_buf = s.uip_buf
      ∧ (∀ i, pgw_nbr_lookup s.pgw_6ln_cache (srcipaddr s) = some i →
          t.pgw_6ln_cache = updNbr s.pgw_6ln_cache i (fun m => { m with ra_pending := true })
          ∧ t.ra_pending = true
          ∧ ∃ n, t.pgw_6ln_cache[i]? = some n ∧ n.isused = true ∧ n.ipaddr = srcipaddr s
              ∧ n.ra_pending = true)
      ∧ (pgw_nbr_lookup s.pgw_6ln_cache (srcipaddr s) = none →
          ∀ cs i, pgw_nbr_add_cache s.clock_time s.clock_seconds (srcipaddr s)
              (some (readBytes s.uip_buf (uip_l2_l3_icmp_hdr_len s + UIP_ND6_RS_LEN
                + (opts_bytes pre).length + UIP_ND6_OPT_DATA_OFFSET) 8)) 0 PGW_TENTATIVE
              s.pgw_6ln_cache = (cs, some i) →
            t.pgw_6ln_cache = updNbr cs i (fun m => { m with ra_pending := true })
            ∧ t.ra_pending = true
            ∧ ∃ n, t.pgw_6ln_cache[i]? = some n ∧ n.isused = true ∧ n.ipaddr = srcipaddr s
                ∧ n.lladdr = readBytes s.uip_buf (uip_l2_l3_icmp_hdr_len s + UIP_ND6_RS_LEN
                    + (opts_bytes pre).length + UIP_ND6_OPT_DATA_OFFSET) 8
                ∧ n.state = PGW_TENTATIVE ∧ n.ra_pending = true)
      ∧ (pgw_nbr_lookup s.pgw_6ln_cache (srcipaddr s) = none →
          ∀ cs, pgw_nbr_add_cache s.clock_time s.clock_seconds (srcipaddr s)
              (some (readBytes s.uip_buf (uip_l2_l3_icmp_hdr_len s + UIP_ND6_RS_LEN
                + (opts_bytes pre).length + UIP_ND6_OPT_DATA_OFFSET) 8)) 0 PGW_TENTATIVE
              s.pgw_6ln_cache = (cs, none) →
            t.pgw_6ln_cache = cs ∧ t.ra_pending = s.ra_pending) := by
  rw [proxy_rs_input_lowpan fuel s h.1 h.2.1, rs_walk_end s _ fuel h hf]
  simp only []
  have hl := last_sllao_split pre post o (uip_l2_l3_icmp_hdr_len s + UIP_ND6_RS_LEN) none ho hpost
  generalize hs2 : ({ s with
      pgw_opt_llao := last_sllao (pre ++ o :: post) (uip_l2_l3_icmp_hdr_len s + UIP_ND6_RS_LEN) none
      pgw_opt_offset := UIP_ND6_RS_LEN + (opts_bytes (pre ++ o :: post)).length } : State) = s2
  have e1 : s2.pgw_opt_llao
      = some (uip_l2_l3_icmp_hdr_len s + UIP_ND6_RS_LEN + (opts_bytes pre).length) := by
    rw [← hs2]; exact hl
  have e2 : s2.uip_buf = s.uip_buf := by rw [← hs2]
  have e3 : s2.pgw_6ln_cache = s.pgw_6ln_cache := by rw [← hs2]
  have e4 : srcipaddr s2 = srcipaddr s := by rw [← hs2]; rfl
  have e5 : s2.uip_len = s.uip_len := by rw [← hs2]
  have e6 : s2.ra_pending = s.ra_pending := by rw [← hs2]
  have e7 : s2.clock_time = s.clock_time := by rw [← hs2]
  have e8 : s2.clock_seconds = s.clock_seconds := by rw [← hs2]
  refine ⟨_, rfl, ?_, ?_, ?_, ?_, ?_⟩
  · cases hlook : pgw_nbr_lookup s2.pgw_6ln_cache (srcipaddr s2) with
    | some i => rw [proxy_rs_register_found s2 _ i e1 hlook]; exact e5
    | none =>
      cases hadd : pgw_nbr_add_cache s2.clock_time s2.clock_seconds (srcipaddr s2)
        (some (readBytes s2.uip_buf (uip_l2_l3_icmp_hdr_len s + UIP_ND6_RS_LEN
          + (opts_bytes pre).length + UIP_ND6_OPT_DATA_OFFSET) 8)) 0 PGW_TENTATIVE
        s2.pgw_6ln_cache with
      | mk cs r =>
        cases r with
        | none => rw [proxy_rs_register_not_added s2 _ cs e1 hlook hadd]; exact e5
        | some i => rw [proxy_rs_register_added s2 _ i cs e1 hlook hadd]; exact e5
  · cases hlook : pgw_nbr_lookup s2.pgw_6ln_cache (srcipaddr s2) with
    | some i => rw [proxy_rs_register_found s2 _ i e1 hlook]; exact e2
    | none =>
      cases hadd : pgw_nbr_add_cache s2.clock_time s2.clock_seconds (srcipaddr s2)
        (some (readBytes s2.uip_buf (uip_l2_l3_icmp_hdr_len s + UIP_ND6_RS_LEN
          + (opts_bytes pre).length + UIP_ND6_OPT_DATA_OFFSET) 8)) 0 PGW_TENTATIVE
        s2.pgw_6ln_cache with
      | mk cs r =>
        cases r with
        | none => rw [proxy_rs_register_not_added s2 _ cs e1 hlook hadd]; exact e2
        | some i => rw [proxy_rs_register_added s2 _ i cs e1 hlook hadd]; exact e2
  · intro i hlook
    rw [← e3, ← e4] at hlook
    rw [proxy_rs_register_found s2 _ i e1 hlook]
    obtain ⟨n, hn, hu, hip⟩ := pgw_nbr_lookup_some _ _ _ hlook
    refine ⟨by rw [e3], rfl, { n with ra_pending := true }, ?_, hu, ?_, rfl⟩
    · exact updNbr_getElem?_eq _ _ _ _ hn
    · rw [← e4]; exact hip
  · intro hlook cs i hadd
    rw [← e3, ← e4] at hlook
    rw [← e2, ← e3, ← e4, ← e7, ← e8] at hadd
    rw [proxy_rs_register_added s2 _ i cs e1 hlook hadd]
    obtain ⟨n0, hn0⟩ := pgw_nbr_add_fuel_some _ _ _ _ _ _ _ _ _ _ hadd
    obtain ⟨f1, f2, f3, f4⟩ := nbr_fill_tentative s2.clock_time s2.clock_seconds (srcipaddr s2)
      (readBytes s2.uip_buf (uip_l2_l3_icmp_hdr_len s + UIP_ND6_RS_LEN
          + (opts_bytes pre).length + UIP_ND6_OPT_DATA_OFFSET) 8) n0
    refine ⟨rfl, rfl, _, updNbr_getElem?_eq _ _ _ _ hn0, f1, ?_, ?_, f4, rfl⟩
    · rw [← e4]; exact f2
    · rw [← e2]; exact f3
  · intro hlook cs hadd
    rw [← e3, ← e4] at hlook
    rw [← e2, ← e3, ← e4, ← e7, ← e8] at hadd
    rw [proxy_rs_register_not_added s2 _ cs e1 hlook hadd]
    exact ⟨rfl, e6⟩

theorem pgw_nbr_add_cache_full (now_t now_s : Nat) (ip : List Nat) (lladdr : Option (List Nat))
    (isrouter state : Nat) (cache : List pgw_nbr_t)
    (hfull : ∀ n ∈ cache, n.isused = true ∧ (n.state = PGW_TENTATIVE ∨ n.state = PGW_REGISTERED))
    (hnot : ∀ n ∈ cache, n.ipaddr ≠ ip) :
    pgw_nbr_lookup cache ip = none
    ∧ pgw_nbr_add_cache now_t now_s ip lladdr isrouter state cache = (cache, none) := by
  have h1 : uip_ds6_list_loop cache ip = .NOSPACE :=
    list_loop_from_nospace ip _ 0 (fun n hn => (hfull n hn).1) hnot
  have h2 : find_oldest cache 0 none now_t = none :=
    find_oldest_none _ 0 _ (fun n hn => by
      rcases (hfull n hn).2 with h | h <;> rw [h] <;> decide)
  refine ⟨by simp [pgw_nbr_lookup, h1], ?_⟩
  unfold pgw_nbr_add_cache pgw_nbr_add_fuel
  simp [h1, h2]

/-- C25 (as the code has it). `proxy_rs_input` drops an RS from Ethernet or from the
local host; it drops an RS from the 6LoWPAN side, changing nothing but `uip_len` and the
two statics of the option loop, when the source is unspecified, when the well-formed
options carry no SLLAO, and when well-formed options are followed by an option of length
0 (also after an SLLAO). For well-formed options with an SLLAO the RS is not discarded
and the packet is unchanged: an entry found for the source gets `ra_pending` and so does
the gateway; when none is found `pgw_nbr_add` is called with the address of the last
SLLAO and `PGW_TENTATIVE`, and the entry it returns is used, tentative, holds the source
and that address, and gets `ra_pending`, as does the gateway; when it returns none (as
it does when every slot holds a tentative or registered entry) no entry is created and
the flags are unchanged. -/
theorem router_solicitation_handling (fuel : Nat) (s : State) (pre post : List (List Nat))
    (o tail : List Nat) :
    (s.incoming_if = .IEEE_802_3 ∨ s.incoming_if = .LOCAL →
        proxy_rs_input fuel s = some (discard s))
    ∧ (s.incoming_if = .IEEE_802_15_4 → uip_is_addr_unspecified (srcipaddr s) = true →
        proxy_rs_input fuel s = some (discard s))
    ∧ (rs_options s pre [] → pre.length ≤ fuel →
        (∀ q ∈ pre, q.getD 0 0 ≠ UIP_ND6_OPT_SLLAO) →
        proxy_rs_input fuel s = some (discard { s with
          pgw_opt_llao := none
          pgw_opt_offset := UIP_ND6_RS_LEN + (opts_bytes pre).length }))
    ∧ (rs_options s pre tail → 2 ≤ tail.length → tail.getD 1 0 = 0 → pre.length < fuel →
        proxy_rs_input fuel s = some (discard { s with
          pgw_opt_llao := last_sllao pre (uip_l2_l3_icmp_hdr_len s + UIP_ND6_RS_LEN) none
          pgw_opt_offset := UIP_ND6_RS_LEN + (opts_bytes pre).length }))
    ∧ (rs_options s (pre ++ o :: post) [] → (pre ++ o :: post).length ≤ fuel →
        o.getD 0 0 = UIP_ND6_OPT_SLLAO → (∀ q ∈ post, q.getD 0 0 ≠ UIP_ND6_OPT_SLLAO) →
        ∃ t, proxy_rs_input fuel s = some t
          ∧ t.uip_len = s.uip_len ∧ t.uip_buf = s.uip_buf
          ∧ (∀ i, pgw_nbr_lookup s.pgw_6ln_cache (srcipaddr s) = some i →
              t.pgw_6ln_cache
                = updNbr s.pgw_6ln_cache i (fun m => { m with ra_pending := true })
              ∧ t.ra_pending = true
              ∧ ∃ n, t.pgw_6ln_cache[i]? = some n ∧ n.isused = true
                  ∧ n.ipaddr = srcipaddr s ∧ n.ra_pending = true)
          ∧ (pgw_nbr_lookup s.pgw_6ln_cache (srcipaddr s) = none →
              ∀ cs i, pgw_nbr_add_cache s.clock_time s.clock_seconds (srcipaddr s)
                  (some (readBytes s.uip_buf (uip_l2_l3_icmp_hdr_len s + UIP_ND6_RS_LEN
                    + (opts_bytes pre).length + UIP_ND6_OPT_DATA_OFFSET) 8)) 0 PGW_TENTATIVE
                  s.pgw_6ln_cache = (cs, some i) →
                t.pgw_6ln_cache = updNbr cs i (fun m => { m with ra_pending := true })
                ∧ t.ra_pending = true
                ∧ ∃ n, t.pgw_6ln_cache[i]? = some n ∧ n.isused = true
                    ∧ n.ipaddr = srcipaddr s
                    ∧ n.lladdr = readBytes s.uip_buf (uip_l2_l3_icmp_hdr_len s
                        + UIP_ND6_RS_LEN + (opts_bytes pre).length
                        + UIP_ND6_OPT_DATA_OFFSET) 8
                    ∧ n.state = PGW_TENTATIVE ∧ n.ra_pending = true)
          ∧ (pgw_nbr_lookup s.pgw_6ln_cache (srcipaddr s) = none →
              ∀ cs, pgw_nbr_add_cache s.clock_time s.clock_seconds (srcipaddr s)
                  (some (readBytes s.uip_buf (uip_l2_l3_icmp_hdr_len s + UIP_ND6_RS_LEN
                    + (opts_bytes pre).length + UIP_ND6_OPT_DATA_OFFSET) 8)) 0 PGW_TENTATIVE
                  s.pgw_6ln_cache = (cs, none) →
                t.pgw_6ln_cache = cs ∧ t.ra_pending = s.ra_pending)
          ∧ ((∀ n ∈ s.pgw_6ln_cache,
                n.isused = true ∧ (n.state = PGW_TENTATIVE ∨ n.state = PGW_REGISTERED)) →
              (∀ n ∈ s.pgw_6ln_cache, n.ipaddr ≠ srcipaddr s) →
              t.pgw_6ln_cache = s.pgw_6ln_cache ∧ t.ra_pending = s.ra_pending
              ∧ pgw_nbr_lookup t.pgw_6ln_cache (srcipaddr s) = none)) := by
  refine ⟨?_, ?_, ?_, ?_, ?_⟩
  · intro h
    unfold proxy_rs_input
    rcases h with h | h <;> rw [h]
  · intro hi hu
    unfold proxy_rs_input
    rw [hi]
    simp only [hu, if_true]
  · intro h hf hno
    rw [proxy_rs_input_lowpan fuel s h.1 h.2.1, rs_walk_end s _ fuel h hf,
      last_sllao_none pre _ _ hno]
    simp only []
    unfold proxy_rs_register
    rfl
  · intro h ht hz hf
    rw [proxy_rs_input_lowpan fuel s h.1 h.2.1, rs_walk_zero s _ tail fuel h ht hz hf]
  · intro h hf ho hpost
    obtain ⟨t, h1, h2, h3, h4, h5, h6⟩ := rs_with_sllao fuel s pre post o h hf ho hpost
    refine ⟨t, h1, h2, h3, h4, h5, h6, ?_⟩
    intro hfull hnot
    obtain ⟨g1, g2⟩ := pgw_nbr_add_cache_full s.clock_time s.clock_seconds (srcipaddr s)
      (some (readBytes s.uip_buf (uip_l2_l3_icmp_hdr_len s + UIP_ND6_RS_LEN
        + (opts_bytes pre).length + UIP_ND6_OPT_DATA_OFFSET) 8)) 0 PGW_TENTATIVE
      s.pgw_6ln_cache hfull hnot
    obtain ⟨g3, g4⟩ := h6 g1 _ g2
    refine ⟨g3, g4, ?_⟩
    rw [g3]
    exact g1

theorem ex_rs_new_options : rs_options ex_rs_new ([] ++ ex_sllao ex_eui_b :: []) [] := by
  refine ⟨by decide!, by decide!, (holds_readBytes _ _ _).mpr (by decide!), ?_, by decide!,
    by decide!⟩
  intro q hq
  simp only [List.nil_append, List.mem_singleton] at hq
  subst hq
  exact ⟨by decide, by decide⟩

set_option maxRecDepth 1000000 in
/-- C25, witness: after `ex_s1` the cache is empty and node B sends an RS with source
`ex_ip2` and an SLLAO. The RS is not discarded, the entry created in slot 24 is
tentative, holds `ex_ip2` and the EUI-64 of node B, and has `ra_pending`, and the gateway
has `ra_pending`. -/
theorem router_solicitation_handling_witness :
    rs_options ex_rs_new ([] ++ ex_sllao ex_eui_b :: []) []
    ∧ pgw_nbr_lookup ex_rs_new.pgw_6ln_cache (srcipaddr ex_rs_new) = none
    ∧ (proxy_rs_input 8 ex_rs_new).map (fun t => t.uip_len) = some 64
    ∧ (proxy_rs_input 8 ex_rs_new).map (fun t => t.ra_pending) = some true
    ∧ (proxy_rs_input 8 ex_rs_new).map (fun t => t.pgw_6ln_cache[24]?.map (fun n =>
        (n.isused, n.ipaddr, n.lladdr, n.state, n.ra_pending)))
      = some (some (true, ex_ip2, ex_eui_b, PGW_TENTATIVE, true)) := by
  have hlook : pgw_nbr_lookup ex_rs_new.pgw_6ln_cache (srcipaddr ex_rs_new) = none := by
    decide!
  obtain ⟨t, h1, h2, _, _, h5, _, _⟩ :=
    (router_solicitation_handling 8 ex_rs_new [] [] (ex_sllao ex_eui_b) []).2.2.2.2
      ex_rs_new_options (by decide) (by decide) (by simp)
  obtain ⟨_, g2, n, g3, g4, g5, g6, g7, g8⟩ := h5 hlook
    (pgw_nbr_add_cache ex_rs_new.clock_time ex_rs_new.clock_seconds (srcipaddr ex_rs_new)
      (some ex_eui_b) 0 PGW_TENTATIVE ex_rs_new.pgw_6ln_cache).1 24 (by decide!)
  refine ⟨ex_rs_new_options, hlook, ?_, ?_, ?_⟩
  · rw [h1]; exact congrArg some (h2.trans (by decide!))
  · rw [h1]; exact congrArg some g2
  · rw [h1]
    simp only [Option.map_some', g3, g4, g7, g8, Option.some.injEq, Prod.mk.injEq, true_and,
      and_true]
    exact ⟨g5.trans (by decide!), g6.trans (by decide!)⟩

set_option maxRecDepth 1000000 in
/-- C25, counterexample. At `ex_rs_zero` node A holds `ex_ip1` (slot 24) and sends an RS
from `ex_ip1` with an SLLAO followed by an option of length 0: the RS is discarded and
neither `ra_pending` flag is set. At `ex_rs_full` every slot of the cache holds a
registered entry, none for `ex_ip1`, and an RS from `ex_ip1` with an SLLAO arrives: the
RS is not discarded, and no entry for `ex_ip1` is created. -/
theorem rs_with_sllao_dropped_or_without_entry :
    ex_rs_zero.incoming_if = .IEEE_802_15_4
    ∧ ex_rs_zero.uip_buf 54 = ICMP6_RS
    ∧ uip_icmp6chksum ex_rs_zero = 0xffff
    ∧ srcipaddr ex_rs_zero = ex_ip1
    ∧ readBytes ex_rs_zero.uip_buf 62 18 = ex_sllao ex_eui_a ++ [0, 0]
    ∧ pgw_nbr_lookup ex_rs_zero.pgw_6ln_cache ex_ip1 = some 24
    ∧ (proxy_rs_input 8 ex_rs_zero).map (fun t => (t.uip_len, t.ra_pending)) = some (0, false)
    ∧ (proxy_rs_input 8 ex_rs_zero).map (fun t =>
        t.pgw_6ln_cache[24]?.map (fun n => (n.isused, n.ipaddr, n.ra_pending)))
      = some (some (true, ex_ip1, false))
    ∧ ex_rs_full.incoming_if = .IEEE_802_15_4
    ∧ ex_rs_full.uip_buf 54 = ICMP6_RS
    ∧ uip_icmp6chksum ex_rs_full = 0xffff
    ∧ srcipaddr ex_rs_full = ex_ip1
    ∧ readBytes ex_rs_full.uip_buf 62 16 = ex_sllao ex_eui_b
    ∧ ex_rs_full.uip_len = 64
    ∧ pgw_nbr_lookup ex_rs_full.pgw_6ln_cache ex_ip1 = none
    ∧ (proxy_rs_input 8 ex_rs_full).map (fun t => (t.uip_len, t.ra_pending)) = some (64, false)
    ∧ (proxy_rs_input 8 ex_rs_full).map (fun t => pgw_nbr_lookup t.pgw_6ln_cache ex_ip1)
      = some none
    ∧ (proxy_rs_input 8 ex_rs_full).map (fun t => t.pgw_6ln_cache)
      = some ex_rs_full.pgw_6ln_cache := by
  refine ⟨?_, ?_, ?_, ?_, ?_, ?_, ?_, ?_, ?_, ?_, ?_, ?_, ?_, ?_, ?_, ?_, ?_, ?_⟩ <;> decide!

/-! ## The 8-bit option offset -/

/-- The walk over the options does not end at an option of 32 units: after the
iteration the 8-bit `pgw_opt_offset` has the value it had before. -/
theorem opt_walk_stuck (act : State → Nat → State)
    (hact : ∀ s o, (act s o).uip_buf = s.uip_buf ∧ (act s o).uip_len = s.uip_len
      ∧ (act s o).uip_ext_len = s.uip_ext_len ∧ (act s o).pgw_opt_offset = s.pgw_opt_offset)
    (fuel : Nat) : ∀ (s : State),
    uip_l3_icmp_hdr_len s + s.pgw_opt_offset < s.uip_len →
    s.uip_buf (uip_l2_l3_icmp_hdr_len s + s.pgw_opt_offset + 1) = 32 →
    s.pgw_opt_offset < 256 →
    opt_walk act fuel s = none := by
  induction fuel with
  | zero =>
    intro s hc _ _
    unfold opt_walk
    rw [if_pos hc]
  | succ f ih =>
    intro s hc hl hoff
    unfold opt_walk
    rw [if_pos hc]
    simp only []
    rw [if_neg (by rw [hl]; decide)]
    obtain ⟨h1, h2, h3, h4⟩ := hact s (uip_l2_l3_icmp_hdr_len s + s.pgw_opt_offset)
    generalize act s (uip_l2_l3_icmp_hdr_len s + s.pgw_opt_offset) = s1 at h1 h2 h3 h4 ⊢
    have e : uip_l2_l3_icmp_hdr_len s1 = uip_l2_l3_icmp_hdr_len s := by
      unfold uip_l2_l3_icmp_hdr_len
      rw [h3]
    have e2 : (s1.pgw_opt_offset
        + (s1.uip_buf (uip_l2_l3_icmp_hdr_len s1 + s1.pgw_opt_offset + 1) <<< 3)) % 256
        = s.pgw_opt_offset := by
      rw [e, h1, h4, hl, Nat.shiftLeft_eq]
      omega
    rw [e2]
    apply ih
    · unfold uip_l3_icmp_hdr_len at hc ⊢
      simp only [h2, h3]
      exact hc
    · have e3 : uip_l2_l3_icmp_hdr_len
          { s1 with pgw_opt_offset := s.pgw_opt_offset } = uip_l2_l3_icmp_hdr_len s := by
        unfold uip_l2_l3_icmp_hdr_len
        simp only [h3]
      rw [e3]
      simp only [h1]
      exact hl
    · exact hoff

theorem ns_opt_act_frame (s : State) (o : Nat) :
    (ns_opt_act s o).uip_buf = s.uip_buf ∧ (ns_opt_act s o).uip_len = s.uip_len
    ∧ (ns_opt_act s o).uip_ext_len = s.uip_ext_len
    ∧ (ns_opt_act s o).pgw_opt_offset = s.pgw_opt_offset := by
  unfold ns_opt_act
  split_ifs <;> exact ⟨rfl, rfl, rfl, rfl⟩

theorem rs_opt_act_frame (s : State) (o : Nat) :
    (rs_opt_act s o).uip_buf = s.uip_buf ∧ (rs_opt_act s o).uip_len = s.uip_len
    ∧ (rs_opt_act s o).uip_ext_len = s.uip_ext_len
    ∧ (rs_opt_act s o).pgw_opt_offset = s.pgw_opt_offset := by
  unfold rs_opt_act
  split_ifs <;> exact ⟨rfl, rfl, rfl, rfl⟩

theorem ra_opt_act_frame (s : State) (o : Nat) :
    (ra_opt_act s o).uip_buf = s.uip_buf ∧ (ra_opt_act s o).uip_len = s.uip_len
    ∧ (ra_opt_act s o).uip_ext_len = s.uip_ext_len
    ∧ (ra_opt_act s o).pgw_opt_offset = s.pgw_opt_offset := by
  unfold ra_opt_act
  split_ifs <;> exact ⟨rfl, rfl, rfl, rfl⟩

/-- The option loop of `translate_icmp_lladdr` does not end at an option of 32 units that
it leaves as it is. -/
theorem translate_loop_stuck (target : interface_t) (fuel : Nat) (s : State) (off : Nat)
    (hc : uip_l3_icmp_hdr_len s + off < s.uip_len)
    (hl : s.uip_buf (uip_l2_l3_icmp_hdr_len s + off + 1) = 32)
    (hoff : off < 256)
    (hkeep : translate_opt target s off = some s) :
    translate_loop target fuel s off = none := by
  induction fuel with
  | zero =>
    unfold translate_loop
    rw [if_pos hc]
  | succ f ih =>
    unfold translate_loop
    rw [if_pos hc]
    simp only []
    rw [if_neg (by rw [hl]; decide), hkeep]
    simp only []
    have e : (off + (s.uip_buf (uip_l2_l3_icmp_hdr_len s + off + 1) <<< 3)) % 256 = off := by
      rw [hl, Nat.shiftLeft_eq]
      omega
    rw [e]
    exact ih

set_option maxRecDepth 1000000 in
/-- C37 at packets with one option of 32 units (256 octets), each with a valid checksum
and shorter than the buffer: an RS and a unicast NS from the 6LoWPAN side and an RA from
Ethernet. Whatever the number of iterations allowed, the option loops of
`proxy_rs_input`, `proxy_ns_input` and `proxy_ra_input` do not end: adding 256 to the
8-bit `pgw_opt_offset` leaves it where it was. A multicast NS with such an option is
forwarded by `proxy_ns_input` as it came, and then the option loop of
`translate_icmp_lladdr` in `pgw_output` does not end. -/
theorem option_of_32_units_never_ends (fuel : Nat) :
    uip_icmp6chksum ex_rs_wrap = 0xffff ∧ ex_rs_wrap.uip_len = 304
    ∧ readBytes ex_rs_wrap.uip_buf 62 2 = [253, 32]
    ∧ uip_icmp6chksum ex_ns_wrap = 0xffff ∧ ex_ns_wrap.uip_len = 320
    ∧ readBytes ex_ns_wrap.uip_buf 78 2 = [253, 32]
    ∧ uip_icmp6chksum ex_ra_wrap = 0xffff ∧ ex_ra_wrap.uip_len = 312
    ∧ readBytes ex_ra_wrap.uip_buf 70 2 = [253, 32]
    ∧ proxy_rs_input fuel ex_rs_wrap = none
    ∧ proxy_ns_input fuel ex_ns_wrap = none
    ∧ proxy_ra_input fuel ex_ra_wrap = none
    ∧ uip_icmp6chksum ex_ns_mcast_wrap = 0xffff
    ∧ (proxy_ns_input fuel ex_ns_mcast_wrap).map (fun t => (t.uip_len, t.outgoing_if))
        = some (320, .IEEE_802_3)
    ∧ (proxy_ns_input fuel ex_ns_mcast_wrap).bind (pgw_output fuel) = none := by
  have hns : proxy_ns_input fuel ex_ns_mcast_wrap = some ex_ns_mcast_wrap := by
    unfold proxy_ns_input
    have hi : ex_ns_mcast_wrap.incoming_if = .IEEE_802_15_4 := by decide!
    rw [hi]
    simp only []
    rw [if_neg (by decide!), if_pos (by decide!)]
  refine ⟨by decide!, by decide!, by decide!, by decide!, by decide!, by decide!, by decide!,
    by decide!, by decide!, ?_, ?_, ?_, by decide!, by rw [hns]; decide!, ?_⟩
  · rw [proxy_rs_input_lowpan fuel ex_rs_wrap (by decide!) (by decide!),
      opt_walk_stuck rs_opt_act rs_opt_act_frame fuel _ (by decide!) (by decide!) (by decide!)]
  · unfold proxy_ns_input
    have hi : ex_ns_wrap.incoming_if = .IEEE_802_15_4 := by decide!
    rw [hi]
    simp only []
    rw [if_neg (by decide!), if_neg (by decide!),
      opt_walk_stuck ns_opt_act ns_opt_act_frame fuel _ (by decide!) (by decide!) (by decide!)]
  · unfold proxy_ra_input
    have hi : ex_ra_wrap.incoming_if = .IEEE_802_3 := by decide!
    rw [hi]
    simp only []
    rw [opt_walk_stuck ra_opt_act ra_opt_act_frame fuel _ (by decide!) (by decide!) (by decide!)]
  · rw [hns, Option.some_bind]
    unfold pgw_output
    rw [if_pos (by decide!)]
    unfold pgw_fwd_output
    have ho : ex_ns_mcast_wrap.outgoing_if = .IEEE_802_3 := by decide!
    rw [ho]
    simp only []
    have ht : translate_icmp_lladdr fuel .IEEE_802_3 ex_ns_mcast_wrap = none := by
      unfold translate_icmp_lladdr
      rw [if_neg (by decide!)]
      simp only []
      rw [if_pos (by decide!)]
      exact translate_loop_stuck _ fuel _ _ (by decide!) (by decide!) (by decide!) (by
        unfold translate_opt
        simp only []
        rw [if_neg (by decide!), if_neg (by decide!)])
    rw [ht]
    rfl

/-! ## The handlers and the egress rewrite at further example states -/

set_option maxRecDepth 1000000 in
theorem ex_rs_new_reachable : Reachable (run_input ex_rs_new) :=
  run_input_reachable _ (Reachable.deliver _ _ _ _ _ _ _ _ _ _ ex_s1_reachable) (by decide!)

set_option maxRecDepth 1000000 in
theorem ex_two_pending_reachable : Reachable ex_two_pending :=
  run_input_reachable _ (Reachable.deliver _ _ _ _ _ _ _ _ _ _ ex_rs_new_reachable) (by decide!)

set_option maxRecDepth 1000000 in
theorem ex_one_pending_reachable : Reachable ex_one_pending :=
  run_input_reachable _ (Reachable.deliver _ _ _ _ _ _ _ _ _ _ ex_ctx1_reachable) (by decide!)

set_option maxRecDepth 1000000 in
theorem ex_ra_short_reachable : Reachable (run_input ex_ra_short) :=
  run_input_reachable _ (Reachable.deliver _ _ _ _ _ _ _ _ _ _ Reachable.init) (by decide!)

set_option maxRecDepth 1000000 in
/-- C31 at a reachable state: the context of slot 0 is `2000::/4` (length 4), and a packet
of 56 octets is in the buffer, followed by octets `aa`. `pgw_append_icmp_opt` writes the
first eight octets of the 6CO as claimed and `uip_len` grows by 16, but of the eight
octets left for the prefix only the first four are written: the `memcpy` copies `length`
octets, and the option ends with the `aa aa aa aa` that the buffer held. For the context
`2001:db8:0:1::/64` of `ex_ctx1` the option is the one claimed, and the copy of 64 octets
goes on after the end of the option, over the rest of the prefix, the timer of the
context and the next context. -/
theorem sixco_prefix_copy_counts_octets :
    Reachable ex_append_short
    ∧ ex_append_short.pgw_addr_context_table[0]?.map (fun c =>
        (c.state, c.length, c.context_id, c.prefix_.take 8))
      = some (IN_USE_UNCOMPRESS_ONLY, 4, 0, [0x20, 0, 0, 0, 0, 0, 0, 0])
    ∧ ex_append_short.uip_len = 56
    ∧ readBytes ex_append_short.uip_buf 70 16 = List.replicate 16 0xaa
    ∧ (pgw_append_icmp_opt ex_append_short UIP_ND6_OPT_6CO (.context 0) 0 0).uip_len = 72
    ∧ readBytes (pgw_append_icmp_opt ex_append_short UIP_ND6_OPT_6CO (.context 0) 0 0).uip_buf
        70 16 = [32, 2, 4, 0, 0, 0, 0, 10, 0x20, 0, 0, 0, 0xaa, 0xaa, 0xaa, 0xaa]
    ∧ ex_append_64.pgw_addr_context_table[0]?.map (fun c =>
        (c.state, c.length, c.context_id, c.prefix_.take 8))
      = some (IN_USE_UNCOMPRESS_ONLY, 64, 0, [0x20, 0x01, 0x0d, 0xb8, 0, 0, 0, 1])
    ∧ readBytes ex_append_64.uip_buf 70 32 = List.replicate 32 0xaa
    ∧ (pgw_append_icmp_opt ex_append_64 UIP_ND6_OPT_6CO (.context 0) 0 0).uip_len = 72
    ∧ readBytes (pgw_append_icmp_opt ex_append_64 UIP_ND6_OPT_6CO (.context 0) 0 0).uip_buf
        70 16 = [32, 2, 64, 0, 0, 0, 0, 10, 0x20, 0x01, 0x0d, 0xb8, 0, 0, 0, 1]
    ∧ readBytes (pgw_append_icmp_opt ex_append_64 UIP_ND6_OPT_6CO (.context 0) 0 0).uip_buf
        86 16 = [0, 0, 0, 0, 0, 0, 0, 0, 1, 0, 0, 0, 0x58, 0x02, 0, 0] := by
  refine ⟨Reachable.deliver _ _ _ _ _ _ _ _ _ _ ex_ra_short_reachable,
    ?_, ?_, ?_, ?_, ?_, ?_, ?_, ?_, ?_, ?_⟩ <;> decide!

set_option maxRecDepth 1000000 in
/-- C32 after boot: the RA of the RR arrives from Ethernet with a prefix information
option and no SLLAO, and it is forwarded (a context is created). `proxy_input` appends
the SLLAO with the EUI-64 of the RR, 2 units, and the 6CO. `pgw_output` then rewrites
that SLLAO as if it held a MAC address: in the frame sent on the 6LoWPAN side the SLLAO
holds `00 11 22 ff fe ff fe 33`, not the EUI-64 `00 11 22 ff fe 33 44 55`, the packet is
8 octets longer, and the first eight octets of the 6CO stand twice after the SLLAO. -/
theorem appended_sllao_is_rewritten_again :
    ex_ra_pio1.incoming_if = .IEEE_802_3
    ∧ ex_ra_pio1.uip_buf 54 = ICMP6_RA
    ∧ uip_icmp6chksum ex_ra_pio1 = 0xffff
    ∧ ex_ra_pio1.uip_len = 88
    ∧ readBytes ex_ra_pio1.uip_buf 70 32 = ex_pio 1
    ∧ ex_ra_pio1.src_eui64 = ex_rr_ll
    ∧ (proxy_input 8 ex_ra_pio1).map (fun t =>
        (t.uip_len, t.rr_lladdr, readBytes t.uip_buf 102 16, readBytes t.uip_buf 118 16))
      = some (120, ex_rr_ll, ex_sllao ex_rr_ll,
          [32, 2, 64, 0, 0, 0, 0, 10, 0x20, 0x01, 0x0d, 0xb8, 0, 0, 0, 1])
    ∧ ((proxy_input 8 ex_ra_pio1).bind (pgw_output 8)).map (fun t =>
        t.sent.map (fun f => (f.iface, f.len, f.bytes.drop 88)))
      = some [(.IEEE_802_15_4, 128,
          [1, 2, 0x00, 0x11, 0x22, 0xff, 0xfe, 0xff, 0xfe, 0x33, 0, 0, 0, 0, 0, 0,
           32, 2, 64, 0, 0, 0, 0, 10,
           32, 2, 64, 0, 0, 0, 0, 10, 0x20, 0x01, 0x0d, 0xb8, 0, 0, 0, 1])] := by
  refine ⟨?_, ?_, ?_, ?_, ?_, ?_, ?_, ?_⟩ <;> decide!

set_option maxRecDepth 1000000 in
/-- C33 at reachable states. At `ex_ra_fanout` the entries of node A (slot 23) and node B
(slot 24) are marked `ra_pending`, `context_chaged` is clear, and the RA of the RR to all
nodes arrives with its SLLAO of 1 unit. Two frames are sent on the 6LoWPAN side, to
`ex_ip1` and to `ex_ip2`, and the flags are cleared, but the SLLAO of the first frame
holds the EUI-64 of the RR and the SLLAO of the second `00 11 22 ff fe ff fe 33`: the
second frame is made from the buffer that the first rewrite left. At `ex_ra_long` one
entry is pending and the RA is 288 octets long: the frame sent is 48 octets long, the
length kept in the 8-bit `aux_len`. -/
theorem fanout_emissions_differ :
    Reachable ex_ra_fanout
    ∧ ex_ra_fanout.incoming_if = .IEEE_802_3
    ∧ uip_icmp6chksum ex_ra_fanout = 0xffff
    ∧ destipaddr ex_ra_fanout = linklocal_allnodes_mcast
    ∧ readBytes ex_ra_fanout.uip_buf 70 8 = ex_sllao_mac
    ∧ (ex_ra_fanout.uip_len, ex_ra_fanout.context_chaged, ex_ra_fanout.ra_pending)
      = (64, false, true)
    ∧ (ex_ra_fanout.pgw_6ln_cache.map (fun n => (n.isused, n.ra_pending))).drop 22
      = [(false, false), (true, true), (true, true)]
    ∧ (proxy_input 8 ex_ra_fanout).map (fun t =>
        t.sent.map (fun f => (f.iface, f.dst, f.len, (f.bytes.drop 24).take 16)))
      = some [(.IEEE_802_15_4, some ex_eui_a, 72, ex_ip1),
              (.IEEE_802_15_4, some ex_eui_b, 72, ex_ip2)]
    ∧ (proxy_input 8 ex_ra_fanout).map (fun t => t.sent.map (fun f => f.bytes.drop 56))
      = some [[1, 2, 0x00, 0x11, 0x22, 0xff, 0xfe, 0x33, 0x44, 0x55, 0, 0, 0, 0, 0, 0],
              [1, 2, 0x00, 0x11, 0x22, 0xff, 0xfe, 0xff, 0xfe, 0x33, 0, 0, 0, 0, 0, 0]]
    ∧ (proxy_input 8 ex_ra_fanout).map (fun t =>
        (t.ra_pending, t.pgw_6ln_cache.any (fun n => n.isused && n.ra_pending)))
      = some (false, false)
    ∧ Reachable ex_ra_long
    ∧ uip_icmp6chksum ex_ra_long = 0xffff
    ∧ (ex_ra_long.uip_len, ex_ra_long.context_chaged, ex_ra_long.ra_pending)
      = (288, false, true)
    ∧ (proxy_input 8 ex_ra_long).map (fun t =>
        t.sent.map (fun f => (f.iface, f.dst, f.len, f.bytes.length)))
      = some [(.IEEE_802_15_4, some ex_eui_b, 48, 48)] := by
  refine ⟨Reachable.deliver _ _ _ _ _ _ _ _ _ _ ex_two_pending_reachable,
    ?_, ?_, ?_, ?_, ?_, ?_, ?_, ?_, ?_,
    Reachable.deliver _ _ _ _ _ _ _ _ _ _ ex_one_pending_reachable, ?_, ?_, ?_⟩ <;> decide!

set_option maxRecDepth 1000000 in
/-- C38 at a reachable state: an RA with a prefix information option at index 70 was
handled (`ex_ctx1`), and now an RA of the RR arrives whose only option is of an unknown
type: it contains no prefix information option, and nothing is pending. The static
`pgw_opt_prefix_info` still holds the index 70: bit `0x80` of the octet at index 73 of the
new RA is cleared, a context with length 255 and prefix `::` is created in slot 1 from
octets of the buffer, and the RA is forwarded instead of being dropped. The same RA right
after boot is dropped and changes nothing. -/
theorem ra_without_pio_creates_context :
    Reachable ex_ra_no_pio
    ∧ ex_ra_no_pio.incoming_if = .IEEE_802_3
    ∧ ex_ra_no_pio.uip_buf 54 = ICMP6_RA
    ∧ uip_icmp6chksum ex_ra_no_pio = 0xffff
    ∧ ex_ra_no_pio.uip_len = 64
    ∧ readBytes ex_ra_no_pio.uip_buf 70 8 = ex_opt_unknown
    ∧ (ex_ra_no_pio.pgw_opt_prefix_info, ex_ra_no_pio.ra_pending, ex_ra_no_pio.context_chaged)
      = (some 70, false, false)
    ∧ (ex_ra_no_pio.pgw_addr_context_table.take 2).map (fun c => (c.state, c.length))
      = [(IN_USE_UNCOMPRESS_ONLY, 64), (NOT_IN_USE, 0)]
    ∧ (proxy_input 8 ex_ra_no_pio).map (fun t => (t.uip_len, readBytes t.uip_buf 70 8))
      = some (120, [253, 1, 0xff, 0x7f, 0xff, 0xff, 0xff, 0xff])
    ∧ (proxy_input 8 ex_ra_no_pio).map (fun t =>
        (t.pgw_addr_context_table.take 2).map (fun c =>
          (c.state, c.length, c.context_id, c.prefix_.take 8)))
      = some [(IN_USE_UNCOMPRESS_ONLY, 64, 0, [0x20, 0x01, 0x0d, 0xb8, 0, 0, 0, 1]),
              (IN_USE_UNCOMPRESS_ONLY, 255, 1, [0, 0, 0, 0, 0, 0, 0, 0])]
    ∧ ex_ra_no_pio_first.pgw_opt_prefix_info = none
    ∧ (proxy_input 8 ex_ra_no_pio_first).map (fun t =>
        (t.uip_len, readBytes t.uip_buf 70 8,
          t.pgw_addr_context_table.all (fun c => c.state == NOT_IN_USE)))
      = some (0, ex_opt_unknown, true) := by
  refine ⟨Reachable.deliver _ _ _ _ _ _ _ _ _ _ ex_ctx1_reachable,
    ?_, ?_, ?_, ?_, ?_, ?_, ?_, ?_, ?_, ?_, ?_⟩ <;> decide!

set_option maxRecDepth 1000000 in
/-- C39 at a reachable state: node A holds `ex_ip1`, registered, and node B sends a valid
registration NS for `ex_ip1` in which the ARO (lifetime 5, EUI-64 of B) precedes the
SLLAO. The NA built by `pgw_registration_error` has status 1 and a TLLAO with the address
of the SLLAO, but its ARO has lifetime 0 and the EUI-64 `00 0b 00 00 00 00 00 00`: the
TLLAO was written over the ARO of the NS before the ARO was read. -/
theorem error_na_with_aro_first :
    Reachable ex_duplicate_aro_first
    ∧ ex_duplicate_aro_first.incoming_if = .IEEE_802_15_4
    ∧ ex_duplicate_aro_first.uip_buf 54 = ICMP6_NS
    ∧ uip_icmp6chksum ex_duplicate_aro_first = 0xffff
    ∧ srcipaddr ex_duplicate_aro_first = ex_ip1
    ∧ readBytes ex_duplicate_aro_first.uip_buf 78 16 = [131, 2, 0, 0, 0, 0, 0, 5] ++ ex_eui_b
    ∧ readBytes ex_duplicate_aro_first.uip_buf 94 16 = ex_sllao ex_eui_b
    ∧ ex_duplicate_aro_first.pgw_6ln_cache[24]?.map (fun n =>
        (n.isused, n.ipaddr, n.lladdr, n.state)) = some (true, ex_ip1, ex_eui_a, PGW_REGISTERED)
    ∧ (proxy_input 8 ex_duplicate_aro_first).map (fun t =>
        (t.uip_len, t.outgoing_if, t.uip_buf 54, uip_icmp6chksum t))
      = some (96, .IEEE_802_15_4, ICMP6_NA, 0xffff)
    ∧ (proxy_input 8 ex_duplicate_aro_first).map (fun t => readBytes t.uip_buf 78 16)
      = some ([2, 2] ++ ex_eui_b ++ [0, 0, 0, 0, 0, 0])
    ∧ (proxy_input 8 ex_duplicate_aro_first).map (fun t => readBytes t.uip_buf 94 16)
      = some [131, 2, 1, 0, 0, 0, 0, 0, 0x00, 0x0b, 0, 0, 0, 0, 0, 0] := by
  refine ⟨Reachable.deliver _ _ _ _ _ _ _ _ _ _ ex_s3_reachable,
    ?_, ?_, ?_, ?_, ?_, ?_, ?_, ?_, ?_, ?_⟩ <;> decide!

set_option maxRecDepth 1000000 in
/-- C40 at reachable states: node B sent an RS with source `ex_ip2` and no NS, so its
entry (slot 24) is tentative with `aro_pending` clear. The periodic tick of the next
second sends a DAD NS for `ex_ip2` toward Ethernet, and the tick two seconds later makes
the entry registered and leaves for node B an NA with an ARO of status 0. -/
theorem rs_entry_becomes_registered :
    Reachable ex_rs_tick2
    ∧ (run_input ex_rs_new).pgw_6ln_cache[24]?.map (fun n =>
        (n.isused, n.ipaddr, n.lladdr, n.state, n.aro_pending, n.ra_pending))
      = some (true, ex_ip2, ex_eui_b, PGW_TENTATIVE, false, true)
    ∧ (ex_rs_tick1.uip_len, ex_rs_tick1.outgoing_if, ex_rs_tick1.uip_buf 54)
      = (64, .IEEE_802_3, ICMP6_NS)
    ∧ tgtipaddr ex_rs_tick1 = ex_ip2
    ∧ ex_rs_tick1.pgw_6ln_cache[24]?.map (fun n => (n.state, n.aro_pending, n.dadnscount))
      = some (PGW_TENTATIVE, false, 1)
    ∧ ex_rs_tick2.pgw_6ln_cache[24]?.map (fun n => (n.isused, n.ipaddr, n.state, n.aro_pending))
      = some (true, ex_ip2, PGW_REGISTERED, false)
    ∧ (ex_rs_tick2.uip_len, ex_rs_tick2.outgoing_if, ex_rs_tick2.uip_buf 54,
        ex_rs_tick2.dst_eui64) = (96, .IEEE_802_15_4, ICMP6_NA, ex_eui_b)
    ∧ destipaddr ex_rs_tick2 = ex_ip2
    ∧ readBytes ex_rs_tick2.uip_buf 94 16 = [131, 2, 0, 0, 0, 0, 0, 0] ++ ex_eui_b
    ∧ (pgw_output 8 ex_rs_tick2).map (fun t => t.sent.map (fun f => (f.iface, f.dst, f.len)))
      = some [(.IEEE_802_15_4, some ex_eui_b, 96)] := by
  refine ⟨Reachable.periodic _ (Reachable.deliver _ _ _ _ _ _ _ _ _ _
      (Reachable.periodic _ (Reachable.deliver _ _ _ _ _ _ _ _ _ _ ex_rs_new_reachable))),
    ?_, ?_, ?_, ?_, ?_, ?_, ?_, ?_, ?_⟩ <;> decide!

/-! ## The periodic tick and the reachable timers -/

theorem pgw_dad_cache_ne (s : State) (i q : Nat) (h : q ≠ i) :
    (pgw_dad s i).pgw_6ln_cache[q]? = s.pgw_6ln_cache[q]? := by
  unfold pgw_dad
  split
  · rfl
  · split_ifs
    · exact updNbr_getElem?_ne _ _ _ _ h
    · rw [pgw_dad_response_cache]
      exact updNbr_getElem?_ne _ _ _ _ h

theorem pgw_dad_cache_eq (s : State) (i : Nat) (n : pgw_nbr_t)
    (hn : s.pgw_6ln_cache[i]? = some n) :
    ∃ m, (pgw_dad s i).pgw_6ln_cache[i]? = some m ∧ m.isused = n.isused
      ∧ m.reachable = n.reachable := by
  unfold pgw_dad
  simp only [hn]
  split_ifs
  · exact ⟨_, updNbr_getElem?_eq _ _ _ _ hn, rfl, rfl⟩
  · rw [pgw_dad_response_cache]
    exact ⟨_, updNbr_getElem?_eq _ _ _ _ hn, rfl, rfl⟩

/-- The neighbor loop of `pgw_periodic` from entry `j` on leaves the entries before `j`
as they are. -/
theorem periodic_nbrs_before (k : Nat) : ∀ (j : Nat) (s : State) (q : Nat), q < j →
    (periodic_nbrs k j s).pgw_6ln_cache[q]? = s.pgw_6ln_cache[q]? := by
  induction k with
  | zero => intro j s q _; rfl
  | succ k ih =>
    intro j s q hq
    unfold periodic_nbrs
    split
    · rfl
    · split_ifs
      · rw [ih (j + 1) _ q (by omega)]
        exact updNbr_getElem?_ne _ _ _ _ (by omega)
      · exact pgw_dad_cache_ne s j q (by omega)
      · exact ih (j + 1) s q (by omega)
      · exact ih (j + 1) s q (by omega)
      · exact ih (j + 1) s q (by omega)

/-- When no entry from `j` on is due for DAD, the loop removes every used entry from `j`
on whose reachable timer has expired and leaves the others as they are. -/
theorem periodic_nbrs_no_dad (k : Nat) : ∀ (j : Nat) (s : State),
    (∀ q m, j ≤ q → q < j + k → s.pgw_6ln_cache[q]? = some m → ¬ dad_due s m) →
    ∀ q n, j ≤ q → q < j + k → s.pgw_6ln_cache[q]? = some n →
      (periodic_nbrs k j s).pgw_6ln_cache[q]?
        = some (if n.isused = true ∧ stimer_expired s.clock_seconds n.reachable = true then
            { n with isused := false } else n) := by
  induction k with
  | zero => intro j s _ q n h1 h2; omega
  | succ k ih =>
    intro j s hno q n h1 h2 hn
    have hjl : j < s.pgw_6ln_cache.length := by
      have := (List.getElem?_eq_some_iff.mp hn).1
      omega
    have hm : s.pgw_6ln_cache[j]? = some (s.pgw_6ln_cache[j]) := List.getElem?_eq_getElem hjl
    have hnd := hno j _ (le_refl _) (by omega) hm
    unfold periodic_nbrs
    simp only [hm]
    by_cases hqj : q = j
    · subst hqj
      rw [hm] at hn
      simp only [Option.some.injEq] at hn
      subst hn
      generalize hR : (some (if (s.pgw_6ln_cache[q]).isused = true
          ∧ stimer_expired s.clock_seconds (s.pgw_6ln_cache[q]).reachable = true
        then { s.pgw_6ln_cache[q] with isused := false } else s.pgw_6ln_cache[q]) :
          Option pgw_nbr_t) = R
      by_cases hu : (s.pgw_6ln_cache[q]).isused = true
      · by_cases he : stimer_expired s.clock_seconds (s.pgw_6ln_cache[q]).reachable = true
        · rw [if_pos hu, if_pos he, periodic_nbrs_before k (q + 1) _ q (by omega), ← hR,
            if_pos ⟨hu, he⟩]
          exact updNbr_getElem?_eq _ _ _ _ hm
        · rw [if_pos hu, if_neg he]
          by_cases ht : (s.pgw_6ln_cache[q]).state = PGW_TENTATIVE
              ∧ uip_is_addr_linklocal (s.pgw_6ln_cache[q]).ipaddr = false
          · rw [if_pos ht]
            by_cases hd : (s.pgw_6ln_cache[q]).dadnscount ≤ PGW_MAX_DAD_NS
                ∧ timer_expired s.clock_time (s.pgw_6ln_cache[q]).dadtimer = true
            · exact absurd ⟨hu, by simpa using he, ht.1, ht.2, hd.1, hd.2⟩ hnd
            · rw [if_neg hd, periodic_nbrs_before k (q + 1) _ q (by omega), ← hR,
                if_neg (fun h => he h.2)]
              exact hm
          · rw [if_neg ht, periodic_nbrs_before k (q + 1) _ q (by omega), ← hR,
              if_neg (fun h => he h.2)]
            exact hm
      · rw [if_neg hu, periodic_nbrs_before k (q + 1) _ q (by omega), ← hR,
          if_neg (fun h => hu h.1)]
        exact hm
    · have hrest : ∀ (s1 : State), s1.clock_seconds = s.clock_seconds →
          s1.clock_time = s.clock_time →
          (∀ p, p ≠ j → s1.pgw_6ln_cache[p]? = s.pgw_6ln_cache[p]?) →
          (periodic_nbrs k (j + 1) s1).pgw_6ln_cache[q]?
            = some (if n.isused = true ∧ stimer_expired s.clock_seconds n.reachable = true then
                { n with isused := false } else n) := by
        intro s1 hc1 hc2 hs1
        have := ih (j + 1) s1 (by
          intro p m hp1 hp2 hpm hd
          rw [hs1 p (by omega)] at hpm
          apply hno p m (by omega) (by omega) hpm
          unfold dad_due at hd ⊢
          rw [hc1, hc2] at hd
          exact hd) q n (by omega) (by omega) (by rw [hs1 q hqj]; exact hn)
        rw [hc1] at this
        exact this
      generalize (some (if n.isused = true ∧ stimer_expired s.clock_seconds n.reachable = true
        then { n with isused := false } else n) : Option pgw_nbr_t) = R at hrest ⊢
      by_cases hu : (s.pgw_6ln_cache[j]).isused = true
      · by_cases he : stimer_expired s.clock_seconds (s.pgw_6ln_cache[j]).reachable = true
        · rw [if_pos hu, if_pos he]
          exact hrest _ rfl rfl (fun p hp => updNbr_getElem?_ne s.pgw_6ln_cache j p _ hp)
        · rw [if_pos hu, if_neg he]
          by_cases ht : (s.pgw_6ln_cache[j]).state = PGW_TENTATIVE
              ∧ uip_is_addr_linklocal (s.pgw_6ln_cache[j]).ipaddr = false
          · rw [if_pos ht]
            by_cases hd : (s.pgw_6ln_cache[j]).dadnscount ≤ PGW_MAX_DAD_NS
                ∧ timer_expired s.clock_time (s.pgw_6ln_cache[j]).dadtimer = true
            · exact absurd ⟨hu, by simpa using he, ht.1, ht.2, hd.1, hd.2⟩ hnd
            · rw [if_neg hd]
              exact hrest s rfl rfl (fun _ _ => rfl)
          · rw [if_neg ht]
            exact hrest s rfl rfl (fun _ _ => rfl)
      · rw [if_neg hu]
        exact hrest s rfl rfl (fun _ _ => rfl)

/-- The neighbor loop of `pgw_periodic` up to the first entry due for DAD: the used
entries before it whose reachable timer has expired are removed, that entry is handed to
`pgw_dad`, and the entries after it are not visited. -/
theorem periodic_nbrs_until_dad (k : Nat) : ∀ (j : Nat) (s : State) (i : Nat) (n : pgw_nbr_t),
    i < j + k → j ≤ i → s.pgw_6ln_cache[i]? = some n → dad_due s n →
    (∀ q m, j ≤ q → q < i → s.pgw_6ln_cache[q]? = some m → ¬ dad_due s m) →
    ∃ cs : List pgw_nbr_t, periodic_nbrs k j s = pgw_dad { s with pgw_6ln_cache := cs } i
      ∧ cs[i]? = some n
      ∧ (∀ q, q < j ∨ i < q → cs[q]? = s.pgw_6ln_cache[q]?)
      ∧ (∀ q m, j ≤ q → q < i → s.pgw_6ln_cache[q]? = some m →
          cs[q]? = some (if m.isused = true ∧ stimer_expired s.clock_seconds m.reachable = true
            then { m with isused := false } else m)) := by
  induction k with
  | zero => intro j s i n hk hj; omega
  | succ k ih =>
    intro j s i n hk hj hn hdue hfirst
    unfold periodic_nbrs
    by_cases hji : j = i
    · subst hji
      obtain ⟨d1, d2, d3, d4, d5, d6⟩ := hdue
      simp only [hn, d1, d2, d3, d4, d5, d6, if_true, and_self, Bool.false_eq_true, if_false]
      exact ⟨s.pgw_6ln_cache, rfl, hn, fun _ _ => rfl, fun q m h1 h2 => by omega⟩
    · have hlt : j < i := by omega
      have hjl : j < s.pgw_6ln_cache.length := by
        have := (List.getElem?_eq_some_iff.mp hn).1
        omega
      have hm : s.pgw_6ln_cache[j]? = some (s.pgw_6ln_cache[j]) := List.getElem?_eq_getElem hjl
      have hnd := hfirst j _ (le_refl _) hlt hm
      simp only [hm]
      have hrest : ∀ (c1 : List pgw_nbr_t),
          (∀ p, p ≠ j → c1[p]? = s.pgw_6ln_cache[p]?) →
          c1[j]? = some (if (s.pgw_6ln_cache[j]).isused = true
              ∧ stimer_expired s.clock_seconds (s.pgw_6ln_cache[j]).reachable = true
            then { s.pgw_6ln_cache[j] with isused := false } else s.pgw_6ln_cache[j]) →
          ∃ cs : List pgw_nbr_t,
            periodic_nbrs k (j + 1) { s with pgw_6ln_cache := c1 }
              = pgw_dad { s with pgw_6ln_cache := cs } i
            ∧ cs[i]? = some n
            ∧ (∀ q, q < j ∨ i < q → cs[q]? = s.pgw_6ln_cache[q]?)
            ∧ (∀ q m, j ≤ q → q < i → s.pgw_6ln_cache[q]? = some m →
                cs[q]? = some (if m.isused = true
                    ∧ stimer_expired s.clock_seconds m.reachable = true
                  then { m with isused := false } else m)) := by
        intro c1 hc1 hc1j
        obtain ⟨cs, g1, g2, g3, g4⟩ := ih (j + 1) { s with pgw_6ln_cache := c1 } i n
          (by omega) (by omega)
          (by
            show c1[i]? = some n
            rw [hc1 i (by omega)]
            exact hn)
          hdue
          (fun q m h1 h2 h3 => hfirst q m (by omega) h2 (by
            have : c1[q]? = some m := h3
            rw [hc1 q (by omega)] at this
            exact this))
        refine ⟨cs, g1, g2, ?_, ?_⟩
        · intro q hq
          rcases hq with hq | hq
          · have := g3 q (Or.inl (by omega))
            rw [this]
            exact hc1 q (by omega)
          · have := g3 q (Or.inr hq)
            rw [this]
            exact hc1 q (by omega)
        · intro q m h1 h2 h3
          by_cases hqj : q = j
          · subst hqj
            have := g3 q (Or.inl (by omega))
            rw [this]
            rw [hm] at h3
            simp only [Option.some.injEq] at h3
            subst h3
            exact hc1j
          · exact g4 q m (by omega) h2 (by
              show c1[q]? = some m
              rw [hc1 q hqj]
              exact h3)
      by_cases hu : (s.pgw_6ln_cache[j]).isused = true
      · by_cases he : stimer_expired s.clock_seconds (s.pgw_6ln_cache[j]).reachable = true
        · rw [if_pos hu, if_pos he]
          exact hrest _ (fun p hp => updNbr_getElem?_ne s.pgw_6ln_cache j p _ hp) (by
            rw [if_pos ⟨hu, he⟩]
            exact updNbr_getElem?_eq _ _ _ _ hm)
        · rw [if_pos hu, if_neg he]
          by_cases ht : (s.pgw_6ln_cache[j]).state = PGW_TENTATIVE
              ∧ uip_is_addr_linklocal (s.pgw_6ln_cache[j]).ipaddr = false
          · rw [if_pos ht]
            by_cases hd : (s.pgw_6ln_cache[j]).dadnscount ≤ PGW_MAX_DAD_NS
                ∧ timer_expired s.clock_time (s.pgw_6ln_cache[j]).dadtimer = true
            · exact absurd ⟨hu, by simpa using he, ht.1, ht.2, hd.1, hd.2⟩ hnd
            · rw [if_neg hd]
              exact hrest s.pgw_6ln_cache (fun _ _ => rfl) (by
                rw [if_neg (fun h => he h.2)]
                exact hm)
          · rw [if_neg ht]
            exact hrest s.pgw_6ln_cache (fun _ _ => rfl) (by
              rw [if_neg (fun h => he h.2)]
              exact hm)
      · rw [if_neg hu]
        exact hrest s.pgw_6ln_cache (fun _ _ => rfl) (by
          rw [if_neg (fun h => hu h.1)]
          exact hm)

theorem pgw_dad_cache_length (s : State) (i : Nat) :
    (pgw_dad s i).pgw_6ln_cache.length = s.pgw_6ln_cache.length := by
  unfold pgw_dad
  split
  · rfl
  · split_ifs
    · exact updNbr_length _ _ _
    · rw [pgw_dad_response_cache]
      exact updNbr_length _ _ _

theorem periodic_nbrs_cache_length (k : Nat) : ∀ (j : Nat) (s : State),
    (periodic_nbrs k j s).pgw_6ln_cache.length = s.pgw_6ln_cache.length := by
  induction k with
  | zero => intro j s; rfl
  | succ k ih =>
    intro j s
    unfold periodic_nbrs
    split
    · rfl
    · split_ifs
      · rw [ih]
        exact updNbr_length _ _ _
      · exact pgw_dad_cache_length s j
      · exact ih _ _
      · exact ih _ _
      · exact ih _ _

/-- C34 (as the code has it). When no used entry is due for DAD, after `pgw_periodic` no
used entry of the cache has an expired reachable timer. When entry `i` is the first one
due for DAD, after `pgw_periodic` no used entry up to `i` has an expired reachable timer,
and the entries after `i` are as they were, expired or not: the loop returns after
`pgw_dad`. A used entry whose reachable timer has expired (as it has, at any later
second, when the registered lifetime is 0) is removed by the tick when no entry before it
is due for DAD. -/
theorem expired_neighbors_removed_up_to_dad (s : State) :
    ((∀ (q : Nat) (m : pgw_nbr_t), s.pgw_6ln_cache[q]? = some m → ¬ dad_due s m) →
        ∀ (q : Nat) (m : pgw_nbr_t), (pgw_periodic s).pgw_6ln_cache[q]? = some m → m.isused = true →
          stimer_expired s.clock_seconds m.reachable = false)
    ∧ (∀ (i : Nat) (n : pgw_nbr_t), s.pgw_6ln_cache[i]? = some n → dad_due s n →
        (∀ (q : Nat) (m : pgw_nbr_t), q < i → s.pgw_6ln_cache[q]? = some m → ¬ dad_due s m) →
        (∀ (q : Nat) (m : pgw_nbr_t), q ≤ i → (pgw_periodic s).pgw_6ln_cache[q]? = some m → m.isused = true →
          stimer_expired s.clock_seconds m.reachable = false)
        ∧ (∀ q, i < q → (pgw_periodic s).pgw_6ln_cache[q]? = s.pgw_6ln_cache[q]?))
    ∧ (∀ (q : Nat) (n : pgw_nbr_t), s.pgw_6ln_cache[q]? = some n → n.isused = true →
        stimer_expired s.clock_seconds n.reachable = true →
        (∀ (p : Nat) (m : pgw_nbr_t), p < q → s.pgw_6ln_cache[p]? = some m → ¬ dad_due s m) →
        (pgw_periodic s).pgw_6ln_cache[q]? = some { n with isused := false }) := by
  have key : ∀ (m n : pgw_nbr_t),
      m = (if n.isused = true ∧ stimer_expired s.clock_seconds n.reachable = true then
        { n with isused := false } else n) → m.isused = true →
      stimer_expired s.clock_seconds m.reachable = false := by
    intro m n hm hu
    by_cases hc : n.isused = true ∧ stimer_expired s.clock_seconds n.reachable = true
    · rw [if_pos hc] at hm
      rw [hm] at hu
      simp at hu
    · rw [if_neg hc] at hm
      subst hm
      have : ¬ stimer_expired s.clock_seconds m.reachable = true := fun h => hc ⟨hu, h⟩
      simpa using this
  have hstep : ∀ (i : Nat) (n : pgw_nbr_t), s.pgw_6ln_cache[i]? = some n → dad_due s n →
      (∀ (q : Nat) (m : pgw_nbr_t), q < i → s.pgw_6ln_cache[q]? = some m → ¬ dad_due s m) →
      (∀ (q : Nat) (m : pgw_nbr_t), q < i → s.pgw_6ln_cache[q]? = some m →
        (pgw_periodic s).pgw_6ln_cache[q]?
          = some (if m.isused = true ∧ stimer_expired s.clock_seconds m.reachable = true
              then { m with isused := false } else m))
      ∧ (∃ m, (pgw_periodic s).pgw_6ln_cache[i]? = some m ∧ m.isused = n.isused
          ∧ m.reachable = n.reachable)
      ∧ (∀ q, i < q → (pgw_periodic s).pgw_6ln_cache[q]? = s.pgw_6ln_cache[q]?) := by
    intro i n hn hdue hfirst
    have hil : i < s.pgw_6ln_cache.length := (List.getElem?_eq_some_iff.mp hn).1
    obtain ⟨cs, g1, g2, g3, g4⟩ := periodic_nbrs_until_dad s.pgw_6ln_cache.length 0
      { s with
        pgw_addr_context_table := (periodic_contexts s.clock_seconds
          SICSLOWPAN_CONF_MAX_ADDR_CONTEXTS s.pgw_addr_context_table s.context_chaged).1
        context_chaged := (periodic_contexts s.clock_seconds
          SICSLOWPAN_CONF_MAX_ADDR_CONTEXTS s.pgw_addr_context_table s.context_chaged).2 }
      i n (by omega) (Nat.zero_le _) hn hdue (fun q m _ h2 h3 => hfirst q m h2 h3)
    have hp : pgw_periodic s = pgw_dad _ i := g1
    refine ⟨?_, ?_, ?_⟩
    · intro q m hq hm
      rw [hp, pgw_dad_cache_ne _ i q (by omega)]
      exact g4 q m (Nat.zero_le _) hq hm
    · rw [hp]
      exact pgw_dad_cache_eq _ i n g2
    · intro q hq
      rw [hp, pgw_dad_cache_ne _ i q (by omega)]
      exact g3 q (Or.inr hq)
  have hnone : (∀ (q : Nat) (m : pgw_nbr_t), s.pgw_6ln_cache[q]? = some m → ¬ dad_due s m) →
      ∀ (q : Nat) (n : pgw_nbr_t), s.pgw_6ln_cache[q]? = some n →
        (pgw_periodic s).pgw_6ln_cache[q]?
          = some (if n.isused = true ∧ stimer_expired s.clock_seconds n.reachable = true
              then { n with isused := false } else n) := by
    intro hno q n hn
    have hql : q < s.pgw_6ln_cache.length := (List.getElem?_eq_some_iff.mp hn).1
    exact periodic_nbrs_no_dad s.pgw_6ln_cache.length 0
      { s with
        pgw_addr_context_table := (periodic_contexts s.clock_seconds
          SICSLOWPAN_CONF_MAX_ADDR_CONTEXTS s.pgw_addr_context_table s.context_chaged).1
        context_chaged := (periodic_contexts s.clock_seconds
          SICSLOWPAN_CONF_MAX_ADDR_CONTEXTS s.pgw_addr_context_table s.context_chaged).2 }
      (fun p m _ _ h3 => hno p m h3) q n (Nat.zero_le _) (by omega) hn
  have hlen : (pgw_periodic s).pgw_6ln_cache.length = s.pgw_6ln_cache.length :=
    periodic_nbrs_cache_length _ _ _
  refine ⟨?_, ?_, ?_⟩
  · intro hno q m hm hu
    have hql : q < s.pgw_6ln_cache.length := by
      rw [← hlen]
      exact (List.getElem?_eq_some_iff.mp hm).1
    have hn : s.pgw_6ln_cache[q]? = some (s.pgw_6ln_cache[q]) := List.getElem?_eq_getElem hql
    have := hnone hno q _ hn
    rw [hm] at this
    simp only [Option.some.injEq] at this
    exact key m _ this hu
  · intro i n hn hdue hfirst
    obtain ⟨h1, ⟨m0, h2, h3, h4⟩, h5⟩ := hstep i n hn hdue hfirst
    refine ⟨?_, h5⟩
    intro q m hq hm hu
    by_cases hqi : q = i
    · subst hqi
      rw [h2] at hm
      simp only [Option.some.injEq] at hm
      subst hm
      rw [h4]
      exact hdue.2.1
    · have hql : q < s.pgw_6ln_cache.length := by
        rw [← hlen]
        exact (List.getElem?_eq_some_iff.mp hm).1
      have hn2 : s.pgw_6ln_cache[q]? = some (s.pgw_6ln_cache[q]) := List.getElem?_eq_getElem hql
      have := h1 q _ (by omega) hn2
      rw [hm] at this
      simp only [Option.some.injEq] at this
      exact key m _ this hu
  · intro q n hn hu he hbefore
    by_cases hex : ∃ i : Nat, ∃ m : pgw_nbr_t, s.pgw_6ln_cache[i]? = some m ∧ dad_due s m
    · obtain ⟨i0, ⟨m, hm1, hm2⟩, hmin⟩ : ∃ i : Nat, (∃ m : pgw_nbr_t, s.pgw_6ln_cache[i]? = some m ∧ dad_due s m)
          ∧ ∀ j : Nat, j < i → ¬ ∃ m : pgw_nbr_t, s.pgw_6ln_cache[j]? = some m ∧ dad_due s m := by
        classical
        exact ⟨Nat.find hex, Nat.find_spec hex, fun j hj => Nat.find_min hex hj⟩
      have hqi : q < i0 := by
        by_contra hge
        have hge2 : i0 ≤ q := by omega
        rcases Nat.lt_or_eq_of_le hge2 with hlt | heq
        · exact hbefore _ m hlt hm1 hm2
        · rw [heq, hn] at hm1
          simp only [Option.some.injEq] at hm1
          subst hm1
          have := hm2.2.1
          rw [he] at this
          exact absurd this (by decide)
      obtain ⟨h1, _, _⟩ := hstep i0 m hm1 hm2
        (fun p r hp hr hd => hmin p hp ⟨r, hr, hd⟩)
      have := h1 q n hqi hn
      rw [if_pos ⟨hu, he⟩] at this
      exact this
    · have hno : ∀ (p : Nat) (m : pgw_nbr_t), s.pgw_6ln_cache[p]? = some m → ¬ dad_due s m :=
        fun p m hp hd => hex ⟨p, m, hp, hd⟩
      have := hnone hno q n hn
      rw [if_pos ⟨hu, he⟩] at this
      exact this

set_option maxRecDepth 1000000 in
theorem ex_b_registers_reachable : Reachable ex_b_registers :=
  run_input_reachable _ (Reachable.deliver _ _ _ _ _ _ _ _ _ _ ex_s3_reachable) (by decide!)

set_option maxRecDepth 1000000 in
theorem ex_tick_lifetime_0_reachable : Reachable ex_tick_lifetime_0 :=
  Reachable.deliver _ _ _ _ _ _ _ _ _ _
    (run_input_reachable _ (Reachable.deliver _ _ _ _ _ _ _ _ _ _ ex_s3_reachable) (by decide!))

set_option maxRecDepth 1000000 in
/-- C34, witness: at `ex_tick_lifetime_0` node A has registered `ex_ip1` with lifetime 0 at
second 20 and it is second 21. The entry (slot 24) is used, its reachable timer has
expired, and the slots before it are unused, so none is due for DAD: `pgw_periodic`
leaves the entry with `isused` clear. -/
theorem expired_neighbors_removed_up_to_dad_witness :
    Reachable ex_tick_lifetime_0
    ∧ ex_tick_lifetime_0.clock_seconds = 21
    ∧ ex_tick_lifetime_0.pgw_6ln_cache[24]?.map (fun n =>
        (n.isused, n.ipaddr, n.state, n.reachable)) = some (true, ex_ip1, PGW_REGISTERED, ⟨20, 0⟩)
    ∧ (∀ (p : Nat) (m : pgw_nbr_t), p < 24 → ex_tick_lifetime_0.pgw_6ln_cache[p]? = some m →
        ¬ dad_due ex_tick_lifetime_0 m)
    ∧ (pgw_periodic ex_tick_lifetime_0).pgw_6ln_cache[24]?.map (fun n => (n.isused, n.ipaddr))
        = some (false, ex_ip1) := by
  have hl : 24 < ex_tick_lifetime_0.pgw_6ln_cache.length := by decide!
  have h0 : ∀ p : Fin 24,
      ex_tick_lifetime_0.pgw_6ln_cache[p.val]?.map (fun n => n.isused) = some false := by decide!
  have hb : ∀ (p : Nat) (m : pgw_nbr_t), p < 24 →
      ex_tick_lifetime_0.pgw_6ln_cache[p]? = some m → ¬ dad_due ex_tick_lifetime_0 m := by
    intro p m hp hm hd
    have h := h0 ⟨p, hp⟩
    simp only [hm, Option.map_some', Option.some.injEq] at h
    rw [hd.1] at h
    exact absurd h (by decide)
  have h24 : ex_tick_lifetime_0.pgw_6ln_cache[24]?.map (fun n =>
      (n.isused, n.ipaddr, n.state, n.reachable))
      = some (true, ex_ip1, PGW_REGISTERED, ⟨20, 0⟩) := by decide!
  have hs : ex_tick_lifetime_0.clock_seconds = 21 := by decide!
  obtain ⟨n, hn⟩ : ∃ n, ex_tick_lifetime_0.pgw_6ln_cache[24]? = some n :=
    ⟨_, List.getElem?_eq_getElem hl⟩
  have hf : n.isused = true ∧ n.ipaddr = ex_ip1 ∧ n.state = PGW_REGISTERED
      ∧ n.reachable = ⟨20, 0⟩ := by
    have h := h24
    rw [hn] at h
    simpa using h
  have key := (expired_neighbors_removed_up_to_dad ex_tick_lifetime_0).2.2 24 n hn hf.1
    (by rw [hs, hf.2.2.2]; decide) hb
  refine ⟨ex_tick_lifetime_0_reachable, hs, h24, hb, ?_⟩
  rw [key]
  simp only [Option.map_some', hf.2.1]

set_option maxRecDepth 1000000 in
/-- C34, counterexample: at `ex_tick_behind_dad` it is second 310. The entry of node A
(slot 24, registered at second 10 for 300 s) has expired, and the entry of node B
(slot 23, tentative) is due for DAD. `pgw_periodic` completes the DAD of slot 23 (the NA
for node B is in the buffer) and returns: slot 24 is still used and its reachable timer
is expired. -/
theorem expired_entry_behind_dad_stays :
    Reachable ex_tick_behind_dad
    ∧ ex_tick_behind_dad.clock_seconds = 310
    ∧ ex_tick_behind_dad.pgw_6ln_cache[23]?.map (fun n =>
        (n.isused, n.ipaddr, n.state, n.dadnscount)) = some (true, ex_ip2, PGW_TENTATIVE, 1)
    ∧ ex_tick_behind_dad.pgw_6ln_cache[24]?.map (fun n =>
        (n.isused, n.ipaddr, n.state, n.reachable)) = some (true, ex_ip1, PGW_REGISTERED, ⟨10, 300⟩)
    ∧ (pgw_periodic ex_tick_behind_dad).pgw_6ln_cache[23]?.map (fun n =>
        (n.isused, n.ipaddr, n.state)) = some (true, ex_ip2, PGW_REGISTERED)
    ∧ ((pgw_periodic ex_tick_behind_dad).uip_len, (pgw_periodic ex_tick_behind_dad).uip_buf 54)
        = (96, ICMP6_NA)
    ∧ (pgw_periodic ex_tick_behind_dad).pgw_6ln_cache[24]?.map (fun n =>
        (n.isused, n.ipaddr, stimer_expired 310 n.reachable)) = some (true, ex_ip1, true) := by
  refine ⟨Reachable.deliver _ _ _ _ _ _ _ _ _ _ ex_b_registers_reachable,
    ?_, ?_, ?_, ?_, ?_, ?_⟩ <;> decide!

/-! ## Eviction in `pgw_nbr_add` -/

theorem find_oldest_keep (cache : List pgw_nbr_t) : ∀ (k : Nat) (oldest : Option Nat) (t : Nat),
    (∀ n ∈ cache, ¬ (n.isused = true ∧ n.last_lookup < t
      ∧ n.state = PGW_GARBAGE_COLLECTIBLE)) →
    find_oldest cache k oldest t = oldest := by
  induction cache with
  | nil => intro k oldest t _; rfl
  | cons a rest ih =>
    intro k oldest t h
    unfold find_oldest
    rw [if_neg (fun hc => by
      simp only [Bool.and_eq_true, decide_eq_true_eq] at hc
      exact h a (List.mem_cons_self _ _) hc)]
    exact ih (k + 1) oldest t (fun n hn => h n (List.mem_cons_of_mem _ hn))

/-- The scan of the `NOSPACE` branch returns the first of the used garbage-collectible
entries with the smallest `last_lookup`, when one of them was looked up before
`oldest_time`. -/
theorem find_oldest_spec (cache : List pgw_nbr_t) : ∀ (k : Nat) (oldest : Option Nat) (t : Nat),
    (∃ n ∈ cache, n.isused = true ∧ n.last_lookup < t ∧ n.state = PGW_GARBAGE_COLLECTIBLE) →
    ∃ (j : Nat) (v : pgw_nbr_t), find_oldest cache k oldest t = some (k + j)
      ∧ cache[j]? = some v ∧ v.isused = true ∧ v.last_lookup < t
      ∧ v.state = PGW_GARBAGE_COLLECTIBLE
      ∧ (∀ (q : Nat) (m : pgw_nbr_t), cache[q]? = some m → m.isused = true →
          m.state = PGW_GARBAGE_COLLECTIBLE → v.last_lookup ≤ m.last_lookup)
      ∧ (∀ (q : Nat) (m : pgw_nbr_t), q < j → cache[q]? = some m → m.isused = true →
          m.state = PGW_GARBAGE_COLLECTIBLE → v.last_lookup < m.last_lookup) := by
  induction cache with
  | nil => intro k oldest t h; simp at h
  | cons a rest ih =>
    intro k oldest t hex
    unfold find_oldest
    by_cases hc : a.isused = true ∧ a.last_lookup < t ∧ a.state = PGW_GARBAGE_COLLECTIBLE
    · rw [if_pos (by simp only [Bool.and_eq_true, decide_eq_true_eq]; exact hc)]
      by_cases hr : ∃ n ∈ rest, n.isused = true ∧ n.last_lookup < a.last_lookup
          ∧ n.state = PGW_GARBAGE_COLLECTIBLE
      · obtain ⟨j, v, h1, h2, h3, h4, h5, h6, h7⟩ := ih (k + 1) (some k) a.last_lookup hr
        refine ⟨j + 1, v, by rw [h1]; congr 1; omega, by simpa using h2, h3,
          by have := hc.2.1; omega, h5, ?_, ?_⟩
        · intro q m hq hu hs
          cases q with
          | zero =>
            simp only [List.getElem?_cons_zero, Option.some.injEq] at hq
            subst hq
            omega
          | succ q =>
            simp only [List.getElem?_cons_succ] at hq
            exact h6 q m hq hu hs
        · intro q m hlt hq hu hs
          cases q with
          | zero =>
            simp only [List.getElem?_cons_zero, Option.some.injEq] at hq
            subst hq
            exact h4
          | succ q =>
            simp only [List.getElem?_cons_succ] at hq
            exact h7 q m (by omega) hq hu hs
      · rw [find_oldest_keep rest (k + 1) (some k) a.last_lookup
          (fun n hn hx => hr ⟨n, hn, hx⟩)]
        refine ⟨0, a, rfl, by simp, hc.1, hc.2.1, hc.2.2, ?_, ?_⟩
        · intro q m hq hu hs
          cases q with
          | zero =>
            simp only [List.getElem?_cons_zero, Option.some.injEq] at hq
            subst hq
            exact le_refl _
          | succ q =>
            simp only [List.getElem?_cons_succ] at hq
            have hm : m ∈ rest := List.getElem?_mem hq
            by_contra hlt
            exact hr ⟨m, hm, hu, by omega, hs⟩
        · intro q m hlt
          omega
    · rw [if_neg (fun h => hc (by
        simp only [Bool.and_eq_true, decide_eq_true_eq] at h
        exact h))]
      obtain ⟨n, hn, hx⟩ := hex
      have hn2 : n ∈ rest := by
        rcases List.mem_cons.mp hn with e | e
        · subst e
          exact absurd hx hc
        · exact e
      obtain ⟨j, v, h1, h2, h3, h4, h5, h6, h7⟩ := ih (k + 1) oldest t ⟨n, hn2, hx⟩
      refine ⟨j + 1, v, by rw [h1]; congr 1; omega, by simpa using h2, h3, h4, h5, ?_, ?_⟩
      · intro q m hq hu hs
        cases q with
        | zero =>
          simp only [List.getElem?_cons_zero, Option.some.injEq] at hq
          subst hq
          have : ¬ a.last_lookup < t := fun hlt => hc ⟨hu, hlt, hs⟩
          omega
        | succ q =>
          simp only [List.getElem?_cons_succ] at hq
          exact h6 q m hq hu hs
      · intro q m hlt hq hu hs
        cases q with
        | zero =>
          simp only [List.getElem?_cons_zero, Option.some.injEq] at hq
          subst hq
          have : ¬ a.last_lookup < t := fun hlt => hc ⟨hu, hlt, hs⟩
          omega
        | succ q =>
          simp only [List.getElem?_cons_succ] at hq
          exact h7 q m (by omega) hq hu hs

theorem list_loop_from_full_out (ip : List Nat) (cache : List pgw_nbr_t) :
    ∀ (k j : Nat), (∀ n ∈ cache, n.isused = true) → (∀ n ∈ cache, n.ipaddr ≠ ip) →
    uip_ds6_list_loop_from ip cache k (some j) = .FREESPACE j := by
  induction cache with
  | nil => intro k j _ _; rfl
  | cons a rest ih =>
    intro k j hfull hnot
    unfold uip_ds6_list_loop_from
    rw [if_pos (hfull a (by simp)), if_neg (hnot a (by simp))]
    exact ih (k + 1) j (fun n hn => hfull n (by simp [hn])) (fun n hn => hnot n (by simp [hn]))

/-- The table scan returns the only unused slot as free space when no other slot holds
the address. -/
theorem list_loop_from_one_free (ip : List Nat) (cache : List pgw_nbr_t) :
    ∀ (k : Nat) (out : Option Nat) (o : Nat) (v : pgw_nbr_t),
    cache[o]? = some v → v.isused = false →
    (∀ (q : Nat) (m : pgw_nbr_t), q ≠ o → cache[q]? = some m →
      m.isused = true ∧ m.ipaddr ≠ ip) →
    uip_ds6_list_loop_from ip cache k out = .FREESPACE (k + o) := by
  induction cache with
  | nil => intro k out o v h; simp at h
  | cons a rest ih =>
    intro k out o v hv hu hrest
    unfold uip_ds6_list_loop_from
    cases o with
    | zero =>
      simp only [List.getElem?_cons_zero, Option.some.injEq] at hv
      subst hv
      rw [if_neg (by rw [hu]; decide)]
      refine list_loop_from_full_out ip rest (k + 1) k ?_ ?_
      · intro n hn
        obtain ⟨q, hq⟩ := List.getElem?_of_mem hn
        exact (hrest (q + 1) n (by omega) (by simpa using hq)).1
      · intro n hn
        obtain ⟨q, hq⟩ := List.getElem?_of_mem hn
        exact (hrest (q + 1) n (by omega) (by simpa using hq)).2
    | succ o =>
      have ha := hrest 0 a (by omega) (by simp)
      rw [if_pos ha.1, if_neg ha.2]
      simp only [List.getElem?_cons_succ] at hv
      have := ih (k + 1) out o v hv hu (fun q m hq hm =>
        hrest (q + 1) m (by omega) (by simpa using hm))
      rw [this]
      congr 1
      omega

/-- C35 (as the code has it). When every slot of the neighbor cache is used and none
holds the address, `pgw_nbr_add` succeeds after one recursive call if some
garbage-collectible entry was last looked up before the current clock tick: the first
of the garbage-collectible entries with the smallest `last_lookup` is removed, the new
entry is stored in its slot, and every other entry is unchanged. If every
garbage-collectible entry was last looked up at the current tick or later, `pgw_nbr_add`
fails and changes nothing. -/
theorem eviction_of_oldest_garbage_collectible (s : State) (ip : List Nat)
    (lladdr : Option (List Nat)) (isrouter state : Nat)
    (hfull : ∀ n ∈ s.pgw_6ln_cache, n.isused = true)
    (hnot : ∀ n ∈ s.pgw_6ln_cache, n.ipaddr ≠ ip) :
    ((∃ n ∈ s.pgw_6ln_cache, n.state = PGW_GARBAGE_COLLECTIBLE ∧ n.last_lookup < s.clock_time) →
      ∃ (o : Nat) (v : pgw_nbr_t) (cs : List pgw_nbr_t),
        s.pgw_6ln_cache[o]? = some v ∧ v.state = PGW_GARBAGE_COLLECTIBLE
        ∧ v.last_lookup < s.clock_time
        ∧ (∀ (q : Nat) (m : pgw_nbr_t), s.pgw_6ln_cache[q]? = some m →
            m.state = PGW_GARBAGE_COLLECTIBLE → v.last_lookup ≤ m.last_lookup)
        ∧ (∀ (q : Nat) (m : pgw_nbr_t), q < o → s.pgw_6ln_cache[q]? = some m →
            m.state = PGW_GARBAGE_COLLECTIBLE → v.last_lookup < m.last_lookup)
        ∧ pgw_nbr_add s ip lladdr isrouter state = ({ s with pgw_6ln_cache := cs }, some o)
        ∧ pgw_nbr_add_fuel s.clock_time s.clock_seconds ip lladdr isrouter state 1
            s.pgw_6ln_cache = (cs, some o)
        ∧ cs[o]? = some (nbr_fill s.clock_time s.clock_seconds ip lladdr isrouter state
            { v with isused := false })
        ∧ (∀ (q : Nat), q ≠ o → cs[q]? = s.pgw_6ln_cache[q]?))
    ∧ ((∀ n ∈ s.pgw_6ln_cache, n.state = PGW_GARBAGE_COLLECTIBLE →
          s.clock_time ≤ n.last_lookup) →
        pgw_nbr_add s ip lladdr isrouter state = (s, none)) := by
  have h1 : uip_ds6_list_loop s.pgw_6ln_cache ip = .NOSPACE :=
    list_loop_from_nospace ip _ 0 hfull hnot
  constructor
  · rintro ⟨n, hn, hs, hl⟩
    obtain ⟨j, v, g1, g2, g3, g4, g5, g6, g7⟩ :=
      find_oldest_spec s.pgw_6ln_cache 0 none s.clock_time ⟨n, hn, hfull n hn, hl, hs⟩
    rw [Nat.zero_add] at g1
    have hjl : j < s.pgw_6ln_cache.length := (List.getElem?_eq_some_iff.mp g2).1
    have hrm : (pgw_nbr_rm s.pgw_6ln_cache j)[j]? = some { v with isused := false } :=
      updNbr_getElem?_eq _ _ _ _ g2
    have h3 : uip_ds6_list_loop (pgw_nbr_rm s.pgw_6ln_cache j) ip = .FREESPACE j := by
      have := list_loop_from_one_free ip (pgw_nbr_rm s.pgw_6ln_cache j) 0 none j _ hrm rfl
        (fun q m hq hm => by
          rw [pgw_nbr_rm, updNbr_getElem?_ne _ _ _ _ hq] at hm
          have hmem : m ∈ s.pgw_6ln_cache := List.getElem?_mem hm
          exact ⟨hfull m hmem, hnot m hmem⟩)
      rw [Nat.zero_add] at this
      exact this
    have hfuel : ∀ f, pgw_nbr_add_fuel s.clock_time s.clock_seconds ip lladdr isrouter state
        (f + 1) s.pgw_6ln_cache
        = (updNbr (pgw_nbr_rm s.pgw_6ln_cache j) j
            (nbr_fill s.clock_time s.clock_seconds ip lladdr isrouter state), some j) := by
      intro f
      unfold pgw_nbr_add_fuel
      simp only [h1, g1]
      unfold pgw_nbr_add_fuel
      simp only [h3]
    refine ⟨j, v, _, g2, g5, g4, fun q m hq hs2 => g6 q m hq (hfull m (List.getElem?_mem hq)) hs2,
      fun q m hlt hq hs2 => g7 q m hlt hq (hfull m (List.getElem?_mem hq)) hs2,
      ?_, hfuel 0, updNbr_getElem?_eq _ _ _ _ hrm, ?_⟩
    · unfold pgw_nbr_add pgw_nbr_add_cache
      obtain ⟨f, hf⟩ : ∃ f, s.pgw_6ln_cache.length = f + 1 := ⟨s.pgw_6ln_cache.length - 1, by omega⟩
      rw [hf, hfuel f]
    · intro q hq
      rw [updNbr_getElem?_ne _ _ _ _ hq, pgw_nbr_rm, updNbr_getElem?_ne _ _ _ _ hq]
  · intro hge
    have h2 : find_oldest s.pgw_6ln_cache 0 none s.clock_time = none :=
      find_oldest_keep _ 0 none _ (fun n hn hx => by
        have := hge n hn hx.2.2
        omega)
    unfold pgw_nbr_add pgw_nbr_add_cache pgw_nbr_add_fuel
    simp [h1, h2]

set_option maxRecDepth 1000000 in
/-- C35, witness: at `ex_gc_state 50 40` the cache is full, no entry holds `ex_ip1`, and
the garbage-collectible entries of slots 3 and 7 were last looked up at ticks 50 and 40,
before the current tick 100. `pgw_nbr_add` for `ex_ip1` returns slot 7, which now holds
the tentative entry of `ex_ip1`; slot 3 and the registered entries are as they were. -/
theorem eviction_of_oldest_garbage_collectible_witness :
    (∀ n ∈ (ex_gc_state 50 40).pgw_6ln_cache, n.isused = true)
    ∧ (∀ n ∈ (ex_gc_state 50 40).pgw_6ln_cache, n.ipaddr ≠ ex_ip1)
    ∧ (∃ n ∈ (ex_gc_state 50 40).pgw_6ln_cache,
        n.state = PGW_GARBAGE_COLLECTIBLE ∧ n.last_lookup < (ex_gc_state 50 40).clock_time)
    ∧ (pgw_nbr_add (ex_gc_state 50 40) ex_ip1 (some ex_eui_b) 0 PGW_TENTATIVE).2 = some 7
    ∧ (pgw_nbr_add (ex_gc_state 50 40) ex_ip1 (some ex_eui_b) 0 PGW_TENTATIVE).1.pgw_6ln_cache[7]?.map
        (fun n => (n.isused, n.ipaddr, n.lladdr, n.state, n.last_lookup))
      = some (true, ex_ip1, ex_eui_b, PGW_TENTATIVE, 100)
    ∧ (∀ q : Nat, q ≠ 7 →
        (pgw_nbr_add (ex_gc_state 50 40) ex_ip1 (some ex_eui_b) 0 PGW_TENTATIVE).1.pgw_6ln_cache[q]?
          = (ex_gc_state 50 40).pgw_6ln_cache[q]?) := by
  have hfull : ∀ n ∈ (ex_gc_state 50 40).pgw_6ln_cache, n.isused = true := by decide!
  have hnot : ∀ n ∈ (ex_gc_state 50 40).pgw_6ln_cache, n.ipaddr ≠ ex_ip1 := by decide!
  have hgc : ∃ n ∈ (ex_gc_state 50 40).pgw_6ln_cache,
      n.state = PGW_GARBAGE_COLLECTIBLE ∧ n.last_lookup < (ex_gc_state 50 40).clock_time := by
    decide!
  obtain ⟨o, v, cs, k1, k2, k3, k4, k5, k6, k7, k8, k9⟩ :=
    (eviction_of_oldest_garbage_collectible (ex_gc_state 50 40) ex_ip1 (some ex_eui_b) 0
      PGW_TENTATIVE hfull hnot).1 hgc
  have h7 : (pgw_nbr_add (ex_gc_state 50 40) ex_ip1 (some ex_eui_b) 0 PGW_TENTATIVE).2
      = some 7 := by decide!
  have ho : o = 7 := by
    rw [k6] at h7
    simpa using h7
  subst ho
  refine ⟨hfull, hnot, hgc, h7, by decide!, ?_⟩
  intro q hq
  rw [k6]
  exact k9 q hq

set_option maxRecDepth 1000000 in
/-- C35, counterexample: at `ex_gc_state 100 100` the cache is full, no entry holds
`ex_ip1`, and slots 3 and 7 hold used garbage-collectible entries, last looked up at the
current tick 100. `pgw_nbr_add` for `ex_ip1` returns no entry and the cache is as it
was. -/
theorem no_eviction_of_entry_of_current_tick :
    (ex_gc_state 100 100).pgw_6ln_cache.length = 25
    ∧ (ex_gc_state 100 100).pgw_6ln_cache.all (fun n => n.isused && (n.ipaddr != ex_ip1)) = true
    ∧ (ex_gc_state 100 100).clock_time = 100
    ∧ (ex_gc_state 100 100).pgw_6ln_cache[3]?.map (fun n => (n.isused, n.state, n.last_lookup))
      = some (true, PGW_GARBAGE_COLLECTIBLE, 100)
    ∧ (ex_gc_state 100 100).pgw_6ln_cache[7]?.map (fun n => (n.isused, n.state, n.last_lookup))
      = some (true, PGW_GARBAGE_COLLECTIBLE, 100)
    ∧ (pgw_nbr_add (ex_gc_state 100 100) ex_ip1 (some ex_eui_b) 0 PGW_TENTATIVE).2 = none
    ∧ (pgw_nbr_add (ex_gc_state 100 100) ex_ip1 (some ex_eui_b) 0 PGW_TENTATIVE).1.pgw_6ln_cache
      = (ex_gc_state 100 100).pgw_6ln_cache := by
  refine ⟨?_, ?_, ?_, ?_, ?_, ?_, ?_⟩ <;> decide!

/-! ## Redirect messages -/

theorem proxy_input_redirect (fuel : Nat) (s : State)
    (h : s.uip_buf (UIP_LLH_LEN + UIP_IPH_LEN) = ICMP6_REDIRECT) :
    proxy_input fuel s = some { s with uip_len := 0 } := by
  unfold proxy_input
  simp only [h]
  rfl

theorem translate_icmp_lladdr_redirect (fuel : Nat) (target : interface_t) (s : State)
    (h : s.uip_buf (UIP_LLH_LEN + UIP_IPH_LEN) = ICMP6_REDIRECT) :
    translate_icmp_lladdr fuel target s = some s := by
  unfold translate_icmp_lladdr
  simp only [h]
  split_ifs <;> first | rfl | (exfalso; revert ‹_›; decide)

theorem pgw_output_zero (fuel : Nat) (s : State) (h : s.uip_len = 0) :
    pgw_output fuel s = some s := by
  unfold pgw_output
  rw [if_neg (by omega)]

/-- What `pgw_output` does with a Redirect message whose outgoing interface is the local
stack or Ethernet: the message is handed over as it is. -/
theorem pgw_output_redirect (fuel : Nat) (s : State)
    (h : s.uip_buf (UIP_LLH_LEN + UIP_IPH_LEN) = ICMP6_REDIRECT)
    (hout : s.outgoing_if = .LOCAL ∨ s.outgoing_if = .IEEE_802_3) :
    ∃ t new, pgw_output fuel s = some t ∧ t.uip_len = 0 ∧ t.sent = s.sent ++ new
      ∧ new.length ≤ 1 ∧ (new = [] ↔ s.uip_len = 0)
      ∧ ∀ f ∈ new, f.iface = s.outgoing_if ∧ f.len = s.uip_len := by
  by_cases hl : s.uip_len = 0
  · exact ⟨s, [], pgw_output_zero fuel s hl, hl, by simp, by simp, by simp [hl], by simp⟩
  · unfold pgw_output
    rw [if_pos (by omega)]
    unfold pgw_fwd_output
    rcases hout with ho | ho
    · rw [ho]
      cases hi : s.incoming_if
      all_goals simp only [translate_icmp_lladdr_redirect fuel _ s h, Option.bind_some,
        Option.some_bind]
      all_goals exact ⟨_, [_], rfl, rfl, rfl, by simp, by simp [hl], by simp [tcpip_input]⟩
    · rw [ho]
      simp only [translate_icmp_lladdr_redirect fuel _ s h, Option.bind_some, Option.some_bind]
      exact ⟨_, [_], rfl, rfl, rfl, by simp, by simp [hl], by simp [eth_if_forward]⟩

theorem pgw_restore_redirect (s2 s : State) (hb : s2.uip_buf = s.uip_buf)
    (h : s.uip_buf (UIP_LLH_LEN + UIP_IPH_LEN) = ICMP6_REDIRECT) (o : interface_t) :
    ({ pgw_restore s2 s.uip_buf s.uip_len with outgoing_if := o } : State).uip_buf
      (UIP_LLH_LEN + UIP_IPH_LEN) = ICMP6_REDIRECT := by
  simp only [pgw_restore, hb, ite_self]
  exact h

/-- A Redirect message through the dispatch of `pgw_packet_input` and `pgw_output`: one
frame is emitted when the message came in on Ethernet and goes to the local stack or is
flooded (the frame goes to the local stack), or came from the local stack and goes to
Ethernet or is flooded (the frame goes to Ethernet); otherwise nothing is emitted. -/
theorem redirect_dispatch_output (fuel : Nat) (s : State)
    (hproto : s.uip_buf (UIP_LLH_LEN + 6) = UIP_PROTO_ICMP6)
    (h : s.uip_buf (UIP_LLH_LEN + UIP_IPH_LEN) = ICMP6_REDIRECT) :
    ∃ t new, (pgw_packet_dispatch fuel s).bind (pgw_output fuel) = some t
      ∧ t.uip_len = 0 ∧ t.sent = s.sent ++ new ∧ new.length ≤ 1
      ∧ (new ≠ [] ↔ s.uip_len ≠ 0
          ∧ ((s.incoming_if = .IEEE_802_3
              ∧ (s.outgoing_if = .LOCAL ∨ s.outgoing_if = .UNDEFINED))
            ∨ (s.incoming_if = .LOCAL
              ∧ (s.outgoing_if = .IEEE_802_3 ∨ s.outgoing_if = .UNDEFINED))))
      ∧ ∀ f ∈ new, f.len = s.uip_len
          ∧ ((s.incoming_if = .IEEE_802_3 ∧ f.iface = .LOCAL)
            ∨ (s.incoming_if = .LOCAL ∧ f.iface = .IEEE_802_3)) := by
  have hd : ∃ u, pgw_packet_dispatch fuel s = some u ∧ u.sent = s.sent
      ∧ ((u.uip_len = 0 ∧ ¬ (s.uip_len ≠ 0
            ∧ ((s.incoming_if = .IEEE_802_3
                ∧ (s.outgoing_if = .LOCAL ∨ s.outgoing_if = .UNDEFINED))
              ∨ (s.incoming_if = .LOCAL
                ∧ (s.outgoing_if = .IEEE_802_3 ∨ s.outgoing_if = .UNDEFINED)))))
        ∨ (u.uip_buf (UIP_LLH_LEN + UIP_IPH_LEN) = ICMP6_REDIRECT
          ∧ u.uip_len = s.uip_len ∧ s.uip_len ≠ 0
          ∧ ((s.incoming_if = .IEEE_802_3
                ∧ (s.outgoing_if = .LOCAL ∨ s.outgoing_if = .UNDEFINED))
              ∨ (s.incoming_if = .LOCAL
                ∧ (s.outgoing_if = .IEEE_802_3 ∨ s.outgoing_if = .UNDEFINED)))
          ∧ ((s.incoming_if = .IEEE_802_3 ∧ u.outgoing_if = .LOCAL)
            ∨ (s.incoming_if = .LOCAL ∧ u.outgoing_if = .IEEE_802_3)))) := by
    unfold pgw_packet_dispatch
    by_cases hl : s.uip_len = 0
    · rw [if_pos hl]
      exact ⟨s, rfl, rfl, Or.inl ⟨hl, fun x => x.1 hl⟩⟩
    rw [if_neg hl]
    by_cases h1 : s.incoming_if = s.outgoing_if
    · rw [if_pos h1]
      refine ⟨_, rfl, rfl, Or.inl ⟨rfl, ?_⟩⟩
      rintro ⟨_, (⟨a, b | b⟩ | ⟨a, b | b⟩)⟩ <;> rw [a, b] at h1 <;> exact absurd h1 (by decide)
    rw [if_neg h1, if_pos hproto]
    by_cases h2 : (s.incoming_if = .IEEE_802_3 ∧ s.outgoing_if = .IEEE_802_15_4)
        ∨ (s.incoming_if = .IEEE_802_15_4 ∧ s.outgoing_if = .IEEE_802_3)
        ∨ (s.incoming_if = .LOCAL ∧ s.outgoing_if = .IEEE_802_15_4)
        ∨ (s.incoming_if = .IEEE_802_15_4 ∧ s.outgoing_if = .LOCAL)
    · rw [if_pos h2, proxy_input_redirect fuel s h]
      refine ⟨_, rfl, rfl, Or.inl ⟨rfl, ?_⟩⟩
      rintro ⟨_, (⟨a, b | b⟩ | ⟨a, b | b⟩)⟩ <;> rw [a, b] at h2 <;> revert h2 <;> decide
    rw [if_neg h2]
    by_cases h3 : (s.incoming_if = .IEEE_802_3 ∧ s.outgoing_if = .LOCAL)
        ∨ (s.incoming_if = .LOCAL ∧ s.outgoing_if = .IEEE_802_3)
    · rw [if_pos h3]
      exact ⟨s, rfl, rfl, Or.inr ⟨h, rfl, hl,
        h3.elim (fun x => Or.inl ⟨x.1, Or.inl x.2⟩) (fun x => Or.inr ⟨x.1, Or.inl x.2⟩), h3⟩⟩
    rw [if_neg h3]
    by_cases h4 : s.outgoing_if = .UNDEFINED
    · rw [if_pos h4]
      simp only []
      split
      · rename_i hi
        rw [proxy_input_redirect fuel { s with outgoing_if := .IEEE_802_15_4 } h,
          Option.some_bind, pgw_output_zero fuel _ rfl, Option.some_bind]
        exact ⟨_, rfl, rfl, Or.inr ⟨pgw_restore_redirect _ s rfl h _, rfl, hl,
          Or.inr ⟨hi, Or.inr h4⟩, Or.inr ⟨hi, rfl⟩⟩⟩
      · rename_i hi
        rw [proxy_input_redirect fuel { s with outgoing_if := .IEEE_802_15_4 } h,
          Option.some_bind, pgw_output_zero fuel _ rfl, Option.some_bind]
        exact ⟨_, rfl, rfl, Or.inr ⟨pgw_restore_redirect _ s rfl h _, rfl, hl,
          Or.inl ⟨hi, Or.inr h4⟩, Or.inl ⟨hi, rfl⟩⟩⟩
      · rename_i hi
        rw [proxy_input_redirect fuel { s with outgoing_if := .IEEE_802_3 } h,
          Option.some_bind, pgw_output_zero fuel _ rfl, Option.some_bind]
        have e := proxy_input_redirect fuel
          { pgw_restore { ({ s with outgoing_if := .IEEE_802_3 } : State) with uip_len := 0 }
              s.uip_buf s.uip_len with outgoing_if := .LOCAL }
          (pgw_restore_redirect _ s rfl h _)
        rw [e]
        refine ⟨_, rfl, rfl, Or.inl ⟨rfl, ?_⟩⟩
        rintro ⟨_, (⟨a, _⟩ | ⟨a, _⟩)⟩ <;> rw [a] at hi <;> exact absurd hi (by decide)
      · rename_i hi
        refine ⟨_, rfl, rfl, Or.inl ⟨rfl, ?_⟩⟩
        rintro ⟨_, (⟨a, _⟩ | ⟨a, _⟩)⟩ <;> rw [a] at hi <;> exact absurd hi (by decide)
    · rw [if_neg h4]
      refine ⟨_, rfl, rfl, Or.inl ⟨rfl, ?_⟩⟩
      rintro ⟨_, (⟨a, b | b⟩ | ⟨a, b | b⟩)⟩
      · exact h3 (Or.inl ⟨a, b⟩)
      · exact h4 b
      · exact h3 (Or.inr ⟨a, b⟩)
      · exact h4 b
  obtain ⟨u, hu1, hu2, hu3⟩ := hd
  rw [hu1, Option.some_bind]
  rcases hu3 with ⟨hu3, hu4⟩ | ⟨hu3, hu4, hu5, hu6, hu7⟩
  · exact ⟨u, [], pgw_output_zero fuel u hu3, hu3, by simp [hu2], by simp,
      ⟨fun x => absurd rfl x, fun x => absurd x hu4⟩, by simp⟩
  · obtain ⟨t, new, g1, g2, g3, g4, g5, g6⟩ := pgw_output_redirect fuel u hu3
      (by rcases hu7 with x | x
          · exact Or.inl x.2
          · exact Or.inr x.2)
    refine ⟨t, new, g1, g2, by rw [g3, hu2], g4, ⟨fun _ => ⟨hu5, hu6⟩, fun _ hn => ?_⟩, ?_⟩
    · exact hu5 (hu4 ▸ g5.mp hn)
    · intro f hfm
      refine ⟨by rw [(g6 f hfm).2, hu4], ?_⟩
      rcases hu7 with x | x
      · exact Or.inl ⟨x.1, by rw [(g6 f hfm).1, x.2]⟩
      · exact Or.inr ⟨x.1, by rw [(g6 f hfm).1, x.2]⟩

/-- The link-layer part of the input leaves the packet, the incoming interface and the
log of emitted frames as they are; an ICMPv6 packet is not filtered out. -/
theorem pgw_fwd_input_frame (g : Gateway) (sender receiver : List Nat) (rand : Nat) :
    (pgw_fwd_input g sender receiver rand).st.uip_buf = g.st.uip_buf
    ∧ (pgw_fwd_input g sender receiver rand).st.sent = g.st.sent
    ∧ (pgw_fwd_input g sender receiver rand).st.incoming_if = g.st.incoming_if
    ∧ (g.st.uip_buf (UIP_LLH_LEN + 6) = UIP_PROTO_ICMP6 →
        (pgw_fwd_input g sender receiver rand).st.uip_len = g.st.uip_len) := by
  have hg : ∀ s : State, (get_lladdr s sender receiver).uip_buf = s.uip_buf
      ∧ (get_lladdr s sender receiver).sent = s.sent
      ∧ (get_lladdr s sender receiver).incoming_if = s.incoming_if
      ∧ (get_lladdr s sender receiver).uip_len = s.uip_len := by
    intro s
    unfold get_lladdr
    split <;> exact ⟨rfl, rfl, rfl, rfl⟩
  have hs : ∀ s1 : State, s1.uip_buf = g.st.uip_buf ∧ s1.sent = g.st.sent
      ∧ s1.incoming_if = g.st.incoming_if ∧ s1.uip_len = g.st.uip_len →
      ∀ g2 : Gateway, g2 = (let g1 := bridge_input { g with st := s1 } rand
        if network_layer_filter g1.st then { g1 with st := { g1.st with uip_len := 0 } }
        else g1) →
      g2.st.uip_buf = g.st.uip_buf ∧ g2.st.sent = g.st.sent
      ∧ g2.st.incoming_if = g.st.incoming_if
      ∧ (g.st.uip_buf (UIP_LLH_LEN + 6) = UIP_PROTO_ICMP6 → g2.st.uip_len = g.st.uip_len) := by
    intro s1 ⟨e1, e2, e3, e4⟩ g2 hg2
    simp only [] at hg2
    by_cases hf : network_layer_filter (bridge_input { g with st := s1 } rand).st = true
    · rw [if_pos hf] at hg2
      subst hg2
      refine ⟨e1, e2, e3, fun hp => ?_⟩
      exfalso
      have : (bridge_input { g with st := s1 } rand).st.uip_buf = g.st.uip_buf := e1
      simp only [network_layer_filter, this, hp, decide_eq_true_eq] at hf
      exact hf.2 rfl
    · rw [if_neg hf] at hg2
      subst hg2
      exact ⟨e1, e2, e3, fun _ => e4⟩
  unfold pgw_fwd_input
  by_cases hi : g.st.incoming_if ≠ .LOCAL
  · exact hs _ (by
      rw [if_pos hi]
      obtain ⟨a, b, c, d⟩ := hg g.st
      exact ⟨a, b, c, d⟩) _ rfl
  · exact hs _ (by
      rw [if_neg hi]
      exact ⟨rfl, rfl, rfl, rfl⟩) _ rfl

/-- C36 (as the code has it). For every ICMPv6 Redirect message delivered to `pgw_input`,
on every incoming interface and for every bridge decision, `pgw_input` returns with
`uip_len` 0 and no frame goes to the 6LoWPAN side. Nothing at all is emitted, except
that a non-empty Redirect from Ethernet whose bridge decision is the local stack or
flood is handed to the local stack, and one from the local stack whose bridge decision
is Ethernet or flood is sent on Ethernet, with its length unchanged: these paths do not
call `proxy_input`. -/
theorem redirect_never_reaches_lowpan (fuel : Nat) (g : Gateway) (sender receiver : List Nat)
    (rand : Nat)
    (hproto : g.st.uip_buf (UIP_LLH_LEN + 6) = UIP_PROTO_ICMP6)
    (htype : g.st.uip_buf (UIP_LLH_LEN + UIP_IPH_LEN) = ICMP6_REDIRECT) :
    ∃ (g1 : Gateway) (new : List Frame),
      pgw_input fuel g sender receiver rand = some g1
      ∧ g1.st.uip_len = 0 ∧ g1.st.sent = g.st.sent ++ new ∧ new.length ≤ 1
      ∧ (∀ f ∈ new, f.iface ≠ .IEEE_802_15_4)
      ∧ (new ≠ [] ↔ g.st.uip_len ≠ 0
          ∧ ((g.st.incoming_if = .IEEE_802_3
              ∧ ((pgw_fwd_input g sender receiver rand).st.outgoing_if = .LOCAL
                ∨ (pgw_fwd_input g sender receiver rand).st.outgoing_if = .UNDEFINED))
            ∨ (g.st.incoming_if = .LOCAL
              ∧ ((pgw_fwd_input g sender receiver rand).st.outgoing_if = .IEEE_802_3
                ∨ (pgw_fwd_input g sender receiver rand).st.outgoing_if = .UNDEFINED))))
      ∧ ∀ f ∈ new, f.len = g.st.uip_len
          ∧ ((g.st.incoming_if = .IEEE_802_3 ∧ f.iface = .LOCAL)
            ∨ (g.st.incoming_if = .LOCAL ∧ f.iface = .IEEE_802_3)) := by
  obtain ⟨e1, e2, e3, e4⟩ := pgw_fwd_input_frame g sender receiver rand
  have e5 := e4 hproto
  obtain ⟨t, new, k1, k2, k3, k4, k5, k6⟩ :=
    redirect_dispatch_output fuel (pgw_fwd_input g sender receiver rand).st
      (by rw [e1]; exact hproto) (by rw [e1]; exact htype)
  rw [e2] at k3
  rw [e3, e5] at k5
  rw [e3, e5] at k6
  refine ⟨{ pgw_fwd_input g sender receiver rand with st := t }, new, ?_, k2, k3, k4, ?_, k5, k6⟩
  · unfold pgw_input pgw_packet_input
    simp only []
    cases hd : pgw_packet_dispatch fuel (pgw_fwd_input g sender receiver rand).st with
    | none => rw [hd] at k1; simp at k1
    | some u =>
      rw [hd, Option.some_bind] at k1
      simp only [Option.map_some', Option.some_bind, k1]
  · intro f hfm
    rcases (k6 f hfm).2 with x | x <;> rw [x.2] <;> decide

set_option maxRecDepth 1000000 in
/-- C36, witness: at `ex_gw_redirect_lowpan` the Redirect of the RR for node C came in on
Ethernet and the bridge decision is the 6LoWPAN side: `pgw_input` returns with `uip_len`
0 and nothing was emitted. -/
theorem redirect_never_reaches_lowpan_witness :
    ex_gw_redirect_lowpan.st.uip_buf (UIP_LLH_LEN + 6) = UIP_PROTO_ICMP6
    ∧ ex_gw_redirect_lowpan.st.uip_buf (UIP_LLH_LEN + UIP_IPH_LEN) = ICMP6_REDIRECT
    ∧ (ex_gw_redirect_lowpan.st.incoming_if, ex_gw_redirect_lowpan.st.uip_len,
        ex_gw_redirect_lowpan.st.sent) = (.IEEE_802_3, 80, [])
    ∧ uip_icmp6chksum ex_gw_redirect_lowpan.st = 0xffff
    ∧ (pgw_fwd_input ex_gw_redirect_lowpan [] [] 0).st.outgoing_if = .IEEE_802_15_4
    ∧ (pgw_input 8 ex_gw_redirect_lowpan [] [] 0).map (fun g => (g.st.uip_len, g.st.sent))
      = some (0, []) := by
  have hp : ex_gw_redirect_lowpan.st.uip_buf (UIP_LLH_LEN + 6) = UIP_PROTO_ICMP6 := by decide!
  have ht : ex_gw_redirect_lowpan.st.uip_buf (UIP_LLH_LEN + UIP_IPH_LEN) = ICMP6_REDIRECT := by
    decide!
  have ho : (pgw_fwd_input ex_gw_redirect_lowpan [] [] 0).st.outgoing_if = .IEEE_802_15_4 := by
    decide!
  have hs : ex_gw_redirect_lowpan.st.sent = [] := by decide!
  obtain ⟨g1, new, k1, k2, k3, k4, k5, k6, k7⟩ :=
    redirect_never_reaches_lowpan 8 ex_gw_redirect_lowpan [] [] 0 hp ht
  have hn : new = [] := by
    by_contra hne
    have := k6.mp hne
    rw [ho] at this
    revert this
    decide
  refine ⟨hp, ht, by decide!, by decide!, ho, ?_⟩
  rw [k1, Option.map_some', k2, k3, hn, hs]
  rfl

set_option maxRecDepth 1000000 in
/-- C36, counterexample: the Redirect of the RR for the gateway itself arrives on
Ethernet. At `ex_gw_redirect_local` the bridge decision is the local stack, at
`ex_gw_redirect_flood` it is flood. In both `pgw_input` hands the Redirect, 80 octets
long and unchanged, to the local stack. -/
theorem redirect_from_ethernet_delivered_locally :
    ex_gw_redirect_local.st.uip_buf (UIP_LLH_LEN + 6) = UIP_PROTO_ICMP6
    ∧ ex_gw_redirect_local.st.uip_buf (UIP_LLH_LEN + UIP_IPH_LEN) = ICMP6_REDIRECT
    ∧ (ex_gw_redirect_local.st.incoming_if, ex_gw_redirect_local.st.uip_len,
        ex_gw_redirect_local.st.sent) = (.IEEE_802_3, 80, [])
    ∧ uip_icmp6chksum ex_gw_redirect_local.st = 0xffff
    ∧ (pgw_fwd_input ex_gw_redirect_local [] [] 0).st.outgoing_if = .LOCAL
    ∧ (pgw_input 8 ex_gw_redirect_local [] [] 0).map (fun g =>
        g.st.sent.map (fun f => (f.iface, f.len, f.bytes)))
      = some [(.LOCAL, 80, (ex_redirect 230 42 ex_gw_mac ex_gw_ip).drop 14)]
    ∧ ex_gw_redirect_flood.st.uip_buf (UIP_LLH_LEN + 6) = UIP_PROTO_ICMP6
    ∧ ex_gw_redirect_flood.st.uip_buf (UIP_LLH_LEN + UIP_IPH_LEN) = ICMP6_REDIRECT
    ∧ (ex_gw_redirect_flood.st.incoming_if, ex_gw_redirect_flood.st.uip_len,
        ex_gw_redirect_flood.st.sent) = (.IEEE_802_3, 80, [])
    ∧ (pgw_fwd_input ex_gw_redirect_flood [] [] 0).st.outgoing_if = .UNDEFINED
    ∧ (pgw_input 8 ex_gw_redirect_flood [] [] 0).map (fun g =>
        g.st.sent.map (fun f => (f.iface, f.len, f.bytes)))
      = some [(.LOCAL, 80, (ex_redirect 230 42 ex_gw_mac ex_gw_ip).drop 14)] := by
  refine ⟨?_, ?_, ?_, ?_, ?_, ?_, ?_, ?_, ?_, ?_, ?_⟩ <;> decide!

end PGW
